import Mathlib

/-! vault-to-k8s: the secret synchronisation engine

A shallow embedding of the synchronisation code of `main.go` (`namespacesForSync`,
`filterSecrets`, `k8sSecretsList`, `updateSecretsInK8s`, and the per-namespace part of
`syncVaultToK8s` with its goroutines), of its configuration and mount checks
(`verifyConfig`, `verifyVaultMount`) and of the AppRole authentication of `auth.go`
(`approleAuthenticate`, `approleGetToken`, `approleReadAppSecret`, `updateAppSystemSecret`,
the two revocations, the normalisation of the rotation intervals and the retries of the
SecretID lookup), together with the properties of the specification that concern them.

Conventions of the embedding

* A Go `map[K]V` is an association list with `GoMap.get`, `GoMap.set`, `GoMap.delete`
  (`m[k]`, `m[k] = v`, `delete(m, k)`).  Go leaves the iteration order of a map
  unspecified, so every place where the code ranges over a map takes the order as a
  parameter and the theorems hold for every order.
* Go strings are Lean strings; `[]byte(s)` is the UTF-8 encoding `toBytes s`.
* The Vault and cluster clients are external.  A Vault read is an arbitrary function from
  the path to its result; the cluster is a store of Secrets keyed by namespace and name
  with a log of the API requests made so far, and an arbitrary fault function decides
  which request the API server refuses.
* The `float64` counters of `updateSecretResults` only ever count, so they are naturals.
* The `float64` product `float64(ttl) * 0.7` of the rotation intervals is computed exactly:
  the mantissa of the constant and the rounding to nearest, ties to even, are written out
  on natural numbers.  The `int64` arithmetic of the lookup retries wraps around.
* A function that can panic returns an `Option`, `none` being the panic; the Go `error` it
  returns is an `Option String`, `none` being nil.
* The Vault server is an arbitrary function from the requests made so far and the request
  to its answer.
* A gauge vector is the list of the `Set` calls made on it.
* The worker `updateSecretsInK8s` is first a function of the jobs it takes, one after the
  other.  The goroutines of a namespace (dispatcher, workers, main goroutine) with their
  two channels and the wait-group are a step function on a state, run under an explicit
  schedule; a worker takes a job and processes it in one step.  `syncNamespace` is the
  tick of a namespace with `numWorkers` workers under such a schedule.
* A value of a Vault entry is a string, a JSON number (which the client hands over as a
  `json.Number`, a type of kind string that is not `string`) or something else.  The type
  assertion `v.(string)` panics on a number: the body of the job then ends with
  `Exit.panicked` and sends no result, and the state of the goroutines is marked
  `panicked`, after which no goroutine moves, as the panic ends the program.
* The definitions come first, then the lemmas about them, then one section per claim of
  the specification, with the fixtures of `main_test.go` as concrete instances.
-/

namespace VaultToK8s

/-! ## Go maps -/

/-- A Go map, as an association list. -/
abbrev GoMap (K V : Type) := List (K × V)

namespace GoMap

variable {K V : Type} [DecidableEq K]

/-- The comma-ok lookup `v, ok := m[k]`. -/
def get : GoMap K V → K → Option V
  | [], _ => none
  | (k1, v) :: rest, k => if k1 = k then some v else get rest k

/-- The assignment `m[k] = v`. -/
def set : GoMap K V → K → V → GoMap K V
  | [], k, v => [(k, v)]
  | (k1, v1) :: rest, k, v => if k1 = k then (k, v) :: rest else (k1, v1) :: set rest k v

/-- The builtin `delete(m, k)`. -/
def delete (m : GoMap K V) (k : K) : GoMap K V :=
  m.filter (fun p => decide (p.1 ≠ k))

/-- The keys of the map. -/
def keys (m : GoMap K V) : List K := m.map Prod.fst

/-- The comparison `reflect.DeepEqual(a, b)` of two maps: the same keys with equal values.
A nil map is not told apart from an empty one (the code only compares against the
converted Vault data, which has at least one key), nor a nil byte slice from an empty one
(the API returns an empty value as an empty slice, which is what `[]byte("")` is). -/
def deepEqual [DecidableEq V] (a b : GoMap K V) : Bool :=
  (keys a ++ keys b).all (fun k => decide (get a k = get b k))

end GoMap

/-! ## Go strings -/

/-- The call `strings.HasSuffix(s, suffix)`. -/
def hasSuffix (s suffix : String) : Bool := suffix.data.isSuffixOf s.data

/-- The call `strings.Contains(s, ".")`. -/
def containsDot (s : String) : Bool := s.data.contains '.'

/-- The call `strings.Count(s, ".")`. -/
def countDot (s : String) : Nat := s.data.count '.'

/-- The call `strings.TrimSuffix(s, suffix)`. -/
def trimSuffix (s suffix : String) : String :=
  if hasSuffix s suffix then String.mk (s.data.take (s.data.length - suffix.data.length)) else s

/-- A byte slice. -/
abbrev Bytes := List UInt8

/-- The conversion `[]byte(s)`. -/
def toBytes (s : String) : Bytes := s.data.flatMap String.utf8EncodeChar

/-! ## Configuration and program data -/

/-- A value of type `interface{}` that is not nil, such as a value stored under a key of a
Vault entry: a string; a JSON number, which the Vault client hands over as a `json.Number`
holding the text of the number (a type of kind `reflect.String` that is not the type
`string`); or anything else (a list, a Boolean, a nested map, ...). -/
inductive VaultValue where
  | str (s : String)
  | number (n : String)
  | other
deriving DecidableEq, Repr

/-- The package-level configuration variables that the code reads and, after
`verifyConfig`, never changes.  `authMethod`, `approleRoleID` and
`approleSecretIDWrappedToken` are read by the authentication code and by `verifyConfig`,
the last three by `verifyConfig` only. -/
structure Config where
  appName : String
  podNamespace : String
  k8sClusterName : String
  vaultSecretsPath : String
  annotationName : String
  authMethod : String := "approle"
  approleRoleID : String := ""
  approleSecretIDWrappedToken : String := ""
  vaultAddr : String := ""
  vaultNamespace : String := ""
  approleSecretIDWrappedTokenFile : String := ""

/-- The data fields of `vtkData` (the two clients are modelled apart).  The nil interface
value of `approleSecretID` is `none`, the nil maps are the empty ones. -/
structure vtkData where
  vaultTokenAccessor : String := ""
  vaultTokenTTL : GoMap String Int := []
  approleSecretID : Option VaultValue := none
  approleName : String := ""
  approleSecretIDTTL : GoMap String Int := []
  nonVersioningNamespacesList : List String
deriving DecidableEq, Repr

/-- The job `secretForUpdate` sent to a worker. -/
structure secretForUpdate where
  name : String
  versioning : Int
deriving DecidableEq, Repr

/-- The per-job result `updateSecretResults`. -/
structure updateSecretResults where
  created : Nat
  updated : Nat
  skipped : Nat
  synced : Nat
  err : Option String
deriving DecidableEq, Repr

/-! ## filterSecrets -/

/-- The first loop of `filterSecrets`: is the namespace in `nonVersioningNamespacesList`. -/
def nonVersioningNamespace (d : vtkData) (namespace_ : String) : Bool :=
  d.nonVersioningNamespacesList.any (fun nvn => decide (nvn = namespace_))

/-- One iteration of the second loop of `filterSecrets`. -/
def filterSecretsStep (nonVersioning : Bool) (k8sClusterNameSuffix : String)
    (filteredSecrets : GoMap String Int) (secret : String) : GoMap String Int :=
  let filtered1 :=
    if nonVersioning && hasSuffix secret k8sClusterNameSuffix then
      GoMap.set filteredSecrets secret 0
    else filteredSecrets
  match GoMap.get filtered1 secret with
  | some _ => filtered1
  | none =>
    if containsDot secret
        && (!hasSuffix secret k8sClusterNameSuffix || decide (countDot secret > 1)) then
      filtered1
    else GoMap.set filtered1 secret 1

/-- The function `filterSecrets`. -/
def filterSecrets (d : vtkData) (secrets : List String) (k8sClusterNameSuffix : String)
    (namespace_ : String) : GoMap String Int :=
  secrets.foldl (filterSecretsStep (nonVersioningNamespace d namespace_) k8sClusterNameSuffix) []

/-- The list of Vault entries created by the test server (`tvsd.secretsList`). -/
def testSecretsList : List String :=
  ["secret1", "secret2.k8s-cluster", "secret3.another-k8s-cluster",
   "secret4.something.k8s-cluster", "secret5.k8s-cluster.something", "secret6"]

/-- The `vtkData` of the tests: `k8s-ns-nonver` is the one non-versioning namespace. -/
def testData : vtkData := { nonVersioningNamespacesList := ["k8s-ns-nonver"] }

/-! ## The Vault side -/

/-- What `secretsRead` returns for a path: an error message, or the entry data (the nil map
is the empty one) with the version string.  A JSON null under a key is the nil interface,
whose `reflect.ValueOf(v).Kind()` is `reflect.Invalid`: in the entry data it stands as
`VaultValue.other`. -/
abbrev VaultRead := String → Except String (GoMap String VaultValue × String)

/-- How the conversion loop of `updateSecretsInK8s` (lines 583 to 592) ends: with the map
`data` when every value is a string; at line 585 with a value whose kind is not
`reflect.String`, the entry being skipped; or with the panic of the type assertion
`v.(string)` of line 591, on a `json.Number`, whose kind is `reflect.String`. -/
inductive Conversion where
  | converted (data : GoMap String Bytes)
  | incorrect
  | panicked
deriving DecidableEq, Repr

/-- The conversion loop of `updateSecretsInK8s` (lines 583 to 592) over the entry data in
the order of the range: the first value that is not a string ends it, with a skip when its
kind is not `reflect.String` and with a panic when it is a `json.Number`; otherwise the
result is the map `data` with `data[k] = []byte(v)`. -/
def convertData : GoMap String VaultValue → Conversion
  | [] => Conversion.converted []
  | (k, VaultValue.str v) :: rest =>
    match convertData rest with
    | Conversion.converted data => Conversion.converted (GoMap.set data k (toBytes v))
    | Conversion.incorrect => Conversion.incorrect
    | Conversion.panicked => Conversion.panicked
  | (_, VaultValue.number _) :: _ => Conversion.panicked
  | (_, VaultValue.other) :: _ => Conversion.incorrect

/-! ## The cluster side -/

/-- The fields of a cluster Secret that the code reads and writes. -/
structure Secret where
  name : String
  data : GoMap String Bytes
  annotations : GoMap String String
deriving DecidableEq, Repr

/-- A request to the Secrets API of a namespace. -/
inductive ApiCall where
  | get (ns name : String)
  | create (ns : String) (secret : Secret)
  | update (ns : String) (secret : Secret)
deriving DecidableEq, Repr

/-- An error returned by the API: `notFound` is what `k8sApiErr.IsNotFound` tests. -/
structure ApiError where
  notFound : Bool
  msg : String
deriving DecidableEq, Repr

/-- A request together with its outcome (`none` is success). -/
structure ApiEvent where
  call : ApiCall
  err : Option ApiError
deriving DecidableEq, Repr

/-- The behaviour of the API server that does not follow from the stored objects: whether
it refuses the request number `n` (counting all requests from 0), and with which message.
Admission failures such as a name that is not a DNS-1123 subdomain are of this kind. -/
abbrev Faults := Nat → ApiCall → Option String

/-- The cluster: the stored Secrets by (namespace, name) and the log of the Get, Create and
Update requests made by the program, oldest first. -/
structure K8s where
  secrets : GoMap (String × String) Secret
  log : List ApiEvent
deriving DecidableEq, Repr

namespace K8s

/-- Append a request and its outcome to the log. -/
def record (k : K8s) (call : ApiCall) (err : Option ApiError) : K8s :=
  { k with log := k.log ++ [{ call := call, err := err }] }

/-- The error `secrets "name" not found`. -/
def notFoundError (name : String) : ApiError :=
  { notFound := true, msg := "secrets \"" ++ name ++ "\" not found" }

/-- The request `Secrets(ns).Get(name)`. -/
def get (faults : Faults) (k : K8s) (ns name : String) : K8s × Except ApiError Secret :=
  match faults k.log.length (ApiCall.get ns name) with
  | some msg =>
    let e : ApiError := { notFound := false, msg := msg }
    (k.record (ApiCall.get ns name) (some e), Except.error e)
  | none =>
    match GoMap.get k.secrets (ns, name) with
    | some s => (k.record (ApiCall.get ns name) none, Except.ok s)
    | none =>
      (k.record (ApiCall.get ns name) (some (notFoundError name)),
        Except.error (notFoundError name))

/-- The request `Secrets(ns).Create(secret)`. -/
def create (faults : Faults) (k : K8s) (ns : String) (secret : Secret) :
    K8s × Option ApiError :=
  match faults k.log.length (ApiCall.create ns secret) with
  | some msg =>
    let e : ApiError := { notFound := false, msg := msg }
    (k.record (ApiCall.create ns secret) (some e), some e)
  | none =>
    match GoMap.get k.secrets (ns, secret.name) with
    | some _ =>
      let e : ApiError :=
        { notFound := false, msg := "secrets \"" ++ secret.name ++ "\" already exists" }
      (k.record (ApiCall.create ns secret) (some e), some e)
    | none =>
      ({ k with secrets := GoMap.set k.secrets (ns, secret.name) secret }.record
        (ApiCall.create ns secret) none, none)

/-- The request `Secrets(ns).Update(secret)`. -/
def update (faults : Faults) (k : K8s) (ns : String) (secret : Secret) :
    K8s × Option ApiError :=
  match faults k.log.length (ApiCall.update ns secret) with
  | some msg =>
    let e : ApiError := { notFound := false, msg := msg }
    (k.record (ApiCall.update ns secret) (some e), some e)
  | none =>
    match GoMap.get k.secrets (ns, secret.name) with
    | none =>
      (k.record (ApiCall.update ns secret) (some (notFoundError secret.name)),
        some (notFoundError secret.name))
    | some _ =>
      ({ k with secrets := GoMap.set k.secrets (ns, secret.name) secret }.record
        (ApiCall.update ns secret) none, none)

end K8s

/-- The function `k8sSecretsList`, on the path where the List request succeeds: the names
of the Secrets of the namespace (the name of an object is the name it is stored under). -/
def k8sSecretsList (k : K8s) (namespace_ : String) : List String :=
  (k.secrets.filter (fun p => decide (p.1.1 = namespace_))).map (fun p => p.1.2)

/-! ## updateSecretsInK8s -/

/-- The candidate map `k8sSecretsForUpdate` built in lines 594 to 599 for a job whose Vault
entry has version string `v`. -/
def k8sSecretsForUpdate (job : secretForUpdate) (v k8sClusterNameSuffix : String) :
    GoMap String Int :=
  let m := GoMap.set [] (job.name ++ "-v" ++ v) 1
  if job.versioning = 0 then GoMap.set m (trimSuffix job.name k8sClusterNameSuffix) 0 else m

/-- The loop of lines 603 to 614: a versioned candidate that is in the pre-listed cluster
Secrets is deleted from the candidates and counted as synced. -/
def verifyVersioning (k8sSecrets : List String) (cands : GoMap String Int)
    (res : updateSecretResults) : GoMap String Int × updateSecretResults :=
  cands.foldl
    (fun acc kv =>
      if kv.2 = 1 ∧ kv.1 ∈ k8sSecrets then
        (GoMap.delete acc.1 kv.1, { acc.2 with synced := acc.2.synced + 1 })
      else acc)
    (cands, res)

/-- The Secret that the worker builds for a candidate name (lines 622 to 628). -/
def secretFor (cfg : Config) (vaultSecretPathFull : String) (data : GoMap String Bytes)
    (k8sSecretName : String) : Secret :=
  { name := k8sSecretName, data := data,
    annotations := GoMap.set [] cfg.annotationName vaultSecretPathFull }

/-- The body of the create/update loop (lines 624 to 679) for one candidate name.  The
Boolean is true when the worker returns (the failed Update of lines 672 to 677). -/
def syncSecret (cfg : Config) (faults : Faults) (namespace_ vaultSecretPathFull : String)
    (data : GoMap String Bytes) (st : K8s × updateSecretResults) (k8sSecretName : String) :
    (K8s × updateSecretResults) × Bool :=
  let secret := secretFor cfg vaultSecretPathFull data k8sSecretName
  let res := st.2
  let got := K8s.get faults st.1 namespace_ secret.name
  match got.2 with
  | Except.error e =>
    if e.notFound then
      let made := K8s.create faults got.1 namespace_ secret
      match made.2 with
      | some _ => ((made.1, { res with skipped := res.skipped + 1 }), false)
      | none =>
        ((made.1, { res with created := res.created + 1, synced := res.synced + 1 }), false)
    else ((got.1, { res with skipped := res.skipped + 1 }), false)
  | Except.ok existing =>
    if GoMap.deepEqual existing.data secret.data then
      ((got.1, { res with synced := res.synced + 1 }), false)
    else
      match GoMap.get existing.annotations cfg.annotationName with
      | none => ((got.1, { res with skipped := res.skipped + 1 }), false)
      | some a =>
        if a ≠ vaultSecretPathFull then
          ((got.1, { res with skipped := res.skipped + 1 }), false)
        else
          let first := K8s.update faults got.1 namespace_ secret
          let second := K8s.update faults first.1 namespace_ secret
          match second.2 with
          | some e =>
            ((second.1,
              { res with err := some ("Error during update k8s secret: " ++ e.msg) }), true)
          | none =>
            ((second.1,
              { res with updated := res.updated + 1, synced := res.synced + 1 }), false)

/-- The create/update loop over the remaining candidate names, in the given order. -/
def syncSecrets (cfg : Config) (faults : Faults) (namespace_ vaultSecretPathFull : String)
    (data : GoMap String Bytes) :
    List String → K8s × updateSecretResults → K8s × updateSecretResults
  | [], st => st
  | name :: rest, st =>
    let next := syncSecret cfg faults namespace_ vaultSecretPathFull data st name
    if next.2 then next.1
    else syncSecrets cfg faults namespace_ vaultSecretPathFull data rest next.1

/-- The order in which the loop ranges over the candidate map.  The map never has more
than two keys, so the order of the keys and its reverse are all the orders there are. -/
def rangeOrder (rev : Bool) (names : List String) : List String :=
  if rev then names.reverse else names

/-- How the body of the worker loop is left for a job.  `continued`: by the send
`usrc <- *updateResults` followed by `continue` (lines 579, 588, 617) or by the end of the
body (line 681), after which the worker takes its next job.  `returned`: by the send
followed by `cancel()` and `return` (lines 573 and 674).  `panicked`: by the panic of the
type assertion of line 591, before any send; the panic ends the program. -/
inductive Exit where
  | continued
  | returned
  | panicked
deriving DecidableEq, Repr

/-- What the body of the worker loop has done when it is left for a job: the cluster
afterwards, the value of `*updateResults`, which is the value sent on the result channel
unless the body panics, and how the body is left. -/
structure JobRun where
  k8s : K8s
  updateResults : updateSecretResults
  ended : Exit
deriving DecidableEq, Repr

/-- The body of the worker loop of `updateSecretsInK8s` for one job (lines 557 to 681).
The create/update loop is left at the send and `return` of lines 674 to 676 exactly when
the Update of line 672 has set `err`; otherwise the body ends with the send of line 681. -/
def processJob (cfg : Config) (faults : Faults) (read : VaultRead)
    (namespace_ k8sClusterNameSuffix : String) (k8sSecrets : List String) (rev : Bool)
    (k8s : K8s) (job : secretForUpdate) : JobRun :=
  let res0 : updateSecretResults :=
    { created := 0, updated := 0, skipped := 0, synced := 0, err := none }
  let vaultSecretPathFull := cfg.vaultSecretsPath ++ "/" ++ namespace_ ++ "/" ++ job.name
  match read vaultSecretPathFull with
  | Except.error e =>
    { k8s := k8s,
      updateResults := { res0 with err := some ("Error during read Vault secret: " ++ e) },
      ended := Exit.returned }
  | Except.ok (s, v) =>
    if s.length = 0 then
      { k8s := k8s, updateResults := { res0 with skipped := res0.skipped + 1 },
        ended := Exit.continued }
    else
      match convertData s with
      | Conversion.panicked => { k8s := k8s, updateResults := res0, ended := Exit.panicked }
      | Conversion.incorrect =>
        { k8s := k8s, updateResults := { res0 with skipped := res0.skipped + 1 },
          ended := Exit.continued }
      | Conversion.converted data =>
        let checked :=
          verifyVersioning k8sSecrets (k8sSecretsForUpdate job v k8sClusterNameSuffix) res0
        if checked.1.length = 0 then
          { k8s := k8s, updateResults := checked.2, ended := Exit.continued }
        else
          let done :=
            syncSecrets cfg faults namespace_ vaultSecretPathFull data
              (rangeOrder rev (GoMap.keys checked.1)) (k8s, checked.2)
          { k8s := done.1, updateResults := done.2,
            ended := if done.2.err.isSome then Exit.returned else Exit.continued }

/-- What a worker has done when it ends: the cluster afterwards, the values it has sent on
the result channel `usrc`, in order, and whether it has ended with the panic. -/
structure WorkerRun where
  k8s : K8s
  usrc : List updateSecretResults
  panicked : Bool
deriving DecidableEq, Repr

/-- The worker `updateSecretsInK8s` on the jobs it takes from the job channel, in order,
until the channel is closed and empty: it sends the result of each job and stops at the
first job whose body is left by `return` or by the panic. -/
def updateSecretsInK8s (cfg : Config) (faults : Faults) (read : VaultRead)
    (namespace_ k8sClusterNameSuffix : String) (k8sSecrets : List String)
    (rev : secretForUpdate → Bool) : K8s → List secretForUpdate → WorkerRun
  | k8s, [] => { k8s := k8s, usrc := [], panicked := false }
  | k8s, job :: rest =>
    let done :=
      processJob cfg faults read namespace_ k8sClusterNameSuffix k8sSecrets (rev job) k8s job
    match done.ended with
    | Exit.continued =>
      let more :=
        updateSecretsInK8s cfg faults read namespace_ k8sClusterNameSuffix k8sSecrets rev
          done.k8s rest
      { k8s := more.k8s, usrc := done.updateResults :: more.usrc, panicked := more.panicked }
    | Exit.returned => { k8s := done.k8s, usrc := [done.updateResults], panicked := false }
    | Exit.panicked => { k8s := done.k8s, usrc := [], panicked := true }

/-- The jobs of the job channel with several workers, each job run as one step: the jobs
leave the channel in the order in which they were sent, each is processed on the cluster
that the job before it has left, by whichever worker takes it, and a worker that returns
does not stop the others.  The result is the cluster afterwards and the runs of the body,
in order. -/
def processJobs (cfg : Config) (faults : Faults) (read : VaultRead)
    (namespace_ k8sClusterNameSuffix : String) (k8sSecrets : List String)
    (rev : secretForUpdate → Bool) : K8s → List secretForUpdate → K8s × List JobRun
  | k8s, [] => (k8s, [])
  | k8s, job :: rest =>
    let done :=
      processJob cfg faults read namespace_ k8sClusterNameSuffix k8sSecrets (rev job) k8s job
    let more :=
      processJobs cfg faults read namespace_ k8sClusterNameSuffix k8sSecrets rev done.k8s rest
    (more.1, done :: more.2)

/-! ## One namespace of a sync tick -/

/-- The function `secretsList`, on the path where the Vault List request succeeds and
returns the given keys: the keys that do not end with `/`. -/
def secretsList (keys : List String) : List String :=
  keys.filter (fun v => !hasSuffix v "/")

/-- The jobs that the dispatcher of `syncVaultToK8s` sends for a filtered map, in the order
in which it ranges over the map. -/
def jobsOf (order : List (String × Int) → List (String × Int))
    (filteredSecrets : GoMap String Int) : List secretForUpdate :=
  (order filteredSecrets).map (fun p => { name := p.1, versioning := p.2 })

/-! ## namespacesForSync -/

/-- A gauge vector with one label, such as `syncStatus`, as the program acts on it: the
calls `WithLabelValues(label).Set(value)` made so far, oldest first.  The values the code
sets are the integers 0 and 1. -/
abbrev GaugeVec := List (String × Int)

/-- The function `namespacesForSync`: the map `k8sNamespacesMap` is filled from
`k8sNamespaces`, then every Vault namespace is appended to `nsForSync` when the map holds it
and gets `syncStatus` set to 0 otherwise.  The result is `nsForSync` with the gauge vector
afterwards. -/
def namespacesForSync (vaultNamespaces k8sNamespaces : List String) (syncStatus : GaugeVec) :
    List String × GaugeVec :=
  let k8sNamespacesMap : GoMap String Bool :=
    k8sNamespaces.foldl (fun m ns => GoMap.set m ns true) []
  vaultNamespaces.foldl
    (fun acc ns =>
      if (GoMap.get k8sNamespacesMap ns).getD false then (acc.1 ++ [ns], acc.2)
      else (acc.1, acc.2 ++ [(ns, 0)]))
    ([], syncStatus)

/-! ## The goroutines of a namespace -/

/-- Where a worker goroutine `updateSecretsInK8s` stands: at the head of its loop
`for secretForUpdate := range usjc`; at a send `usrc <- *updateResults` with the result of
the job it has processed; after the send of a result with an error, before `cancel()` and
`return`; or returned, its deferred `wg.Done()` having run. -/
inductive Worker where
  | receiving
  | sending (updateResults : updateSecretResults)
  | cancelling
  | returned
deriving DecidableEq, Repr

/-- Where the main goroutine stands in lines 357 to 370: at the receive
`usrcResult := <-usrc` of iteration `i + 1`; at `wg.Wait()` after a result with an error;
or past `close(usrc)`, with the value of `syncStatusNamespace`. -/
inductive Aggregator where
  | receiving (i : Nat)
  | waiting
  | closed (syncStatusNamespace : Int)
deriving DecidableEq, Repr

/-- The state shared by the goroutines that `syncVaultToK8s` runs for one namespace (lines
325 to 370): the cluster; the jobs that the dispatcher goroutine (lines 342 to 347) has
still to send and whether it has closed `usjc`; the contents of the buffered channels
`usjc` and `usrc`, oldest first; the workers; whether `cancel()` has been called; the main
goroutine and its sums `updateResults`; and whether a worker has panicked, which ends the
program. -/
structure SyncState where
  k8s : K8s
  toSend : List secretForUpdate
  usjcClosed : Bool
  usjc : List secretForUpdate
  usrc : List updateSecretResults
  workers : List Worker
  cancelled : Bool
  aggregator : Aggregator
  updateResults : updateSecretResults
  panicked : Bool := false
deriving DecidableEq, Repr

/-- A goroutine of the namespace: the dispatcher, the worker number `w` (from 0), or the
main goroutine. -/
inductive Goroutine where
  | dispatcher
  | worker (w : Nat)
  | main
deriving DecidableEq, Repr

/-- The state after line 356: the channels are empty, `numWorkers` workers are started, the
dispatcher has all the jobs of `filteredSecrets` to send, in the order of its range. -/
def SyncState.start (numWorkers : Nat) (k8s : K8s) (jobs : List secretForUpdate) : SyncState :=
  { k8s := k8s, toSend := jobs, usjcClosed := false, usjc := [], usrc := [],
    workers := List.replicate numWorkers Worker.receiving, cancelled := false,
    aggregator := Aggregator.receiving 0,
    updateResults := { created := 0, updated := 0, skipped := 0, synced := 0, err := none } }

/-- One step of a goroutine, `none` when it cannot move (it is blocked on a channel or on
the wait-group, it has ended, or the program has ended with a panic).  `n` is
`len(filteredSecrets)`; both channels have the capacity `numWorkers`.

* The dispatcher sends its next job when `usjc` has room, and closes `usjc` after the
  last one.  Nothing in it reads the context that `cancel()` cancels: the context is
  dropped where it is made (`_, cancel := context.WithCancel(...)`, line 332).
* A worker at the head of its loop takes the oldest job of `usjc` and runs the body of
  its loop up to the send (`processJob`, taken as one step), or returns when `usjc` is
  closed and empty; when the body panics the program ends.  At its send the worker puts
  the result into `usrc` when there is room, and goes on to `cancel()` when the result
  carries an error, to the head of the loop otherwise.
* The main goroutine takes the oldest result of `usrc`; on an error it goes to
  `wg.Wait()`, which ends when every worker has returned, and then sets
  `syncStatusNamespace = 0`; otherwise it adds the counters.  After `n` results without
  error the status stays 1. -/
def step (cfg : Config) (faults : Faults) (read : VaultRead)
    (namespace_ k8sClusterNameSuffix : String) (k8sSecrets : List String)
    (rev : secretForUpdate → Bool) (numWorkers n : Nat) (g : Goroutine) (s : SyncState) :
    Option SyncState :=
  if s.panicked then none else
  match g with
  | Goroutine.dispatcher =>
    match s.toSend with
    | job :: rest =>
      if s.usjc.length < numWorkers then some { s with toSend := rest, usjc := s.usjc ++ [job] }
      else none
    | [] => if s.usjcClosed then none else some { s with usjcClosed := true }
  | Goroutine.worker w =>
    match s.workers[w]? with
    | some Worker.receiving =>
      match s.usjc with
      | job :: rest =>
        let done :=
          processJob cfg faults read namespace_ k8sClusterNameSuffix k8sSecrets (rev job)
            s.k8s job
        if done.ended = Exit.panicked then
          some { s with k8s := done.k8s, usjc := rest, panicked := true }
        else
          some { s with k8s := done.k8s, usjc := rest,
                        workers := s.workers.set w (Worker.sending done.updateResults) }
      | [] =>
        if s.usjcClosed then some { s with workers := s.workers.set w Worker.returned }
        else none
    | some (Worker.sending updateResults) =>
      if s.usrc.length < numWorkers then
        some { s with usrc := s.usrc ++ [updateResults],
                      workers := s.workers.set w
                        (if updateResults.err.isSome then Worker.cancelling
                         else Worker.receiving) }
      else none
    | some Worker.cancelling =>
      some { s with cancelled := true, workers := s.workers.set w Worker.returned }
    | some Worker.returned => none
    | none => none
  | Goroutine.main =>
    match s.aggregator with
    | Aggregator.receiving i =>
      if i < n then
        match s.usrc with
        | usrcResult :: rest =>
          if usrcResult.err.isSome then
            some { s with usrc := rest, aggregator := Aggregator.waiting }
          else
            some { s with usrc := rest, aggregator := Aggregator.receiving (i + 1),
                          updateResults :=
                            { s.updateResults with
                              created := s.updateResults.created + usrcResult.created,
                              updated := s.updateResults.updated + usrcResult.updated,
                              skipped := s.updateResults.skipped + usrcResult.skipped,
                              synced := s.updateResults.synced + usrcResult.synced } }
        | [] => none
      else some { s with aggregator := Aggregator.closed 1 }
    | Aggregator.waiting =>
      if s.workers.all (fun x => decide (x = Worker.returned)) then
        some { s with aggregator := Aggregator.closed 0 }
      else none
    | Aggregator.closed _ => none

/-- An execution: the goroutines move one after the other in the order of the schedule;
`none` when a goroutine of the schedule cannot move at its turn. -/
def run (cfg : Config) (faults : Faults) (read : VaultRead)
    (namespace_ k8sClusterNameSuffix : String) (k8sSecrets : List String)
    (rev : secretForUpdate → Bool) (numWorkers n : Nat) :
    List Goroutine → SyncState → Option SyncState
  | [], s => some s
  | g :: rest, s =>
    match step cfg faults read namespace_ k8sClusterNameSuffix k8sSecrets rev numWorkers n g s
    with
    | some s1 =>
      run cfg faults read namespace_ k8sClusterNameSuffix k8sSecrets rev numWorkers n rest s1
    | none => none

/-- The body of `syncVaultToK8s` for one namespace (lines 302 to 370) when both List
requests succeed: list the Vault entries, filter them, list the cluster Secrets, start
`numWorkers` workers and the dispatcher, and receive the results.  The goroutines move in
the order of the schedule; the result is the state in which the schedule ends, `none` when
a goroutine of the schedule cannot move at its turn. -/
def syncNamespace (cfg : Config) (d : vtkData) (faults : Faults) (read : VaultRead)
    (keys : List String) (namespace_ : String)
    (order : List (String × Int) → List (String × Int)) (rev : secretForUpdate → Bool)
    (numWorkers : Nat) (schedule : List Goroutine) (k8s : K8s) : Option SyncState :=
  let k8sClusterNameSuffix := "." ++ cfg.k8sClusterName
  let secrets := secretsList keys
  let filteredSecrets := filterSecrets d secrets k8sClusterNameSuffix namespace_
  let k8sSecrets := k8sSecretsList k8s namespace_
  run cfg faults read namespace_ k8sClusterNameSuffix k8sSecrets rev numWorkers
    filteredSecrets.length schedule
    (SyncState.start numWorkers k8s (jobsOf order filteredSecrets))

/-- Is the worker at a send, holding the result of a job. -/
def Worker.isSending : Worker → Bool
  | Worker.sending _ => true
  | _ => false

/-- The jobs and results on their way, for the main goroutine at a receive after `i`
results: the jobs not yet sent, the jobs in `usjc`, the results held by workers at their
send, the results in `usrc`, the `i` results received and, after a panic, the job whose
body has panicked add up to `n`.  When the main goroutine has left its loop with status 1,
no worker has panicked and nothing is on its way any more. -/
def SyncState.accounted (n : Nat) (s : SyncState) : Prop :=
  match s.aggregator with
  | Aggregator.receiving i =>
    s.toSend.length + s.usjc.length + s.workers.countP Worker.isSending + s.usrc.length + i
      + (if s.panicked then 1 else 0) = n
  | Aggregator.waiting => True
  | Aggregator.closed syncStatusNamespace =>
    syncStatusNamespace = 1 →
      s.panicked = false
      ∧ s.toSend.length + s.usjc.length + s.workers.countP Worker.isSending
          + s.usrc.length = 0

/-- A job of the namespace has failed: a worker has panicked, or a result with an error is
held by a worker at its send, is in `usrc`, or has been received by the main goroutine,
which then is in `wg.Wait()` or has set the status to 0. -/
def SyncState.failed (s : SyncState) : Prop :=
  s.panicked = true
  ∨ s.aggregator = Aggregator.waiting
  ∨ (∃ syncStatusNamespace, s.aggregator = Aggregator.closed syncStatusNamespace
      ∧ syncStatusNamespace ≠ 1)
  ∨ (∃ r ∈ s.usrc, r.err.isSome = true)
  ∨ (∃ r, Worker.sending r ∈ s.workers ∧ r.err.isSome = true)

/-! ## Reading the request log -/

/-- The object a request is about: its namespace and name. -/
def ApiCall.target : ApiCall → String × String
  | ApiCall.get ns name => (ns, name)
  | ApiCall.create ns secret => (ns, secret.name)
  | ApiCall.update ns secret => (ns, secret.name)

/-- Is the request a Create or an Update. -/
def ApiCall.isWrite : ApiCall → Bool
  | ApiCall.get _ _ => false
  | ApiCall.create _ _ => true
  | ApiCall.update _ _ => true

/-- Is the request an Update. -/
def ApiCall.isUpdate : ApiCall → Bool
  | ApiCall.update _ _ => true
  | _ => false

/-- Is the event a Create that the API accepted. -/
def ApiEvent.isCreated (e : ApiEvent) : Bool :=
  match e.call, e.err with
  | ApiCall.create _ _, none => true
  | _, _ => false

/-- Is the event a Create that the API refused. -/
def ApiEvent.isRejectedCreate (e : ApiEvent) : Bool :=
  match e.call, e.err with
  | ApiCall.create _ _, some _ => true
  | _, _ => false

/-- Is the event an Update that the API refused. -/
def ApiEvent.isRefusedUpdate (e : ApiEvent) : Bool :=
  e.call.isUpdate && e.err.isSome

/-! ## The fixtures of the tests -/

/-- The configuration set by `defineAppInitParams` in the tests. -/
def testConfig : Config :=
  { appName := "vault-to-k8s", podNamespace := "k8s-ns", k8sClusterName := "k8s-cluster",
    vaultSecretsPath := "testMount/k8s/dev", annotationName := "vault-to-k8s/secret" }

/-- The entries written by `testVaultServer`: under `k8s-ns1` every name of
`testSecretsList` holds the key `testKey-<name>` with value `testValue-<name>`; `secret1`
is written twice and is at version 2, the others at version 1.  Other paths have no data. -/
def testVaultRead : VaultRead := fun path =>
  match testSecretsList.find? (fun n => decide (path = "testMount/k8s/dev/k8s-ns1/" ++ n)) with
  | some n =>
    Except.ok ([("testKey-" ++ n, VaultValue.str ("testValue-" ++ n))],
      if n = "secret1" then "2" else "1")
  | none => Except.ok ([], "")

/-- A Vault that holds under `k8s-ns1` only the entry `name`, at version `v`, with the data
written by `testVaultServerCreateSecrets`. -/
def testVaultEntry (name v : String) : VaultRead := fun path =>
  if path = "testMount/k8s/dev/k8s-ns1/" ++ name then
    Except.ok ([("testKey-" ++ name, VaultValue.str ("testValue-" ++ name))], v)
  else Except.ok ([], "")

/-- A Vault that holds under `k8s-ns1` only the entry `name`, at version 1, with the data
written by `testVaultServerCreateSecretsIncorrectData`: the value under the key
`testKey-<name>` is a list of strings, not a string. -/
def testVaultEntryIncorrectData (name : String) : VaultRead := fun path =>
  if path = "testMount/k8s/dev/k8s-ns1/" ++ name then
    Except.ok ([("testKey-" ++ name, VaultValue.other)], "1")
  else Except.ok ([], "")

/-- A Vault that holds under `k8s-ns1` only the entry `name`, at version 1, whose value
under the key `testKey-<name>` is the JSON number 1, which the client hands over as a
`json.Number`. -/
def testVaultEntryNumber (name : String) : VaultRead := fun path =>
  if path = "testMount/k8s/dev/k8s-ns1/" ++ name then
    Except.ok ([("testKey-" ++ name, VaultValue.number "1")], "1")
  else Except.ok ([], "")

/-- An API server that refuses nothing. -/
def noFaults : Faults := fun _ _ => none

/-- An API server that refuses every Update. -/
def updateFaults : Faults := fun _ call =>
  if call.isUpdate then some "the server rejected our request" else none

/-- One label of a DNS-1123 subdomain: lower-case letters, digits and `-`, beginning and
ending with a letter or digit. -/
def isDNS1123Label (l : List Char) : Bool :=
  match l.head?, l.getLast? with
  | some a, some b =>
    (a.isLower || a.isDigit) && (b.isLower || b.isDigit)
      && l.all (fun c => c.isLower || c.isDigit || c == '-')
  | _, _ => false

/-- The check `validation.IsDNS1123Subdomain` of the Kubernetes library that the Create
reactor of the test server applies to the name: at most 253 characters, labels separated
by `.`. -/
def isDNS1123Subdomain (name : String) : Bool :=
  decide (name.length ≤ 253) && (name.data.splitOn '.').all isDNS1123Label

/-- The API server of the tests (`testK8sServer`): a Create is refused when the name of the
Secret is not a DNS-1123 subdomain, nothing else is refused. -/
def testK8sServerFaults : Faults := fun _ call =>
  match call with
  | ApiCall.create _ secret =>
    if isDNS1123Subdomain secret.name then none
    else some "the name is not a lowercase RFC 1123 subdomain"
  | _ => none

/-- The Secret created by `testK8sServerCreateSecret`. -/
def testK8sSecret (secretName secretAnnotationName secretAnnotationValue : String) : Secret :=
  { name := secretName,
    data := [("testK8sKey-" ++ secretName, toBytes ("testK8sValue-" ++ secretName))],
    annotations := [(secretAnnotationName, secretAnnotationValue)] }

/-- A cluster that holds the given Secrets in the namespace `k8s-ns1`, with an empty log. -/
def testCluster (secrets : List Secret) : K8s :=
  { secrets := secrets.map (fun s => (("k8s-ns1", s.name), s)), log := [] }

/-- A Vault in which the read of `secret1` under `k8s-ns1` fails and every other entry
holds one key. -/
def testVaultReadDenied : VaultRead := fun path =>
  if path = "testMount/k8s/dev/k8s-ns1/secret1" then Except.error "permission denied"
  else Except.ok ([("testKey", VaultValue.str "testValue")], "1")

/-! ## verifyVaultMount -/

/-- The call `strings.HasPrefix(s, p)`. -/
def hasPrefix (s p : String) : Bool := p.data.isPrefixOf s.data

/-- The call `strings.Contains(s, substr)`. -/
def contains (s substr : String) : Bool := decide (substr.data <:+: s.data)

/-- The expression `strings.SplitN(s, "/", 2)[0]`: the text before the first `/`, all of
`s` when it has none. -/
def splitHead (s : String) : String := String.mk (s.data.takeWhile (fun c => c != '/'))

/-- The outcome of the digit loop of `strconv.ParseUint`. -/
inductive NumResult where
  | value (n : Nat)
  | syntaxError
  | rangeError
deriving DecidableEq, Repr

/-- The digit loop of `strconv.ParseUint(s, 10, 64)` on the remaining characters, with the
number read so far: a character that is not a decimal digit is a syntax error, a number
that does not fit 64 bits a range error, whichever comes first. -/
def parseUint : List Char → Nat → NumResult
  | [], n => NumResult.value n
  | c :: rest, n =>
    if !c.isDigit then NumResult.syntaxError
    else if 2 ^ 64 ≤ n * 10 + (c.toNat - 48) then NumResult.rangeError
    else parseUint rest (n * 10 + (c.toNat - 48))

/-- The number returned by `strconv.Atoi(s)` on a 64-bit platform, whatever error comes
with it: an optional sign and decimal digits give their value, a syntax error gives 0, a
value out of range the nearest `int`. -/
def atoi (s : String) : Int :=
  let neg : Bool := s.data.head? = some '-'
  let digits : List Char :=
    match s.data with
    | '+' :: rest => rest
    | '-' :: rest => rest
    | l => l
  if digits = [] then 0
  else
    match parseUint digits 0 with
    | NumResult.syntaxError => 0
    | NumResult.rangeError => if neg then -(2 ^ 63) else 2 ^ 63 - 1
    | NumResult.value un =>
      if neg then (if 2 ^ 63 < un then -(2 ^ 63) else -(un : Int))
      else (if 2 ^ 63 ≤ un then 2 ^ 63 - 1 else (un : Int))

/-- The fields of a `MountOutput` of the Vault mount table that the code reads. -/
structure MountOutput where
  type_ : String
  options : GoMap String String
deriving DecidableEq, Repr

/-- The number the code reads as the version of a mount:
`strconv.Atoi(m.Options["version"])`, the missing key being the empty string. -/
def kvVersion (m : MountOutput) : Int := atoi ((GoMap.get m.options "version").getD "")

/-- The loop of `verifyVaultMount` over the mounts in the order of the iteration, with the
current value of `mountNotExists`: the error with which the function returns from inside
the loop, or the value of `mountNotExists` after the loop. -/
def verifyVaultMountLoop (vaultMount : String) :
    List (String × MountOutput) → Bool → Except String Bool
  | [], mountNotExists => Except.ok mountNotExists
  | (k, m) :: rest, mountNotExists =>
    if !hasPrefix vaultMount k then verifyVaultMountLoop vaultMount rest mountNotExists
    else if m.type_ ≠ "kv" then
      Except.error
        ("Matching mount '" ++ k ++ "' for path '" ++ vaultMount ++ "' is not of type kv")
    else if kvVersion m ≠ 2 then
      Except.error
        ("Vault mount '" ++ k ++ "' and defined path '" ++ vaultMount
          ++ "' matched but Vault mount version is not '2'")
    else verifyVaultMountLoop vaultMount rest false

/-- The function `verifyVaultMount`: `none` is the nil error.  `listMounts` is what
`Sys().ListMounts()` returns: an error or the mount table, a map whose entries are listed
in the order in which the loop ranges over them. -/
def verifyVaultMount (cfg : Config)
    (listMounts : Except String (GoMap String MountOutput)) : Option String :=
  let vaultMount := splitHead cfg.vaultSecretsPath ++ "/"
  match listMounts with
  | Except.error e => some ("Failed to get list Vault mounts: " ++ e)
  | Except.ok vaultMountsIn =>
    match verifyVaultMountLoop vaultMount vaultMountsIn true with
    | Except.error msg => some msg
    | Except.ok mountNotExists =>
      if mountNotExists then
        some ("Mount path: '" ++ vaultMount ++ "' doesn't exists in Vault")
      else none

/-- The mount table of the test server, as the mount tests observe it: the default mounts
of the Vault test core and the KV version 2 mount `testMount/`. -/
def testMounts : GoMap String MountOutput :=
  [("cubbyhole/", { type_ := "cubbyhole", options := [] }),
   ("identity/", { type_ := "identity", options := [] }),
   ("secret/", { type_ := "kv", options := [("version", "1")] }),
   ("sys/", { type_ := "system", options := [] }),
   ("testMount/", { type_ := "kv", options := [("version", "2")] })]

/-! ## The conversion of bytes to a string -/

/-- The first character of a byte slice read as UTF-8 and the number of bytes it takes
(`utf8.DecodeRune`): a byte that does not begin a well-formed character gives U+FFFD and
takes one byte. -/
def decodeRune (b : Bytes) : Char × Nat :=
  let b0 := (b.getD 0 0).toNat
  let b1 := (b.getD 1 0).toNat
  let b2 := (b.getD 2 0).toNat
  let b3 := (b.getD 3 0).toNat
  let cont := fun (x : Nat) => 128 ≤ x ∧ x < 192
  let r2 := (b0 - 192) * 64 + (b1 - 128)
  let r3 := (b0 - 224) * 4096 + (b1 - 128) * 64 + (b2 - 128)
  let r4 := (b0 - 240) * 262144 + (b1 - 128) * 4096 + (b2 - 128) * 64 + (b3 - 128)
  if b0 < 128 then (Char.ofNat b0, 1)
  else if 192 ≤ b0 ∧ b0 < 224 ∧ cont b1 ∧ 128 ≤ r2 then (Char.ofNat r2, 2)
  else if 224 ≤ b0 ∧ b0 < 240 ∧ cont b1 ∧ cont b2 ∧ 2048 ≤ r3
      ∧ ¬ (55296 ≤ r3 ∧ r3 < 57344) then (Char.ofNat r3, 3)
  else if 240 ≤ b0 ∧ b0 < 248 ∧ cont b1 ∧ cont b2 ∧ cont b3 ∧ 65536 ≤ r4 ∧ r4 < 1114112 then
    (Char.ofNat r4, 4)
  else (Char.ofNat 65533, 1)

/-- The characters of a byte slice read as UTF-8, at most `fuel` of them.  Every character
takes at least one byte, so the length of the slice is fuel enough. -/
def decodeUtf8 : Nat → Bytes → List Char
  | 0, _ => []
  | fuel + 1, b =>
    if b = [] then []
    else (decodeRune b).1 :: decodeUtf8 fuel (b.drop (decodeRune b).2)

/-- The conversion `string(b)`.  A Go string holds the bytes as they are; a string of the
embedding is a sequence of characters, so the bytes are read as UTF-8, which is the inverse
of `toBytes`.  Bytes that are not UTF-8 have no counterpart and are read as U+FFFD, as
Go does when it ranges over such a string. -/
def ofBytes (b : Bytes) : String := String.mk (decodeUtf8 b.length b)

/-! ## The float64 product of the rotation intervals -/

/-- The constant `0.7` as a `float64` is `float07 / 2^53` (`0x1.6666666666666p-1`). -/
def float07 : Nat := 6305039478318694

/-- The least shift `s`, counting up from the given one in at most `fuel` steps, for which
`p / 2^s` fits the 53 bits of a `float64` mantissa. -/
def shiftOf : Nat → Nat → Nat → Nat
  | 0, _, s => s
  | fuel + 1, p, s => if p / 2 ^ s < 2 ^ 53 then s else shiftOf fuel p (s + 1)

/-- The `float64` nearest to the natural number `p`, ties to even, for `p < 2^117` (the 64
steps of the search are enough for a product of a 64-bit number and a mantissa). -/
def roundToFloat (p : Nat) : Nat :=
  let s := shiftOf 64 p 0
  let q := p / 2 ^ s
  let r := p % 2 ^ s
  if 2 ^ s < 2 * r ∨ (2 * r = 2 ^ s ∧ q % 2 = 1) then (q + 1) * 2 ^ s else q * 2 ^ s

/-- The expression `int(float64(ttl) * 0.7)` for an `int64` value `ttl`: the conversion to
`float64` rounds to nearest, the product of the two floats is the exact product
`float64(ttl) * float07 / 2^53` rounded to nearest, and the conversion to `int` drops the
fraction.  The sign is carried apart, rounding being symmetric. -/
def scale07 (ttl : Int) : Int :=
  let r : Nat := roundToFloat (roundToFloat ttl.natAbs * float07) / 2 ^ 53
  if ttl < 0 then -(r : Int) else (r : Int)

/-- The normalisation of a rotation interval against a TTL, as written in `approleGetToken`
(lines 87 to 93, for `tokenRotationInterval`) and in `approleSecretIDRotation` (lines 285
to 291, for `approleSecretIDRotationInterval`): the new value of the interval. -/
def rotationInterval (interval ttl : Int) : Int :=
  if interval = -1 then scale07 ttl
  else if interval ≥ ttl then scale07 ttl
  else interval

/-! ## The Vault client -/

/-- The `Auth` part of a Vault response (`api.SecretAuth`), as far as the code reads it. -/
structure SecretAuth where
  clientToken : String
  accessor : String
  metadata : GoMap String String
  leaseDuration : Int
deriving DecidableEq, Repr

/-- A Vault response (`api.Secret`): its `Data` and its `Auth`, which may be nil. -/
structure VaultSecret where
  data : GoMap String VaultValue
  auth : Option SecretAuth
deriving DecidableEq, Repr

/-- What the authentication code asks of the Vault client: `Logical().Unwrap`,
`Logical().Write` with its options (values of type `interface{}`, `none` being nil), and
`SetToken`, which changes the token sent with the requests that follow. -/
inductive VaultCall where
  | unwrap (wrappingToken : String)
  | write (path : String) (options : GoMap String (Option VaultValue))
  | setToken (token : String)
deriving DecidableEq, Repr

/-- The Vault server as the client sees it: the answer to a request, given the requests
made before it.  The answer is an error or a response, which may be nil. -/
abbrev VaultServer := List VaultCall → VaultCall → Except String (Option VaultSecret)

/-- Is the request a revocation: a Write to `auth/token/revoke-accessor` or to the
`secret-id-accessor/destroy` path of the role. -/
def VaultCall.isRevoke (cfg : Config) (approleName : String) : VaultCall → Bool
  | VaultCall.write path _ =>
    decide (path = "auth/token/revoke-accessor")
      || decide (path = "auth/" ++ cfg.authMethod ++ "/role/" ++ approleName
            ++ "/secret-id-accessor/destroy")
  | _ => false

/-- Is the request one of the two Writes of `approleRevokeOldSecretID`: to a path that ends
with `/secret-id/lookup` or with `/secret-id-accessor/destroy`. -/
def VaultCall.isSecretIDRevocation : VaultCall → Bool
  | VaultCall.write path _ =>
    hasSuffix path "/secret-id/lookup" || hasSuffix path "/secret-id-accessor/destroy"
  | _ => false

/-! ## Authentication -/

/-- The state that the authentication code reads and changes: the cluster, the requests
made to Vault so far, the program data `d`, and the package-level variables `vaultToken`,
`tokenRotationInterval` and `approleSecretIDRotationInterval`. -/
structure AuthState where
  k8s : K8s
  vault : List VaultCall
  d : vtkData
  vaultToken : String
  tokenRotationInterval : Int
  approleSecretIDRotationInterval : Int
deriving DecidableEq, Repr

/-- The function `approleGetToken`; `now` is the reading of the clock.  The result is
`none` when the function panics (a nil response or a response without `Auth` is
dereferenced), otherwise the state afterwards and the error returned, `none` being nil. -/
def approleGetToken (cfg : Config) (server : VaultServer) (now : Int) (st : AuthState) :
    Option (AuthState × Option String) :=
  let unwrapped : Option (AuthState × Option String) :=
    match st.d.approleSecretID with
    | some _ => some (st, none)
    | none =>
      let call := VaultCall.unwrap cfg.approleSecretIDWrappedToken
      let st1 := { st with vault := st.vault ++ [call] }
      match server st.vault call with
      | Except.error e =>
        if contains e "wrapping token is not valid or does not exist" then
          some (st1, some ("There is no valid 'wrapped token' in "
            ++ "'APPROLE_SECRET_ID_WRAPPED_TOKEN' or 'APPROLE_SECRET_ID_WRAPPED_TOKEN_FILE'"))
        else some (st1, some e)
      | Except.ok none => none
      | Except.ok (some secretID) =>
        some ({ st1 with d := { st1.d with
                  approleSecretID := GoMap.get secretID.data "secret_id" } }, none)
  match unwrapped with
  | none => none
  | some (st1, some e) => some (st1, some e)
  | some (st1, none) =>
    let options : GoMap String (Option VaultValue) :=
      [("role_id", some (VaultValue.str cfg.approleRoleID)),
       ("secret_id", st1.d.approleSecretID)]
    let authPath := "auth/" ++ cfg.authMethod ++ "/login"
    let call := VaultCall.write authPath options
    let st2 := { st1 with vault := st1.vault ++ [call] }
    match server st1.vault call with
    | Except.error e => some (st2, some e)
    | Except.ok none => none
    | Except.ok (some vaultTokenValues) =>
      match vaultTokenValues.auth with
      | none => none
      | some auth =>
        some ({ st2 with
                vaultToken := auth.clientToken,
                d := { st2.d with
                  vaultTokenAccessor := auth.accessor,
                  approleName := (GoMap.get auth.metadata "role_name").getD "",
                  vaultTokenTTL :=
                    GoMap.set (GoMap.set [] "creation_time" now) "ttl" auth.leaseDuration },
                tokenRotationInterval :=
                  rotationInterval st2.tokenRotationInterval auth.leaseDuration,
                vault := st2.vault ++ [VaultCall.setToken auth.clientToken] }, none)

/-- The function `approleReadAppSecret`: the state afterwards and the error returned. -/
def approleReadAppSecret (cfg : Config) (faults : Faults) (st : AuthState) :
    AuthState × Option String :=
  let secretName := cfg.appName ++ "-system"
  let got := K8s.get faults st.k8s cfg.podNamespace secretName
  match got.2 with
  | Except.error e => ({ st with k8s := got.1 }, some e.msg)
  | Except.ok appSecret =>
    ({ st with k8s := got.1,
               d := { st.d with approleSecretID := some (VaultValue.str
                 (ofBytes ((GoMap.get appSecret.data "approle_secret-id").getD []))) } },
     none)

/-- The function `updateAppSystemSecret`.  The result is `none` when the function panics:
the type assertion `v.(string)` fails when `approleSecretID` is not a string.  The two
messages built with `fmt.Errorf` are given for names without formatting verbs. -/
def updateAppSystemSecret (cfg : Config) (faults : Faults) (st : AuthState) :
    Option (AuthState × Option String) :=
  match st.d.approleSecretID with
  | some (VaultValue.str approleSecretID) =>
    let data : GoMap String Bytes :=
      GoMap.set (GoMap.set [] "token-accessor" (toBytes st.d.vaultTokenAccessor))
        "approle_secret-id" (toBytes approleSecretID)
    let secretName := cfg.appName ++ "-system"
    let secret : Secret :=
      { name := secretName, data := data,
        annotations := GoMap.set [] "createdBy" cfg.appName }
    let got := K8s.get faults st.k8s cfg.podNamespace secret.name
    match got.2 with
    | Except.error e =>
      if e.notFound then
        let made := K8s.create faults got.1 cfg.podNamespace secret
        match made.2 with
        | some e2 =>
          some ({ st with k8s := made.1 },
            some ("Error during create application k8s secret: " ++ e2.msg))
        | none => some ({ st with k8s := made.1 }, none)
      else
        some ({ st with k8s := got.1 },
          some ("Error during get application k8s secret: " ++ e.msg))
    | Except.ok existing =>
      match GoMap.get existing.annotations "createdBy" with
      | none =>
        some ({ st with k8s := got.1 },
          some ("Can't update application k8s secret '" ++ secret.name ++ "' in '"
            ++ cfg.podNamespace ++ "' namespace as it not created by '" ++ cfg.appName
            ++ "' application"))
      | some createdBy =>
        if createdBy ≠ cfg.appName then
          some ({ st with k8s := got.1 },
            some ("Secret '" ++ secretName ++ "' already exists in '" ++ cfg.podNamespace
              ++ "' namespace but it wasn't created by this application"))
        else
          let updated := K8s.update faults got.1 cfg.podNamespace secret
          match updated.2 with
          | some e =>
            some ({ st with k8s := updated.1 },
              some ("Error during update k8s secret: " ++ e.msg))
          | none => some ({ st with k8s := updated.1 }, none)
  | _ => none

/-- The function `approleRevokeOldSecretID`: the state afterwards and the error returned. -/
def approleRevokeOldSecretID (cfg : Config) (faults : Faults) (server : VaultServer)
    (st : AuthState) : AuthState × Option String :=
  let secretName := cfg.appName ++ "-system"
  let got := K8s.get faults st.k8s cfg.podNamespace secretName
  let st1 := { st with k8s := got.1 }
  match got.2 with
  | Except.error e => (st1, some e.msg)
  | Except.ok appSecret =>
    let optionsLookupSecretID : GoMap String (Option VaultValue) :=
      [("secret_id", some (VaultValue.str
        (ofBytes ((GoMap.get appSecret.data "approle_secret-id").getD []))))]
    let lookupAuthPath :=
      "auth/" ++ cfg.authMethod ++ "/role/" ++ st.d.approleName ++ "/secret-id/lookup"
    let lookup := VaultCall.write lookupAuthPath optionsLookupSecretID
    let st2 := { st1 with vault := st1.vault ++ [lookup] }
    match server st1.vault lookup with
    | Except.error e => (st2, some e)
    | Except.ok none => (st2, none)
    | Except.ok (some lookupSecretID) =>
      let optionsDestroySecretID : GoMap String (Option VaultValue) :=
        [("secret_id_accessor", GoMap.get lookupSecretID.data "secret_id_accessor")]
      let destroyAuthPath :=
        "auth/" ++ cfg.authMethod ++ "/role/" ++ st.d.approleName
          ++ "/secret-id-accessor/destroy"
      let destroy := VaultCall.write destroyAuthPath optionsDestroySecretID
      let st3 := { st2 with vault := st2.vault ++ [destroy] }
      match server st2.vault destroy with
      | Except.error e => (st3, some e)
      | Except.ok _ => (st3, none)

/-- The function `revokeOldToken`: the state afterwards and the error returned. -/
def revokeOldToken (cfg : Config) (faults : Faults) (server : VaultServer)
    (st : AuthState) : AuthState × Option String :=
  let secretName := cfg.appName ++ "-system"
  let got := K8s.get faults st.k8s cfg.podNamespace secretName
  let st1 := { st with k8s := got.1 }
  match got.2 with
  | Except.error e => (st1, some e.msg)
  | Except.ok appSecret =>
    let vaultTokenAccessor := ofBytes ((GoMap.get appSecret.data "token-accessor").getD [])
    if vaultTokenAccessor = "" then (st1, none)
    else
      let optionsDestroyToken : GoMap String (Option VaultValue) :=
        [("accessor", some (VaultValue.str vaultTokenAccessor))]
      let revoke := VaultCall.write "auth/token/revoke-accessor" optionsDestroyToken
      let st2 := { st1 with vault := st1.vault ++ [revoke] }
      match server st1.vault revoke with
      | Except.error e => if contains e "invalid accessor" then (st2, none) else (st2, some e)
      | Except.ok _ => (st2, none)

/-- The end of `approleAuthenticate` (lines 32 to 46), once a token is there: the old token
and, when the SecretID came from the wrapped token, the old SecretID are revoked, errors of
the two being logged only, and the bootstrap Secret is written. -/
def approleAuthenticateFinish (cfg : Config) (faults : Faults) (server : VaultServer)
    (authByEnv : Bool) (st : AuthState) : Option (AuthState × Option String) :=
  let st1 := (revokeOldToken cfg faults server st).1
  let st2 := if authByEnv then (approleRevokeOldSecretID cfg faults server st1).1 else st1
  updateAppSystemSecret cfg faults st2

/-- The function `approleAuthenticate`; `now1` and `now2` are the readings of the clock in
the first and in the second call of `approleGetToken`.  The result is `none` when a call
panics. -/
def approleAuthenticate (cfg : Config) (faults : Faults) (server : VaultServer)
    (now1 now2 : Int) (st : AuthState) : Option (AuthState × Option String) :=
  match approleGetToken cfg server now1 st with
  | none => none
  | some (st1, none) => approleAuthenticateFinish cfg faults server true st1
  | some (st1, some _) =>
    let read := approleReadAppSecret cfg faults st1
    match read.2 with
    | some e => some (read.1, some e)
    | none =>
      match approleGetToken cfg server now2 read.1 with
      | none => none
      | some (st2, some e) => some (st2, some e)
      | some (st2, none) => approleAuthenticateFinish cfg faults server false st2

/-- The normalisation step of the loop of `approleSecretIDRotation` after a successful
`approleSecretIDLookup` (lines 284 to 291). -/
def approleSecretIDRotationNormalize (st : AuthState) : AuthState :=
  let secretIDTTL := (GoMap.get st.d.approleSecretIDTTL "secret_id_ttl").getD 0
  { st with approleSecretIDRotationInterval :=
      rotationInterval st.approleSecretIDRotationInterval secretIDTTL }

/-! ## The retries of the SecretID lookup -/

/-- The value of an `int64` expression whose exact value is `x`: the arithmetic of Go wraps
around, in two's complement.  The type `int` has 64 bits too on the platforms the program
is built for. -/
def wrapInt64 (x : Int) : Int := (x + 2 ^ 63) % 2 ^ 64 - 2 ^ 63

/-- The constant `time.Second`, a `time.Duration`: `int64` nanoseconds. -/
def second : Int := 1000000000

/-- One iteration of the outer loop of `approleSecretIDRotation` (lines 272 to 334) as far
as the variable `approleSecretIDLookupRetry` goes, given whether `approleSecretIDLookup`
returned an error: the new value of the variable and, in the failure branch, the duration
`time.Duration(approleSecretIDLookupRetry) * time.Second` passed to `time.Sleep`.  After a
successful lookup the variable is set to 60; the rotation that follows (lines 284 to 332)
neither reads nor writes it. -/
def approleSecretIDRotationStep (lookupFailed : Bool) (approleSecretIDLookupRetry : Int) :
    Int × Option Int :=
  if lookupFailed then
    (wrapInt64 (approleSecretIDLookupRetry * 2),
      some (wrapInt64 (approleSecretIDLookupRetry * second)))
  else (60, none)

/-- The outer loop of `approleSecretIDRotation` over the outcomes of its successive lookups
(`true` is an error), from a value of `approleSecretIDLookupRetry`: the value afterwards and
the durations passed to `time.Sleep` by the failure branch, oldest first. -/
def approleSecretIDRotationLoop : List Bool → Int → Int × List Int
  | [], approleSecretIDLookupRetry => (approleSecretIDLookupRetry, [])
  | lookupFailed :: rest, approleSecretIDLookupRetry =>
    let step := approleSecretIDRotationStep lookupFailed approleSecretIDLookupRetry
    let more := approleSecretIDRotationLoop rest step.1
    (more.1, (match step.2 with
              | some d => [d]
              | none => []) ++ more.2)

/-- The function `approleSecretIDRotation` from its start, where the variable is set to 60,
over the outcomes of its successive lookups. -/
def approleSecretIDRotation (lookups : List Bool) : Int × List Int :=
  approleSecretIDRotationLoop lookups 60

/-! ## The fixtures of the authentication tests -/

/-- The bootstrap Secret created by `testK8sServerCreateSystemSecret` with the given
parameter: no annotation for `NoAnnotation`, `createdBy = incorrect-annotation` for
`IncorrectAnnotation`, `createdBy = vault-to-k8s` otherwise. -/
def testSystemSecret (param : String) : Secret :=
  { name := "vault-to-k8s-system",
    data := [("token-accessor", toBytes "fake_token-accessor"),
             ("approle_secret-id", toBytes "fake_approle_secret-id")],
    annotations :=
      if param = "NoAnnotation" then []
      else if param = "IncorrectAnnotation" then [("createdBy", "incorrect-annotation")]
      else [("createdBy", "vault-to-k8s")] }

/-- A cluster that holds the given Secrets in the namespace `k8s-ns` of the pod, with an
empty log. -/
def testPodCluster (secrets : List Secret) : K8s :=
  { secrets := secrets.map (fun s => (("k8s-ns", s.name), s)), log := [] }

/-- The state at the start of an authentication test: a fresh `vtkData` with the role
name set by `testVaultServer`, no token, and the rotation intervals at their default -1. -/
def testAuthState (k8s : K8s) : AuthState :=
  { k8s := k8s, vault := [],
    d := { approleName := "vault-to-k8s", nonVersioningNamespacesList := ["k8s-ns-nonver"] },
    vaultToken := "", tokenRotationInterval := -1, approleSecretIDRotationInterval := -1 }

/-- The Vault server of the authentication tests, for a role whose tokens live `ttl`
seconds: the wrapping token `test-wrapped-token` unwraps once to the SecretID
`test-secret-id`, a login with that SecretID gives a token, a login with another SecretID
is refused, and the other requests are answered without content. -/
def testVaultServerAuth (ttl : Int) : VaultServer := fun history call =>
  match call with
  | VaultCall.unwrap wrappingToken =>
    if wrappingToken = "test-wrapped-token" ∧ VaultCall.unwrap wrappingToken ∉ history then
      Except.ok (some { data := [("secret_id", VaultValue.str "test-secret-id")],
                        auth := none })
    else Except.error "wrapping token is not valid or does not exist"
  | VaultCall.write path options =>
    if path = "auth/approle/login" then
      if GoMap.get options "secret_id" = some (some (VaultValue.str "test-secret-id")) then
        Except.ok (some { data := [],
                          auth := some { clientToken := "test-token",
                                         accessor := "test-token-accessor",
                                         metadata := [("role_name", "vault-to-k8s")],
                                         leaseDuration := ttl } })
      else Except.error "invalid secret id"
    else Except.ok none
  | VaultCall.setToken _ => Except.ok none

/-! ## verifyConfig and the split of the secrets path -/

/-- The checks of the authentication method in `verifyConfig` (lines 135 to 159): the error
returned, or the configuration variables afterwards, where `approleSecretIDWrappedToken` is
the content of the file when a file is named.  `vaultToken` is the package-level variable
of that name and `readFile` is `ioutil.ReadFile`. -/
def verifyConfigAuth (readFile : String → Except String Bytes) (vaultToken : String)
    (cfg : Config) : Except String Config :=
  if cfg.authMethod = "" then
    Except.error ("You must provide an auth method. "
      ++ "Parameter AUTH_METHOD can be \"token\" or \"approle\"")
  else if cfg.authMethod = "token" then
    if vaultToken = "" then
      Except.error "VAULT_TOKEN should be defined for \"token\" auth method"
    else Except.ok cfg
  else if cfg.authMethod = "approle" then
    if cfg.approleRoleID = "" then
      Except.error "APPROLE_ROLE_ID should be defined for \"approle\" auth method"
    else if cfg.approleSecretIDWrappedTokenFile = "" then
      if cfg.approleSecretIDWrappedToken = "" then
        Except.error
          "APPROLE_SECRET_ID_WRAPPED_TOKEN should be defined for \"approle\" auth method"
      else Except.ok cfg
    else
      match readFile cfg.approleSecretIDWrappedTokenFile with
      | Except.error e =>
        Except.error ("Failed to get AppRole Secret ID Wrapped Token from file '"
          ++ cfg.approleSecretIDWrappedTokenFile ++ "': " ++ e)
      | Except.ok data => Except.ok { cfg with approleSecretIDWrappedToken := ofBytes data }
  else Except.error "Incorrect value for AUTH_METHOD, can be \"token\" or \"approle\""

/-- The function `verifyConfig`: the error it returns, or, when it returns nil, the
configuration variables as it leaves them, `vaultSecretsPath` being without one trailing
`/`.  The call `os.Setenv` has no part in the result. -/
def verifyConfig (readFile : String → Except String Bytes) (vaultToken : String)
    (cfg : Config) : Except String Config :=
  if cfg.vaultAddr = "" then Except.error "Must set variable VAULT_ADDR"
  else if cfg.vaultNamespace = "" then Except.error "Must set variable VAULT_NAMESPACE"
  else
    match verifyConfigAuth readFile vaultToken cfg with
    | Except.error e => Except.error e
    | Except.ok cfg1 =>
      if cfg1.k8sClusterName = "" then Except.error "Must set variable K8S_CLUSTER_NAME"
      else if trimSuffix cfg1.vaultSecretsPath "/" = "" then
        Except.error "Must set variable SECRETS_PATH_VAULT"
      else Except.ok { cfg1 with vaultSecretsPath := trimSuffix cfg1.vaultSecretsPath "/" }

/-- The call `strings.SplitN(s, "/", 2)`: the text before the first `/` and the text after
it, or `s` alone when it has no `/`. -/
def splitN (s : String) : List String :=
  match s.data.dropWhile (fun c => c != '/') with
  | [] => [s]
  | _ :: rest => [String.mk (s.data.takeWhile (fun c => c != '/')), String.mk rest]

/-- The first lines of `vaultNamespacesList` (lines 395 to 397): the path `mountPath` that
the function lists, `none` when an index of the split is out of range and the function
panics. -/
def vaultNamespacesListMountPath (cfg : Config) : Option String :=
  match (splitN cfg.vaultSecretsPath)[0]?, (splitN cfg.vaultSecretsPath)[1]? with
  | some vaultMount, some vaultNamespacesMount =>
    some (vaultMount ++ "/metadata/" ++ vaultNamespacesMount)
  | _, _ => none

/-- The first lines of `secretsList` (lines 455 to 457): the path `mountPath` that the
function lists for a namespace, `none` when an index of the split is out of range and the
function panics. -/
def secretsListMountPath (cfg : Config) (namespace_ : String) : Option String :=
  match (splitN cfg.vaultSecretsPath)[0]?, (splitN cfg.vaultSecretsPath)[1]? with
  | some vaultMount, some vaultSecretsMount =>
    some (vaultMount ++ "/metadata/" ++ vaultSecretsMount ++ "/" ++ namespace_)
  | _, _ => none

/-- The configuration of `TestVerifyConfig`: the variables set by `defineAppInitParams`,
with the RoleID and the wrapped token left by the authentication tests that run before. -/
def testVerifyConfig : Config :=
  { testConfig with vaultAddr := "test.vaul.url", vaultNamespace := "vault-ns",
                    approleRoleID := "test-role-id",
                    approleSecretIDWrappedToken := "test-wrapped-token" }

/-! ## Properties of Go maps and strings -/

namespace GoMap

variable {K V : Type} [DecidableEq K]

theorem get_set_self (m : GoMap K V) (k : K) (v : V) : get (set m k v) k = some v := by
  induction m with
  | nil => simp [set, get]
  | cons p rest ih =>
    obtain ⟨k1, v1⟩ := p
    by_cases h : k1 = k
    · simp [set, get, h]
    · simp [set, get, h, ih]

theorem get_set_ne (m : GoMap K V) (k j : K) (v : V) (h : k ≠ j) :
    get (set m k v) j = get m j := by
  induction m with
  | nil => simp [set, get, h]
  | cons p rest ih =>
    obtain ⟨k1, v1⟩ := p
    by_cases h1 : k1 = k
    · subst h1
      simp [set, get, h]
    · by_cases h2 : k1 = j
      · subst h2
        simp [set, get, h1]
      · simp [set, get, h1, h2, ih]

theorem get_set (m : GoMap K V) (k j : K) (v : V) :
    get (set m k v) j = if k = j then some v else get m j := by
  by_cases h : k = j
  · subst h
    simp [get_set_self]
  · simp [h, get_set_ne m k j v h]

theorem get_delete (m : GoMap K V) (k j : K) :
    get (delete m k) j = if k = j then none else get m j := by
  induction m with
  | nil => simp [delete, get]
  | cons p rest ih =>
    obtain ⟨k1, v1⟩ := p
    unfold delete at ih ⊢
    by_cases h1 : k1 = k
    · subst h1
      by_cases h2 : k1 = j
      · simp [get, h2] at ih ⊢
        simpa [h2] using ih
      · simp [get, h2] at ih ⊢
        simpa [h2] using ih
    · by_cases h2 : k = j
      · subst h2
        simp [get, h1] at ih ⊢
        simpa using ih
      · simp [get, h1, h2] at ih ⊢
        rw [ih]

theorem deepEqual_self [DecidableEq V] (a : GoMap K V) : deepEqual a a = true := by
  simp [deepEqual]

theorem get_eq_none_of_not_mem_keys (m : GoMap K V) (k : K) (h : k ∉ keys m) :
    get m k = none := by
  induction m with
  | nil => rfl
  | cons p rest ih =>
    obtain ⟨k1, v1⟩ := p
    simp [keys] at h
    have h1 : k1 ≠ k := fun e => h.1 e.symm
    simp [get, h1]
    apply ih
    simpa [keys] using h.2

theorem mem_keys_of_get (m : GoMap K V) (k : K) (v : V) (h : get m k = some v) :
    k ∈ keys m := by
  by_contra hk
  rw [get_eq_none_of_not_mem_keys m k hk] at h
  cases h

end GoMap

/-! ## Properties of filterSecrets -/

/-- The flag that one loop iteration gives to the name it looks at, when the name has not
been recorded before. -/
theorem filterSecretsStep_get (nonVersioning : Bool) (suffix : String)
    (acc : GoMap String Int) (secret k : String) :
    GoMap.get (filterSecretsStep nonVersioning suffix acc secret) k =
      if secret = k then
        (if nonVersioning && hasSuffix secret suffix then some 0
         else match GoMap.get acc secret with
          | some x => some x
          | none =>
            if containsDot secret && (!hasSuffix secret suffix || decide (countDot secret > 1))
            then none else some 1)
      else GoMap.get acc k := by
  unfold filterSecretsStep
  by_cases h0 : (nonVersioning && hasSuffix secret suffix) = true
  · simp only [h0, if_true, GoMap.get_set_self, GoMap.get_set]
  · simp only [h0, if_false, Bool.false_eq_true]
    cases hg : GoMap.get acc secret with
    | some x =>
      by_cases hk : secret = k
      · subst hk
        simp [hg]
      · simp [hk]
    | none =>
      by_cases hc : (containsDot secret
          && (!hasSuffix secret suffix || decide (countDot secret > 1))) = true
      · simp only [hc, if_true]
        by_cases hk : secret = k
        · subst hk
          simp [hg]
        · simp [hk]
      · simp only [hc, if_false, Bool.false_eq_true, GoMap.get_set]

theorem filterSecrets_foldl_get (nv : Bool) (suffix : String) (l seen : List String)
    (acc : GoMap String Int) (k : String)
    (hacc : ∀ j, GoMap.get acc j =
      if j ∈ seen then
        (if nv && hasSuffix j suffix then some 0
         else if containsDot j && (!hasSuffix j suffix || decide (countDot j > 1)) then none
         else some 1)
      else none) :
    GoMap.get (l.foldl (filterSecretsStep nv suffix) acc) k =
      if k ∈ seen ++ l then
        (if nv && hasSuffix k suffix then some 0
         else if containsDot k && (!hasSuffix k suffix || decide (countDot k > 1)) then none
         else some 1)
      else none := by
  induction l generalizing acc seen with
  | nil => simpa using hacc k
  | cons s rest ih =>
    rw [List.foldl_cons]
    have key := ih (seen ++ [s]) (filterSecretsStep nv suffix acc s) (by
      intro j
      rw [filterSecretsStep_get]
      by_cases hj : s = j
      · subst hj
        simp only [if_true, List.mem_append, List.mem_singleton, or_true]
        by_cases h0 : (nv && hasSuffix s suffix) = true
        · simp only [h0, if_true]
        · simp only [h0, if_false, Bool.false_eq_true]
          rw [hacc s]
          by_cases hs : s ∈ seen
          · simp only [hs, if_true, h0, if_false, Bool.false_eq_true]
            by_cases hc : (containsDot s
                && (!hasSuffix s suffix || decide (countDot s > 1))) = true
            · simp only [hc, if_true]
            · simp only [hc, if_false, Bool.false_eq_true]
          · simp only [hs, if_false]
      · simp only [hj, if_false, List.mem_append, List.mem_singleton]
        rw [hacc j]
        have : (j ∈ seen ∨ j = s) ↔ j ∈ seen := by
          constructor
          · rintro (h | h)
            · exact h
            · exact absurd h.symm hj
          · exact Or.inl
        simp only [this])
    simpa [List.append_assoc] using key

/-- Closed form of the map returned by `filterSecrets`: the flag of every name. -/
theorem filterSecrets_get (d : vtkData) (secrets : List String) (suffix ns k : String) :
    GoMap.get (filterSecrets d secrets suffix ns) k =
      if k ∈ secrets then
        (if nonVersioningNamespace d ns && hasSuffix k suffix then some 0
         else if containsDot k && (!hasSuffix k suffix || decide (countDot k > 1)) then none
         else some 1)
      else none := by
  have h := filterSecrets_foldl_get (nonVersioningNamespace d ns) suffix secrets [] [] k
    (by intro j; simp [GoMap.get])
  simpa [filterSecrets] using h

theorem nonVersioningNamespace_iff (d : vtkData) (ns : String) :
    nonVersioningNamespace d ns = true ↔ ns ∈ d.nonVersioningNamespacesList := by
  unfold nonVersioningNamespace
  rw [List.any_eq_true]
  constructor
  · rintro ⟨x, hx, hd⟩
    have : x = ns := of_decide_eq_true hd
    exact this ▸ hx
  · intro h
    exact ⟨ns, h, decide_eq_true rfl⟩

theorem containsDot_iff_countDot (s : String) : containsDot s = true ↔ 0 < countDot s := by
  simp [containsDot, countDot, List.count_pos_iff]

theorem trimSuffix_length_le (s suffix : String) :
    (trimSuffix s suffix).length ≤ s.length := by
  unfold trimSuffix
  split
  · obtain ⟨l⟩ := s
    show (List.take (l.length - suffix.data.length) l).length ≤ l.length
    rw [List.length_take]
    omega
  · exact Nat.le_refl _

/-- The versioned candidate name is never the suffix-stripped name: it is longer. -/
theorem versioned_ne_trimSuffix (name v suffix : String) :
    name ++ "-v" ++ v ≠ trimSuffix name suffix := by
  intro h
  have h1 := trimSuffix_length_le name suffix
  rw [← h] at h1
  simp [String.length_append] at h1
  have h2 : ("-v" : String).length = 2 := by decide
  omega

/-- The candidate map as a list of entries. -/
theorem k8sSecretsForUpdate_list (job : secretForUpdate) (v suffix : String) :
    k8sSecretsForUpdate job v suffix =
      (if job.versioning = 0 then
        [(job.name ++ "-v" ++ v, 1), (trimSuffix job.name suffix, 0)]
      else [(job.name ++ "-v" ++ v, 1)]) := by
  have hne := versioned_ne_trimSuffix job.name v suffix
  unfold k8sSecretsForUpdate
  by_cases hf : job.versioning = 0
  · simp [hf, GoMap.set, hne]
  · simp [hf, GoMap.set]

/-! ## The cluster requests -/

theorem notFoundError_notFound (name : String) : (K8s.notFoundError name).notFound = true :=
  rfl

theorem get_fault (faults : Faults) (k : K8s) (ns name msg : String)
    (h : faults k.log.length (ApiCall.get ns name) = some msg) :
    K8s.get faults k ns name =
      ({ secrets := k.secrets,
         log := k.log ++ [{ call := ApiCall.get ns name,
                            err := some { notFound := false, msg := msg } }] },
        Except.error { notFound := false, msg := msg }) := by
  simp [K8s.get, h, K8s.record]

theorem get_found (faults : Faults) (k : K8s) (ns name : String) (s : Secret)
    (h : faults k.log.length (ApiCall.get ns name) = none)
    (hs : GoMap.get k.secrets (ns, name) = some s) :
    K8s.get faults k ns name =
      ({ secrets := k.secrets,
         log := k.log ++ [{ call := ApiCall.get ns name, err := none }] }, Except.ok s) := by
  simp [K8s.get, h, hs, K8s.record]

theorem get_notFound (faults : Faults) (k : K8s) (ns name : String)
    (h : faults k.log.length (ApiCall.get ns name) = none)
    (hs : GoMap.get k.secrets (ns, name) = none) :
    K8s.get faults k ns name =
      ({ secrets := k.secrets,
         log := k.log ++ [{ call := ApiCall.get ns name,
                            err := some (K8s.notFoundError name) }] },
        Except.error (K8s.notFoundError name)) := by
  simp [K8s.get, h, hs, K8s.record]

theorem create_fault (faults : Faults) (k : K8s) (ns : String) (secret : Secret) (msg : String)
    (h : faults k.log.length (ApiCall.create ns secret) = some msg) :
    K8s.create faults k ns secret =
      ({ secrets := k.secrets,
         log := k.log ++ [{ call := ApiCall.create ns secret,
                            err := some { notFound := false, msg := msg } }] },
        some { notFound := false, msg := msg }) := by
  simp [K8s.create, h, K8s.record]

theorem create_ok (faults : Faults) (k : K8s) (ns : String) (secret : Secret)
    (h : faults k.log.length (ApiCall.create ns secret) = none)
    (hs : GoMap.get k.secrets (ns, secret.name) = none) :
    K8s.create faults k ns secret =
      ({ secrets := GoMap.set k.secrets (ns, secret.name) secret,
         log := k.log ++ [{ call := ApiCall.create ns secret, err := none }] }, none) := by
  simp [K8s.create, h, hs, K8s.record]

theorem update_fault (faults : Faults) (k : K8s) (ns : String) (secret : Secret) (msg : String)
    (h : faults k.log.length (ApiCall.update ns secret) = some msg) :
    K8s.update faults k ns secret =
      ({ secrets := k.secrets,
         log := k.log ++ [{ call := ApiCall.update ns secret,
                            err := some { notFound := false, msg := msg } }] },
        some { notFound := false, msg := msg }) := by
  simp [K8s.update, h, K8s.record]

theorem update_ok (faults : Faults) (k : K8s) (ns : String) (secret old : Secret)
    (h : faults k.log.length (ApiCall.update ns secret) = none)
    (hs : GoMap.get k.secrets (ns, secret.name) = some old) :
    K8s.update faults k ns secret =
      ({ secrets := GoMap.set k.secrets (ns, secret.name) secret,
         log := k.log ++ [{ call := ApiCall.update ns secret, err := none }] }, none) := by
  simp [K8s.update, h, hs, K8s.record]

theorem GoMap.set_set_self {K V : Type} [DecidableEq K] (m : GoMap K V) (k : K) (v w : V) :
    GoMap.set (GoMap.set m k v) k w = GoMap.set m k w := by
  induction m with
  | nil => simp [GoMap.set]
  | cons p rest ih =>
    obtain ⟨k1, v1⟩ := p
    by_cases h : k1 = k
    · simp [GoMap.set, h]
    · simp [GoMap.set, h, ih]

/-! ## One iteration of the create/update loop

Every run of the loop body for a candidate name is one of seven cases: the Get fails; the
Secret is absent and created; it is absent and the Create is refused; it is found with the
same data; it is found with other data and without the annotation or with another value;
it is found, eligible and the second Update succeeds; or the second Update fails. -/

theorem syncSecret_cases (cfg : Config) (faults : Faults) (ns path : String)
    (data : GoMap String Bytes) (k : K8s) (res : updateSecretResults) (name : String) :
    (∃ msg, faults k.log.length (ApiCall.get ns name) = some msg
      ∧ syncSecret cfg faults ns path data (k, res) name =
        (({ secrets := k.secrets,
            log := k.log ++ [{ call := ApiCall.get ns name,
                               err := some { notFound := false, msg := msg } }] },
          { res with skipped := res.skipped + 1 }), false))
    ∨ (faults k.log.length (ApiCall.get ns name) = none
      ∧ GoMap.get k.secrets (ns, name) = none
      ∧ faults (k.log.length + 1) (ApiCall.create ns (secretFor cfg path data name)) = none
      ∧ syncSecret cfg faults ns path data (k, res) name =
        (({ secrets := GoMap.set k.secrets (ns, name) (secretFor cfg path data name),
            log := k.log ++ [{ call := ApiCall.get ns name,
                               err := some (K8s.notFoundError name) },
                             { call := ApiCall.create ns (secretFor cfg path data name),
                               err := none }] },
          { res with created := res.created + 1, synced := res.synced + 1 }), false))
    ∨ (∃ msg, faults k.log.length (ApiCall.get ns name) = none
      ∧ GoMap.get k.secrets (ns, name) = none
      ∧ faults (k.log.length + 1) (ApiCall.create ns (secretFor cfg path data name)) = some msg
      ∧ syncSecret cfg faults ns path data (k, res) name =
        (({ secrets := k.secrets,
            log := k.log ++ [{ call := ApiCall.get ns name,
                               err := some (K8s.notFoundError name) },
                             { call := ApiCall.create ns (secretFor cfg path data name),
                               err := some { notFound := false, msg := msg } }] },
          { res with skipped := res.skipped + 1 }), false))
    ∨ (∃ ex, faults k.log.length (ApiCall.get ns name) = none
      ∧ GoMap.get k.secrets (ns, name) = some ex
      ∧ GoMap.deepEqual ex.data data = true
      ∧ syncSecret cfg faults ns path data (k, res) name =
        (({ secrets := k.secrets,
            log := k.log ++ [{ call := ApiCall.get ns name, err := none }] },
          { res with synced := res.synced + 1 }), false))
    ∨ (∃ ex, faults k.log.length (ApiCall.get ns name) = none
      ∧ GoMap.get k.secrets (ns, name) = some ex
      ∧ GoMap.deepEqual ex.data data = false
      ∧ GoMap.get ex.annotations cfg.annotationName ≠ some path
      ∧ syncSecret cfg faults ns path data (k, res) name =
        (({ secrets := k.secrets,
            log := k.log ++ [{ call := ApiCall.get ns name, err := none }] },
          { res with skipped := res.skipped + 1 }), false))
    ∨ (∃ ex e1, faults k.log.length (ApiCall.get ns name) = none
      ∧ GoMap.get k.secrets (ns, name) = some ex
      ∧ GoMap.deepEqual ex.data data = false
      ∧ GoMap.get ex.annotations cfg.annotationName = some path
      ∧ faults (k.log.length + 2) (ApiCall.update ns (secretFor cfg path data name)) = none
      ∧ syncSecret cfg faults ns path data (k, res) name =
        (({ secrets := GoMap.set k.secrets (ns, name) (secretFor cfg path data name),
            log := k.log ++ [{ call := ApiCall.get ns name, err := none },
                             { call := ApiCall.update ns (secretFor cfg path data name),
                               err := e1 },
                             { call := ApiCall.update ns (secretFor cfg path data name),
                               err := none }] },
          { res with updated := res.updated + 1, synced := res.synced + 1 }), false))
    ∨ (∃ ex e1 msg secrets1, faults k.log.length (ApiCall.get ns name) = none
      ∧ GoMap.get k.secrets (ns, name) = some ex
      ∧ GoMap.deepEqual ex.data data = false
      ∧ GoMap.get ex.annotations cfg.annotationName = some path
      ∧ faults (k.log.length + 2) (ApiCall.update ns (secretFor cfg path data name)) = some msg
      ∧ (secrets1 = k.secrets
        ∨ secrets1 = GoMap.set k.secrets (ns, name) (secretFor cfg path data name))
      ∧ syncSecret cfg faults ns path data (k, res) name =
        (({ secrets := secrets1,
            log := k.log ++ [{ call := ApiCall.get ns name, err := none },
                             { call := ApiCall.update ns (secretFor cfg path data name),
                               err := e1 },
                             { call := ApiCall.update ns (secretFor cfg path data name),
                               err := some { notFound := false, msg := msg } }] },
          { res with err := some ("Error during update k8s secret: " ++ msg) }), true)) := by
  have hname : (secretFor cfg path data name).name = name := rfl
  have hdata : (secretFor cfg path data name).data = data := rfl
  cases hg : faults k.log.length (ApiCall.get ns name) with
  | some msg =>
    left
    refine ⟨msg, rfl, ?_⟩
    simp only [syncSecret, hname, get_fault faults k ns name msg hg]
    simp
  | none =>
    right
    cases hs : GoMap.get k.secrets (ns, name) with
    | none =>
      have hget := get_notFound faults k ns name hg hs
      cases hc : faults (k.log.length + 1) (ApiCall.create ns (secretFor cfg path data name)) with
      | none =>
        left
        refine ⟨rfl, rfl, rfl, ?_⟩
        have hcr := create_ok faults
          { secrets := k.secrets,
            log := k.log ++ [{ call := ApiCall.get ns name,
                               err := some (K8s.notFoundError name) }] }
          ns (secretFor cfg path data name) (by simpa using hc) (by simpa [hname] using hs)
        simp only [syncSecret, hname, hget, notFoundError_notFound, if_true, hcr]
        simp
      | some msg =>
        right; left
        refine ⟨msg, rfl, rfl, rfl, ?_⟩
        have hcr := create_fault faults
          { secrets := k.secrets,
            log := k.log ++ [{ call := ApiCall.get ns name,
                               err := some (K8s.notFoundError name) }] }
          ns (secretFor cfg path data name) msg (by simpa using hc)
        simp only [syncSecret, hname, hget, notFoundError_notFound, if_true, hcr]
        simp
    | some ex =>
      right; right
      have hget := get_found faults k ns name ex hg hs
      cases hd : GoMap.deepEqual ex.data data with
      | true =>
        left
        refine ⟨ex, rfl, rfl, hd, ?_⟩
        simp only [syncSecret, hname, hdata, hget, hd, if_true]
      | false =>
        right
        cases ha : GoMap.get ex.annotations cfg.annotationName with
        | none =>
          left
          refine ⟨ex, rfl, rfl, hd, by simp [ha], ?_⟩
          simp only [syncSecret, hname, hdata, hget, hd, ha]
          simp
        | some a =>
          by_cases hap : a = path
          · subst hap
            right
            -- the first Update
            have h1 : ∃ e1 secrets1, K8s.update faults
                { secrets := k.secrets,
                  log := k.log ++ [{ call := ApiCall.get ns name, err := none }] } ns
                (secretFor cfg a data name) =
                  ({ secrets := secrets1,
                     log := k.log ++ [{ call := ApiCall.get ns name, err := none },
                       { call := ApiCall.update ns (secretFor cfg a data name), err := e1 }] },
                    e1)
                ∧ (secrets1 = k.secrets
                  ∨ secrets1 = GoMap.set k.secrets (ns, name) (secretFor cfg a data name)) := by
              cases hu : faults (k.log.length + 1)
                  (ApiCall.update ns (secretFor cfg a data name)) with
              | some msg1 =>
                refine ⟨some { notFound := false, msg := msg1 }, k.secrets, ?_, Or.inl rfl⟩
                rw [update_fault faults _ ns _ msg1 (by simpa using hu)]
                simp
              | none =>
                refine ⟨none, GoMap.set k.secrets (ns, name) (secretFor cfg a data name), ?_,
                  Or.inr rfl⟩
                rw [update_ok faults _ ns _ ex (by simpa using hu) (by simpa [hname] using hs)]
                simp [hname]
            obtain ⟨e1, secrets1, hup1, hsec1⟩ := h1
            have hex1 : ∃ old, GoMap.get secrets1 (ns, name) = some old := by
              rcases hsec1 with h | h
              · exact ⟨ex, by rw [h]; exact hs⟩
              · exact ⟨_, by rw [h]; exact GoMap.get_set_self _ _ _⟩
            obtain ⟨old, hold⟩ := hex1
            cases hu2 : faults (k.log.length + 2)
                (ApiCall.update ns (secretFor cfg a data name)) with
            | none =>
              left
              refine ⟨ex, e1, rfl, rfl, hd, ha, rfl, ?_⟩
              have hup2 := update_ok faults
                { secrets := secrets1,
                  log := k.log ++ [{ call := ApiCall.get ns name, err := none },
                    { call := ApiCall.update ns (secretFor cfg a data name), err := e1 }] }
                ns (secretFor cfg a data name) old (by simpa using hu2)
                (by simpa [hname] using hold)
              have hfin : GoMap.set secrets1 (ns, name) (secretFor cfg a data name) =
                  GoMap.set k.secrets (ns, name) (secretFor cfg a data name) := by
                rcases hsec1 with h | h
                · rw [h]
                · rw [h, GoMap.set_set_self]
              simp only [syncSecret, hname, hdata, hget, hd, ha, hup1, hup2]
              simp [hfin]
            | some msg =>
              right
              refine ⟨ex, e1, msg, secrets1, rfl, rfl, hd, ha, rfl, hsec1, ?_⟩
              have hup2 := update_fault faults
                { secrets := secrets1,
                  log := k.log ++ [{ call := ApiCall.get ns name, err := none },
                    { call := ApiCall.update ns (secretFor cfg a data name), err := e1 }] }
                ns (secretFor cfg a data name) msg (by simpa using hu2)
              simp only [syncSecret, hname, hdata, hget, hd, ha, hup1, hup2]
              simp
          · left
            refine ⟨ex, rfl, rfl, hd, by simp [ha, hap], ?_⟩
            simp only [syncSecret, hname, hdata, hget, hd, ha]
            simp [hap]

/-! ## The loop over the candidates and the job -/

/-- A property that holds before the create/update loop and is kept by every iteration
holds when the loop ends, whether it ends normally or by the return after a failed Update. -/
theorem syncSecrets_invariant (cfg : Config) (faults : Faults) (ns path : String)
    (data : GoMap String Bytes) (P : K8s × updateSecretResults → Prop) (names : List String)
    (st : K8s × updateSecretResults) (h0 : P st)
    (hstep : ∀ st1 name, name ∈ names → P st1 →
      P (syncSecret cfg faults ns path data st1 name).1) :
    P (syncSecrets cfg faults ns path data names st) := by
  induction names generalizing st with
  | nil => simpa [syncSecrets] using h0
  | cons name rest ih =>
    have h1 := hstep st name (List.mem_cons_self _ _) h0
    unfold syncSecrets
    by_cases hab : (syncSecret cfg faults ns path data st name).2 = true
    · simpa [hab] using h1
    · simp only [hab]
      exact ih _ h1 (fun st1 n hn hp => hstep st1 n (List.mem_cons_of_mem _ hn) hp)

/-- The candidates that are left after the check against the pre-listed cluster Secrets,
and the counters after it. -/
theorem verifyVersioning_eq (k8sSecrets : List String) (job : secretForUpdate)
    (v suffix : String) (res : updateSecretResults) :
    verifyVersioning k8sSecrets (k8sSecretsForUpdate job v suffix) res =
      ((if job.name ++ "-v" ++ v ∈ k8sSecrets then [] else [(job.name ++ "-v" ++ v, 1)])
        ++ (if job.versioning = 0 then [(trimSuffix job.name suffix, 0)] else []),
       { res with synced := res.synced
          + (if job.name ++ "-v" ++ v ∈ k8sSecrets then 1 else 0) }) := by
  have hne := versioned_ne_trimSuffix job.name v suffix
  rw [k8sSecretsForUpdate_list job v suffix]
  by_cases hf : job.versioning = 0 <;> by_cases hl : job.name ++ "-v" ++ v ∈ k8sSecrets
    <;> simp [verifyVersioning, hf, hl, GoMap.delete, Ne.symm hne]

/-- The job whose Vault read fails: the cluster is not touched, the result carries the
error and the worker returns. -/
theorem processJob_readError (cfg : Config) (faults : Faults) (read : VaultRead)
    (ns suffix : String) (k8sSecrets : List String) (rev : Bool) (k8s : K8s)
    (job : secretForUpdate) (e : String)
    (hread : read (cfg.vaultSecretsPath ++ "/" ++ ns ++ "/" ++ job.name) = Except.error e) :
    processJob cfg faults read ns suffix k8sSecrets rev k8s job =
      { k8s := k8s,
        updateResults := { created := 0, updated := 0, skipped := 0, synced := 0,
                           err := some ("Error during read Vault secret: " ++ e) },
        ended := Exit.returned } := by
  simp [processJob, hread]

/-- The job whose Vault entry has no data, or whose conversion ends at a value of a kind
other than `reflect.String`: the cluster is not touched and the entry is counted as
skipped. -/
theorem processJob_skipped (cfg : Config) (faults : Faults) (read : VaultRead)
    (ns suffix : String) (k8sSecrets : List String) (rev : Bool) (k8s : K8s)
    (job : secretForUpdate) (s : GoMap String VaultValue) (v : String)
    (hread : read (cfg.vaultSecretsPath ++ "/" ++ ns ++ "/" ++ job.name) = Except.ok (s, v))
    (hbad : s = [] ∨ convertData s = Conversion.incorrect) :
    processJob cfg faults read ns suffix k8sSecrets rev k8s job =
      { k8s := k8s,
        updateResults := { created := 0, updated := 0, skipped := 1, synced := 0,
                           err := none },
        ended := Exit.continued } := by
  rcases hbad with h | h
  · simp [processJob, hread, h]
  · by_cases h0 : s.length = 0
    · simp [processJob, hread, h0]
    · simp [processJob, hread, h0, h]

/-- The job whose conversion ends at a `json.Number`: the worker panics; it has sent no
request to the cluster and no result. -/
theorem processJob_panicked (cfg : Config) (faults : Faults) (read : VaultRead)
    (ns suffix : String) (k8sSecrets : List String) (rev : Bool) (k8s : K8s)
    (job : secretForUpdate) (s : GoMap String VaultValue) (v : String)
    (hread : read (cfg.vaultSecretsPath ++ "/" ++ ns ++ "/" ++ job.name) = Except.ok (s, v))
    (hs : s ≠ []) (hconv : convertData s = Conversion.panicked) :
    processJob cfg faults read ns suffix k8sSecrets rev k8s job =
      { k8s := k8s,
        updateResults := { created := 0, updated := 0, skipped := 0, synced := 0,
                           err := none },
        ended := Exit.panicked } := by
  have h0 : ¬ s.length = 0 := by
    intro h
    exact hs (List.length_eq_zero.1 h)
  simp [processJob, hread, h0, hconv]

/-- The job whose Vault entry has non-empty string-only data: the create/update loop runs
over the candidates that are left after the check against the pre-listed Secrets. -/
theorem processJob_ok (cfg : Config) (faults : Faults) (read : VaultRead)
    (ns suffix : String) (k8sSecrets : List String) (rev : Bool) (k8s : K8s)
    (job : secretForUpdate) (s : GoMap String VaultValue) (v : String)
    (data : GoMap String Bytes)
    (hread : read (cfg.vaultSecretsPath ++ "/" ++ ns ++ "/" ++ job.name) = Except.ok (s, v))
    (hs : s ≠ []) (hconv : convertData s = Conversion.converted data) :
    processJob cfg faults read ns suffix k8sSecrets rev k8s job =
      { k8s := (syncSecrets cfg faults ns
          (cfg.vaultSecretsPath ++ "/" ++ ns ++ "/" ++ job.name) data
          (rangeOrder rev
            ((if job.name ++ "-v" ++ v ∈ k8sSecrets then [] else [job.name ++ "-v" ++ v])
              ++ (if job.versioning = 0 then [trimSuffix job.name suffix] else [])))
          (k8s, { created := 0, updated := 0, skipped := 0,
                  synced := if job.name ++ "-v" ++ v ∈ k8sSecrets then 1 else 0,
                  err := none })).1,
        updateResults := (syncSecrets cfg faults ns
          (cfg.vaultSecretsPath ++ "/" ++ ns ++ "/" ++ job.name) data
          (rangeOrder rev
            ((if job.name ++ "-v" ++ v ∈ k8sSecrets then [] else [job.name ++ "-v" ++ v])
              ++ (if job.versioning = 0 then [trimSuffix job.name suffix] else [])))
          (k8s, { created := 0, updated := 0, skipped := 0,
                  synced := if job.name ++ "-v" ++ v ∈ k8sSecrets then 1 else 0,
                  err := none })).2,
        ended :=
          if (syncSecrets cfg faults ns
              (cfg.vaultSecretsPath ++ "/" ++ ns ++ "/" ++ job.name) data
              (rangeOrder rev
                ((if job.name ++ "-v" ++ v ∈ k8sSecrets then [] else [job.name ++ "-v" ++ v])
                  ++ (if job.versioning = 0 then [trimSuffix job.name suffix] else [])))
              (k8s, { created := 0, updated := 0, skipped := 0,
                      synced := if job.name ++ "-v" ++ v ∈ k8sSecrets then 1 else 0,
                      err := none })).2.err.isSome
          then Exit.returned else Exit.continued } := by
  have h0 : ¬ s.length = 0 := by
    intro h
    exact hs (List.length_eq_zero.1 h)
  simp only [processJob, hread, h0, if_false, hconv, verifyVersioning_eq]
  by_cases hf : job.versioning = 0 <;> by_cases hl : job.name ++ "-v" ++ v ∈ k8sSecrets
    <;> simp [hf, hl, GoMap.keys, rangeOrder, syncSecrets]

/-- Every job is of one of the four kinds above. -/
theorem processJob_cases (cfg : Config) (read : VaultRead) (ns : String)
    (job : secretForUpdate) :
    (∃ e, read (cfg.vaultSecretsPath ++ "/" ++ ns ++ "/" ++ job.name) = Except.error e)
    ∨ (∃ s v, read (cfg.vaultSecretsPath ++ "/" ++ ns ++ "/" ++ job.name) = Except.ok (s, v)
        ∧ (s = [] ∨ convertData s = Conversion.incorrect))
    ∨ (∃ s v, read (cfg.vaultSecretsPath ++ "/" ++ ns ++ "/" ++ job.name) = Except.ok (s, v)
        ∧ s ≠ [] ∧ convertData s = Conversion.panicked)
    ∨ (∃ s v data,
        read (cfg.vaultSecretsPath ++ "/" ++ ns ++ "/" ++ job.name) = Except.ok (s, v)
        ∧ s ≠ [] ∧ convertData s = Conversion.converted data) := by
  cases hr : read (cfg.vaultSecretsPath ++ "/" ++ ns ++ "/" ++ job.name) with
  | error e => exact Or.inl ⟨e, rfl⟩
  | ok p =>
    obtain ⟨s, v⟩ := p
    right
    by_cases hs : s = []
    · exact Or.inl ⟨s, v, rfl, Or.inl hs⟩
    · cases hc : convertData s with
      | incorrect => exact Or.inl ⟨s, v, rfl, Or.inr hc⟩
      | panicked => exact Or.inr (Or.inl ⟨s, v, rfl, hs, hc⟩)
      | converted data => exact Or.inr (Or.inr ⟨s, v, data, rfl, hs, hc⟩)

/-! ## Secrets of another owner are left alone -/

/-- One iteration leaves alone every Secret that exists without the annotation or with
another value of it, and sends no Create or Update for it. -/
theorem syncSecret_foreign (cfg : Config) (faults : Faults) (ns path : String)
    (data : GoMap String Bytes) (k : K8s) (res : updateSecretResults) (name : String)
    (key : String × String) (sec : Secret)
    (hex : GoMap.get k.secrets key = some sec)
    (hf : GoMap.get sec.annotations cfg.annotationName ≠ some path) :
    GoMap.get (syncSecret cfg faults ns path data (k, res) name).1.1.secrets key = some sec
    ∧ ∃ evs, (syncSecret cfg faults ns path data (k, res) name).1.1.log = k.log ++ evs
      ∧ ∀ e ∈ evs, e.call.isWrite = true → e.call.target ≠ key := by
  have hname : (secretFor cfg path data name).name = name := rfl
  rcases syncSecret_cases cfg faults ns path data k res name with
    ⟨msg, _, h⟩ | ⟨_, hnone, _, h⟩ | ⟨msg, _, hnone, _, h⟩ | ⟨ex, _, _, _, h⟩
    | ⟨ex, _, _, _, _, h⟩ | ⟨ex, e1, _, hsome, _, hann, _, h⟩
    | ⟨ex, e1, msg, secrets1, _, hsome, _, hann, _, hsec, h⟩
  · rw [h]
    exact ⟨hex, _, rfl, by simp [ApiCall.isWrite]⟩
  · have hk : (ns, name) ≠ key := by
      intro e
      rw [e, hex] at hnone
      cases hnone
    rw [h]
    refine ⟨by simp [GoMap.get_set_ne _ _ _ _ hk, hex], _, rfl, ?_⟩
    intro e he hw
    simp at he
    rcases he with rfl | rfl
    · simp [ApiCall.isWrite] at hw
    · simpa [ApiCall.target, hname] using hk
  · have hk : (ns, name) ≠ key := by
      intro e
      rw [e, hex] at hnone
      cases hnone
    rw [h]
    refine ⟨hex, _, rfl, ?_⟩
    intro e he hw
    simp at he
    rcases he with rfl | rfl
    · simp [ApiCall.isWrite] at hw
    · simpa [ApiCall.target, hname] using hk
  · rw [h]
    exact ⟨hex, _, rfl, by simp [ApiCall.isWrite]⟩
  · rw [h]
    exact ⟨hex, _, rfl, by simp [ApiCall.isWrite]⟩
  · have hk : (ns, name) ≠ key := by
      intro e
      rw [e, hex] at hsome
      cases hsome
      exact hf hann
    rw [h]
    refine ⟨by simp [GoMap.get_set_ne _ _ _ _ hk, hex], _, rfl, ?_⟩
    intro e he hw
    simp at he
    rcases he with rfl | rfl | rfl
    · simp [ApiCall.isWrite] at hw
    · simpa [ApiCall.target, hname] using hk
    · simpa [ApiCall.target, hname] using hk
  · have hk : (ns, name) ≠ key := by
      intro e
      rw [e, hex] at hsome
      cases hsome
      exact hf hann
    rw [h]
    refine ⟨?_, _, rfl, ?_⟩
    · rcases hsec with hs | hs
      · simp [hs, hex]
      · simp [hs, GoMap.get_set_ne _ _ _ _ hk, hex]
    · intro e he hw
      simp at he
      rcases he with rfl | rfl | rfl
      · simp [ApiCall.isWrite] at hw
      · simpa [ApiCall.target, hname] using hk
      · simpa [ApiCall.target, hname] using hk

/-- The whole create/update loop leaves such a Secret alone. -/
theorem syncSecrets_foreign (cfg : Config) (faults : Faults) (ns path : String)
    (data : GoMap String Bytes) (names : List String) (st : K8s × updateSecretResults)
    (key : String × String) (sec : Secret)
    (hex : GoMap.get st.1.secrets key = some sec)
    (hf : GoMap.get sec.annotations cfg.annotationName ≠ some path) :
    GoMap.get (syncSecrets cfg faults ns path data names st).1.secrets key = some sec
    ∧ ∃ evs, (syncSecrets cfg faults ns path data names st).1.log = st.1.log ++ evs
      ∧ ∀ e ∈ evs, e.call.isWrite = true → e.call.target ≠ key := by
  apply syncSecrets_invariant cfg faults ns path data
    (fun st1 => GoMap.get st1.1.secrets key = some sec
      ∧ ∃ evs, st1.1.log = st.1.log ++ evs
        ∧ ∀ e ∈ evs, e.call.isWrite = true → e.call.target ≠ key)
  · exact ⟨hex, [], by simp, by simp⟩
  · rintro ⟨k1, r1⟩ name _ ⟨h1, evs, hlog, hev⟩
    obtain ⟨h2, evs2, hlog2, hev2⟩ :=
      syncSecret_foreign cfg faults ns path data k1 r1 name key sec h1 hf
    refine ⟨h2, evs ++ evs2, ?_, ?_⟩
    · rw [hlog2]
      simp only at hlog
      rw [hlog, List.append_assoc]
    · intro e he
      rcases List.mem_append.1 he with h | h
      · exact hev e h
      · exact hev2 e h

/-! ## Frame: an iteration only touches the Secret of its candidate name -/

theorem syncSecret_frame (cfg : Config) (faults : Faults) (ns path : String)
    (data : GoMap String Bytes) (k : K8s) (res : updateSecretResults) (name : String)
    (key : String × String) (hk : (ns, name) ≠ key) :
    GoMap.get (syncSecret cfg faults ns path data (k, res) name).1.1.secrets key
      = GoMap.get k.secrets key := by
  rcases syncSecret_cases cfg faults ns path data k res name with
    ⟨msg, _, h⟩ | ⟨_, _, _, h⟩ | ⟨msg, _, _, _, h⟩ | ⟨ex, _, _, _, h⟩
    | ⟨ex, _, _, _, _, h⟩ | ⟨ex, e1, _, _, _, _, _, h⟩
    | ⟨ex, e1, msg, secrets1, _, _, _, _, _, hsec, h⟩
  · rw [h]
  · rw [h]; simp [GoMap.get_set_ne _ _ _ _ hk]
  · rw [h]
  · rw [h]
  · rw [h]
  · rw [h]; simp [GoMap.get_set_ne _ _ _ _ hk]
  · rw [h]
    rcases hsec with hs | hs
    · simp [hs]
    · simp [hs, GoMap.get_set_ne _ _ _ _ hk]

/-- The requests of one iteration are about its candidate name. -/
theorem syncSecret_log (cfg : Config) (faults : Faults) (ns path : String)
    (data : GoMap String Bytes) (k : K8s) (res : updateSecretResults) (name : String) :
    ∃ evs, (syncSecret cfg faults ns path data (k, res) name).1.1.log = k.log ++ evs
      ∧ ∀ e ∈ evs, e.call.target = (ns, name) := by
  have hname : (secretFor cfg path data name).name = name := rfl
  rcases syncSecret_cases cfg faults ns path data k res name with
    ⟨msg, _, h⟩ | ⟨_, _, _, h⟩ | ⟨msg, _, _, _, h⟩ | ⟨ex, _, _, _, h⟩
    | ⟨ex, _, _, _, _, h⟩ | ⟨ex, e1, _, _, _, _, _, h⟩
    | ⟨ex, e1, msg, secrets1, _, _, _, _, _, hsec, h⟩
  all_goals
    rw [h]
    refine ⟨_, rfl, ?_⟩
    intro e he
    simp at he
    rcases he with rfl | rfl | rfl <;> simp [ApiCall.target, hname]

theorem syncSecrets_frame (cfg : Config) (faults : Faults) (ns path : String)
    (data : GoMap String Bytes) (names : List String) (st : K8s × updateSecretResults)
    (key : String × String) (hk : ∀ n ∈ names, (ns, n) ≠ key) :
    GoMap.get (syncSecrets cfg faults ns path data names st).1.secrets key
      = GoMap.get st.1.secrets key := by
  apply syncSecrets_invariant cfg faults ns path data
    (fun st1 => GoMap.get st1.1.secrets key = GoMap.get st.1.secrets key)
  · rfl
  · rintro ⟨k1, r1⟩ name hn h1
    rw [syncSecret_frame cfg faults ns path data k1 r1 name key (hk name hn)]
    exact h1

theorem syncSecrets_log (cfg : Config) (faults : Faults) (ns path : String)
    (data : GoMap String Bytes) (names : List String) (st : K8s × updateSecretResults) :
    ∃ evs, (syncSecrets cfg faults ns path data names st).1.log = st.1.log ++ evs
      ∧ ∀ e ∈ evs, ∃ n ∈ names, e.call.target = (ns, n) := by
  apply syncSecrets_invariant cfg faults ns path data
    (fun st1 => ∃ evs, st1.1.log = st.1.log ++ evs
      ∧ ∀ e ∈ evs, ∃ n ∈ names, e.call.target = (ns, n))
  · exact ⟨[], by simp, by simp⟩
  · rintro ⟨k1, r1⟩ name hn ⟨evs, hlog, hev⟩
    obtain ⟨evs2, hlog2, hev2⟩ := syncSecret_log cfg faults ns path data k1 r1 name
    refine ⟨evs ++ evs2, ?_, ?_⟩
    · rw [hlog2]
      simp only at hlog
      rw [hlog, List.append_assoc]
    · intro e he
      rcases List.mem_append.1 he with h | h
      · exact hev e h
      · exact ⟨name, hn, hev2 e h⟩

/-! ## Accepted Creates -/

theorem secretFor_injective (cfg : Config) (path : String) (data : GoMap String Bytes)
    (c n : String) (h : secretFor cfg path data c = secretFor cfg path data n) : c = n := by
  have := congrArg Secret.name h
  simpa [secretFor] using this

/-- What one iteration adds to the facts about accepted Creates. -/
theorem syncSecret_created (cfg : Config) (faults : Faults) (ns path : String)
    (data : GoMap String Bytes) (k : K8s) (res : updateSecretResults) (name : String) :
    ∃ evs, (syncSecret cfg faults ns path data (k, res) name).1.1.log = k.log ++ evs
      ∧ (∀ e ∈ evs, e.call.target = (ns, name))
      ∧ ((⟨ApiCall.create ns (secretFor cfg path data name), none⟩ : ApiEvent) ∈ evs →
          GoMap.get (syncSecret cfg faults ns path data (k, res) name).1.1.secrets (ns, name)
            = some (secretFor cfg path data name))
      ∧ (GoMap.get k.secrets (ns, name) = some (secretFor cfg path data name) →
          GoMap.get (syncSecret cfg faults ns path data (k, res) name).1.1.secrets (ns, name)
            = some (secretFor cfg path data name))
      ∧ ((⟨ApiCall.get ns name, some (K8s.notFoundError name)⟩ : ApiEvent) ∈ evs →
          (∀ n, faults n (ApiCall.create ns (secretFor cfg path data name)) = none) →
          (⟨ApiCall.create ns (secretFor cfg path data name), none⟩ : ApiEvent) ∈ evs)
      ∧ (syncSecret cfg faults ns path data (k, res) name).1.2.created
          = res.created + (evs.filter ApiEvent.isCreated).length
      ∧ (syncSecret cfg faults ns path data (k, res) name).1.2.synced
          ≥ res.synced + (evs.filter ApiEvent.isCreated).length := by
  have hname : (secretFor cfg path data name).name = name := rfl
  rcases syncSecret_cases cfg faults ns path data k res name with
    ⟨msg, _, h⟩ | ⟨_, _, _, h⟩ | ⟨msg, _, _, hcf, h⟩ | ⟨ex, _, _, _, h⟩
    | ⟨ex, _, _, _, _, h⟩ | ⟨ex, e1, _, _, _, _, _, h⟩
    | ⟨ex, e1, msg, secrets1, _, _, _, _, _, hsec, h⟩
  · rw [h]
    refine ⟨_, rfl, ?_, ?_, ?_, ?_, ?_, ?_⟩
    · intro e he; simp at he; subst he; simp [ApiCall.target]
    · intro he; simp at he
    · intro hx; simpa using hx
    · intro he; simp [K8s.notFoundError] at he
    · simp [ApiEvent.isCreated]
    · simp [ApiEvent.isCreated]
  · rw [h]
    refine ⟨_, rfl, ?_, ?_, ?_, ?_, ?_, ?_⟩
    · intro e he; simp at he; rcases he with rfl | rfl <;> simp [ApiCall.target, hname]
    · intro _; simp [GoMap.get_set_self]
    · intro _; simp [GoMap.get_set_self]
    · intro _ _; simp
    · simp [ApiEvent.isCreated, List.filter]
    · simp [ApiEvent.isCreated, List.filter]
  · rw [h]
    refine ⟨_, rfl, ?_, ?_, ?_, ?_, ?_, ?_⟩
    · intro e he; simp at he; rcases he with rfl | rfl <;> simp [ApiCall.target, hname]
    · intro he; simp at he
    · intro hx; simpa using hx
    · intro _ hall
      rw [hall] at hcf
      cases hcf
    · simp [ApiEvent.isCreated, List.filter]
    · simp [ApiEvent.isCreated, List.filter]
  · rw [h]
    refine ⟨_, rfl, ?_, ?_, ?_, ?_, ?_, ?_⟩
    · intro e he; simp at he; subst he; simp [ApiCall.target]
    · intro he; simp at he
    · intro hx; simpa using hx
    · intro he; simp at he
    · simp [ApiEvent.isCreated]
    · simp [ApiEvent.isCreated]
  · rw [h]
    refine ⟨_, rfl, ?_, ?_, ?_, ?_, ?_, ?_⟩
    · intro e he; simp at he; subst he; simp [ApiCall.target]
    · intro he; simp at he
    · intro hx; simpa using hx
    · intro he; simp at he
    · simp [ApiEvent.isCreated]
    · simp [ApiEvent.isCreated]
  · rw [h]
    refine ⟨_, rfl, ?_, ?_, ?_, ?_, ?_, ?_⟩
    · intro e he; simp at he; rcases he with rfl | rfl | rfl <;> simp [ApiCall.target, hname]
    · intro _; simp [GoMap.get_set_self]
    · intro _; simp [GoMap.get_set_self]
    · intro he; simp at he
    · simp [ApiEvent.isCreated, List.filter]
    · simp [ApiEvent.isCreated, List.filter]
  · rw [h]
    refine ⟨_, rfl, ?_, ?_, ?_, ?_, ?_, ?_⟩
    · intro e he; simp at he; rcases he with rfl | rfl | rfl <;> simp [ApiCall.target, hname]
    · intro he; simp at he
    · intro hx
      rcases hsec with hs | hs
      · simpa [hs] using hx
      · simp [hs, GoMap.get_set_self]
    · intro he; simp at he
    · simp [ApiEvent.isCreated, List.filter]
    · simp [ApiEvent.isCreated, List.filter]

/-- The facts about accepted Creates, for the whole create/update loop. -/
theorem syncSecrets_created (cfg : Config) (faults : Faults) (ns path : String)
    (data : GoMap String Bytes) (names : List String) (st : K8s × updateSecretResults) :
    ∃ evs, (syncSecrets cfg faults ns path data names st).1.log = st.1.log ++ evs
      ∧ (∀ e ∈ evs, ∃ n ∈ names, e.call.target = (ns, n))
      ∧ (∀ c, (⟨ApiCall.create ns (secretFor cfg path data c), none⟩ : ApiEvent) ∈ evs →
          GoMap.get (syncSecrets cfg faults ns path data names st).1.secrets (ns, c)
            = some (secretFor cfg path data c))
      ∧ (∀ c, (⟨ApiCall.get ns c, some (K8s.notFoundError c)⟩ : ApiEvent) ∈ evs →
          (∀ n, faults n (ApiCall.create ns (secretFor cfg path data c)) = none) →
          (⟨ApiCall.create ns (secretFor cfg path data c), none⟩ : ApiEvent) ∈ evs)
      ∧ (syncSecrets cfg faults ns path data names st).2.created
          = st.2.created + (evs.filter ApiEvent.isCreated).length
      ∧ (syncSecrets cfg faults ns path data names st).2.synced
          ≥ st.2.synced + (evs.filter ApiEvent.isCreated).length := by
  apply syncSecrets_invariant cfg faults ns path data
    (fun st1 => ∃ evs, st1.1.log = st.1.log ++ evs
      ∧ (∀ e ∈ evs, ∃ n ∈ names, e.call.target = (ns, n))
      ∧ (∀ c, (⟨ApiCall.create ns (secretFor cfg path data c), none⟩ : ApiEvent) ∈ evs →
          GoMap.get st1.1.secrets (ns, c) = some (secretFor cfg path data c))
      ∧ (∀ c, (⟨ApiCall.get ns c, some (K8s.notFoundError c)⟩ : ApiEvent) ∈ evs →
          (∀ n, faults n (ApiCall.create ns (secretFor cfg path data c)) = none) →
          (⟨ApiCall.create ns (secretFor cfg path data c), none⟩ : ApiEvent) ∈ evs)
      ∧ st1.2.created = st.2.created + (evs.filter ApiEvent.isCreated).length
      ∧ st1.2.synced ≥ st.2.synced + (evs.filter ApiEvent.isCreated).length)
  · exact ⟨[], by simp, by simp, by simp, by simp, by simp, by simp⟩
  · rintro ⟨k1, r1⟩ name hn ⟨evs, hlog, htgt, hA, hB, hC, hD⟩
    obtain ⟨evs2, hlog2, htgt2, hnew, hkeep, hnf, hC2, hD2⟩ :=
      syncSecret_created cfg faults ns path data k1 r1 name
    simp only at hlog hA hC hD
    refine ⟨evs ++ evs2, ?_, ?_, ?_, ?_, ?_, ?_⟩
    · rw [hlog2, hlog, List.append_assoc]
    · intro e he
      rcases List.mem_append.1 he with h | h
      · exact htgt e h
      · exact ⟨name, hn, htgt2 e h⟩
    · intro c hc
      by_cases hcn : c = name
      · subst hcn
        rcases List.mem_append.1 hc with h | h
        · exact hkeep (hA c h)
        · exact hnew h
      · rcases List.mem_append.1 hc with h | h
        · rw [syncSecret_frame cfg faults ns path data k1 r1 name (ns, c)
            (by intro e; exact hcn (by simpa using e.symm))]
          exact hA c h
        · have := htgt2 _ h
          simp [ApiCall.target, secretFor] at this
          exact absurd this hcn
    · intro c hc hall
      rcases List.mem_append.1 hc with h | h
      · exact List.mem_append.2 (Or.inl (hB c h hall))
      · have hcn := htgt2 _ h
        simp [ApiCall.target] at hcn
        subst hcn
        exact List.mem_append.2 (Or.inr (hnf h hall))
    · rw [hC2, hC, List.filter_append, List.length_append]
      omega
    · rw [List.filter_append, List.length_append]
      omega

theorem append_v_injective (name v w : String) (h : name ++ "-v" ++ w = name ++ "-v" ++ v) :
    w = v := by
  have h1 := congrArg String.data h
  simp only [String.data_append, List.append_assoc] at h1
  have h2 := List.append_cancel_left h1
  have h3 := List.append_cancel_left h2
  exact String.ext h3

/-- The converted data holds, under every key of the entry, the bytes of its string. -/
theorem convertData_get (s : GoMap String VaultValue) (data : GoMap String Bytes)
    (h : convertData s = Conversion.converted data) (k : String) :
    GoMap.get data k =
      match GoMap.get s k with
      | some (VaultValue.str x) => some (toBytes x)
      | _ => none := by
  induction s generalizing data with
  | nil =>
    simp [convertData] at h
    subst h
    simp [GoMap.get]
  | cons p rest ih =>
    obtain ⟨k1, v1⟩ := p
    cases v1 with
    | other => simp [convertData] at h
    | number n => simp [convertData] at h
    | str x =>
      cases hr : convertData rest with
      | incorrect => simp [convertData, hr] at h
      | panicked => simp [convertData, hr] at h
      | converted d =>
        simp [convertData, hr] at h
        subst h
        rw [GoMap.get_set]
        by_cases hk : k1 = k
        · simp [GoMap.get, hk]
        · simp [GoMap.get, hk]
          exact ih d hr

/-- The names the loop ranges over are keys of the candidate map. -/
theorem mem_names_candidate (job : secretForUpdate) (v suffix : String)
    (k8sSecrets : List String) (rev : Bool) (n : String)
    (hn : n ∈ rangeOrder rev
      ((if job.name ++ "-v" ++ v ∈ k8sSecrets then [] else [job.name ++ "-v" ++ v])
        ++ (if job.versioning = 0 then [trimSuffix job.name suffix] else []))) :
    GoMap.get (k8sSecretsForUpdate job v suffix) n ≠ none := by
  have hmem : n ∈ (if job.name ++ "-v" ++ v ∈ k8sSecrets then [] else [job.name ++ "-v" ++ v])
      ++ (if job.versioning = 0 then [trimSuffix job.name suffix] else []) := by
    cases rev
    · simpa [rangeOrder] using hn
    · have h2 : n ∈ ((if job.name ++ "-v" ++ v ∈ k8sSecrets then []
          else [job.name ++ "-v" ++ v])
          ++ (if job.versioning = 0 then [trimSuffix job.name suffix] else [])).reverse := hn
      exact List.mem_reverse.1 h2
  rw [k8sSecretsForUpdate_list]
  rcases List.mem_append.1 hmem with h | h
  · by_cases hl : job.name ++ "-v" ++ v ∈ k8sSecrets
    · simp [hl] at h
    · have hnv : n = job.name ++ "-v" ++ v := by simpa [hl] using h
      subst hnv
      by_cases hf : job.versioning = 0 <;> simp [hf, GoMap.get]
  · by_cases hf : job.versioning = 0
    · have hnv : n = trimSuffix job.name suffix := by simpa [hf] using h
      subst hnv
      simp [hf, GoMap.get, versioned_ne_trimSuffix]
    · simp [hf] at h

/-! ## Counters and errors only grow -/

theorem syncSecret_mono (cfg : Config) (faults : Faults) (ns path : String)
    (data : GoMap String Bytes) (k : K8s) (res : updateSecretResults) (name : String) :
    res.created ≤ (syncSecret cfg faults ns path data (k, res) name).1.2.created
    ∧ res.updated ≤ (syncSecret cfg faults ns path data (k, res) name).1.2.updated
    ∧ res.skipped ≤ (syncSecret cfg faults ns path data (k, res) name).1.2.skipped
    ∧ res.synced ≤ (syncSecret cfg faults ns path data (k, res) name).1.2.synced
    ∧ ((syncSecret cfg faults ns path data (k, res) name).2 = true →
        (syncSecret cfg faults ns path data (k, res) name).1.2.err ≠ none)
    ∧ ((syncSecret cfg faults ns path data (k, res) name).2 = false →
        (syncSecret cfg faults ns path data (k, res) name).1.2.err = res.err) := by
  rcases syncSecret_cases cfg faults ns path data k res name with
    ⟨msg, _, h⟩ | ⟨_, _, _, h⟩ | ⟨msg, _, _, _, h⟩ | ⟨ex, _, _, _, h⟩
    | ⟨ex, _, _, _, _, h⟩ | ⟨ex, e1, _, _, _, _, _, h⟩
    | ⟨ex, e1, msg, secrets1, _, _, _, _, _, hsec, h⟩
  all_goals
    rw [h]
    simp

theorem syncSecrets_mono (cfg : Config) (faults : Faults) (ns path : String)
    (data : GoMap String Bytes) (names : List String) (st : K8s × updateSecretResults) :
    st.2.created ≤ (syncSecrets cfg faults ns path data names st).2.created
    ∧ st.2.updated ≤ (syncSecrets cfg faults ns path data names st).2.updated
    ∧ st.2.skipped ≤ (syncSecrets cfg faults ns path data names st).2.skipped
    ∧ st.2.synced ≤ (syncSecrets cfg faults ns path data names st).2.synced
    ∧ ((syncSecrets cfg faults ns path data names st).2.err = none → st.2.err = none) := by
  apply syncSecrets_invariant cfg faults ns path data
    (fun st1 => st.2.created ≤ st1.2.created ∧ st.2.updated ≤ st1.2.updated
      ∧ st.2.skipped ≤ st1.2.skipped ∧ st.2.synced ≤ st1.2.synced
      ∧ (st1.2.err = none → st.2.err = none))
  · simp
  · rintro ⟨k1, r1⟩ name _ ⟨h1, h2, h3, h4, h5⟩
    obtain ⟨m1, m2, m3, m4, m5, m6⟩ := syncSecret_mono cfg faults ns path data k1 r1 name
    simp only at h1 h2 h3 h4 h5
    refine ⟨by omega, by omega, by omega, by omega, ?_⟩
    intro he
    cases hab : (syncSecret cfg faults ns path data (k1, r1) name).2 with
    | true => exact absurd he (m5 hab)
    | false =>
      rw [m6 hab] at he
      exact h5 he

/-- A Secret that is the one the worker builds for its name stays so. -/
theorem syncSecrets_keep (cfg : Config) (faults : Faults) (ns path : String)
    (data : GoMap String Bytes) (names : List String) (st : K8s × updateSecretResults)
    (c : String) (hc : GoMap.get st.1.secrets (ns, c) = some (secretFor cfg path data c)) :
    GoMap.get (syncSecrets cfg faults ns path data names st).1.secrets (ns, c)
      = some (secretFor cfg path data c) := by
  apply syncSecrets_invariant cfg faults ns path data
    (fun st1 => GoMap.get st1.1.secrets (ns, c) = some (secretFor cfg path data c))
  · exact hc
  · rintro ⟨k1, r1⟩ name _ h1
    by_cases hcn : c = name
    · subst hcn
      obtain ⟨_, _, _, _, hkeep, _⟩ := syncSecret_created cfg faults ns path data k1 r1 c
      exact hkeep h1
    · rw [syncSecret_frame cfg faults ns path data k1 r1 name (ns, c)
        (by intro e; exact hcn (by simpa using e.symm))]
      exact h1

/-! ## The listing of the cluster Secrets -/

theorem mem_k8sSecretsList (k : K8s) (ns name : String) (sec : Secret)
    (h : GoMap.get k.secrets (ns, name) = some sec) : name ∈ k8sSecretsList k ns := by
  have hk := GoMap.mem_keys_of_get k.secrets (ns, name) sec h
  unfold GoMap.keys at hk
  obtain ⟨p, hp, hp1⟩ := List.mem_map.1 hk
  unfold k8sSecretsList
  refine List.mem_map.2 ⟨p, List.mem_filter.2 ⟨hp, ?_⟩, ?_⟩
  · simp [hp1]
  · simp [hp1]

theorem syncSecrets_single (cfg : Config) (faults : Faults) (ns path : String)
    (data : GoMap String Bytes) (st : K8s × updateSecretResults) (name : String) :
    syncSecrets cfg faults ns path data [name] st
      = (syncSecret cfg faults ns path data st name).1 := by
  simp [syncSecrets]

/-! ## Updates -/

theorem syncSecrets_cons (cfg : Config) (faults : Faults) (ns path : String)
    (data : GoMap String Bytes) (name : String) (rest : List String)
    (st : K8s × updateSecretResults) :
    syncSecrets cfg faults ns path data (name :: rest) st
      = if (syncSecret cfg faults ns path data st name).2 = true then
          (syncSecret cfg faults ns path data st name).1
        else syncSecrets cfg faults ns path data rest
          (syncSecret cfg faults ns path data st name).1 := rfl

/-- Every Create and every counted Update is counted in `synced` too. -/
theorem syncSecrets_counts (cfg : Config) (faults : Faults) (ns path : String)
    (data : GoMap String Bytes) (names : List String) (st : K8s × updateSecretResults) :
    (syncSecrets cfg faults ns path data names st).2.created
        + (syncSecrets cfg faults ns path data names st).2.updated + st.2.synced
      ≤ (syncSecrets cfg faults ns path data names st).2.synced
        + st.2.created + st.2.updated := by
  apply syncSecrets_invariant cfg faults ns path data
    (fun st1 => st1.2.created + st1.2.updated + st.2.synced
      ≤ st1.2.synced + st.2.created + st.2.updated)
  · omega
  · rintro ⟨k1, r1⟩ name _ h1
    simp only at h1
    rcases syncSecret_cases cfg faults ns path data k1 r1 name with
      ⟨msg, _, h⟩ | ⟨_, _, _, h⟩ | ⟨msg, _, _, _, h⟩ | ⟨ex, _, _, _, h⟩
      | ⟨ex, _, _, _, _, h⟩ | ⟨ex, e1, _, _, _, _, _, h⟩
      | ⟨ex, e1, msg, secrets1, _, _, _, _, _, hsec, h⟩
    all_goals
      rw [h]
      simp only
      omega

/-- A candidate that exists with the annotation of the job and other data, and whose Get is
not refused, has been replaced when the loop ends without error. -/
theorem syncSecrets_updated (cfg : Config) (faults : Faults) (ns path : String)
    (data : GoMap String Bytes) (c : String) (ex : Secret)
    (hann : GoMap.get ex.annotations cfg.annotationName = some path)
    (hd : GoMap.deepEqual ex.data data = false)
    (hg : ∀ n, faults n (ApiCall.get ns c) = none)
    (names : List String) (st : K8s × updateSecretResults) (hc : c ∈ names)
    (hex : GoMap.get st.1.secrets (ns, c) = some ex)
    (herr : (syncSecrets cfg faults ns path data names st).2.err = none) :
    GoMap.get (syncSecrets cfg faults ns path data names st).1.secrets (ns, c)
        = some (secretFor cfg path data c)
    ∧ st.2.updated + 1 ≤ (syncSecrets cfg faults ns path data names st).2.updated
    ∧ st.2.synced + 1 ≤ (syncSecrets cfg faults ns path data names st).2.synced := by
  induction names generalizing st with
  | nil => cases hc
  | cons n rest ih =>
    obtain ⟨k, res⟩ := st
    obtain ⟨m1, m2, m3, m4, m5, m6⟩ := syncSecret_mono cfg faults ns path data k res n
    rw [syncSecrets_cons] at herr ⊢
    by_cases hn : n = c
    · subst hn
      rcases syncSecret_cases cfg faults ns path data k res n with
        ⟨msg, h1, _⟩ | ⟨_, h1, _, _⟩ | ⟨msg, _, h1, _, _⟩ | ⟨ex1, _, h1, h2, _⟩
        | ⟨ex1, _, h1, _, h2, _⟩ | ⟨ex1, e1, _, _, _, _, _, h⟩
        | ⟨ex1, e1, msg, secrets1, _, _, _, _, _, _, h⟩
      · rw [hg] at h1; cases h1
      · rw [hex] at h1; cases h1
      · rw [hex] at h1; cases h1
      · rw [hex] at h1; cases h1
        rw [hd] at h2; cases h2
      · rw [hex] at h1; cases h1
        exact absurd hann h2
      · rw [h] at herr ⊢
        simp only [Bool.false_eq_true, if_false] at herr ⊢
        refine ⟨?_, ?_, ?_⟩
        · apply syncSecrets_keep
          simp [GoMap.get_set_self]
        · have := (syncSecrets_mono cfg faults ns path data rest
            ({ secrets := GoMap.set k.secrets (ns, n) (secretFor cfg path data n),
               log := k.log ++ [{ call := ApiCall.get ns n, err := none },
                 { call := ApiCall.update ns (secretFor cfg path data n), err := e1 },
                 { call := ApiCall.update ns (secretFor cfg path data n), err := none }] },
             { res with updated := res.updated + 1, synced := res.synced + 1 })).2.1
          simpa using this
        · have := (syncSecrets_mono cfg faults ns path data rest
            ({ secrets := GoMap.set k.secrets (ns, n) (secretFor cfg path data n),
               log := k.log ++ [{ call := ApiCall.get ns n, err := none },
                 { call := ApiCall.update ns (secretFor cfg path data n), err := e1 },
                 { call := ApiCall.update ns (secretFor cfg path data n), err := none }] },
             { res with updated := res.updated + 1, synced := res.synced + 1 })).2.2.2.1
          simpa using this
      · rw [h] at herr
        simp at herr
    · have hcr : c ∈ rest := by
        rcases List.mem_cons.1 hc with h | h
        · exact absurd h.symm hn
        · exact h
      cases hab : (syncSecret cfg faults ns path data (k, res) n).2 with
      | true =>
        rw [hab] at herr
        simp only [if_true] at herr
        exact absurd herr (m5 hab)
      | false =>
        rw [hab] at herr
        simp only [Bool.false_eq_true, if_false] at herr ⊢
        have hfr := syncSecret_frame cfg faults ns path data k res n (ns, c)
          (by intro e; exact hn (by simpa using e))
        obtain ⟨i1, i2, i3⟩ := ih _ hcr (by rw [hfr]; exact hex) herr
        exact ⟨i1, by omega, by omega⟩

/-! ## Runs without skip and without error -/

theorem GoMap.get_set_ne_none {K V : Type} [DecidableEq K] (m : GoMap K V) (k j : K) (v : V)
    (h : GoMap.get m j ≠ none) : GoMap.get (GoMap.set m k v) j ≠ none := by
  rw [GoMap.get_set]
  split
  · simp
  · exact h

/-- The worker never deletes a Secret. -/
theorem syncSecrets_exists (cfg : Config) (faults : Faults) (ns path : String)
    (data : GoMap String Bytes) (names : List String) (st : K8s × updateSecretResults)
    (key : String × String) (h : GoMap.get st.1.secrets key ≠ none) :
    GoMap.get (syncSecrets cfg faults ns path data names st).1.secrets key ≠ none := by
  apply syncSecrets_invariant cfg faults ns path data
    (fun st1 => GoMap.get st1.1.secrets key ≠ none)
  · exact h
  · rintro ⟨k1, r1⟩ name _ h1
    simp only at h1
    rcases syncSecret_cases cfg faults ns path data k1 r1 name with
      ⟨msg, _, h⟩ | ⟨_, _, _, h⟩ | ⟨msg, _, _, _, h⟩ | ⟨ex, _, _, _, h⟩
      | ⟨ex, _, _, _, _, h⟩ | ⟨ex, e1, _, _, _, _, _, h⟩
      | ⟨ex, e1, msg, secrets1, _, _, _, _, _, hsec, h⟩
    · rw [h]; exact h1
    · rw [h]; exact GoMap.get_set_ne_none _ _ _ _ h1
    · rw [h]; exact h1
    · rw [h]; exact h1
    · rw [h]; exact h1
    · rw [h]; exact GoMap.get_set_ne_none _ _ _ _ h1
    · rw [h]
      rcases hsec with hs | hs
      · rw [hs]; exact h1
      · rw [hs]; exact GoMap.get_set_ne_none _ _ _ _ h1

/-- An iteration that neither skips nor fails leaves its Secret with the entry data. -/
theorem syncSecret_reconciled (cfg : Config) (faults : Faults) (ns path : String)
    (data : GoMap String Bytes) (k : K8s) (res : updateSecretResults) (name : String)
    (hab : (syncSecret cfg faults ns path data (k, res) name).2 = false)
    (hsk : (syncSecret cfg faults ns path data (k, res) name).1.2.skipped = res.skipped) :
    ∃ ex, GoMap.get (syncSecret cfg faults ns path data (k, res) name).1.1.secrets (ns, name)
        = some ex ∧ GoMap.deepEqual ex.data data = true := by
  rcases syncSecret_cases cfg faults ns path data k res name with
    ⟨msg, _, h⟩ | ⟨_, _, _, h⟩ | ⟨msg, _, _, _, h⟩ | ⟨ex, _, hx, hd, h⟩
    | ⟨ex, _, _, _, _, h⟩ | ⟨ex, e1, _, _, _, _, _, h⟩
    | ⟨ex, e1, msg, secrets1, _, _, _, _, _, hsec, h⟩
  · rw [h] at hsk; simp at hsk
  · rw [h]
    exact ⟨secretFor cfg path data name, by simp [GoMap.get_set_self],
      GoMap.deepEqual_self _⟩
  · rw [h] at hsk; simp at hsk
  · rw [h]
    exact ⟨ex, hx, hd⟩
  · rw [h] at hsk; simp at hsk
  · rw [h]
    exact ⟨secretFor cfg path data name, by simp [GoMap.get_set_self],
      GoMap.deepEqual_self _⟩
  · rw [h] at hab; simp at hab

/-- When the loop ends without error and without a skip, every candidate it ranged over
exists with the entry data. -/
theorem syncSecrets_reconciled (cfg : Config) (faults : Faults) (ns path : String)
    (data : GoMap String Bytes) (names : List String) (st : K8s × updateSecretResults)
    (herr : (syncSecrets cfg faults ns path data names st).2.err = none)
    (hsk : (syncSecrets cfg faults ns path data names st).2.skipped = st.2.skipped) :
    ∀ n ∈ names, ∃ ex,
      GoMap.get (syncSecrets cfg faults ns path data names st).1.secrets (ns, n) = some ex
      ∧ GoMap.deepEqual ex.data data = true := by
  induction names generalizing st with
  | nil => intro n hn; cases hn
  | cons m rest ih =>
    obtain ⟨k, res⟩ := st
    obtain ⟨_, _, m3, _, m5, _⟩ := syncSecret_mono cfg faults ns path data k res m
    rw [syncSecrets_cons] at herr hsk ⊢
    cases hab : (syncSecret cfg faults ns path data (k, res) m).2 with
    | true =>
      rw [hab] at herr
      simp only [if_true] at herr
      exact absurd herr (m5 hab)
    | false =>
      rw [hab] at herr hsk
      simp only [Bool.false_eq_true, if_false] at herr hsk ⊢
      have hmono := (syncSecrets_mono cfg faults ns path data rest
        (syncSecret cfg faults ns path data (k, res) m).1).2.2.1
      have hsk1 : (syncSecret cfg faults ns path data (k, res) m).1.2.skipped = res.skipped := by
        omega
      have hsk2 : (syncSecrets cfg faults ns path data rest
          (syncSecret cfg faults ns path data (k, res) m).1).2.skipped
          = (syncSecret cfg faults ns path data (k, res) m).1.2.skipped := by
        omega
      intro n hn
      by_cases hr : n ∈ rest
      · exact ih _ herr hsk2 n hr
      · have hnm : n = m := by
          rcases List.mem_cons.1 hn with h | h
          · exact h
          · exact absurd h hr
        subst hnm
        obtain ⟨ex, hx, hd⟩ := syncSecret_reconciled cfg faults ns path data k res n hab hsk1
        refine ⟨ex, ?_, hd⟩
        rw [syncSecrets_frame cfg faults ns path data rest _ (ns, n)
          (by
            intro j hj e
            have hjn : j = n := by simpa using e
            exact hr (hjn ▸ hj))]
        exact hx

/-! ## The worker over its jobs -/

theorem append_left_cancel (p a b : String) (h : p ++ a = p ++ b) : a = b := by
  have h1 := congrArg String.data h
  simp only [String.data_append] at h1
  exact String.ext (List.append_cancel_left h1)

/-- A candidate that is absent, whose Get and Create are never refused, has been created
when the loop ends without error. -/
theorem syncSecrets_creates (cfg : Config) (faults : Faults) (ns path : String)
    (data : GoMap String Bytes) (c : String)
    (hg : ∀ n, faults n (ApiCall.get ns c) = none)
    (hcr : ∀ n, faults n (ApiCall.create ns (secretFor cfg path data c)) = none)
    (names : List String) (st : K8s × updateSecretResults) (hc : c ∈ names)
    (hnone : GoMap.get st.1.secrets (ns, c) = none)
    (herr : (syncSecrets cfg faults ns path data names st).2.err = none) :
    GoMap.get (syncSecrets cfg faults ns path data names st).1.secrets (ns, c)
      = some (secretFor cfg path data c) := by
  induction names generalizing st with
  | nil => cases hc
  | cons n rest ih =>
    obtain ⟨k, res⟩ := st
    obtain ⟨_, _, _, _, m5, _⟩ := syncSecret_mono cfg faults ns path data k res n
    rw [syncSecrets_cons] at herr ⊢
    by_cases hn : n = c
    · subst hn
      rcases syncSecret_cases cfg faults ns path data k res n with
        ⟨msg, h1, _⟩ | ⟨_, _, _, h⟩ | ⟨msg, _, _, h1, _⟩ | ⟨ex1, _, h1, _⟩
        | ⟨ex1, _, h1, _⟩ | ⟨ex1, e1, _, h1, _⟩
        | ⟨ex1, e1, msg, secrets1, _, h1, _⟩
      · rw [hg] at h1; cases h1
      · rw [h]
        simp only [Bool.false_eq_true, if_false]
        apply syncSecrets_keep
        simp [GoMap.get_set_self]
      · rw [hcr] at h1; cases h1
      · rw [hnone] at h1; cases h1
      · rw [hnone] at h1; cases h1
      · rw [hnone] at h1; cases h1
      · rw [hnone] at h1; cases h1
    · have hcrest : c ∈ rest := by
        rcases List.mem_cons.1 hc with h | h
        · exact absurd h.symm hn
        · exact h
      cases hab : (syncSecret cfg faults ns path data (k, res) n).2 with
      | true =>
        rw [hab] at herr
        simp only [if_true] at herr
        exact absurd herr (m5 hab)
      | false =>
        rw [hab] at herr
        simp only [Bool.false_eq_true, if_false] at herr ⊢
        have hfr := syncSecret_frame cfg faults ns path data k res n (ns, c)
          (by intro e; exact hn (by simpa using e))
        exact ih _ hcrest (by rw [hfr]; exact hnone) herr

/-- A job leaves alone every Secret whose name is not a key of its candidate map. -/
theorem processJob_frame (cfg : Config) (faults : Faults) (read : VaultRead)
    (ns suffix : String) (k8sSecrets : List String) (rev : Bool) (k8s : K8s)
    (job : secretForUpdate) (key : String × String)
    (hkey : ∀ s v, read (cfg.vaultSecretsPath ++ "/" ++ ns ++ "/" ++ job.name)
        = Except.ok (s, v) →
      ∀ c, GoMap.get (k8sSecretsForUpdate job v suffix) c ≠ none → (ns, c) ≠ key) :
    GoMap.get (processJob cfg faults read ns suffix k8sSecrets rev k8s job).1.secrets key
      = GoMap.get k8s.secrets key := by
  rcases processJob_cases cfg read ns job with
    ⟨e, hr⟩ | ⟨s, v, hr, hbad⟩ | ⟨s, v, hr, hs, hp⟩ | ⟨s, v, data, hr, hs, hconv⟩
  · rw [processJob_readError cfg faults read ns suffix k8sSecrets rev k8s job e hr]
  · rw [processJob_skipped cfg faults read ns suffix k8sSecrets rev k8s job s v hr hbad]
  · rw [processJob_panicked cfg faults read ns suffix k8sSecrets rev k8s job s v hr hs hp]
  · rw [processJob_ok cfg faults read ns suffix k8sSecrets rev k8s job s v data hr hs hconv]
    apply syncSecrets_frame
    intro n hn
    exact hkey s v hr n (mem_names_candidate job v suffix k8sSecrets rev n hn)

/-- A job keeps a Secret that is the one built for the entry at `pathT` with data `dataT`:
the job of that entry finds it up to date, every other job finds a foreign annotation. -/
theorem processJob_keep (cfg : Config) (faults : Faults) (read : VaultRead)
    (ns suffix : String) (k8sSecrets : List String) (rev : Bool) (k8s : K8s)
    (job : secretForUpdate) (pathT : String) (sT : GoMap String VaultValue) (vT : String)
    (dataT : GoMap String Bytes) (c : String)
    (hreadT : read pathT = Except.ok (sT, vT))
    (hconvT : convertData sT = Conversion.converted dataT)
    (hT : GoMap.get k8s.secrets (ns, c) = some (secretFor cfg pathT dataT c)) :
    GoMap.get (processJob cfg faults read ns suffix k8sSecrets rev k8s job).1.secrets (ns, c)
      = some (secretFor cfg pathT dataT c) := by
  rcases processJob_cases cfg read ns job with
    ⟨e, hr⟩ | ⟨s, v, hr, hbad⟩ | ⟨s, v, hr, hs, hpan⟩ | ⟨s, v, data, hr, hs, hconv⟩
  · rw [processJob_readError cfg faults read ns suffix k8sSecrets rev k8s job e hr]
    exact hT
  · rw [processJob_skipped cfg faults read ns suffix k8sSecrets rev k8s job s v hr hbad]
    exact hT
  · rw [processJob_panicked cfg faults read ns suffix k8sSecrets rev k8s job s v hr hs hpan]
    exact hT
  · rw [processJob_ok cfg faults read ns suffix k8sSecrets rev k8s job s v data hr hs hconv]
    by_cases hp : cfg.vaultSecretsPath ++ "/" ++ ns ++ "/" ++ job.name = pathT
    · rw [hp] at hr ⊢
      rw [hreadT] at hr
      cases hr
      rw [hconvT] at hconv
      cases hconv
      exact syncSecrets_keep cfg faults ns pathT dataT _ _ c hT
    · apply (syncSecrets_foreign cfg faults ns _ data _ _ (ns, c) _ hT _).1
      simp only [secretFor, GoMap.get_set_self]
      intro e
      exact hp (Option.some.inj e).symm

/-- A job whose versioned candidate is absent from the cluster and from the pre-listed
Secrets, and whose Get and Create for it are never refused, has created it when its
result carries no error. -/
theorem processJob_creates (cfg : Config) (faults : Faults) (read : VaultRead)
    (ns suffix : String) (k8sSecrets : List String) (rev : Bool) (k8s : K8s)
    (job : secretForUpdate) (s : GoMap String VaultValue) (v : String)
    (data : GoMap String Bytes)
    (hread : read (cfg.vaultSecretsPath ++ "/" ++ ns ++ "/" ++ job.name) = Except.ok (s, v))
    (hs : s ≠ []) (hconv : convertData s = Conversion.converted data)
    (hnl : job.name ++ "-v" ++ v ∉ k8sSecrets)
    (hnone : GoMap.get k8s.secrets (ns, job.name ++ "-v" ++ v) = none)
    (hg : ∀ n, faults n (ApiCall.get ns (job.name ++ "-v" ++ v)) = none)
    (hcr : ∀ n, faults n (ApiCall.create ns
      (secretFor cfg (cfg.vaultSecretsPath ++ "/" ++ ns ++ "/" ++ job.name) data
        (job.name ++ "-v" ++ v))) = none)
    (herr : (processJob cfg faults read ns suffix k8sSecrets rev k8s job).2.err = none) :
    GoMap.get (processJob cfg faults read ns suffix k8sSecrets rev k8s job).1.secrets
        (ns, job.name ++ "-v" ++ v)
      = some (secretFor cfg (cfg.vaultSecretsPath ++ "/" ++ ns ++ "/" ++ job.name) data
          (job.name ++ "-v" ++ v)) := by
  rw [processJob_ok cfg faults read ns suffix k8sSecrets rev k8s job s v data hread hs hconv]
    at herr ⊢
  apply syncSecrets_creates cfg faults ns _ data _ hg hcr _ _ _ hnone herr
  unfold rangeOrder
  cases rev <;> simp [hnl]

theorem updateSecretsInK8s_cons (cfg : Config) (faults : Faults) (read : VaultRead)
    (ns suffix : String) (k8sSecrets : List String) (rev : secretForUpdate → Bool)
    (k8s : K8s) (job : secretForUpdate) (rest : List secretForUpdate) :
    updateSecretsInK8s cfg faults read ns suffix k8sSecrets rev k8s (job :: rest)
      = match (processJob cfg faults read ns suffix k8sSecrets (rev job) k8s job).ended with
        | Exit.continued =>
          { k8s := (updateSecretsInK8s cfg faults read ns suffix k8sSecrets rev
              (processJob cfg faults read ns suffix k8sSecrets (rev job) k8s job).k8s rest).k8s,
            usrc := (processJob cfg faults read ns suffix k8sSecrets (rev job) k8s
                job).updateResults
              :: (updateSecretsInK8s cfg faults read ns suffix k8sSecrets rev
                (processJob cfg faults read ns suffix k8sSecrets (rev job) k8s job).k8s
                rest).usrc,
            panicked := (updateSecretsInK8s cfg faults read ns suffix k8sSecrets rev
              (processJob cfg faults read ns suffix k8sSecrets (rev job) k8s job).k8s
              rest).panicked }
        | Exit.returned =>
          { k8s := (processJob cfg faults read ns suffix k8sSecrets (rev job) k8s job).k8s,
            usrc := [(processJob cfg faults read ns suffix k8sSecrets (rev job) k8s
              job).updateResults],
            panicked := false }
        | Exit.panicked =>
          { k8s := (processJob cfg faults read ns suffix k8sSecrets (rev job) k8s job).k8s,
            usrc := [], panicked := true } := rfl

theorem processJobs_cons (cfg : Config) (faults : Faults) (read : VaultRead)
    (ns suffix : String) (k8sSecrets : List String) (rev : secretForUpdate → Bool)
    (k8s : K8s) (job : secretForUpdate) (rest : List secretForUpdate) :
    processJobs cfg faults read ns suffix k8sSecrets rev k8s (job :: rest)
      = ((processJobs cfg faults read ns suffix k8sSecrets rev
            (processJob cfg faults read ns suffix k8sSecrets (rev job) k8s job).k8s rest).1,
          processJob cfg faults read ns suffix k8sSecrets (rev job) k8s job
            :: (processJobs cfg faults read ns suffix k8sSecrets rev
              (processJob cfg faults read ns suffix k8sSecrets (rev job) k8s job).k8s
              rest).2) := rfl

/-- The jobs processed one after the other: the jobs up to a point, then the others on the
cluster that the first have left. -/
theorem processJobs_append (cfg : Config) (faults : Faults) (read : VaultRead)
    (ns suffix : String) (k8sSecrets : List String) (rev : secretForUpdate → Bool)
    (a b : List secretForUpdate) (k8s : K8s) :
    processJobs cfg faults read ns suffix k8sSecrets rev k8s (a ++ b)
      = ((processJobs cfg faults read ns suffix k8sSecrets rev
            (processJobs cfg faults read ns suffix k8sSecrets rev k8s a).1 b).1,
          (processJobs cfg faults read ns suffix k8sSecrets rev k8s a).2
            ++ (processJobs cfg faults read ns suffix k8sSecrets rev
              (processJobs cfg faults read ns suffix k8sSecrets rev k8s a).1 b).2) := by
  induction a generalizing k8s with
  | nil => simp [processJobs]
  | cons job rest ih =>
    rw [List.cons_append, processJobs_cons, processJobs_cons, ih]
    simp

/-- The workers keep a Secret that is the one built for an entry with its current data. -/
theorem worker_keep (cfg : Config) (faults : Faults) (read : VaultRead)
    (ns suffix : String) (k8sSecrets : List String) (rev : secretForUpdate → Bool)
    (pathT : String) (sT : GoMap String VaultValue) (vT : String)
    (dataT : GoMap String Bytes) (c : String)
    (hreadT : read pathT = Except.ok (sT, vT))
    (hconvT : convertData sT = Conversion.converted dataT)
    (jobs : List secretForUpdate) (k8s : K8s)
    (hT : GoMap.get k8s.secrets (ns, c) = some (secretFor cfg pathT dataT c)) :
    GoMap.get (processJobs cfg faults read ns suffix k8sSecrets rev k8s jobs).1.secrets
        (ns, c) = some (secretFor cfg pathT dataT c) := by
  induction jobs generalizing k8s with
  | nil => simpa [processJobs] using hT
  | cons job rest ih =>
    have h1 := processJob_keep cfg faults read ns suffix k8sSecrets (rev job) k8s job pathT sT
      vT dataT c hreadT hconvT hT
    rw [processJobs_cons]
    exact ih _ h1

/-- The workers create the versioned Secret of an entry that is among the jobs, when the
Secret is absent, no other job has a candidate of that name, the Get and the Create for it
are never refused, and no result carries an error. -/
theorem worker_creates (cfg : Config) (faults : Faults) (read : VaultRead)
    (ns suffix : String) (k8sSecrets : List String) (rev : secretForUpdate → Bool)
    (entry : String) (s : GoMap String VaultValue) (v : String) (data : GoMap String Bytes)
    (hread : read (cfg.vaultSecretsPath ++ "/" ++ ns ++ "/" ++ entry) = Except.ok (s, v))
    (hs : s ≠ []) (hconv : convertData s = Conversion.converted data)
    (hnl : entry ++ "-v" ++ v ∉ k8sSecrets)
    (hg : ∀ n, faults n (ApiCall.get ns (entry ++ "-v" ++ v)) = none)
    (hcr : ∀ n, faults n (ApiCall.create ns
      (secretFor cfg (cfg.vaultSecretsPath ++ "/" ++ ns ++ "/" ++ entry) data
        (entry ++ "-v" ++ v))) = none)
    (jobs : List secretForUpdate) (k8s : K8s)
    (hnone : GoMap.get k8s.secrets (ns, entry ++ "-v" ++ v) = none)
    (hother : ∀ j ∈ jobs, j.name ≠ entry → ∀ s2 v2,
      read (cfg.vaultSecretsPath ++ "/" ++ ns ++ "/" ++ j.name) = Except.ok (s2, v2) →
      GoMap.get (k8sSecretsForUpdate j v2 suffix) (entry ++ "-v" ++ v) = none)
    (hok : ∀ r ∈ (processJobs cfg faults read ns suffix k8sSecrets rev k8s jobs).2,
      r.updateResults.err = none)
    (hmem : ∃ j ∈ jobs, j.name = entry) :
    GoMap.get (processJobs cfg faults read ns suffix k8sSecrets rev k8s jobs).1.secrets
        (ns, entry ++ "-v" ++ v)
      = some (secretFor cfg (cfg.vaultSecretsPath ++ "/" ++ ns ++ "/" ++ entry) data
          (entry ++ "-v" ++ v)) := by
  induction jobs generalizing k8s with
  | nil =>
    obtain ⟨j, hj, _⟩ := hmem
    cases hj
  | cons job rest ih =>
    rw [processJobs_cons] at hok ⊢
    have herr : (processJob cfg faults read ns suffix k8sSecrets (rev job) k8s job).2.err
        = none := hok _ (List.mem_cons_self _ _)
    by_cases hj : job.name = entry
    · subst hj
      have h1 := processJob_creates cfg faults read ns suffix k8sSecrets (rev job) k8s job s v
        data hread hs hconv hnl hnone hg hcr herr
      exact worker_keep cfg faults read ns suffix k8sSecrets rev _ s v data _ hread hconv rest
        _ h1
    · have hfr := processJob_frame cfg faults read ns suffix k8sSecrets (rev job) k8s job
        (ns, entry ++ "-v" ++ v) (by
          intro s2 v2 hr2 c hc e
          have hcv : c = entry ++ "-v" ++ v := by simpa using e
          subst hcv
          exact hc (hother job (List.mem_cons_self _ _) hj s2 v2 hr2))
      apply ih
      · rw [hfr]; exact hnone
      · intro j hjm
        exact hother j (List.mem_cons_of_mem _ hjm)
      · intro r hr
        exact hok r (List.mem_cons_of_mem _ hr)
      · obtain ⟨j, hjm, hjn⟩ := hmem
        rcases List.mem_cons.1 hjm with h | h
        · subst h
          exact absurd hjn hj
        · exact ⟨j, h, hjn⟩

/-! ## The keys of a map built by assignments are distinct -/

theorem GoMap.keys_set {K V : Type} [DecidableEq K] (m : GoMap K V) (k : K) (v : V) :
    GoMap.keys (GoMap.set m k v)
      = if k ∈ GoMap.keys m then GoMap.keys m else GoMap.keys m ++ [k] := by
  induction m with
  | nil => simp [GoMap.set, GoMap.keys]
  | cons p rest ih =>
    obtain ⟨k1, v1⟩ := p
    unfold GoMap.keys at ih ⊢
    by_cases h : k1 = k
    · subst h
      simp [GoMap.set]
    · have h2 : ¬ k = k1 := fun e => h e.symm
      simp only [GoMap.set, h, if_false, List.map_cons, List.mem_cons, h2, false_or, ih]
      split <;> simp

theorem GoMap.nodup_keys_set {K V : Type} [DecidableEq K] (m : GoMap K V) (k : K) (v : V)
    (h : (GoMap.keys m).Nodup) : (GoMap.keys (GoMap.set m k v)).Nodup := by
  rw [GoMap.keys_set]
  split
  · exact h
  · rename_i hk
    exact List.Nodup.append h (List.nodup_singleton k) (by
      intro a ha hb
      have : a = k := by simpa using hb
      exact hk (this ▸ ha))

theorem GoMap.get_of_mem {K V : Type} [DecidableEq K] (m : GoMap K V) (k : K) (v : V)
    (hn : (GoMap.keys m).Nodup) (h : (k, v) ∈ m) : GoMap.get m k = some v := by
  induction m with
  | nil => cases h
  | cons p rest ih =>
    obtain ⟨k1, v1⟩ := p
    have hn2 : k1 ∉ GoMap.keys rest ∧ (GoMap.keys rest).Nodup := by
      simpa [GoMap.keys] using hn
    rcases List.mem_cons.1 h with h1 | h1
    · cases h1
      simp [GoMap.get]
    · have hk : k ∈ GoMap.keys rest := by
        unfold GoMap.keys
        exact List.mem_map.2 ⟨(k, v), h1, rfl⟩
      have hne : k1 ≠ k := fun e => hn2.1 (e ▸ hk)
      simp [GoMap.get, hne]
      exact ih hn2.2 h1

theorem GoMap.mem_of_get {K V : Type} [DecidableEq K] (m : GoMap K V) (k : K) (v : V)
    (h : GoMap.get m k = some v) : (k, v) ∈ m := by
  induction m with
  | nil => cases h
  | cons p rest ih =>
    obtain ⟨k1, v1⟩ := p
    by_cases hk : k1 = k
    · subst hk
      simp [GoMap.get] at h
      subst h
      exact List.mem_cons_self _ _
    · simp [GoMap.get, hk] at h
      exact List.mem_cons_of_mem _ (ih h)

theorem GoMap.get_ne_none_of_mem_keys {K V : Type} [DecidableEq K] (m : GoMap K V) (k : K)
    (h : k ∈ GoMap.keys m) : GoMap.get m k ≠ none := by
  induction m with
  | nil => simp [GoMap.keys] at h
  | cons p rest ih =>
    obtain ⟨k1, v1⟩ := p
    by_cases hk : k1 = k
    · simp [GoMap.get, hk]
    · simp only [GoMap.get, hk, if_false]
      apply ih
      have h2 : k = k1 ∨ k ∈ GoMap.keys rest := by simpa [GoMap.keys] using h
      rcases h2 with h3 | h3
      · exact absurd h3.symm hk
      · exact h3

theorem filterSecretsStep_nodup (nv : Bool) (suffix : String) (acc : GoMap String Int)
    (secret : String) (h : (GoMap.keys acc).Nodup) :
    (GoMap.keys (filterSecretsStep nv suffix acc secret)).Nodup := by
  unfold filterSecretsStep
  simp only
  split <;> split <;> try split
  all_goals first
    | exact h
    | exact GoMap.nodup_keys_set _ _ _ h
    | exact GoMap.nodup_keys_set _ _ _ (GoMap.nodup_keys_set _ _ _ h)

theorem filterSecrets_nodup (d : vtkData) (secrets : List String) (suffix ns : String) :
    (GoMap.keys (filterSecrets d secrets suffix ns)).Nodup := by
  unfold filterSecrets
  have : ∀ (l : List String) (acc : GoMap String Int), (GoMap.keys acc).Nodup →
      (GoMap.keys (l.foldl (filterSecretsStep (nonVersioningNamespace d ns) suffix) acc)).Nodup := by
    intro l
    induction l with
    | nil => intro acc h; simpa using h
    | cons x rest ih =>
      intro acc h
      rw [List.foldl_cons]
      exact ih _ (filterSecretsStep_nodup _ _ _ _ h)
  exact this secrets [] (by simp [GoMap.keys])

theorem not_mem_k8sSecretsList (k : K8s) (ns name : String)
    (h : GoMap.get k.secrets (ns, name) = none) : name ∉ k8sSecretsList k ns := by
  intro hm
  unfold k8sSecretsList at hm
  obtain ⟨p, hp, hp1⟩ := List.mem_map.1 hm
  obtain ⟨hp2, hp3⟩ := List.mem_filter.1 hp
  have hkey : p.1 = (ns, name) := by
    have h3 : p.1.1 = ns := by simpa using hp3
    exact Prod.ext h3 hp1
  have hk : (ns, name) ∈ GoMap.keys k.secrets := by
    unfold GoMap.keys
    exact List.mem_map.2 ⟨p, hp2, hkey⟩
  exact GoMap.get_ne_none_of_mem_keys k.secrets (ns, name) hk h

/-! ## Entries that are skipped, and refused Creates -/

/-- The conversion loop ends with the map `data` exactly when every value of the entry is
a string. -/
theorem convertData_converted (s : GoMap String VaultValue) :
    (∃ data, convertData s = Conversion.converted data)
      ↔ ∀ p ∈ s, ∃ x, p.2 = VaultValue.str x := by
  induction s with
  | nil => simp [convertData]
  | cons p rest ih =>
    obtain ⟨k, v⟩ := p
    cases v with
    | other => simp [convertData]
    | number n => simp [convertData]
    | str x =>
      cases hr : convertData rest with
      | incorrect =>
        rw [hr] at ih
        simp only [convertData, hr]
        constructor
        · rintro ⟨d, hd⟩
          cases hd
        · intro h
          obtain ⟨d, hd⟩ := ih.2 (fun q hq => h q (List.mem_cons_of_mem _ hq))
          cases hd
      | panicked =>
        rw [hr] at ih
        simp only [convertData, hr]
        constructor
        · rintro ⟨d, hd⟩
          cases hd
        · intro h
          obtain ⟨d, hd⟩ := ih.2 (fun q hq => h q (List.mem_cons_of_mem _ hq))
          cases hd
      | converted d =>
        rw [hr] at ih
        simp only [convertData, hr]
        constructor
        · intro _ q hq
          rcases List.mem_cons.1 hq with h | h
          · subst h
            exact ⟨x, rfl⟩
          · exact ih.1 ⟨d, rfl⟩ q h
        · intro _
          exact ⟨_, rfl⟩

/-- The conversion loop over strings followed by a value of another kind than
`reflect.String` ends with the skip of line 585, whatever follows. -/
theorem convertData_incorrect (pre post : GoMap String VaultValue) (k : String)
    (hpre : ∀ p ∈ pre, ∃ x, p.2 = VaultValue.str x) :
    convertData (pre ++ (k, VaultValue.other) :: post) = Conversion.incorrect := by
  induction pre with
  | nil => simp [convertData]
  | cons p rest ih =>
    obtain ⟨k1, v1⟩ := p
    obtain ⟨x, hx⟩ := hpre (k1, v1) (List.mem_cons_self _ _)
    simp only at hx
    subst hx
    have h := ih (fun q hq => hpre q (List.mem_cons_of_mem _ hq))
    show convertData ((k1, VaultValue.str x) :: (rest ++ (k, VaultValue.other) :: post)) = _
    simp only [convertData, h]

/-- The conversion loop over strings followed by a `json.Number` ends with the panic of
line 591, whatever follows. -/
theorem convertData_panicked (pre post : GoMap String VaultValue) (k n : String)
    (hpre : ∀ p ∈ pre, ∃ x, p.2 = VaultValue.str x) :
    convertData (pre ++ (k, VaultValue.number n) :: post) = Conversion.panicked := by
  induction pre with
  | nil => simp [convertData]
  | cons p rest ih =>
    obtain ⟨k1, v1⟩ := p
    obtain ⟨x, hx⟩ := hpre (k1, v1) (List.mem_cons_self _ _)
    simp only at hx
    subst hx
    have h := ih (fun q hq => hpre q (List.mem_cons_of_mem _ hq))
    show convertData ((k1, VaultValue.str x) :: (rest ++ (k, VaultValue.number n) :: post)) = _
    simp only [convertData, h]

/-- One iteration and the Creates the API refuses: such a Create is the only write of the
iteration, leaves the name absent, adds 1 to `skipped`, leaves the error as it was and does
not end the loop. -/
theorem syncSecret_rejected (cfg : Config) (faults : Faults) (ns path : String)
    (data : GoMap String Bytes) (k : K8s) (res : updateSecretResults) (name : String) :
    ∃ evs, (syncSecret cfg faults ns path data (k, res) name).1.1.log = k.log ++ evs
      ∧ (∀ e ∈ evs, e.call.target = (ns, name))
      ∧ (evs.filter ApiEvent.isRejectedCreate).length + res.skipped
          ≤ (syncSecret cfg faults ns path data (k, res) name).1.2.skipped
      ∧ ((syncSecret cfg faults ns path data (k, res) name).1.2.err = res.err
          ∨ ∃ sec e, (⟨ApiCall.update ns sec, some e⟩ : ApiEvent) ∈ evs)
      ∧ (∀ secret e, (⟨ApiCall.create ns secret, some e⟩ : ApiEvent) ∈ evs →
          GoMap.get (syncSecret cfg faults ns path data (k, res) name).1.1.secrets (ns, name)
            = none
          ∧ (syncSecret cfg faults ns path data (k, res) name).2 = false
          ∧ ∀ e2 ∈ evs, e2.call.isUpdate = false) := by
  have hname : (secretFor cfg path data name).name = name := rfl
  rcases syncSecret_cases cfg faults ns path data k res name with
    ⟨msg, _, h⟩ | ⟨_, _, _, h⟩ | ⟨msg, _, hs, _, h⟩ | ⟨ex, _, _, _, h⟩
    | ⟨ex, _, _, _, _, h⟩ | ⟨ex, e1, _, _, _, _, _, h⟩
    | ⟨ex, e1, msg, secrets1, _, _, _, _, _, hsec, h⟩
  · rw [h]
    refine ⟨_, rfl, ?_, ?_, Or.inl rfl, ?_⟩
    · intro e he
      simp at he
      subst he
      rfl
    · simp [ApiEvent.isRejectedCreate]
    · intro secret e he
      simp at he
  · rw [h]
    refine ⟨_, rfl, ?_, ?_, Or.inl rfl, ?_⟩
    · intro e he
      simp at he
      rcases he with rfl | rfl <;> simp [ApiCall.target, hname]
    · simp [ApiEvent.isRejectedCreate]
    · intro secret e he
      simp at he
  · rw [h]
    refine ⟨_, rfl, ?_, ?_, Or.inl rfl, ?_⟩
    · intro e he
      simp at he
      rcases he with rfl | rfl <;> simp [ApiCall.target, hname]
    · simp [ApiEvent.isRejectedCreate]
      omega
    · intro secret e _
      refine ⟨hs, rfl, ?_⟩
      intro e2 he2
      simp at he2
      rcases he2 with rfl | rfl <;> rfl
  · rw [h]
    refine ⟨_, rfl, ?_, ?_, Or.inl rfl, ?_⟩
    · intro e he
      simp at he
      subst he
      rfl
    · simp [ApiEvent.isRejectedCreate]
    · intro secret e he
      simp at he
  · rw [h]
    refine ⟨_, rfl, ?_, ?_, Or.inl rfl, ?_⟩
    · intro e he
      simp at he
      subst he
      rfl
    · simp [ApiEvent.isRejectedCreate]
    · intro secret e he
      simp at he
  · rw [h]
    refine ⟨_, rfl, ?_, ?_, Or.inl rfl, ?_⟩
    · intro e he
      simp at he
      rcases he with rfl | rfl | rfl <;> simp [ApiCall.target, hname]
    · simp [ApiEvent.isRejectedCreate, List.filter]
    · intro secret e he
      simp at he
  · rw [h]
    refine ⟨_, rfl, ?_, ?_, Or.inr ⟨_, _, List.mem_cons_of_mem _
      (List.mem_cons_of_mem _ (List.mem_singleton.2 rfl))⟩, ?_⟩
    · intro e he
      simp at he
      rcases he with rfl | rfl | rfl <;> simp [ApiCall.target, hname]
    · simp [ApiEvent.isRejectedCreate, List.filter]
    · intro secret e he
      simp at he

/-- The loop and the Creates the API refuses, for candidate names that are distinct. -/
theorem syncSecrets_rejected (cfg : Config) (faults : Faults) (ns path : String)
    (data : GoMap String Bytes) (names : List String) (hnd : names.Nodup)
    (st : K8s × updateSecretResults) :
    ∃ evs, (syncSecrets cfg faults ns path data names st).1.log = st.1.log ++ evs
      ∧ (∀ e ∈ evs, ∃ n ∈ names, e.call.target = (ns, n))
      ∧ (evs.filter ApiEvent.isRejectedCreate).length + st.2.skipped
          ≤ (syncSecrets cfg faults ns path data names st).2.skipped
      ∧ ((syncSecrets cfg faults ns path data names st).2.err = st.2.err
          ∨ ∃ sec e, (⟨ApiCall.update ns sec, some e⟩ : ApiEvent) ∈ evs)
      ∧ (∀ secret e, (⟨ApiCall.create ns secret, some e⟩ : ApiEvent) ∈ evs →
          GoMap.get (syncSecrets cfg faults ns path data names st).1.secrets
            (ns, secret.name) = none
          ∧ ∀ e2 ∈ evs, e2.call.isUpdate = true → e2.call.target ≠ (ns, secret.name)) := by
  induction names generalizing st with
  | nil =>
    refine ⟨[], by simp [syncSecrets], by simp, by simp [syncSecrets],
      Or.inl (by simp [syncSecrets]), by simp⟩
  | cons n rest ih =>
    obtain ⟨k, res⟩ := st
    obtain ⟨hn, hrest⟩ := List.nodup_cons.1 hnd
    obtain ⟨evs1, hlog1, htar1, hcnt1, herr1, hrej1⟩ :=
      syncSecret_rejected cfg faults ns path data k res n
    rw [syncSecrets_cons]
    by_cases hab : (syncSecret cfg faults ns path data (k, res) n).2 = true
    · rw [if_pos hab]
      refine ⟨evs1, hlog1, ?_, hcnt1, herr1, ?_⟩
      · intro e he
        exact ⟨n, List.mem_cons_self _ _, htar1 e he⟩
      · intro secret e he
        obtain ⟨_, hf, _⟩ := hrej1 secret e he
        rw [hf] at hab
        cases hab
    · rw [if_neg hab]
      obtain ⟨evs2, hlog2, htar2, hcnt2, herr2, hrej2⟩ :=
        ih hrest (syncSecret cfg faults ns path data (k, res) n).1
      refine ⟨evs1 ++ evs2, ?_, ?_, ?_, ?_, ?_⟩
      · rw [hlog2, hlog1, List.append_assoc]
      · intro e he
        rcases List.mem_append.1 he with h | h
        · exact ⟨n, List.mem_cons_self _ _, htar1 e h⟩
        · obtain ⟨m, hm, ht⟩ := htar2 e h
          exact ⟨m, List.mem_cons_of_mem _ hm, ht⟩
      · rw [List.filter_append, List.length_append]
        simp only at hcnt1 hcnt2 ⊢
        omega
      · rcases herr2 with h2 | ⟨sec, e, h2⟩
        · rcases herr1 with h1 | ⟨sec, e, h1⟩
          · left
            rw [h2, h1]
          · exact Or.inr ⟨sec, e, List.mem_append_left _ h1⟩
        · exact Or.inr ⟨sec, e, List.mem_append_right _ h2⟩
      · intro secret e he
        rcases List.mem_append.1 he with h | h
        · have hsn : secret.name = n := by
            have := htar1 _ h
            simpa [ApiCall.target] using this
          obtain ⟨habs, _, hnoupd⟩ := hrej1 secret e h
          refine ⟨?_, ?_⟩
          · rw [syncSecrets_frame cfg faults ns path data rest _ (ns, secret.name)
              (by
                intro m hm heq
                have : m = secret.name := by simpa using heq
                rw [hsn] at this
                exact hn (this ▸ hm))]
            rw [hsn]
            exact habs
          · intro e2 he2 hupd
            rcases List.mem_append.1 he2 with h2 | h2
            · rw [hnoupd e2 h2] at hupd
              cases hupd
            · obtain ⟨m, hm, ht⟩ := htar2 e2 h2
              rw [ht, hsn]
              intro heq
              have : m = n := by simpa using heq
              exact hn (this ▸ hm)
        · obtain ⟨habs, hupd2⟩ := hrej2 secret e h
          refine ⟨habs, ?_⟩
          intro e2 he2 hupd
          rcases List.mem_append.1 he2 with h2 | h2
          · rw [htar1 e2 h2]
            obtain ⟨m, hm, ht⟩ := htar2 _ h
            have hsm : secret.name = m := by simpa [ApiCall.target] using ht
            rw [hsm]
            intro heq
            have : n = m := by simpa using heq
            exact hn (this ▸ hm)
          · exact hupd2 e2 h2 hupd

/-- The candidate names the loop ranges over are distinct. -/
theorem nodup_names_candidate (job : secretForUpdate) (v suffix : String)
    (k8sSecrets : List String) (rev : Bool) :
    (rangeOrder rev
      ((if job.name ++ "-v" ++ v ∈ k8sSecrets then [] else [job.name ++ "-v" ++ v])
        ++ (if job.versioning = 0 then [trimSuffix job.name suffix] else []))).Nodup := by
  have hne := versioned_ne_trimSuffix job.name v suffix
  have h : ((if job.name ++ "-v" ++ v ∈ k8sSecrets then [] else [job.name ++ "-v" ++ v])
        ++ (if job.versioning = 0 then [trimSuffix job.name suffix] else [])).Nodup := by
    by_cases hf : job.versioning = 0 <;> by_cases hl : job.name ++ "-v" ++ v ∈ k8sSecrets
      <;> simp [hf, hl, hne]
  cases rev
  · exact h
  · exact List.nodup_reverse.2 h

/-! ## The mount check -/

/-- A text that ends with a text containing `substr` contains it. -/
theorem contains_append (a b substr : String) (h : contains b substr = true) :
    contains (a ++ b) substr = true := by
  unfold contains at h ⊢
  have h1 : substr.data <:+: b.data := of_decide_eq_true h
  apply decide_eq_true
  rw [String.data_append]
  exact List.IsInfix.trans h1 (List.suffix_append a.data b.data).isInfix

/-- The loop of the mount check when every mount whose key is a prefix of the path mount
is a KV mount of version 2: no error, and `mountNotExists` is cleared by the first of
them. -/
theorem verifyVaultMountLoop_ok (vaultMount : String) (mounts : GoMap String MountOutput)
    (b : Bool)
    (h : ∀ p ∈ mounts, hasPrefix vaultMount p.1 = true →
      p.2.type_ = "kv" ∧ kvVersion p.2 = 2) :
    verifyVaultMountLoop vaultMount mounts b
      = Except.ok (b && mounts.all (fun p => !hasPrefix vaultMount p.1)) := by
  induction mounts generalizing b with
  | nil => simp [verifyVaultMountLoop]
  | cons p rest ih =>
    obtain ⟨k, m⟩ := p
    have hrest : ∀ p ∈ rest, hasPrefix vaultMount p.1 = true →
        p.2.type_ = "kv" ∧ kvVersion p.2 = 2 :=
      fun p hp => h p (List.mem_cons_of_mem _ hp)
    by_cases hk : hasPrefix vaultMount k = true
    · obtain ⟨ht, hv⟩ := h (k, m) (List.mem_cons_self _ _) hk
      simp only at ht hv
      simp [verifyVaultMountLoop, hk, ht, hv, ih false hrest]
    · have hk2 : hasPrefix vaultMount k = false := by simpa using hk
      simp [verifyVaultMountLoop, hk2, ih b hrest]

/-- The loop of the mount check when some mount whose key is a prefix of the path mount is
not a KV mount of version 2: the loop returns with the error of such a mount. -/
theorem verifyVaultMountLoop_error (vaultMount : String) (mounts : GoMap String MountOutput)
    (b : Bool)
    (h : ∃ p ∈ mounts, hasPrefix vaultMount p.1 = true
      ∧ ¬ (p.2.type_ = "kv" ∧ kvVersion p.2 = 2)) :
    ∃ p ∈ mounts, hasPrefix vaultMount p.1 = true
      ∧ ((p.2.type_ ≠ "kv"
          ∧ verifyVaultMountLoop vaultMount mounts b = Except.error
              ("Matching mount '" ++ p.1 ++ "' for path '" ++ vaultMount
                ++ "' is not of type kv"))
        ∨ (p.2.type_ = "kv" ∧ kvVersion p.2 ≠ 2
          ∧ verifyVaultMountLoop vaultMount mounts b = Except.error
              ("Vault mount '" ++ p.1 ++ "' and defined path '" ++ vaultMount
                ++ "' matched but Vault mount version is not '2'"))) := by
  induction mounts generalizing b with
  | nil =>
    obtain ⟨p, hp, _⟩ := h
    cases hp
  | cons q rest ih =>
    obtain ⟨k, m⟩ := q
    by_cases hk : hasPrefix vaultMount k = true
    · by_cases ht : m.type_ = "kv"
      · by_cases hv : kvVersion m = 2
        · have hrest : ∃ p ∈ rest, hasPrefix vaultMount p.1 = true
              ∧ ¬ (p.2.type_ = "kv" ∧ kvVersion p.2 = 2) := by
            obtain ⟨p, hp, hpk, hbad⟩ := h
            rcases List.mem_cons.1 hp with e | e
            · subst e
              exact absurd ⟨ht, hv⟩ hbad
            · exact ⟨p, e, hpk, hbad⟩
          obtain ⟨p, hp, hpk, hmsg⟩ := ih false hrest
          refine ⟨p, List.mem_cons_of_mem _ hp, hpk, ?_⟩
          simpa [verifyVaultMountLoop, hk, ht, hv] using hmsg
        · refine ⟨(k, m), List.mem_cons_self _ _, hk, Or.inr ⟨ht, hv, ?_⟩⟩
          simp [verifyVaultMountLoop, hk, ht, hv]
      · refine ⟨(k, m), List.mem_cons_self _ _, hk, Or.inl ⟨ht, ?_⟩⟩
        simp [verifyVaultMountLoop, hk, ht]
    · have hk2 : hasPrefix vaultMount k = false := by simpa using hk
      have hrest : ∃ p ∈ rest, hasPrefix vaultMount p.1 = true
          ∧ ¬ (p.2.type_ = "kv" ∧ kvVersion p.2 = 2) := by
        obtain ⟨p, hp, hpk, hbad⟩ := h
        rcases List.mem_cons.1 hp with e | e
        · subst e
          rw [hk2] at hpk
          cases hpk
        · exact ⟨p, e, hpk, hbad⟩
      obtain ⟨p, hp, hpk, hmsg⟩ := ih b hrest
      refine ⟨p, List.mem_cons_of_mem _ hp, hpk, ?_⟩
      simpa [verifyVaultMountLoop, hk2] using hmsg

/-! ## Bytes and strings: `string([]byte(s))` is `s` -/

set_option maxRecDepth 100000 in
/-- The bit operations of the UTF-8 encoder on a byte, as arithmetic. -/
theorem nat_bits : ∀ x : Fin 256,
    (x.val &&& 63) ||| 128 = 128 + x.val % 64
    ∧ (x.val &&& 31) ||| 192 = 192 + x.val % 32
    ∧ (x.val &&& 15) ||| 224 = 224 + x.val % 16
    ∧ (x.val &&& 7) ||| 240 = 240 + x.val % 8 := by
  decide

theorem byte_cont (b : UInt8) : (b &&& 0x3f ||| 0x80).toNat = 128 + b.toNat % 64 :=
  (nat_bits ⟨b.toNat, b.toBitVec.isLt⟩).1
theorem byte_lead2 (b : UInt8) : (b &&& 0x1f ||| 0xc0).toNat = 192 + b.toNat % 32 :=
  (nat_bits ⟨b.toNat, b.toBitVec.isLt⟩).2.1
theorem byte_lead3 (b : UInt8) : (b &&& 0x0f ||| 0xe0).toNat = 224 + b.toNat % 16 :=
  (nat_bits ⟨b.toNat, b.toBitVec.isLt⟩).2.2.1
theorem byte_lead4 (b : UInt8) : (b &&& 0x07 ||| 0xf0).toNat = 240 + b.toNat % 8 :=
  (nat_bits ⟨b.toNat, b.toBitVec.isLt⟩).2.2.2

theorem u32_toUInt8 (v : UInt32) : v.toUInt8.toNat = v.toNat % 256 := rfl

theorem u32_shift (v : UInt32) (k : UInt32) (hk : k.toNat < 32) :
    (v >>> k).toNat = v.toNat / 2 ^ k.toNat := by
  show (v.toBitVec >>> (k.mod 32).toBitVec).toNat = _
  have h : (k.mod 32).toBitVec.toNat = k.toNat := by
    show k.toNat % 32 = k.toNat
    exact Nat.mod_eq_of_lt hk
  rw [BitVec.ushiftRight_eq', BitVec.toNat_ushiftRight, h, Nat.shiftRight_eq_div_pow]
  rfl

theorem u32_le (a b : UInt32) : a ≤ b ↔ a.toNat ≤ b.toNat := Iff.rfl

theorem decodeRune_one (b0 : UInt8) (rest : Bytes) (h0 : b0.toNat < 128) :
    decodeRune (b0 :: rest) = (Char.ofNat b0.toNat, 1) := by
  simp only [decodeRune, List.getD_cons_zero, h0, if_true]

theorem decodeRune_two (b0 b1 : UInt8) (rest : Bytes) (n : Nat)
    (h0 : b0.toNat = 192 + n / 64) (h1 : b1.toNat = 128 + n % 64)
    (hlo : 128 ≤ n) (hhi : n ≤ 2047) :
    decodeRune (b0 :: b1 :: rest) = (Char.ofNat n, 2) := by
  have hz : (192 + n / 64 - 192) * 64 + (128 + n % 64 - 128) = n := by omega
  simp only [decodeRune, List.getD_cons_zero, List.getD_cons_succ, h0, h1, hz]
  rw [if_neg (by omega), if_pos (by omega)]

theorem decodeRune_three (b0 b1 b2 : UInt8) (rest : Bytes) (n : Nat)
    (h0 : b0.toNat = 224 + n / 4096) (h1 : b1.toNat = 128 + n / 64 % 64)
    (h2 : b2.toNat = 128 + n % 64) (hlo : 2048 ≤ n) (hhi : n ≤ 65535)
    (hsur : ¬ (55296 ≤ n ∧ n < 57344)) :
    decodeRune (b0 :: b1 :: b2 :: rest) = (Char.ofNat n, 3) := by
  have hz : (224 + n / 4096 - 224) * 4096 + (128 + n / 64 % 64 - 128) * 64
      + (128 + n % 64 - 128) = n := by omega
  simp only [decodeRune, List.getD_cons_zero, List.getD_cons_succ, h0, h1, h2, hz]
  rw [if_neg (by omega), if_neg (by omega), if_pos (by omega)]

theorem decodeRune_four (b0 b1 b2 b3 : UInt8) (rest : Bytes) (n : Nat)
    (h0 : b0.toNat = 240 + n / 262144) (h1 : b1.toNat = 128 + n / 4096 % 64)
    (h2 : b2.toNat = 128 + n / 64 % 64) (h3 : b3.toNat = 128 + n % 64)
    (hlo : 65536 ≤ n) (hhi : n < 1114112) :
    decodeRune (b0 :: b1 :: b2 :: b3 :: rest) = (Char.ofNat n, 4) := by
  have hz : (240 + n / 262144 - 240) * 262144 + (128 + n / 4096 % 64 - 128) * 4096
      + (128 + n / 64 % 64 - 128) * 64 + (128 + n % 64 - 128) = n := by omega
  simp only [decodeRune, List.getD_cons_zero, List.getD_cons_succ, h0, h1, h2, h3, hz]
  rw [if_neg (by omega), if_neg (by omega), if_neg (by omega), if_pos (by omega)]

theorem toNat_low (v : UInt32) : (v.toUInt8 &&& 0x3f ||| 0x80).toNat = 128 + v.toNat % 64 := by
  rw [byte_cont, u32_toUInt8]
  omega

theorem toNat_mid (v : UInt32) (k : UInt32) (hk : k.toNat < 32) :
    ((v >>> k).toUInt8 &&& 0x3f ||| 0x80).toNat = 128 + v.toNat / 2 ^ k.toNat % 64 := by
  rw [byte_cont, u32_toUInt8, u32_shift v k hk]
  omega

theorem decodeRune_encode (c : Char) (rest : Bytes) :
    decodeRune (String.utf8EncodeChar c ++ rest) = (c, (String.utf8EncodeChar c).length) := by
  have hc : Char.ofNat c.val.toNat = c := Char.ofNat_toNat c
  have hvalid : c.val.toNat < 55296 ∨ (57343 < c.val.toNat ∧ c.val.toNat < 1114112) := c.valid
  unfold String.utf8EncodeChar
  by_cases h1 : c.val ≤ 0x7f
  · have h1n : c.val.toNat ≤ 127 := (u32_le _ _).1 h1
    have e0 : c.val.toUInt8.toNat = c.val.toNat := by
      rw [u32_toUInt8]
      omega
    simp only [h1, if_true, List.singleton_append, List.length_singleton]
    rw [decodeRune_one _ _ (by omega), e0, hc]
  · have h1n : ¬ c.val.toNat ≤ 127 := fun h => h1 ((u32_le _ _).2 h)
    by_cases h2 : c.val ≤ 0x7ff
    · have h2n : c.val.toNat ≤ 2047 := (u32_le _ _).1 h2
      simp only [h1, h2, if_true, if_false, List.cons_append, List.nil_append]
      rw [decodeRune_two _ _ _ c.val.toNat ?_ (toNat_low c.val) (by omega) h2n, hc]
      · rfl
      · rw [byte_lead2, u32_toUInt8, u32_shift c.val 6 (by decide)]
        have k6 : (6 : UInt32).toNat = 6 := rfl
        rw [k6]
        omega
    · have h2n : ¬ c.val.toNat ≤ 2047 := fun h => h2 ((u32_le _ _).2 h)
      by_cases h3 : c.val ≤ 0xffff
      · have h3n : c.val.toNat ≤ 65535 := (u32_le _ _).1 h3
        simp only [h1, h2, h3, if_true, if_false, List.cons_append, List.nil_append]
        rw [decodeRune_three _ _ _ _ c.val.toNat ?_ (toNat_mid c.val 6 (by decide))
          (toNat_low c.val) (by omega) h3n (by omega), hc]
        · rfl
        · rw [byte_lead3, u32_toUInt8, u32_shift c.val 12 (by decide)]
          have k12 : (12 : UInt32).toNat = 12 := rfl
          rw [k12]
          omega
      · have h3n : ¬ c.val.toNat ≤ 65535 := fun h => h3 ((u32_le _ _).2 h)
        simp only [h1, h2, h3, if_false, List.cons_append, List.nil_append]
        rw [decodeRune_four _ _ _ _ _ c.val.toNat ?_ (toNat_mid c.val 12 (by decide))
          (toNat_mid c.val 6 (by decide)) (toNat_low c.val) (by omega) (by omega), hc]
        · rfl
        · rw [byte_lead4, u32_toUInt8, u32_shift c.val 18 (by decide)]
          have k18 : (18 : UInt32).toNat = 18 := rfl
          rw [k18]
          omega

theorem decodeUtf8_flatMap (cs : List Char) (fuel : Nat)
    (h : (cs.flatMap String.utf8EncodeChar).length ≤ fuel) :
    decodeUtf8 fuel (cs.flatMap String.utf8EncodeChar) = cs := by
  induction cs generalizing fuel with
  | nil =>
    cases fuel with
    | zero => rfl
    | succ f => simp [decodeUtf8]
  | cons c rest ih =>
    have hpos : 0 < (String.utf8EncodeChar c).length := by
      rw [String.length_utf8EncodeChar]
      exact Char.utf8Size_pos c
    rw [List.flatMap_cons] at h ⊢
    rw [List.length_append] at h
    cases fuel with
    | zero => omega
    | succ f =>
      have hne : String.utf8EncodeChar c ++ rest.flatMap String.utf8EncodeChar ≠ [] := by
        intro he
        have := congrArg List.length he
        rw [List.length_append, List.length_nil] at this
        omega
      rw [decodeUtf8, if_neg hne, decodeRune_encode]
      simp only [List.drop_left]
      rw [ih f (by omega)]

/-- Converting a string to bytes and back gives the string. -/
theorem ofBytes_toBytes (s : String) : ofBytes (toBytes s) = s := by
  unfold ofBytes toBytes
  rw [decodeUtf8_flatMap s.data _ (Nat.le_refl _)]

/-! ## The float64 product -/

/-- The search for the shift stops at a shift for which the quotient fits 53 bits, and a
shift that is not 0 is needed: one less does not fit. -/
theorem shiftOf_spec (fuel p s : Nat) (hs : s = 0 ∨ 2 ^ 53 ≤ p / 2 ^ (s - 1))
    (hp : p < 2 ^ (53 + s + fuel)) :
    p / 2 ^ shiftOf fuel p s < 2 ^ 53
      ∧ (shiftOf fuel p s = 0 ∨ 2 ^ 53 ≤ p / 2 ^ (shiftOf fuel p s - 1)) := by
  induction fuel generalizing s with
  | zero =>
    simp only [shiftOf]
    refine ⟨?_, hs⟩
    apply Nat.div_lt_of_lt_mul
    rw [← Nat.pow_add, Nat.add_comm s 53]
    simpa using hp
  | succ f ih =>
    unfold shiftOf
    by_cases h : p / 2 ^ s < 2 ^ 53
    · rw [if_pos h]
      exact ⟨h, hs⟩
    · rw [if_neg h]
      apply ih (s + 1)
      · right
        simpa using h
      · have : 53 + (s + 1) + f = 53 + s + (f + 1) := by omega
        rw [this]
        exact hp

/-- Rounding to a `float64` moves a number by at most the fraction `2^(-53)` of it. -/
theorem roundToFloat_bounds (p : Nat) (hp : p < 2 ^ 117) :
    p * 2 ^ 53 ≤ roundToFloat p * 2 ^ 53 + p ∧ roundToFloat p * 2 ^ 53 ≤ p * 2 ^ 53 + p := by
  obtain ⟨_, hs⟩ := shiftOf_spec 64 p 0 (Or.inl rfl) (by simpa using hp)
  unfold roundToFloat
  dsimp only
  generalize shiftOf 64 p 0 = s at hs ⊢
  rcases Nat.eq_zero_or_pos s with h0 | hpos
  · subst h0
    simp [Nat.mod_one]
  · have hs2 : 2 ^ 53 ≤ p / 2 ^ (s - 1) := by
      rcases hs with h | h
      · omega
      · exact h
    have hpow : 2 ^ s = 2 * 2 ^ (s - 1) := by
      have : s = (s - 1) + 1 := by omega
      conv_lhs => rw [this]
      rw [Nat.pow_succ, Nat.mul_comm]
    have hu : 0 < 2 ^ (s - 1) := Nat.two_pow_pos _
    have hle : 2 ^ 53 * 2 ^ (s - 1) ≤ p := (Nat.le_div_iff_mul_le hu).1 hs2
    have hdm : 2 ^ s * (p / 2 ^ s) + p % 2 ^ s = p := Nat.div_add_mod p (2 ^ s)
    have hr : p % 2 ^ s < 2 ^ s := Nat.mod_lt _ (Nat.two_pow_pos _)
    generalize 2 ^ (s - 1) = u at hpow hu hle
    generalize hq : p / 2 ^ s = q at hdm ⊢
    generalize hrr : p % 2 ^ s = r at hdm hr ⊢
    rw [hpow] at hdm hr ⊢
    have hqu : 2 * u * q = 2 * (u * q) := by ring
    rw [hqu] at hdm
    generalize hA : u * q = A at hdm
    split_ifs with hc
    · have e1 : (q + 1) * (2 * u) = 2 * A + 2 * u := by rw [← hA]; ring
      rw [e1]
      have hru : u ≤ r := by
        rcases hc with h | ⟨h, _⟩ <;> omega
      norm_num at hle ⊢
      omega
    · have e1 : q * (2 * u) = 2 * A := by rw [← hA]; ring
      rw [e1]
      have hru : r ≤ u := by
        by_contra hcon
        exact hc (Or.inl (by omega))
      norm_num at hle ⊢
      omega

/-- A number that fits 53 bits is a `float64`. -/
theorem roundToFloat_small (p : Nat) (hp : p < 2 ^ 53) : roundToFloat p = p := by
  have h : shiftOf 64 p 0 = 0 := by
    rw [shiftOf, if_pos (by simpa using hp)]
  unfold roundToFloat
  simp [h, Nat.mod_one]

/-- The truncated `float64` product with 0.7 of a positive 64-bit number is smaller than
the number. -/
theorem scale_lt (n : Nat) (h0 : 0 < n) (h1 : n < 2 ^ 63) :
    roundToFloat (roundToFloat n * float07) / 2 ^ 53 < n := by
  have hb := (roundToFloat_bounds n (by
    have : (2 : Nat) ^ 63 < 2 ^ 117 := by norm_num
    omega)).2
  unfold float07
  generalize roundToFloat n = m at hb ⊢
  have hp2 : m * 6305039478318694 < 2 ^ 117 := by
    norm_num at hb h1 ⊢
    omega
  have hb2 := (roundToFloat_bounds (m * 6305039478318694) hp2).2
  apply Nat.div_lt_of_lt_mul
  generalize roundToFloat (m * 6305039478318694) = r at hb2 ⊢
  clear hp2
  norm_num at hb hb2 h1 ⊢
  omega

/-- Up to `2^51` the truncated `float64` product with 0.7 is the floor of the exact
product or one less. -/
theorem scale_floor (n : Nat) (h1 : n ≤ 2 ^ 51) :
    7 * n / 10 ≤ roundToFloat (roundToFloat n * float07) / 2 ^ 53 + 1
      ∧ roundToFloat (roundToFloat n * float07) / 2 ^ 53 ≤ 7 * n / 10 := by
  rw [roundToFloat_small n (by
    have : (2 : Nat) ^ 51 < 2 ^ 53 := by norm_num
    omega)]
  unfold float07
  have hp2 : n * 6305039478318694 < 2 ^ 117 := by
    norm_num at h1 ⊢
    omega
  obtain ⟨hb1, hb2⟩ := roundToFloat_bounds (n * 6305039478318694) hp2
  generalize roundToFloat (n * 6305039478318694) = r at hb1 hb2 ⊢
  clear hp2
  norm_num at hb1 hb2 h1 ⊢
  omega

/-- The value of `int(float64(ttl) * 0.7)` for a positive 64-bit `ttl` is below `ttl`. -/
theorem scale07_lt (ttl : Int) (h0 : 0 < ttl) (h1 : ttl < 2 ^ 63) : scale07 ttl < ttl := by
  have hn : ((ttl.natAbs : Nat) : Int) = ttl := Int.natAbs_of_nonneg (Int.le_of_lt h0)
  unfold scale07
  dsimp only
  rw [if_neg (by omega)]
  generalize ttl.natAbs = n at hn ⊢
  subst hn
  have hlt := scale_lt n (by omega) (by exact_mod_cast h1)
  exact_mod_cast hlt

/-- The value of `int(float64(ttl) * 0.7)` for `0 ≤ ttl ≤ 2^51` is the floor of `0.7 ttl`
or one less. -/
theorem scale07_floor (ttl : Int) (h0 : 0 ≤ ttl) (h1 : ttl ≤ 2 ^ 51) :
    7 * ttl / 10 - 1 ≤ scale07 ttl ∧ scale07 ttl ≤ 7 * ttl / 10 := by
  have hn : ((ttl.natAbs : Nat) : Int) = ttl := Int.natAbs_of_nonneg h0
  unfold scale07
  dsimp only
  rw [if_neg (by omega)]
  generalize ttl.natAbs = n at hn ⊢
  subst hn
  obtain ⟨hlo, hhi⟩ := scale_floor n (by exact_mod_cast h1)
  generalize roundToFloat (roundToFloat n * float07) / 2 ^ 53 = r at hlo hhi ⊢
  omega

/-! ## The bootstrap Secret -/

/-- A text that begins with a text containing `substr` contains it. -/
theorem contains_append_left (a b substr : String) (h : contains a substr = true) :
    contains (a ++ b) substr = true := by
  unfold contains at h ⊢
  have h1 : substr.data <:+: a.data := of_decide_eq_true h
  apply decide_eq_true
  rw [String.data_append]
  exact List.IsInfix.trans h1 (List.prefix_append a.data b.data).isInfix

/-- A Get does not change the stored Secrets and adds itself to the log. -/
theorem get_state (faults : Faults) (k : K8s) (ns name : String) :
    (K8s.get faults k ns name).1.secrets = k.secrets
      ∧ ∃ e, (K8s.get faults k ns name).1.log = k.log ++ [⟨ApiCall.get ns name, e⟩] := by
  cases hf : faults k.log.length (ApiCall.get ns name) with
  | some msg =>
    rw [get_fault faults k ns name msg hf]
    exact ⟨rfl, _, rfl⟩
  | none =>
    cases hs : GoMap.get k.secrets (ns, name) with
    | none =>
      rw [get_notFound faults k ns name hf hs]
      exact ⟨rfl, _, rfl⟩
    | some s =>
      rw [get_found faults k ns name s hf hs]
      exact ⟨rfl, _, rfl⟩

/-- The bootstrap Secret of another owner: `updateAppSystemSecret` ends after its Get with
an error and the state is the one after the Get. -/
theorem updateAppSystemSecret_foreign (cfg : Config) (faults : Faults) (st : AuthState)
    (s : String) (ex : Secret)
    (hid : st.d.approleSecretID = some (VaultValue.str s))
    (hex : GoMap.get st.k8s.secrets (cfg.podNamespace, cfg.appName ++ "-system") = some ex)
    (hann : GoMap.get ex.annotations "createdBy" ≠ some cfg.appName) :
    ∃ msg, updateAppSystemSecret cfg faults st
        = some ({ st with k8s := (K8s.get faults st.k8s cfg.podNamespace
                    (cfg.appName ++ "-system")).1 }, some msg)
      ∧ (faults st.k8s.log.length
            (ApiCall.get cfg.podNamespace (cfg.appName ++ "-system")) = none →
          (GoMap.get ex.annotations "createdBy" = none →
            msg = "Can't update application k8s secret '" ++ (cfg.appName ++ "-system")
              ++ "' in '" ++ cfg.podNamespace ++ "' namespace as it not created by '"
              ++ cfg.appName ++ "' application")
          ∧ (GoMap.get ex.annotations "createdBy" ≠ none →
            msg = "Secret '" ++ (cfg.appName ++ "-system") ++ "' already exists in '"
              ++ cfg.podNamespace
              ++ "' namespace but it wasn't created by this application")) := by
  cases hf : faults st.k8s.log.length
      (ApiCall.get cfg.podNamespace (cfg.appName ++ "-system")) with
  | some m =>
    have hg := get_fault faults st.k8s cfg.podNamespace (cfg.appName ++ "-system") m hf
    refine ⟨"Error during get application k8s secret: " ++ m, ?_, by simp⟩
    simp only [updateAppSystemSecret, hid, hg]
    simp
  | none =>
    have hg := get_found faults st.k8s cfg.podNamespace (cfg.appName ++ "-system") ex hf hex
    cases ha : GoMap.get ex.annotations "createdBy" with
    | none =>
      refine ⟨_, ?_, fun _ => ⟨fun _ => rfl, fun h => absurd rfl h⟩⟩
      simp only [updateAppSystemSecret, hid, hg, ha]
    | some c =>
      have hc : c ≠ cfg.appName := by
        intro e
        apply hann
        rw [ha, e]
      refine ⟨_, ?_, fun _ => ⟨fun h => (by cases h), fun _ => rfl⟩⟩
      simp only [updateAppSystemSecret, hid, hg, ha]
      simp [hc]

/-! ## approleAuthenticate -/

/-- The function `revokeOldToken` makes one Get and writes nothing to the cluster or to the
program data. -/
theorem revokeOldToken_state (cfg : Config) (faults : Faults) (server : VaultServer)
    (st : AuthState) :
    (revokeOldToken cfg faults server st).1.k8s
        = (K8s.get faults st.k8s cfg.podNamespace (cfg.appName ++ "-system")).1
      ∧ (revokeOldToken cfg faults server st).1.d = st.d := by
  unfold revokeOldToken
  dsimp only
  split
  · exact ⟨rfl, rfl⟩
  · split
    · exact ⟨rfl, rfl⟩
    · split
      · split <;> exact ⟨rfl, rfl⟩
      · exact ⟨rfl, rfl⟩

/-- The function `approleRevokeOldSecretID` makes one Get and writes nothing to the cluster
or to the program data. -/
theorem approleRevokeOldSecretID_state (cfg : Config) (faults : Faults)
    (server : VaultServer) (st : AuthState) :
    (approleRevokeOldSecretID cfg faults server st).1.k8s
        = (K8s.get faults st.k8s cfg.podNamespace (cfg.appName ++ "-system")).1
      ∧ (approleRevokeOldSecretID cfg faults server st).1.d = st.d := by
  unfold approleRevokeOldSecretID
  dsimp only
  split
  · exact ⟨rfl, rfl⟩
  · split
    · exact ⟨rfl, rfl⟩
    · exact ⟨rfl, rfl⟩
    · split <;> exact ⟨rfl, rfl⟩

/-- The function `approleGetToken` makes no request to the cluster. -/
theorem approleGetToken_k8s (cfg : Config) (server : VaultServer) (now : Int)
    (st : AuthState) (r : AuthState × Option String)
    (h : approleGetToken cfg server now st = some r) : r.1.k8s = st.k8s := by
  unfold approleGetToken at h
  dsimp only at h
  split at h
  · cases h
  · rename_i st1 e heq
    have hk : st1.k8s = st.k8s := by
      split at heq
      · cases heq
      · split at heq
        · split at heq <;> cases heq <;> rfl
        · cases heq
        · cases heq
    cases h
    exact hk
  · rename_i st1 heq
    have hk : st1.k8s = st.k8s := by
      split at heq
      · cases heq
        rfl
      · split at heq
        · split at heq <;> cases heq
        · cases heq
        · cases heq
          rfl
    split at h
    · cases h
      exact hk
    · cases h
    · split at h
      · cases h
      · cases h
        exact hk

/-- The last character of a text that ends with a non-empty text. -/
theorem getLast_append (a b : String) (c : Char) (h : b.data.getLast? = some c) :
    (a ++ b).data.getLast? = some c := by
  rw [String.data_append, List.getLast?_append, h]
  rfl

/-- A login is not a revocation: the login path ends with `n`, the revocation paths with
`r` and `y`. -/
theorem login_not_revoke (cfg : Config) (approleName : String)
    (options : GoMap String (Option VaultValue)) :
    (VaultCall.write ("auth/" ++ cfg.authMethod ++ "/login") options).isRevoke cfg approleName
      = false := by
  have h1 := getLast_append ("auth/" ++ cfg.authMethod) "/login" 'n' (by decide)
  have h2 := getLast_append ("auth/" ++ cfg.authMethod ++ "/role/" ++ approleName)
    "/secret-id-accessor/destroy" 'y' (by decide)
  have h3 : ("auth/token/revoke-accessor" : String).data.getLast? = some 'r' := by decide
  unfold VaultCall.isRevoke
  simp only [Bool.or_eq_false_iff, decide_eq_false_iff_not]
  constructor
  · intro e
    rw [e, h3] at h1
    cases h1
  · intro e
    rw [e, h2] at h1
    cases h1

/-- A failed `approleGetToken` has asked Vault for the Unwrap and the login at most, and
has changed neither the cluster nor the rotation interval. -/
theorem approleGetToken_error (cfg : Config) (server : VaultServer) (now : Int)
    (st st1 : AuthState) (e : String)
    (h : approleGetToken cfg server now st = some (st1, some e)) :
    st1.k8s = st.k8s
      ∧ st1.tokenRotationInterval = st.tokenRotationInterval
      ∧ ∃ calls, st1.vault = st.vault ++ calls
          ∧ ∀ c ∈ calls, c = VaultCall.unwrap cfg.approleSecretIDWrappedToken
              ∨ ∃ options, c = VaultCall.write ("auth/" ++ cfg.authMethod ++ "/login") options := by
  unfold approleGetToken at h
  dsimp only at h
  split at h
  · cases h
  · rename_i st2 e2 heq
    cases h
    split at heq
    · cases heq
    · split at heq
      · split at heq <;> cases heq <;>
          exact ⟨rfl, rfl, [_], rfl, fun c hc => Or.inl (List.mem_singleton.1 hc)⟩
      · cases heq
      · cases heq
  · rename_i st2 heq
    have hk : st2.k8s = st.k8s ∧ st2.tokenRotationInterval = st.tokenRotationInterval
        ∧ ∃ calls, st2.vault = st.vault ++ calls
          ∧ ∀ c ∈ calls, c = VaultCall.unwrap cfg.approleSecretIDWrappedToken
              ∨ ∃ options,
                c = VaultCall.write ("auth/" ++ cfg.authMethod ++ "/login") options := by
      split at heq
      · cases heq
        exact ⟨rfl, rfl, [], by simp, by simp⟩
      · split at heq
        · split at heq <;> cases heq
        · cases heq
        · cases heq
          exact ⟨rfl, rfl, [_], rfl, fun c hc => Or.inl (List.mem_singleton.1 hc)⟩
    obtain ⟨hk1, hk2, calls, hv, hc⟩ := hk
    split at h
    · cases h
      refine ⟨hk1, hk2, calls ++ [VaultCall.write ("auth/" ++ cfg.authMethod ++ "/login")
        [("role_id", some (VaultValue.str cfg.approleRoleID)),
         ("secret_id", st2.d.approleSecretID)]], ?_, ?_⟩
      · show st2.vault ++ _ = _
        rw [hv, List.append_assoc]
      · intro c hmem
        rcases List.mem_append.1 hmem with h1 | h1
        · exact hc c h1
        · exact Or.inr ⟨_, List.mem_singleton.1 h1⟩
    · cases h
    · split at h
      · cases h
      · cases h

/-- A successful `approleGetToken` has stored the lease duration of the login as the TTL
of the token and has normalised the rotation interval against it. -/
theorem approleGetToken_success (cfg : Config) (server : VaultServer) (now : Int)
    (st st1 : AuthState) (h : approleGetToken cfg server now st = some (st1, none)) :
    ∃ (history : List VaultCall) (options : GoMap String (Option VaultValue))
        (values : VaultSecret) (auth : SecretAuth),
      server history (VaultCall.write ("auth/" ++ cfg.authMethod ++ "/login") options)
          = Except.ok (some values)
        ∧ values.auth = some auth
        ∧ GoMap.get st1.d.vaultTokenTTL "ttl" = some auth.leaseDuration
        ∧ st1.tokenRotationInterval
            = rotationInterval st.tokenRotationInterval auth.leaseDuration
        ∧ st1.d.vaultTokenAccessor = auth.accessor
        ∧ st1.k8s = st.k8s := by
  unfold approleGetToken at h
  dsimp only at h
  split at h
  · cases h
  · cases h
  · rename_i st2 heq
    have hk : st2.k8s = st.k8s ∧ st2.tokenRotationInterval = st.tokenRotationInterval := by
      split at heq
      · cases heq
        exact ⟨rfl, rfl⟩
      · split at heq
        · split at heq <;> cases heq
        · cases heq
        · cases heq
          exact ⟨rfl, rfl⟩
    split at h
    · cases h
    · cases h
    · rename_i values hserver
      split at h
      · cases h
      · rename_i auth hauth
        cases h
        refine ⟨_, _, values, auth, hserver, hauth, ?_, ?_, rfl, hk.1⟩
        · simp [GoMap.get, GoMap.set]
        · show rotationInterval st2.tokenRotationInterval _ = _
          rw [hk.2]

/-- The run of `approleGetToken` that unwraps a string SecretID and logs in with it. -/
theorem approleGetToken_unwrap_login (cfg : Config) (server : VaultServer) (now : Int)
    (st : AuthState) (s : String) (secretID values : VaultSecret) (auth : SecretAuth)
    (hfresh : st.d.approleSecretID = none)
    (hunwrap : server st.vault (VaultCall.unwrap cfg.approleSecretIDWrappedToken)
      = Except.ok (some secretID))
    (hsid : GoMap.get secretID.data "secret_id" = some (VaultValue.str s))
    (hlogin : server (st.vault ++ [VaultCall.unwrap cfg.approleSecretIDWrappedToken])
        (VaultCall.write ("auth/" ++ cfg.authMethod ++ "/login")
          [("role_id", some (VaultValue.str cfg.approleRoleID)),
           ("secret_id", some (VaultValue.str s))])
      = Except.ok (some values))
    (hauth : values.auth = some auth) :
    ∃ st1, approleGetToken cfg server now st = some (st1, none)
      ∧ st1.k8s = st.k8s
      ∧ st1.d.approleSecretID = some (VaultValue.str s)
      ∧ st1.d.vaultTokenAccessor = auth.accessor := by
  simp only [approleGetToken, hfresh, hunwrap, hsid, hlogin, hauth]
  exact ⟨_, rfl, rfl, rfl, rfl⟩

/-! ## The requests of the authentication to Vault -/

/-- The function `revokeOldToken` only adds requests to those made to Vault. -/
theorem revokeOldToken_vault (cfg : Config) (faults : Faults) (server : VaultServer)
    (st : AuthState) :
    ∃ more, (revokeOldToken cfg faults server st).1.vault = st.vault ++ more := by
  unfold revokeOldToken
  dsimp only
  split
  · exact ⟨[], by simp⟩
  · split
    · exact ⟨[], by simp⟩
    · split
      · split <;> exact ⟨_, rfl⟩
      · exact ⟨_, rfl⟩

/-- The function `approleRevokeOldSecretID` only adds requests to those made to Vault. -/
theorem approleRevokeOldSecretID_vault (cfg : Config) (faults : Faults)
    (server : VaultServer) (st : AuthState) :
    ∃ more, (approleRevokeOldSecretID cfg faults server st).1.vault = st.vault ++ more := by
  unfold approleRevokeOldSecretID
  dsimp only
  split
  · exact ⟨[], by simp⟩
  · split
    · exact ⟨_, rfl⟩
    · exact ⟨_, rfl⟩
    · split <;> exact ⟨_, by simp only [List.append_assoc]; rfl⟩

/-- The function `updateAppSystemSecret` makes no request to Vault. -/
theorem updateAppSystemSecret_vault (cfg : Config) (faults : Faults) (st : AuthState)
    (r : AuthState × Option String) (h : updateAppSystemSecret cfg faults st = some r) :
    r.1.vault = st.vault := by
  unfold updateAppSystemSecret at h
  dsimp only at h
  split at h
  · split at h
    · split at h
      · split at h <;> cases h <;> rfl
      · cases h
        rfl
    · split at h
      · cases h
        rfl
      · split at h
        · cases h
          rfl
        · split at h <;> cases h <;> rfl
  · cases h

/-- The end of `approleAuthenticate` only adds requests to those made to Vault. -/
theorem approleAuthenticateFinish_vault (cfg : Config) (faults : Faults)
    (server : VaultServer) (authByEnv : Bool) (st : AuthState)
    (r : AuthState × Option String)
    (h : approleAuthenticateFinish cfg faults server authByEnv st = some r) :
    ∃ more, r.1.vault = st.vault ++ more := by
  unfold approleAuthenticateFinish at h
  dsimp only at h
  rw [updateAppSystemSecret_vault cfg faults _ r h]
  obtain ⟨m1, h1⟩ := revokeOldToken_vault cfg faults server st
  cases authByEnv with
  | false =>
    simp only [Bool.false_eq_true, if_false]
    exact ⟨m1, h1⟩
  | true =>
    simp only [if_true]
    obtain ⟨m2, h2⟩ := approleRevokeOldSecretID_vault cfg faults server
      (revokeOldToken cfg faults server st).1
    exact ⟨m1 ++ m2, by rw [h2, h1, List.append_assoc]⟩

/-- With a SecretID at hand, the first request of `approleGetToken` to Vault is the login
with it. -/
theorem approleGetToken_login (cfg : Config) (server : VaultServer) (now : Int)
    (st : AuthState) (v : VaultValue) (r : AuthState × Option String)
    (h : approleGetToken cfg server now st = some r)
    (hid : st.d.approleSecretID = some v) :
    ∃ more, r.1.vault = st.vault
      ++ VaultCall.write ("auth/" ++ cfg.authMethod ++ "/login")
          [("role_id", some (VaultValue.str cfg.approleRoleID)), ("secret_id", some v)]
        :: more := by
  simp only [approleGetToken, hid] at h
  split at h
  · cases h
    exact ⟨[], rfl⟩
  · cases h
  · split at h
    · cases h
    · rename_i auth _
      cases h
      exact ⟨[VaultCall.setToken auth.clientToken], by simp⟩

/-! ## The last request of a job -/

/-- An iteration of the create/update loop makes at least one request.  It ends the worker
exactly when its last request is an Update that the API refused, and the request before
that one is then the same Update, whose outcome the code drops. -/
theorem syncSecret_last (cfg : Config) (faults : Faults) (ns path : String)
    (data : GoMap String Bytes) (k : K8s) (res : updateSecretResults) (name : String) :
    ∃ evs ev,
      (syncSecret cfg faults ns path data (k, res) name).1.1.log = k.log ++ evs ++ [ev]
      ∧ ev.isRefusedUpdate = (syncSecret cfg faults ns path data (k, res) name).2
      ∧ (ev.isRefusedUpdate = true → ∃ evs1 e1, evs = evs1 ++ [⟨ev.call, e1⟩]) := by
  rcases syncSecret_cases cfg faults ns path data k res name with
    ⟨m, _, h⟩ | ⟨_, _, _, h⟩ | ⟨m, _, _, _, h⟩ | ⟨ex, _, _, _, h⟩
    | ⟨ex, _, _, _, _, h⟩ | ⟨ex, e1, _, _, _, _, _, h⟩
    | ⟨ex, e1, m, secrets1, _, _, _, _, _, _, h⟩
  · rw [h]
    exact ⟨[], ⟨ApiCall.get ns name, some { notFound := false, msg := m }⟩, by simp,
      by simp [ApiEvent.isRefusedUpdate, ApiCall.isUpdate],
      by simp [ApiEvent.isRefusedUpdate, ApiCall.isUpdate]⟩
  · rw [h]
    exact ⟨[⟨ApiCall.get ns name, some (K8s.notFoundError name)⟩],
      ⟨ApiCall.create ns (secretFor cfg path data name), none⟩, by simp,
      by simp [ApiEvent.isRefusedUpdate, ApiCall.isUpdate],
      by simp [ApiEvent.isRefusedUpdate, ApiCall.isUpdate]⟩
  · rw [h]
    exact ⟨[⟨ApiCall.get ns name, some (K8s.notFoundError name)⟩],
      ⟨ApiCall.create ns (secretFor cfg path data name),
        some { notFound := false, msg := m }⟩, by simp,
      by simp [ApiEvent.isRefusedUpdate, ApiCall.isUpdate],
      by simp [ApiEvent.isRefusedUpdate, ApiCall.isUpdate]⟩
  · rw [h]
    exact ⟨[], ⟨ApiCall.get ns name, none⟩, by simp,
      by simp [ApiEvent.isRefusedUpdate, ApiCall.isUpdate],
      by simp [ApiEvent.isRefusedUpdate, ApiCall.isUpdate]⟩
  · rw [h]
    exact ⟨[], ⟨ApiCall.get ns name, none⟩, by simp,
      by simp [ApiEvent.isRefusedUpdate, ApiCall.isUpdate],
      by simp [ApiEvent.isRefusedUpdate, ApiCall.isUpdate]⟩
  · rw [h]
    exact ⟨[⟨ApiCall.get ns name, none⟩,
        ⟨ApiCall.update ns (secretFor cfg path data name), e1⟩],
      ⟨ApiCall.update ns (secretFor cfg path data name), none⟩, by simp,
      by simp [ApiEvent.isRefusedUpdate, ApiCall.isUpdate],
      by simp [ApiEvent.isRefusedUpdate, ApiCall.isUpdate]⟩
  · rw [h]
    refine ⟨[⟨ApiCall.get ns name, none⟩,
        ⟨ApiCall.update ns (secretFor cfg path data name), e1⟩],
      ⟨ApiCall.update ns (secretFor cfg path data name),
        some { notFound := false, msg := m }⟩, by simp,
      by simp [ApiEvent.isRefusedUpdate, ApiCall.isUpdate], ?_⟩
    intro _
    exact ⟨[⟨ApiCall.get ns name, none⟩], e1, by simp⟩

/-- The loop over the candidates, started without an error: with no candidate it changes
nothing; otherwise it makes at least one request, and its result carries an error exactly
when the last request is an Update that the API refused, the request before that one being
the same Update. -/
theorem syncSecrets_last (cfg : Config) (faults : Faults) (ns path : String)
    (data : GoMap String Bytes) (names : List String) :
    ∀ (st : K8s × updateSecretResults), st.2.err = none → names ≠ [] →
      ∃ evs ev,
        (syncSecrets cfg faults ns path data names st).1.log = st.1.log ++ evs ++ [ev]
        ∧ ((syncSecrets cfg faults ns path data names st).2.err ≠ none
            ↔ ev.isRefusedUpdate = true)
        ∧ (ev.isRefusedUpdate = true → ∃ evs1 e1, evs = evs1 ++ [⟨ev.call, e1⟩]) := by
  induction names with
  | nil => intro st _ h; exact absurd rfl h
  | cons name rest ih =>
    intro st herr _
    obtain ⟨k, res⟩ := st
    obtain ⟨evs, ev, hlog, hflag, hprev⟩ := syncSecret_last cfg faults ns path data k res name
    have hmono := syncSecret_mono cfg faults ns path data k res name
    rw [syncSecrets_cons]
    by_cases hb : (syncSecret cfg faults ns path data (k, res) name).2 = true
    · rw [if_pos hb]
      refine ⟨evs, ev, hlog, ?_, hprev⟩
      rw [hflag, hb]
      simpa using hmono.2.2.2.2.1 hb
    · rw [if_neg hb]
      have hb2 : (syncSecret cfg faults ns path data (k, res) name).2 = false := by
        simpa using hb
      have herr1 : (syncSecret cfg faults ns path data (k, res) name).1.2.err = none := by
        rw [hmono.2.2.2.2.2 hb2]
        exact herr
      by_cases hrest : rest = []
      · subst hrest
        refine ⟨evs, ev, by simpa [syncSecrets] using hlog, ?_, hprev⟩
        rw [hflag, hb2]
        simp [syncSecrets, herr1]
      · obtain ⟨evs2, ev2, hlog2, hiff2, hprev2⟩ := ih _ herr1 hrest
        refine ⟨evs ++ [ev] ++ evs2, ev2, ?_, hiff2, ?_⟩
        · rw [hlog2, hlog]
          simp
        · intro h2
          obtain ⟨evs3, e3, h3⟩ := hprev2 h2
          exact ⟨evs ++ [ev] ++ evs3, e3, by rw [h3]; simp⟩

/-! ## Every candidate is counted once -/

/-- An iteration of the create/update loop that does not end the worker counts its
candidate once: in `synced`, or in `skipped`. -/
theorem syncSecret_total (cfg : Config) (faults : Faults) (ns path : String)
    (data : GoMap String Bytes) (k : K8s) (res : updateSecretResults) (name : String)
    (hb : (syncSecret cfg faults ns path data (k, res) name).2 = false) :
    (syncSecret cfg faults ns path data (k, res) name).1.2.skipped
        + (syncSecret cfg faults ns path data (k, res) name).1.2.synced
      = res.skipped + res.synced + 1 := by
  rcases syncSecret_cases cfg faults ns path data k res name with
    ⟨m, _, h⟩ | ⟨_, _, _, h⟩ | ⟨m, _, _, _, h⟩ | ⟨ex, _, _, _, h⟩
    | ⟨ex, _, _, _, _, h⟩ | ⟨ex, e1, _, _, _, _, _, h⟩
    | ⟨ex, e1, m, secrets1, _, _, _, _, _, _, h⟩
  all_goals rw [h] at hb ⊢
  all_goals simp at hb ⊢
  all_goals omega

/-- The loop over the candidates, when its result carries no error, counts every candidate
once, in `synced` or in `skipped`. -/
theorem syncSecrets_total (cfg : Config) (faults : Faults) (ns path : String)
    (data : GoMap String Bytes) (names : List String) :
    ∀ (st : K8s × updateSecretResults),
      (syncSecrets cfg faults ns path data names st).2.err = none →
      (syncSecrets cfg faults ns path data names st).2.skipped
          + (syncSecrets cfg faults ns path data names st).2.synced
        = st.2.skipped + st.2.synced + names.length := by
  induction names with
  | nil => intro st _; simp [syncSecrets]
  | cons name rest ih =>
    intro st herr
    obtain ⟨k, res⟩ := st
    have hmono := syncSecret_mono cfg faults ns path data k res name
    rw [syncSecrets_cons] at herr ⊢
    by_cases hb : (syncSecret cfg faults ns path data (k, res) name).2 = true
    · rw [if_pos hb] at herr
      exact absurd herr (hmono.2.2.2.2.1 hb)
    · rw [if_neg hb] at herr ⊢
      have hb2 : (syncSecret cfg faults ns path data (k, res) name).2 = false := by
        simpa using hb
      have h1 := syncSecret_total cfg faults ns path data k res name hb2
      have h2 := ih _ herr
      rw [h2, h1]
      simp only [List.length_cons]
      omega

/-! ## The intersection of the namespaces -/

/-- The map filled from a list of names holds `true` exactly for the names of the list. -/
theorem namespacesMap_get (k8sNamespaces : List String) (x : String) :
    ∀ m : GoMap String Bool,
      (GoMap.get (k8sNamespaces.foldl (fun m ns => GoMap.set m ns true) m) x).getD false
        = (decide (x ∈ k8sNamespaces) || (GoMap.get m x).getD false) := by
  induction k8sNamespaces with
  | nil => intro m; simp
  | cons a rest ih =>
    intro m
    rw [List.foldl_cons, ih, GoMap.get_set]
    by_cases ha : a = x
    · simp [ha]
    · have hx : ¬ x = a := fun h => ha h.symm
      simp [ha, hx]

/-- The loop of `namespacesForSync` over the Vault namespaces, for any test of membership
in place of the lookup in the map. -/
theorem namespacesForSync_foldl (p : String → Bool) (vaultNamespaces : List String) :
    ∀ acc : List String × GaugeVec,
      vaultNamespaces.foldl
          (fun acc ns => if p ns then (acc.1 ++ [ns], acc.2) else (acc.1, acc.2 ++ [(ns, 0)]))
          acc
        = (acc.1 ++ vaultNamespaces.filter p,
           acc.2 ++ (vaultNamespaces.filter (fun x => !p x)).map (fun x => (x, (0 : Int)))) := by
  induction vaultNamespaces with
  | nil => intro acc; simp
  | cons a rest ih =>
    intro acc
    rw [List.foldl_cons, ih]
    by_cases ha : p a = true
    · simp [ha]
    · have ha2 : p a = false := by simpa using ha
      simp [ha2]

/-- The function `namespacesForSync` in closed form. -/
theorem namespacesForSync_eq (vaultNamespaces k8sNamespaces : List String)
    (syncStatus : GaugeVec) :
    namespacesForSync vaultNamespaces k8sNamespaces syncStatus
      = (vaultNamespaces.filter (fun x => decide (x ∈ k8sNamespaces)),
         syncStatus ++ (vaultNamespaces.filter (fun x => !decide (x ∈ k8sNamespaces))).map
            (fun x => (x, (0 : Int)))) := by
  unfold namespacesForSync
  have hp : (fun (acc : List String × GaugeVec) (ns : String) =>
      if (GoMap.get (k8sNamespaces.foldl (fun m ns => GoMap.set m ns true) []) ns).getD false
      then (acc.1 ++ [ns], acc.2) else (acc.1, acc.2 ++ [(ns, (0 : Int))]))
      = (fun acc ns => if (fun x => decide (x ∈ k8sNamespaces)) ns
          then (acc.1 ++ [ns], acc.2) else (acc.1, acc.2 ++ [(ns, (0 : Int))])) := by
    funext acc ns
    rw [namespacesMap_get]
    simp [GoMap.get]
  simp only []
  rw [hp, namespacesForSync_foldl]
  simp

/-! ## The revocations do not reach the result of the authentication -/

/-- The outcome of a Get, and the Secrets and the length of the log after it, depend on the
cluster only through its Secrets and the length of its log, and on the API faults only
through the answer to this request. -/
theorem get_congr (fa fb : Faults) (ka kb : K8s) (ns name : String)
    (hs : ka.secrets = kb.secrets) (hl : ka.log.length = kb.log.length)
    (hf : fa ka.log.length (ApiCall.get ns name) = fb kb.log.length (ApiCall.get ns name)) :
    (K8s.get fa ka ns name).2 = (K8s.get fb kb ns name).2
      ∧ (K8s.get fa ka ns name).1.secrets = (K8s.get fb kb ns name).1.secrets
      ∧ (K8s.get fa ka ns name).1.log.length = (K8s.get fb kb ns name).1.log.length := by
  unfold K8s.get
  rw [hf, hs]
  cases fb kb.log.length (ApiCall.get ns name) with
  | some msg => simp [K8s.record, hl, hs]
  | none =>
    cases GoMap.get kb.secrets (ns, name) with
    | some s => simp [K8s.record, hl, hs]
    | none => simp [K8s.record, hl, hs]

/-- The same for a Create. -/
theorem create_congr (fa fb : Faults) (ka kb : K8s) (ns : String) (secret : Secret)
    (hs : ka.secrets = kb.secrets)
    (hf : fa ka.log.length (ApiCall.create ns secret)
      = fb kb.log.length (ApiCall.create ns secret)) :
    (K8s.create fa ka ns secret).2 = (K8s.create fb kb ns secret).2
      ∧ (K8s.create fa ka ns secret).1.secrets = (K8s.create fb kb ns secret).1.secrets := by
  unfold K8s.create
  rw [hf, hs]
  cases fb kb.log.length (ApiCall.create ns secret) with
  | some msg => simp [K8s.record, hs]
  | none =>
    cases GoMap.get kb.secrets (ns, secret.name) with
    | some s => simp [K8s.record, hs]
    | none => simp [K8s.record, hs]

/-- The same for an Update. -/
theorem update_congr (fa fb : Faults) (ka kb : K8s) (ns : String) (secret : Secret)
    (hs : ka.secrets = kb.secrets)
    (hf : fa ka.log.length (ApiCall.update ns secret)
      = fb kb.log.length (ApiCall.update ns secret)) :
    (K8s.update fa ka ns secret).2 = (K8s.update fb kb ns secret).2
      ∧ (K8s.update fa ka ns secret).1.secrets = (K8s.update fb kb ns secret).1.secrets := by
  unfold K8s.update
  rw [hf, hs]
  cases fb kb.log.length (ApiCall.update ns secret) with
  | some msg => simp [K8s.record, hs]
  | none =>
    cases GoMap.get kb.secrets (ns, secret.name) with
    | some s => simp [K8s.record, hs]
    | none => simp [K8s.record, hs]

/-- A Get adds one request to the log. -/
theorem get_log_length (faults : Faults) (k : K8s) (ns name : String) :
    (K8s.get faults k ns name).1.log.length = k.log.length + 1 := by
  obtain ⟨e, he⟩ := (get_state faults k ns name).2
  rw [he]
  simp

/-- The error that `updateAppSystemSecret` returns, the Secrets it leaves and the program
data depend on the state only through the program data, the stored Secrets and the number
of requests made so far, and on the API faults only through the answers to the requests
that it makes itself. -/
theorem updateAppSystemSecret_congr (cfg : Config) (fa fb : Faults) (a b : AuthState)
    (hd : a.d = b.d) (hs : a.k8s.secrets = b.k8s.secrets)
    (hl : a.k8s.log.length = b.k8s.log.length)
    (hf : ∀ n call, a.k8s.log.length ≤ n → fa n call = fb n call) :
    (updateAppSystemSecret cfg fa a).map (fun r => (r.2, r.1.k8s.secrets, r.1.d))
      = (updateAppSystemSecret cfg fb b).map (fun r => (r.2, r.1.k8s.secrets, r.1.d)) := by
  unfold updateAppSystemSecret
  rw [hd]
  cases b.d.approleSecretID with
  | none => rfl
  | some v =>
    cases v with
    | other => rfl
    | number n => rfl
    | str sid =>
      simp only []
      obtain ⟨hg2, hgs, hgl⟩ := get_congr fa fb a.k8s b.k8s cfg.podNamespace
        (cfg.appName ++ "-system") hs hl (by rw [← hl]; exact hf _ _ (Nat.le_refl _))
      have hla := get_log_length fa a.k8s cfg.podNamespace (cfg.appName ++ "-system")
      generalize K8s.get fa a.k8s cfg.podNamespace (cfg.appName ++ "-system") = ga
        at hg2 hgs hgl hla
      generalize K8s.get fb b.k8s cfg.podNamespace (cfg.appName ++ "-system") = gb
        at hg2 hgs hgl
      obtain ⟨ka, ra⟩ := ga
      obtain ⟨kb, rb⟩ := gb
      simp only at hg2 hgs hgl hla
      subst hg2
      cases ra with
      | error e =>
        simp only []
        by_cases hnf : e.notFound = true
        · simp only [hnf, if_true]
          obtain ⟨hc2, hcs⟩ := create_congr fa fb ka kb cfg.podNamespace
            { name := cfg.appName ++ "-system",
              data := GoMap.set (GoMap.set [] "token-accessor" (toBytes b.d.vaultTokenAccessor))
                "approle_secret-id" (toBytes sid),
              annotations := GoMap.set [] "createdBy" cfg.appName } hgs
            (by rw [← hgl]; exact hf _ _ (by omega))
          generalize K8s.create fa ka cfg.podNamespace _ = ca at hc2 hcs
          generalize K8s.create fb kb cfg.podNamespace _ = cb at hc2 hcs
          obtain ⟨ka2, ra2⟩ := ca
          obtain ⟨kb2, rb2⟩ := cb
          simp only at hc2 hcs
          subst hc2
          cases ra2 <;> simp [hcs, hd]
        · simp [hnf, hgs, hd]
      | ok existing =>
        simp only []
        cases GoMap.get existing.annotations "createdBy" with
        | none => simp [hgs, hd]
        | some createdBy =>
          simp only []
          by_cases hcb : createdBy = cfg.appName
          · simp only [hcb, ne_eq, not_true_eq_false, if_false]
            obtain ⟨hu2, hus⟩ := update_congr fa fb ka kb cfg.podNamespace
              { name := cfg.appName ++ "-system",
                data := GoMap.set (GoMap.set [] "token-accessor"
                  (toBytes b.d.vaultTokenAccessor)) "approle_secret-id" (toBytes sid),
                annotations := GoMap.set [] "createdBy" cfg.appName } hgs
              (by rw [← hgl]; exact hf _ _ (by omega))
            generalize K8s.update fa ka cfg.podNamespace _ = ua at hu2 hus
            generalize K8s.update fb kb cfg.podNamespace _ = ub at hu2 hus
            obtain ⟨ka2, ra2⟩ := ua
            obtain ⟨kb2, rb2⟩ := ub
            simp only at hu2 hus
            subst hu2
            cases ra2 <;> simp [hus, hd]
          · simp [hcb, hgs, hd]

/-- The state in which `updateAppSystemSecret` is called at the end of
`approleAuthenticate` has the program data and the stored Secrets of the state before the
revocations, and one more request in the log for each revocation, whatever the
revocations met. -/
theorem revocations_state (cfg : Config) (faults : Faults) (server : VaultServer)
    (authByEnv : Bool) (st : AuthState) :
    (if authByEnv then
        (approleRevokeOldSecretID cfg faults server (revokeOldToken cfg faults server st).1).1
      else (revokeOldToken cfg faults server st).1).d = st.d
    ∧ (if authByEnv then
        (approleRevokeOldSecretID cfg faults server (revokeOldToken cfg faults server st).1).1
      else (revokeOldToken cfg faults server st).1).k8s.secrets = st.k8s.secrets
    ∧ (if authByEnv then
        (approleRevokeOldSecretID cfg faults server (revokeOldToken cfg faults server st).1).1
      else (revokeOldToken cfg faults server st).1).k8s.log.length
        = st.k8s.log.length + (if authByEnv then 2 else 1) := by
  have h1 := revokeOldToken_state cfg faults server st
  have h2 := approleRevokeOldSecretID_state cfg faults server
    (revokeOldToken cfg faults server st).1
  cases authByEnv with
  | false =>
    simp only [Bool.false_eq_true, if_false]
    refine ⟨h1.2, ?_, ?_⟩
    · rw [h1.1, (get_state _ _ _ _).1]
    · rw [h1.1, get_log_length]
  | true =>
    simp only [if_true]
    refine ⟨by rw [h2.2, h1.2], ?_, ?_⟩
    · rw [h2.1, (get_state _ _ _ _).1, h1.1, (get_state _ _ _ _).1]
    · rw [h2.1, get_log_length, h1.1, get_log_length]

/-- The end of `approleAuthenticate` returns the same error, and leaves the same Secrets
and program data, for any two Vault servers and any two behaviours of the API that agree
from the Get of `updateAppSystemSecret` on: what the two revocations meet does not reach
the result. -/
theorem approleAuthenticateFinish_congr (cfg : Config) (fa fb : Faults)
    (sa sb : VaultServer) (authByEnv : Bool) (st : AuthState)
    (hf : ∀ n call, st.k8s.log.length + (if authByEnv then 2 else 1) ≤ n →
      fa n call = fb n call) :
    (approleAuthenticateFinish cfg fa sa authByEnv st).map
        (fun r => (r.2, r.1.k8s.secrets, r.1.d))
      = (approleAuthenticateFinish cfg fb sb authByEnv st).map
        (fun r => (r.2, r.1.k8s.secrets, r.1.d)) := by
  unfold approleAuthenticateFinish
  simp only []
  obtain ⟨ha1, ha2, ha3⟩ := revocations_state cfg fa sa authByEnv st
  obtain ⟨hb1, hb2, hb3⟩ := revocations_state cfg fb sb authByEnv st
  apply updateAppSystemSecret_congr
  · rw [ha1, hb1]
  · rw [ha2, hb2]
  · rw [ha3, hb3]
  · intro n call hn
    rw [ha3] at hn
    exact hf n call hn

/-- A text that ends with a suffix ends with the last character of the suffix. -/
theorem hasSuffix_getLast (s suf : String) (c : Char) (h : hasSuffix s suf = true)
    (hc : suf.data.getLast? = some c) : s.data.getLast? = some c := by
  unfold hasSuffix at h
  rw [List.isSuffixOf_iff_suffix] at h
  obtain ⟨t, ht⟩ := h
  rw [← ht, List.getLast?_append, hc]
  rfl

/-- A login is not one of the Writes of `approleRevokeOldSecretID`: the login path ends
with `n`, the two others with `p` and `y`. -/
theorem login_not_secretIDRevocation (cfg : Config)
    (options : GoMap String (Option VaultValue)) :
    (VaultCall.write ("auth/" ++ cfg.authMethod ++ "/login") options).isSecretIDRevocation
      = false := by
  have h1 := getLast_append ("auth/" ++ cfg.authMethod) "/login" 'n' (by decide)
  unfold VaultCall.isSecretIDRevocation
  simp only [Bool.or_eq_false_iff]
  constructor
  · cases h : hasSuffix ("auth/" ++ cfg.authMethod ++ "/login") "/secret-id/lookup" with
    | false => rfl
    | true =>
      have h2 := hasSuffix_getLast _ _ 'p' h (by decide)
      rw [h1] at h2
      cases h2
  · cases h : hasSuffix ("auth/" ++ cfg.authMethod ++ "/login")
        "/secret-id-accessor/destroy" with
    | false => rfl
    | true =>
      have h2 := hasSuffix_getLast _ _ 'y' h (by decide)
      rw [h1] at h2
      cases h2

/-- The requests of `approleGetToken` to Vault are the Unwrap, the login and `SetToken`:
none is a Write of `approleRevokeOldSecretID`. -/
theorem approleGetToken_calls (cfg : Config) (server : VaultServer) (now : Int)
    (st : AuthState) (r : AuthState × Option String)
    (h : approleGetToken cfg server now st = some r) :
    ∃ calls, r.1.vault = st.vault ++ calls
      ∧ ∀ c ∈ calls, c.isSecretIDRevocation = false := by
  unfold approleGetToken at h
  dsimp only at h
  split at h
  · cases h
  · rename_i st2 e2 heq
    cases h
    split at heq
    · cases heq
    · split at heq
      · split at heq <;> cases heq <;>
          exact ⟨[_], rfl, fun c hc => by rw [List.mem_singleton.1 hc]; rfl⟩
      · cases heq
      · cases heq
  · rename_i st2 heq
    have hk : ∃ calls, st2.vault = st.vault ++ calls
          ∧ ∀ c ∈ calls, c.isSecretIDRevocation = false := by
      split at heq
      · cases heq
        exact ⟨[], by simp, by simp⟩
      · split at heq
        · split at heq <;> cases heq
        · cases heq
        · cases heq
          exact ⟨[_], rfl, fun c hc => by rw [List.mem_singleton.1 hc]; rfl⟩
    obtain ⟨calls, hv, hc⟩ := hk
    split at h
    · cases h
      refine ⟨calls ++ [VaultCall.write ("auth/" ++ cfg.authMethod ++ "/login")
        [("role_id", some (VaultValue.str cfg.approleRoleID)),
         ("secret_id", st2.d.approleSecretID)]], ?_, ?_⟩
      · show st2.vault ++ _ = _
        rw [hv, List.append_assoc]
      · intro c hmem
        rcases List.mem_append.1 hmem with h1 | h1
        · exact hc c h1
        · rw [List.mem_singleton.1 h1]
          exact login_not_secretIDRevocation cfg _
    · cases h
    · split at h
      · cases h
      · rename_i auth _
        cases h
        refine ⟨calls ++ [VaultCall.write ("auth/" ++ cfg.authMethod ++ "/login")
          [("role_id", some (VaultValue.str cfg.approleRoleID)),
           ("secret_id", st2.d.approleSecretID)], VaultCall.setToken auth.clientToken],
          ?_, ?_⟩
        · show (st2.vault ++ _) ++ _ = _
          rw [hv]
          simp
        · intro c hmem
          rcases List.mem_append.1 hmem with h1 | h1
          · exact hc c h1
          · simp only [List.mem_cons, List.mem_singleton, List.not_mem_nil, or_false] at h1
            rcases h1 with h1 | h1
            · rw [h1]
              exact login_not_secretIDRevocation cfg _
            · rw [h1]
              rfl

/-- The requests of `revokeOldToken` to Vault are at most the Write to
`auth/token/revoke-accessor`, which is not a Write of `approleRevokeOldSecretID`. -/
theorem revokeOldToken_calls (cfg : Config) (faults : Faults) (server : VaultServer)
    (st : AuthState) :
    ∃ calls, (revokeOldToken cfg faults server st).1.vault = st.vault ++ calls
      ∧ ∀ c ∈ calls, c.isSecretIDRevocation = false := by
  have hrev : ∀ options, (VaultCall.write "auth/token/revoke-accessor"
      options).isSecretIDRevocation = false := by
    intro options
    show (hasSuffix "auth/token/revoke-accessor" "/secret-id/lookup"
      || hasSuffix "auth/token/revoke-accessor" "/secret-id-accessor/destroy") = false
    decide
  unfold revokeOldToken
  dsimp only
  split
  · exact ⟨[], by simp, by simp⟩
  · split
    · exact ⟨[], by simp, by simp⟩
    · split
      · split <;>
          exact ⟨[_], rfl, fun c hc => by rw [List.mem_singleton.1 hc]; exact hrev _⟩
      · exact ⟨[_], rfl, fun c hc => by rw [List.mem_singleton.1 hc]; exact hrev _⟩

/-- The function `approleReadAppSecret` makes no request to Vault. -/
theorem approleReadAppSecret_vault (cfg : Config) (faults : Faults) (st : AuthState) :
    (approleReadAppSecret cfg faults st).1.vault = st.vault := by
  unfold approleReadAppSecret
  dsimp only
  split <;> rfl

/-! ## The backoff of the SecretID lookup -/

/-- The loop over two sequences of lookups, one after the other. -/
theorem approleSecretIDRotationLoop_append (a b : List Bool) :
    ∀ r, approleSecretIDRotationLoop (a ++ b) r
      = ((approleSecretIDRotationLoop b (approleSecretIDRotationLoop a r).1).1,
         (approleSecretIDRotationLoop a r).2
          ++ (approleSecretIDRotationLoop b (approleSecretIDRotationLoop a r).1).2) := by
  induction a with
  | nil => intro r; simp [approleSecretIDRotationLoop]
  | cons x rest ih =>
    intro r
    show approleSecretIDRotationLoop (x :: (rest ++ b)) r = _
    simp only [approleSecretIDRotationLoop, ih, List.append_assoc]

/-- A number that fits an `int64` is not changed by the wrap. -/
theorem wrapInt64_small (x : Int) (h0 : 0 ≤ x) (h1 : x < 2 ^ 63) : wrapInt64 x = x := by
  unfold wrapInt64
  rw [Int.emod_eq_of_lt (by omega) (by omega)]
  omega

/-- Consecutive failed lookups, as long as the duration fits an `int64`: the waits double
from the current value of the variable. -/
theorem approleSecretIDRotationLoop_failures (k : Nat) :
    ∀ r : Int, 0 ≤ r → r * 2 ^ k * second < 2 ^ 64 →
      approleSecretIDRotationLoop (List.replicate k true) r
        = (r * 2 ^ k, (List.range k).map (fun i => r * 2 ^ i * second)) := by
  induction k with
  | zero => intro r _ _; simp [approleSecretIDRotationLoop]
  | succ k ih =>
    intro r h0 h1
    have hs : second = 1000000000 := rfl
    have hp : (0 : Int) < 2 ^ k := by positivity
    have h2 : r * 2 ^ (k + 1) = r * 2 * 2 ^ k := by ring
    rw [h2] at h1
    have hle : r * 2 * second ≤ r * 2 * 2 ^ k * second := by
      have : r * 2 * second * 1 ≤ r * 2 * second * 2 ^ k :=
        Int.mul_le_mul_of_nonneg_left (by omega) (by rw [hs]; omega)
      calc r * 2 * second = r * 2 * second * 1 := by ring
        _ ≤ r * 2 * second * 2 ^ k := this
        _ = r * 2 * 2 ^ k * second := by ring
    have hw1 : wrapInt64 (r * 2) = r * 2 := by
      apply wrapInt64_small _ (by omega)
      rw [hs] at hle h1
      omega
    have hw2 : wrapInt64 (r * second) = r * second := by
      apply wrapInt64_small _ (by rw [hs]; omega)
      rw [hs] at hle h1 ⊢
      omega
    rw [List.replicate_succ, approleSecretIDRotationLoop]
    simp only [approleSecretIDRotationStep, if_true, hw1, hw2]
    rw [ih (r * 2) (by omega) h1, List.range_succ_eq_map]
    simp only [List.map_cons, List.map_map, List.singleton_append, pow_zero, mul_one]
    refine Prod.ext (by simp only; ring) ?_
    simp only [List.cons.injEq, true_and]
    apply List.map_congr_left
    intro i _
    simp only [Function.comp, Nat.succ_eq_add_one, pow_succ]
    ring

/-! ## The time spent in the sleeps -/

/-- The time spent in sleeps is not negative: `time.Sleep` returns at once for a duration
that is not positive. -/
theorem sum_max_nonneg (l : List Int) : 0 ≤ (l.map (fun d => max d 0)).sum := by
  induction l with
  | nil => simp
  | cons x rest ih =>
    simp only [List.map_cons, List.sum_cons]
    have : 0 ≤ max x 0 := le_max_right x 0
    omega

/-- The first 28 sleeps of a run of failed lookups take more than the largest
`time.Duration`, `2^63 - 1` nanoseconds. -/
theorem approleSecretIDRotationLoop_time (k : Nat) (hk : 28 ≤ k) :
    2 ^ 63 ≤ ((approleSecretIDRotationLoop (List.replicate k true) 60).2.map
      (fun d => max d 0)).sum := by
  have hsplit : List.replicate k true
      = List.replicate 28 true ++ List.replicate (k - 28) true := by
    rw [← List.replicate_add]
    congr 1
    omega
  have h28 := approleSecretIDRotationLoop_failures 28 60 (by norm_num) (by decide)
  rw [hsplit, approleSecretIDRotationLoop_append, h28]
  simp only [List.map_append, List.sum_append]
  have hrest := sum_max_nonneg
    (approleSecretIDRotationLoop (List.replicate (k - 28) true) (60 * 2 ^ 28)).2
  have hfirst : ((List.map (fun i => (60 : Int) * 2 ^ i * second) (List.range 28)).map
      (fun d => max d 0)).sum = 16106127300000000000 := by
    decide
  rw [hfirst]
  omega

/-! ## Jobs and results under any schedule -/

/-- The number of workers at a send after one worker has changed its place. -/
theorem countP_isSending_set (ws : List Worker) (w : Nat) (old new : Worker)
    (h : ws[w]? = some old) :
    (ws.set w new).countP Worker.isSending + (if old.isSending then 1 else 0)
      = ws.countP Worker.isSending + (if new.isSending then 1 else 0) := by
  induction ws generalizing w with
  | nil => simp at h
  | cons x xs ih =>
    cases w with
    | zero =>
      simp only [List.getElem?_cons_zero, Option.some.injEq] at h
      subst h
      simp only [List.set_cons_zero, List.countP_cons]
      omega
    | succ w =>
      simp only [List.getElem?_cons_succ] at h
      have := ih w h
      simp only [List.set_cons_succ, List.countP_cons]
      omega

/-- The steps of the goroutines, one by one: what a goroutine that moves finds, and the
state it leaves. -/
theorem step_cases (cfg : Config) (faults : Faults) (read : VaultRead)
    (ns suffix : String) (k8sSecrets : List String) (rev : secretForUpdate → Bool)
    (numWorkers n : Nat) (g : Goroutine) (s s1 : SyncState)
    (hs : step cfg faults read ns suffix k8sSecrets rev numWorkers n g s = some s1) :
    s.panicked = false
    ∧ ((∃ job rest, s.toSend = job :: rest ∧ s.usjc.length < numWorkers
          ∧ s1 = { s with toSend := rest, usjc := s.usjc ++ [job] })
      ∨ (s.toSend = [] ∧ s1 = { s with usjcClosed := true })
      ∨ (∃ (w : Nat) (job : secretForUpdate) (rest : List secretForUpdate),
          s.workers[w]? = some Worker.receiving ∧ s.usjc = job :: rest
          ∧ (processJob cfg faults read ns suffix k8sSecrets (rev job) s.k8s job).ended
              = Exit.panicked
          ∧ s1 = { s with
              k8s := (processJob cfg faults read ns suffix k8sSecrets (rev job) s.k8s job).k8s,
              usjc := rest, panicked := true })
      ∨ (∃ (w : Nat) (job : secretForUpdate) (rest : List secretForUpdate),
          s.workers[w]? = some Worker.receiving ∧ s.usjc = job :: rest
          ∧ (processJob cfg faults read ns suffix k8sSecrets (rev job) s.k8s job).ended
              ≠ Exit.panicked
          ∧ s1 = { s with
              k8s := (processJob cfg faults read ns suffix k8sSecrets (rev job) s.k8s job).k8s,
              usjc := rest,
              workers := s.workers.set w (Worker.sending
                (processJob cfg faults read ns suffix k8sSecrets (rev job) s.k8s
                  job).updateResults) })
      ∨ (∃ w : Nat, s.workers[w]? = some Worker.receiving ∧ s.usjc = []
          ∧ s1 = { s with workers := s.workers.set w Worker.returned })
      ∨ (∃ (w : Nat) (res : updateSecretResults),
          s.workers[w]? = some (Worker.sending res) ∧ s.usrc.length < numWorkers
          ∧ s1 = { s with usrc := s.usrc ++ [res],
                          workers := s.workers.set w
                            (if res.err.isSome then Worker.cancelling
                             else Worker.receiving) })
      ∨ (∃ w : Nat, s.workers[w]? = some Worker.cancelling
          ∧ s1 = { s with cancelled := true, workers := s.workers.set w Worker.returned })
      ∨ (∃ i r rest, s.aggregator = Aggregator.receiving i ∧ i < n ∧ s.usrc = r :: rest
          ∧ r.err.isSome = true
          ∧ s1 = { s with usrc := rest, aggregator := Aggregator.waiting })
      ∨ (∃ i r rest, s.aggregator = Aggregator.receiving i ∧ i < n ∧ s.usrc = r :: rest
          ∧ r.err.isSome = false
          ∧ s1 = { s with usrc := rest, aggregator := Aggregator.receiving (i + 1),
                          updateResults :=
                            { s.updateResults with
                              created := s.updateResults.created + r.created,
                              updated := s.updateResults.updated + r.updated,
                              skipped := s.updateResults.skipped + r.skipped,
                              synced := s.updateResults.synced + r.synced } })
      ∨ (∃ i, s.aggregator = Aggregator.receiving i ∧ ¬ i < n
          ∧ s1 = { s with aggregator := Aggregator.closed 1 })
      ∨ (s.aggregator = Aggregator.waiting
          ∧ s1 = { s with aggregator := Aggregator.closed 0 })) := by
  unfold step at hs
  cases hp : s.panicked with
  | true => simp [hp] at hs
  | false =>
    refine ⟨rfl, ?_⟩
    simp only [hp, Bool.false_eq_true, if_false] at hs
    cases g with
    | dispatcher =>
      simp only at hs
      cases hts : s.toSend with
      | nil =>
        simp only [hts] at hs
        split at hs
        · cases hs
        · cases hs
          exact Or.inr (Or.inl ⟨rfl, rfl⟩)
      | cons job rest =>
        simp only [hts] at hs
        split at hs
        · rename_i hlt
          cases hs
          exact Or.inl ⟨job, rest, rfl, hlt, rfl⟩
        · cases hs
    | worker w =>
      simp only at hs
      cases hw : s.workers[w]? with
      | none => simp only [hw] at hs; cases hs
      | some x =>
        cases x with
        | receiving =>
          simp only [hw] at hs
          cases hj : s.usjc with
          | nil =>
            simp only [hj] at hs
            split at hs
            · cases hs
              exact Or.inr (Or.inr (Or.inr (Or.inr (Or.inl ⟨w, hw, rfl, rfl⟩))))
            · cases hs
          | cons job rest =>
            simp only [hj] at hs
            split at hs
            · rename_i he
              cases hs
              exact Or.inr (Or.inr (Or.inl ⟨w, job, rest, hw, rfl, he, rfl⟩))
            · rename_i he
              cases hs
              exact Or.inr (Or.inr (Or.inr (Or.inl ⟨w, job, rest, hw, rfl, he, rfl⟩)))
        | sending res =>
          simp only [hw] at hs
          split at hs
          · rename_i hlt
            cases hs
            exact Or.inr (Or.inr (Or.inr (Or.inr (Or.inr (Or.inl ⟨w, res, hw, hlt, rfl⟩)))))
          · cases hs
        | cancelling =>
          simp only [hw] at hs
          cases hs
          exact Or.inr (Or.inr (Or.inr (Or.inr (Or.inr (Or.inr (Or.inl ⟨w, hw, rfl⟩))))))
        | returned => simp only [hw] at hs; cases hs
    | main =>
      simp only at hs
      cases ha : s.aggregator with
      | receiving i =>
        simp only [ha] at hs
        split at hs
        · rename_i hlt
          cases hu : s.usrc with
          | nil => simp only [hu] at hs; cases hs
          | cons r rest =>
            simp only [hu] at hs
            split at hs
            · rename_i he
              cases hs
              exact Or.inr (Or.inr (Or.inr (Or.inr (Or.inr (Or.inr (Or.inr (Or.inl
                ⟨i, r, rest, rfl, hlt, rfl, he, rfl⟩)))))))
            · rename_i he
              cases hs
              exact Or.inr (Or.inr (Or.inr (Or.inr (Or.inr (Or.inr (Or.inr (Or.inr (Or.inl
                ⟨i, r, rest, rfl, hlt, rfl, by simpa using he, rfl⟩))))))))
        · rename_i hlt
          cases hs
          exact Or.inr (Or.inr (Or.inr (Or.inr (Or.inr (Or.inr (Or.inr (Or.inr (Or.inr
            (Or.inl ⟨i, rfl, hlt, rfl⟩)))))))))
      | waiting =>
        simp only [ha] at hs
        split at hs
        · cases hs
          exact Or.inr (Or.inr (Or.inr (Or.inr (Or.inr (Or.inr (Or.inr (Or.inr (Or.inr
            (Or.inr ⟨rfl, rfl⟩)))))))))
        · cases hs
      | closed st => simp only [ha] at hs; cases hs

/-- How the body of the loop is left, read on the result: by the send and `return` exactly
when the result carries an error. -/
theorem processJob_ended (cfg : Config) (faults : Faults) (read : VaultRead)
    (ns suffix : String) (k8sSecrets : List String) (rev : Bool) (k8s : K8s)
    (job : secretForUpdate) :
    ((processJob cfg faults read ns suffix k8sSecrets rev k8s job).ended = Exit.continued →
      (processJob cfg faults read ns suffix k8sSecrets rev k8s job).updateResults.err = none)
    ∧ ((processJob cfg faults read ns suffix k8sSecrets rev k8s job).ended = Exit.returned →
      (processJob cfg faults read ns suffix k8sSecrets rev k8s job).updateResults.err.isSome
        = true) := by
  rcases processJob_cases cfg read ns job with
    ⟨e, hr⟩ | ⟨s, v, hr, hbad⟩ | ⟨s, v, hr, hs, hpan⟩ | ⟨s, v, data, hr, hs, hconv⟩
  · rw [processJob_readError cfg faults read ns suffix k8sSecrets rev k8s job e hr]
    simp
  · rw [processJob_skipped cfg faults read ns suffix k8sSecrets rev k8s job s v hr hbad]
    simp
  · rw [processJob_panicked cfg faults read ns suffix k8sSecrets rev k8s job s v hr hs hpan]
    simp
  · rw [processJob_ok cfg faults read ns suffix k8sSecrets rev k8s job s v data hr hs hconv]
    dsimp only
    generalize (syncSecrets cfg faults ns _ data _ _).2.err = e
    cases e <;> simp

/-- A worker that is not the one that moves stays where it is. -/
theorem mem_set_of_ne {α : Type} (l : List α) (w : Nat) (old new x : α)
    (hw : l[w]? = some old) (hx : x ∈ l) (hne : x ≠ old) : x ∈ l.set w new := by
  induction l generalizing w with
  | nil => cases hx
  | cons y ys ih =>
    cases w with
    | zero =>
      simp only [List.getElem?_cons_zero, Option.some.injEq] at hw
      subst hw
      rcases List.mem_cons.1 hx with h | h
      · exact absurd h hne
      · simp [h]
    | succ w =>
      simp only [List.getElem?_cons_succ] at hw
      rcases List.mem_cons.1 hx with h | h
      · simp [h]
      · simp only [List.set_cons_succ]
        exact List.mem_cons_of_mem _ (ih w hw h)

/-- The worker that moves is where its step puts it. -/
theorem mem_set_self {α : Type} (l : List α) (w : Nat) (old new : α)
    (hw : l[w]? = some old) : new ∈ l.set w new := by
  induction l generalizing w with
  | nil => simp at hw
  | cons y ys ih =>
    cases w with
    | zero => simp
    | succ w =>
      simp only [List.getElem?_cons_succ] at hw
      simp only [List.set_cons_succ]
      exact List.mem_cons_of_mem _ (ih w hw)

/-- When no worker is counted at a send, no worker is at a send. -/
theorem not_mem_sending (ws : List Worker) (h : ws.countP Worker.isSending = 0)
    (r : updateSecretResults) : Worker.sending r ∉ ws := by
  intro hm
  rw [List.countP_eq_zero] at h
  exact absurd rfl (h _ hm)

/-- A step of any goroutine keeps the account of the jobs and results. -/
theorem step_accounted (cfg : Config) (faults : Faults) (read : VaultRead)
    (ns suffix : String) (k8sSecrets : List String) (rev : secretForUpdate → Bool)
    (numWorkers n : Nat) (g : Goroutine) (s s1 : SyncState)
    (hs : step cfg faults read ns suffix k8sSecrets rev numWorkers n g s = some s1)
    (hacc : s.accounted n) : s1.accounted n := by
  obtain ⟨hp, hc⟩ := step_cases cfg faults read ns suffix k8sSecrets rev numWorkers n g s s1 hs
  unfold SyncState.accounted at hacc ⊢
  rcases hc with ⟨job, rest, hts, _, rfl⟩ | ⟨hts, rfl⟩ | ⟨w, job, rest, hw, hj, _, rfl⟩
    | ⟨w, job, rest, hw, hj, _, rfl⟩ | ⟨w, hw, hj, rfl⟩ | ⟨w, res, hw, _, rfl⟩
    | ⟨w, hw, rfl⟩ | ⟨i, r, rest, ha, _, hu, _, rfl⟩ | ⟨i, r, rest, ha, _, hu, _, rfl⟩
    | ⟨i, ha, hlt, rfl⟩ | ⟨ha, rfl⟩
  · simp only [hts, hp, List.length_cons, List.length_append, List.length_nil] at hacc ⊢
    cases ha : s.aggregator <;> simp only [ha] at hacc ⊢ <;> first | trivial | omega
  · simp only [hts, hp, List.length_nil] at hacc ⊢
    cases ha : s.aggregator <;> simp only [ha] at hacc ⊢ <;> trivial
  · simp only [hj, hp, List.length_cons, if_true, Bool.false_eq_true, if_false] at hacc ⊢
    cases ha : s.aggregator with
    | receiving i => simp only [ha] at hacc ⊢; omega
    | waiting => trivial
    | closed st =>
      simp only [ha] at hacc ⊢
      intro h1
      have := (hacc h1).2
      omega
  · have hc := countP_isSending_set s.workers w Worker.receiving
      (Worker.sending (processJob cfg faults read ns suffix k8sSecrets (rev job) s.k8s
        job).updateResults) hw
    simp only [Worker.isSending, if_true, Bool.false_eq_true, if_false] at hc
    simp only [hj, hp, List.length_cons] at hacc ⊢
    cases ha : s.aggregator <;> simp only [ha] at hacc ⊢ <;> first | trivial | omega
  · have hc := countP_isSending_set s.workers w Worker.receiving Worker.returned hw
    simp only [Worker.isSending, Bool.false_eq_true, if_false] at hc
    simp only [hj, hp, List.length_nil] at hacc ⊢
    cases ha : s.aggregator with
    | receiving i => simp only [ha] at hacc ⊢; omega
    | waiting => trivial
    | closed st =>
      simp only [ha] at hacc ⊢
      intro h1
      obtain ⟨h2, h3⟩ := hacc h1
      exact ⟨h2, by omega⟩
  · have hc := countP_isSending_set s.workers w (Worker.sending res)
      (if res.err.isSome then Worker.cancelling else Worker.receiving) hw
    have hn : (if res.err.isSome then Worker.cancelling else Worker.receiving).isSending
        = false := by
      split <;> rfl
    rw [hn] at hc
    simp only [Worker.isSending, if_true, Bool.false_eq_true, if_false] at hc
    simp only [hp, List.length_append, List.length_cons, List.length_nil] at hacc ⊢
    cases ha : s.aggregator <;> simp only [ha] at hacc ⊢ <;> first | trivial | omega
  · have hc := countP_isSending_set s.workers w Worker.cancelling Worker.returned hw
    simp only [Worker.isSending, Bool.false_eq_true, if_false] at hc
    simp only [hp] at hacc ⊢
    cases ha : s.aggregator with
    | receiving i => simp only [ha] at hacc ⊢; omega
    | waiting => trivial
    | closed st =>
      simp only [ha] at hacc ⊢
      intro h1
      obtain ⟨h2, h3⟩ := hacc h1
      exact ⟨h2, by omega⟩
  · trivial
  · simp only [ha, hu, hp, List.length_cons] at hacc ⊢
    omega
  · simp only [ha, hp, Bool.false_eq_true, if_false] at hacc ⊢
    intro _
    exact ⟨trivial, by omega⟩
  · simp

/-- A step of any goroutine keeps the order of the jobs: the jobs that have left `usjc` are
a first part of the jobs of the namespace, the cluster is the one they leave when they are
processed one after the other and, unless a job has failed, each of their bodies was left
by its send and `continue`. -/
theorem step_processed (cfg : Config) (faults : Faults) (read : VaultRead)
    (ns suffix : String) (k8sSecrets : List String) (rev : secretForUpdate → Bool)
    (numWorkers n : Nat) (jobs : List secretForUpdate) (k8s0 : K8s) (g : Goroutine)
    (s s1 : SyncState)
    (hs : step cfg faults read ns suffix k8sSecrets rev numWorkers n g s = some s1)
    (hacc : s.accounted n)
    (hinv : ∃ done, jobs = done ++ s.usjc ++ s.toSend
      ∧ s.k8s = (processJobs cfg faults read ns suffix k8sSecrets rev k8s0 done).1
      ∧ (s.failed
          ∨ ∀ r ∈ (processJobs cfg faults read ns suffix k8sSecrets rev k8s0 done).2,
              r.ended = Exit.continued)) :
    ∃ done, jobs = done ++ s1.usjc ++ s1.toSend
      ∧ s1.k8s = (processJobs cfg faults read ns suffix k8sSecrets rev k8s0 done).1
      ∧ (s1.failed
          ∨ ∀ r ∈ (processJobs cfg faults read ns suffix k8sSecrets rev k8s0 done).2,
              r.ended = Exit.continued) := by
  obtain ⟨hp, hc⟩ := step_cases cfg faults read ns suffix k8sSecrets rev numWorkers n g s s1 hs
  obtain ⟨done, hjobs, hk, hf⟩ := hinv
  rcases hc with ⟨job, rest, hts, _, rfl⟩ | ⟨hts, rfl⟩ | ⟨w, job, rest, hw, hj, he, rfl⟩
    | ⟨w, job, rest, hw, hj, he, rfl⟩ | ⟨w, hw, hj, rfl⟩ | ⟨w, res, hw, _, rfl⟩
    | ⟨w, hw, rfl⟩ | ⟨i, r, rest, ha, _, hu, her, rfl⟩ | ⟨i, r, rest, ha, _, hu, her, rfl⟩
    | ⟨i, ha, hlt, rfl⟩ | ⟨ha, rfl⟩
  · refine ⟨done, ?_, hk, ?_⟩
    · rw [hjobs, hts]
      simp
    · rcases hf with hf | hall
      · exact Or.inl hf
      · exact Or.inr hall
  · refine ⟨done, hjobs, hk, ?_⟩
    rcases hf with hf | hall
    · exact Or.inl hf
    · exact Or.inr hall
  · refine ⟨done ++ [job], ?_, ?_, Or.inl (Or.inl rfl)⟩
    · rw [hjobs, hj]
      simp
    · rw [processJobs_append, ← hk]
      rfl
  · refine ⟨done ++ [job], ?_, ?_, ?_⟩
    · rw [hjobs, hj]
      simp
    · rw [processJobs_append, ← hk]
      rfl
    · rcases hf with hf | hall
      · left
        rcases hf with h | h | h | h | ⟨r, hr, her⟩
        · exact Or.inl h
        · exact Or.inr (Or.inl h)
        · exact Or.inr (Or.inr (Or.inl h))
        · exact Or.inr (Or.inr (Or.inr (Or.inl h)))
        · exact Or.inr (Or.inr (Or.inr (Or.inr
            ⟨r, mem_set_of_ne _ _ _ _ _ hw hr (by simp), her⟩)))
      · cases hend : (processJob cfg faults read ns suffix k8sSecrets (rev job) s.k8s
            job).ended with
        | panicked => exact absurd hend he
        | continued =>
          right
          intro r hr
          rw [processJobs_append, ← hk] at hr
          rcases List.mem_append.1 hr with h | h
          · exact hall r h
          · simp only [processJobs, List.mem_singleton] at h
            rw [h]
            exact hend
        | returned =>
          left
          exact Or.inr (Or.inr (Or.inr (Or.inr
            ⟨_, mem_set_self _ _ _ _ hw,
              (processJob_ended cfg faults read ns suffix k8sSecrets (rev job) s.k8s
                job).2 hend⟩)))
  · refine ⟨done, hjobs, hk, ?_⟩
    rcases hf with hf | hall
    · left
      rcases hf with h | h | h | h | ⟨r, hr, her⟩
      · exact Or.inl h
      · exact Or.inr (Or.inl h)
      · exact Or.inr (Or.inr (Or.inl h))
      · exact Or.inr (Or.inr (Or.inr (Or.inl h)))
      · exact Or.inr (Or.inr (Or.inr (Or.inr
          ⟨r, mem_set_of_ne _ _ _ _ _ hw hr (by simp), her⟩)))
    · exact Or.inr hall
  · refine ⟨done, hjobs, hk, ?_⟩
    rcases hf with hf | hall
    · left
      rcases hf with h | h | h | ⟨r, hr, her⟩ | ⟨r, hr, her⟩
      · exact Or.inl h
      · exact Or.inr (Or.inl h)
      · exact Or.inr (Or.inr (Or.inl h))
      · exact Or.inr (Or.inr (Or.inr (Or.inl
          ⟨r, List.mem_append.2 (Or.inl hr), her⟩)))
      · by_cases hrr : r = res
        · subst hrr
          exact Or.inr (Or.inr (Or.inr (Or.inl
            ⟨r, List.mem_append.2 (Or.inr (List.mem_singleton.2 rfl)), her⟩)))
        · exact Or.inr (Or.inr (Or.inr (Or.inr
            ⟨r, mem_set_of_ne _ _ _ _ _ hw hr (by simpa using hrr), her⟩)))
    · exact Or.inr hall
  · refine ⟨done, hjobs, hk, ?_⟩
    rcases hf with hf | hall
    · left
      rcases hf with h | h | h | h | ⟨r, hr, her⟩
      · exact Or.inl h
      · exact Or.inr (Or.inl h)
      · exact Or.inr (Or.inr (Or.inl h))
      · exact Or.inr (Or.inr (Or.inr (Or.inl h)))
      · exact Or.inr (Or.inr (Or.inr (Or.inr
          ⟨r, mem_set_of_ne _ _ _ _ _ hw hr (by simp), her⟩)))
    · exact Or.inr hall
  · exact ⟨done, hjobs, hk, Or.inl (Or.inr (Or.inl rfl))⟩
  · refine ⟨done, hjobs, hk, ?_⟩
    rcases hf with hf | hall
    · left
      rcases hf with h | h | ⟨st, h, _⟩ | ⟨r2, hr, her2⟩ | h
      · exact Or.inl h
      · rw [ha] at h
        cases h
      · rw [ha] at h
        cases h
      · rw [hu] at hr
        rcases List.mem_cons.1 hr with h | h
        · rw [h, her] at her2
          cases her2
        · exact Or.inr (Or.inr (Or.inr (Or.inl ⟨r2, h, her2⟩)))
      · exact Or.inr (Or.inr (Or.inr (Or.inr h)))
    · exact Or.inr hall
  · refine ⟨done, hjobs, hk, ?_⟩
    rcases hf with hf | hall
    · exfalso
      unfold SyncState.accounted at hacc
      simp only [ha, hp, Bool.false_eq_true, if_false] at hacc
      rcases hf with h | h | ⟨st, h, _⟩ | ⟨r2, hr, _⟩ | ⟨r2, hr, _⟩
      · rw [hp] at h
        cases h
      · rw [ha] at h
        cases h
      · rw [ha] at h
        cases h
      · have hl : s.usrc.length = 0 := by omega
        rw [List.length_eq_zero.1 hl] at hr
        cases hr
      · exact not_mem_sending s.workers (by omega) r2 hr
    · exact Or.inr hall
  · exact ⟨done, hjobs, hk, Or.inl (Or.inr (Or.inr (Or.inl ⟨0, rfl, by decide⟩)))⟩

/-- Every execution keeps the account of the jobs and results and the order of the
jobs. -/
theorem run_processed (cfg : Config) (faults : Faults) (read : VaultRead)
    (ns suffix : String) (k8sSecrets : List String) (rev : secretForUpdate → Bool)
    (numWorkers n : Nat) (jobs : List secretForUpdate) (k8s0 : K8s)
    (schedule : List Goroutine) :
    ∀ s s1 : SyncState,
      run cfg faults read ns suffix k8sSecrets rev numWorkers n schedule s = some s1 →
      s.accounted n →
      (∃ done, jobs = done ++ s.usjc ++ s.toSend
        ∧ s.k8s = (processJobs cfg faults read ns suffix k8sSecrets rev k8s0 done).1
        ∧ (s.failed
            ∨ ∀ r ∈ (processJobs cfg faults read ns suffix k8sSecrets rev k8s0 done).2,
                r.ended = Exit.continued)) →
      s1.accounted n
      ∧ ∃ done, jobs = done ++ s1.usjc ++ s1.toSend
        ∧ s1.k8s = (processJobs cfg faults read ns suffix k8sSecrets rev k8s0 done).1
        ∧ (s1.failed
            ∨ ∀ r ∈ (processJobs cfg faults read ns suffix k8sSecrets rev k8s0 done).2,
                r.ended = Exit.continued) := by
  induction schedule with
  | nil =>
    intro s s1 h hacc hinv
    simp only [run, Option.some.injEq] at h
    rw [← h]
    exact ⟨hacc, hinv⟩
  | cons g rest ih =>
    intro s s1 h hacc hinv
    simp only [run] at h
    cases hst : step cfg faults read ns suffix k8sSecrets rev numWorkers n g s with
    | none => rw [hst] at h; cases h
    | some s2 =>
      rw [hst] at h
      exact ih s2 s1 h
        (step_accounted cfg faults read ns suffix k8sSecrets rev numWorkers n g s s2 hst hacc)
        (step_processed cfg faults read ns suffix k8sSecrets rev numWorkers n jobs k8s0 g s
          s2 hst hacc hinv)

/-- At the start all the jobs are with the dispatcher. -/
theorem start_accounted (numWorkers : Nat) (k8s : K8s) (jobs : List secretForUpdate) :
    (SyncState.start numWorkers k8s jobs).accounted jobs.length := by
  unfold SyncState.accounted SyncState.start
  simp only [List.length_nil, Nat.add_zero]
  have : (List.replicate numWorkers Worker.receiving).countP Worker.isSending = 0 := by
    rw [List.countP_eq_zero]
    intro a ha
    rw [List.eq_of_mem_replicate ha]
    simp [Worker.isSending]
  simp only [Bool.false_eq_true, if_false]
  omega

/-- A namespace whose main goroutine leaves its loop with status 1: every job has been
processed, in the order of the job channel, each on the cluster left by the job before it,
and every body was left by its send and `continue`. -/
theorem run_closed (cfg : Config) (faults : Faults) (read : VaultRead)
    (ns suffix : String) (k8sSecrets : List String) (rev : secretForUpdate → Bool)
    (numWorkers : Nat) (jobs : List secretForUpdate) (k8s : K8s)
    (schedule : List Goroutine) (s : SyncState)
    (hrun : run cfg faults read ns suffix k8sSecrets rev numWorkers jobs.length schedule
      (SyncState.start numWorkers k8s jobs) = some s)
    (hclosed : s.aggregator = Aggregator.closed 1) :
    s.k8s = (processJobs cfg faults read ns suffix k8sSecrets rev k8s jobs).1
    ∧ ∀ r ∈ (processJobs cfg faults read ns suffix k8sSecrets rev k8s jobs).2,
        r.ended = Exit.continued := by
  obtain ⟨hacc, done, hjobs, hk, hf⟩ :=
    run_processed cfg faults read ns suffix k8sSecrets rev numWorkers jobs.length jobs k8s
      schedule _ s hrun (start_accounted numWorkers k8s jobs)
      ⟨[], by simp [SyncState.start], by simp [SyncState.start, processJobs],
        Or.inr (by simp [processJobs])⟩
  unfold SyncState.accounted at hacc
  simp only [hclosed, forall_const] at hacc
  obtain ⟨hp, hsum⟩ := hacc
  have h1 : s.toSend = [] := List.length_eq_zero.1 (by omega)
  have h2 : s.usjc = [] := List.length_eq_zero.1 (by omega)
  have h3 : s.usrc = [] := List.length_eq_zero.1 (by omega)
  rw [h1, h2] at hjobs
  simp only [List.append_nil] at hjobs
  subst hjobs
  refine ⟨hk, ?_⟩
  rcases hf with hf | hall
  · exfalso
    rcases hf with h | h | ⟨st, h, hst⟩ | ⟨r2, hr, _⟩ | ⟨r2, hr, _⟩
    · rw [hp] at h
      cases h
    · rw [hclosed] at h
      cases h
    · rw [hclosed] at h
      cases h
      exact hst rfl
    · rw [h3] at hr
      cases hr
    · exact not_mem_sending s.workers (by omega) r2 hr
  · exact hall

/-- Every run of a body in the list of the processed jobs is the run of a job on some
cluster. -/
theorem processJobs_mem (cfg : Config) (faults : Faults) (read : VaultRead)
    (ns suffix : String) (k8sSecrets : List String) (rev : secretForUpdate → Bool)
    (jobs : List secretForUpdate) (k8s : K8s) (r : JobRun)
    (hr : r ∈ (processJobs cfg faults read ns suffix k8sSecrets rev k8s jobs).2) :
    ∃ job k, r = processJob cfg faults read ns suffix k8sSecrets (rev job) k job := by
  induction jobs generalizing k8s with
  | nil => simp [processJobs] at hr
  | cons job rest ih =>
    rw [processJobs_cons] at hr
    rcases List.mem_cons.1 hr with h | h
    · exact ⟨job, k8s, h⟩
    · exact ih _ h

/-! ## The results of a worker -/

/-- The body of the loop is left by the panic exactly when the entry is read with data
whose conversion ends at a `json.Number`; it is left by the send and `return` exactly when
the result carries an error. -/
theorem processJob_ended_iff (cfg : Config) (faults : Faults) (read : VaultRead)
    (ns suffix : String) (k8sSecrets : List String) (rev : Bool) (k8s : K8s)
    (job : secretForUpdate) :
    ((processJob cfg faults read ns suffix k8sSecrets rev k8s job).ended = Exit.panicked ↔
      ∃ s v, read (cfg.vaultSecretsPath ++ "/" ++ ns ++ "/" ++ job.name) = Except.ok (s, v)
        ∧ s ≠ [] ∧ convertData s = Conversion.panicked)
    ∧ ((processJob cfg faults read ns suffix k8sSecrets rev k8s job).ended = Exit.returned ↔
      (processJob cfg faults read ns suffix k8sSecrets rev k8s job).updateResults.err
        ≠ none) := by
  rcases processJob_cases cfg read ns job with
    ⟨e, hr⟩ | ⟨s, v, hr, hbad⟩ | ⟨s, v, hr, hs, hpan⟩ | ⟨s, v, data, hr, hs, hconv⟩
  · rw [processJob_readError cfg faults read ns suffix k8sSecrets rev k8s job e hr]
    simp [hr]
  · rw [processJob_skipped cfg faults read ns suffix k8sSecrets rev k8s job s v hr hbad]
    refine ⟨⟨(fun h => by cases h), ?_⟩, by simp⟩
    rintro ⟨s2, v2, hr2, hs2, hc2⟩
    rw [hr] at hr2
    cases hr2
    rcases hbad with h | h
    · exact absurd h hs2
    · rw [h] at hc2
      cases hc2
  · rw [processJob_panicked cfg faults read ns suffix k8sSecrets rev k8s job s v hr hs hpan]
    exact ⟨⟨fun _ => ⟨s, v, hr, hs, hpan⟩, fun _ => rfl⟩, by simp⟩
  · rw [processJob_ok cfg faults read ns suffix k8sSecrets rev k8s job s v data hr hs hconv]
    dsimp only
    generalize (syncSecrets cfg faults ns _ data _ _).2.err = e
    constructor
    · constructor
      · intro h
        cases e <;> simp at h
      · rintro ⟨s2, v2, hr2, _, hc2⟩
        rw [hr] at hr2
        cases hr2
        rw [hconv] at hc2
        cases hc2
    · cases e <;> simp

/-- The results that a worker sends: one for each job it takes, in order.  It never sends
more results than there are jobs, only its last result can carry an error, when it
has sent fewer results than there are jobs it has panicked or its last result carries an
error, and without panic and without error it has sent as many results as there are
jobs. -/
theorem updateSecretsInK8s_results (cfg : Config) (faults : Faults) (read : VaultRead)
    (ns suffix : String) (k8sSecrets : List String) (rev : secretForUpdate → Bool)
    (jobs : List secretForUpdate) :
    ∀ k8s : K8s,
      (updateSecretsInK8s cfg faults read ns suffix k8sSecrets rev k8s jobs).usrc.length
          ≤ jobs.length
      ∧ (∀ r ∈ (updateSecretsInK8s cfg faults read ns suffix k8sSecrets rev k8s
            jobs).usrc.dropLast, r.err = none)
      ∧ ((updateSecretsInK8s cfg faults read ns suffix k8sSecrets rev k8s jobs).usrc.length
            < jobs.length →
          (updateSecretsInK8s cfg faults read ns suffix k8sSecrets rev k8s jobs).panicked
            = true
          ∨ ∃ r, (updateSecretsInK8s cfg faults read ns suffix k8sSecrets rev k8s
            jobs).usrc.getLast? = some r ∧ r.err ≠ none)
      ∧ ((updateSecretsInK8s cfg faults read ns suffix k8sSecrets rev k8s jobs).panicked
            = false →
          (∀ r ∈ (updateSecretsInK8s cfg faults read ns suffix k8sSecrets rev k8s
            jobs).usrc, r.err = none) →
          (updateSecretsInK8s cfg faults read ns suffix k8sSecrets rev k8s jobs).usrc.length
            = jobs.length) := by
  induction jobs with
  | nil => intro k8s; simp [updateSecretsInK8s]
  | cons job rest ih =>
    intro k8s
    rw [updateSecretsInK8s_cons]
    have hend := processJob_ended cfg faults read ns suffix k8sSecrets (rev job) k8s job
    cases he : (processJob cfg faults read ns suffix k8sSecrets (rev job) k8s job).ended with
    | panicked => simp
    | returned =>
      have herr := hend.2 he
      dsimp only
      refine ⟨by simp, by simp, fun _ => Or.inr
        ⟨(processJob cfg faults read ns suffix k8sSecrets (rev job) k8s job).updateResults,
          rfl, ?_⟩, ?_⟩
      · intro h
        rw [h] at herr
        cases herr
      · intro _ hall
        have h := hall _ (List.mem_singleton.2 rfl)
        rw [h] at herr
        cases herr
    | continued =>
      have hnone := hend.1 he
      obtain ⟨h1, h2, h3, h4⟩ := ih
        (processJob cfg faults read ns suffix k8sSecrets (rev job) k8s job).k8s
      dsimp only
      refine ⟨by simpa using h1, ?_, ?_, ?_⟩
      · intro r hr
        cases hm : (updateSecretsInK8s cfg faults read ns suffix k8sSecrets rev
            (processJob cfg faults read ns suffix k8sSecrets (rev job) k8s job).k8s
            rest).usrc with
        | nil =>
          rw [hm] at hr
          simp at hr
        | cons x xs =>
          rw [hm] at hr h2
          rw [List.dropLast_cons₂] at hr
          rcases List.mem_cons.1 hr with h | h
          · rw [h]; exact hnone
          · exact h2 r h
      · intro hlt
        simp only [List.length_cons] at hlt
        rcases h3 (by omega) with hp | ⟨r, hr, hre⟩
        · exact Or.inl hp
        · refine Or.inr ⟨r, ?_, hre⟩
          cases hm : (updateSecretsInK8s cfg faults read ns suffix k8sSecrets rev
              (processJob cfg faults read ns suffix k8sSecrets (rev job) k8s job).k8s
              rest).usrc with
          | nil =>
            rw [hm] at hr
            simp at hr
          | cons x xs =>
            rw [hm] at hr
            rw [List.getLast?_cons_cons]
            exact hr
      · intro hp hall
        simp only [List.length_cons]
        rw [h4 hp (fun r hr => hall r (List.mem_cons_of_mem _ hr))]

/-! ## What decides the counter of an iteration -/

/-- One iteration of the create/update loop, by what the Get returns: a refused Get is a
skip; an absent Secret is created, or skipped when the Create is refused; a Secret whose
data equal the entry data is counted as synced, whatever its annotations; a Secret with
other data is skipped when it lacks the annotation or carries it with another value, and
is updated otherwise, the iteration ending the worker when the second Update is refused. -/
theorem syncSecret_spec (cfg : Config) (faults : Faults) (ns path : String)
    (data : GoMap String Bytes) (k : K8s) (res : updateSecretResults) (name : String) :
    (∀ msg, faults k.log.length (ApiCall.get ns name) = some msg →
      syncSecret cfg faults ns path data (k, res) name =
        (({ secrets := k.secrets,
            log := k.log ++ [{ call := ApiCall.get ns name,
                               err := some { notFound := false, msg := msg } }] },
          { res with skipped := res.skipped + 1 }), false))
    ∧ (faults k.log.length (ApiCall.get ns name) = none →
      GoMap.get k.secrets (ns, name) = none →
      faults (k.log.length + 1) (ApiCall.create ns (secretFor cfg path data name)) = none →
      syncSecret cfg faults ns path data (k, res) name =
        (({ secrets := GoMap.set k.secrets (ns, name) (secretFor cfg path data name),
            log := k.log ++ [{ call := ApiCall.get ns name,
                               err := some (K8s.notFoundError name) },
                             { call := ApiCall.create ns (secretFor cfg path data name),
                               err := none }] },
          { res with created := res.created + 1, synced := res.synced + 1 }), false))
    ∧ (∀ msg, faults k.log.length (ApiCall.get ns name) = none →
      GoMap.get k.secrets (ns, name) = none →
      faults (k.log.length + 1) (ApiCall.create ns (secretFor cfg path data name))
        = some msg →
      syncSecret cfg faults ns path data (k, res) name =
        (({ secrets := k.secrets,
            log := k.log ++ [{ call := ApiCall.get ns name,
                               err := some (K8s.notFoundError name) },
                             { call := ApiCall.create ns (secretFor cfg path data name),
                               err := some { notFound := false, msg := msg } }] },
          { res with skipped := res.skipped + 1 }), false))
    ∧ (∀ ex, faults k.log.length (ApiCall.get ns name) = none →
      GoMap.get k.secrets (ns, name) = some ex →
      GoMap.deepEqual ex.data data = true →
      syncSecret cfg faults ns path data (k, res) name =
        (({ secrets := k.secrets,
            log := k.log ++ [{ call := ApiCall.get ns name, err := none }] },
          { res with synced := res.synced + 1 }), false))
    ∧ (∀ ex, faults k.log.length (ApiCall.get ns name) = none →
      GoMap.get k.secrets (ns, name) = some ex →
      GoMap.deepEqual ex.data data = false →
      GoMap.get ex.annotations cfg.annotationName ≠ some path →
      syncSecret cfg faults ns path data (k, res) name =
        (({ secrets := k.secrets,
            log := k.log ++ [{ call := ApiCall.get ns name, err := none }] },
          { res with skipped := res.skipped + 1 }), false))
    ∧ (∀ ex, faults k.log.length (ApiCall.get ns name) = none →
      GoMap.get k.secrets (ns, name) = some ex →
      GoMap.deepEqual ex.data data = false →
      GoMap.get ex.annotations cfg.annotationName = some path →
      faults (k.log.length + 2) (ApiCall.update ns (secretFor cfg path data name)) = none →
      ∃ e1, syncSecret cfg faults ns path data (k, res) name =
        (({ secrets := GoMap.set k.secrets (ns, name) (secretFor cfg path data name),
            log := k.log ++ [{ call := ApiCall.get ns name, err := none },
                             { call := ApiCall.update ns (secretFor cfg path data name),
                               err := e1 },
                             { call := ApiCall.update ns (secretFor cfg path data name),
                               err := none }] },
          { res with updated := res.updated + 1, synced := res.synced + 1 }), false))
    ∧ (∀ ex msg, faults k.log.length (ApiCall.get ns name) = none →
      GoMap.get k.secrets (ns, name) = some ex →
      GoMap.deepEqual ex.data data = false →
      GoMap.get ex.annotations cfg.annotationName = some path →
      faults (k.log.length + 2) (ApiCall.update ns (secretFor cfg path data name))
        = some msg →
      ∃ e1 secrets1, syncSecret cfg faults ns path data (k, res) name =
        (({ secrets := secrets1,
            log := k.log ++ [{ call := ApiCall.get ns name, err := none },
                             { call := ApiCall.update ns (secretFor cfg path data name),
                               err := e1 },
                             { call := ApiCall.update ns (secretFor cfg path data name),
                               err := some { notFound := false, msg := msg } }] },
          { res with err := some ("Error during update k8s secret: " ++ msg) }), true)) := by
  have hc := syncSecret_cases cfg faults ns path data k res name
  refine ⟨?_, ?_, ?_, ?_, ?_, ?_, ?_⟩
  · intro msg hg
    rcases hc with ⟨m, h1, h⟩ | ⟨h1, _⟩ | ⟨m, h1, _⟩ | ⟨ex, h1, _⟩
      | ⟨ex, h1, _⟩ | ⟨ex, e1, h1, _⟩ | ⟨ex, e1, m, secrets1, h1, _⟩
    · rw [hg] at h1
      cases h1
      exact h
    all_goals (rw [hg] at h1; cases h1)
  · intro hg hn hcr
    rcases hc with ⟨m, h1, _⟩ | ⟨_, _, _, h⟩ | ⟨m, _, _, h3, _⟩ | ⟨ex, _, h2, _⟩
      | ⟨ex, _, h2, _⟩ | ⟨ex, e1, _, h2, _⟩ | ⟨ex, e1, m, secrets1, _, h2, _⟩
    · rw [hg] at h1; cases h1
    · exact h
    · rw [hcr] at h3; cases h3
    all_goals (rw [hn] at h2; cases h2)
  · intro msg hg hn hcr
    rcases hc with ⟨m, h1, _⟩ | ⟨_, _, h3, _⟩ | ⟨m, _, _, h3, h⟩ | ⟨ex, _, h2, _⟩
      | ⟨ex, _, h2, _⟩ | ⟨ex, e1, _, h2, _⟩ | ⟨ex, e1, m, secrets1, _, h2, _⟩
    · rw [hg] at h1; cases h1
    · rw [hcr] at h3; cases h3
    · rw [hcr] at h3
      cases h3
      exact h
    all_goals (rw [hn] at h2; cases h2)
  · intro ex0 hg hn hd
    rcases hc with ⟨m, h1, _⟩ | ⟨_, h2, _⟩ | ⟨m, _, h2, _⟩ | ⟨ex, _, h2, _, h⟩
      | ⟨ex, _, h2, h3, _⟩ | ⟨ex, e1, _, h2, h3, _⟩ | ⟨ex, e1, m, secrets1, _, h2, h3, _⟩
    · rw [hg] at h1; cases h1
    · rw [hn] at h2; cases h2
    · rw [hn] at h2; cases h2
    · exact h
    all_goals (rw [hn] at h2; cases h2; rw [hd] at h3; cases h3)
  · intro ex0 hg hn hd ha
    rcases hc with ⟨m, h1, _⟩ | ⟨_, h2, _⟩ | ⟨m, _, h2, _⟩ | ⟨ex, _, h2, h3, _⟩
      | ⟨ex, _, h2, _, _, h⟩ | ⟨ex, e1, _, h2, _, h4, _⟩
      | ⟨ex, e1, m, secrets1, _, h2, _, h4, _⟩
    · rw [hg] at h1; cases h1
    · rw [hn] at h2; cases h2
    · rw [hn] at h2; cases h2
    · rw [hn] at h2; cases h2; rw [hd] at h3; cases h3
    · exact h
    all_goals (rw [hn] at h2; cases h2; exact absurd h4 ha)
  · intro ex0 hg hn hd ha hu
    rcases hc with ⟨m, h1, _⟩ | ⟨_, h2, _⟩ | ⟨m, _, h2, _⟩ | ⟨ex, _, h2, h3, _⟩
      | ⟨ex, _, h2, _, h4, _⟩ | ⟨ex, e1, _, _, _, _, _, h⟩
      | ⟨ex, e1, m, secrets1, _, _, _, _, h5, _⟩
    · rw [hg] at h1; cases h1
    · rw [hn] at h2; cases h2
    · rw [hn] at h2; cases h2
    · rw [hn] at h2; cases h2; rw [hd] at h3; cases h3
    · rw [hn] at h2; cases h2; exact absurd ha h4
    · exact ⟨e1, h⟩
    · rw [hu] at h5; cases h5
  · intro ex0 msg hg hn hd ha hu
    rcases hc with ⟨m, h1, _⟩ | ⟨_, h2, _⟩ | ⟨m, _, h2, _⟩ | ⟨ex, _, h2, h3, _⟩
      | ⟨ex, _, h2, _, h4, _⟩ | ⟨ex, e1, _, _, _, _, h5, _⟩
      | ⟨ex, e1, m, secrets1, _, _, _, _, h5, _, h⟩
    · rw [hg] at h1; cases h1
    · rw [hn] at h2; cases h2
    · rw [hn] at h2; cases h2
    · rw [hn] at h2; cases h2; rw [hd] at h3; cases h3
    · rw [hn] at h2; cases h2; exact absurd ha h4
    · rw [hu] at h5; cases h5
    · rw [hu] at h5
      cases h5
      exact ⟨e1, secrets1, h⟩

/-! ## The split of the secrets path -/

/-- A text without `/` is split into itself alone. -/
theorem splitN_no_slash (s : String) (h : '/' ∉ s.data) : splitN s = [s] := by
  unfold splitN
  have : s.data.dropWhile (fun c => c != '/') = [] := by
    rw [List.dropWhile_eq_nil_iff]
    intro x hx
    have : x ≠ '/' := fun e => h (e ▸ hx)
    simpa using this
  rw [this]

/-- A text with a `/` is split at the first one. -/
theorem splitN_slash (s : String) (h : '/' ∈ s.data) :
    ∃ mount sub, splitN s = [mount, sub] ∧ s = mount ++ "/" ++ sub ∧ '/' ∉ mount.data := by
  unfold splitN
  have hne : s.data.dropWhile (fun c => c != '/') ≠ [] := by
    intro e
    rw [List.dropWhile_eq_nil_iff] at e
    have := e '/' h
    simp at this
  have happ := List.takeWhile_append_dropWhile (fun c => c != '/') s.data
  cases hd : s.data.dropWhile (fun c => c != '/') with
  | nil => exact absurd hd hne
  | cons c rest =>
    have hc : c = '/' := by
      have := List.head?_dropWhile_not (fun c => c != '/') s.data
      rw [hd] at this
      simpa using this
    refine ⟨String.mk (s.data.takeWhile (fun c => c != '/')), String.mk rest, rfl, ?_, ?_⟩
    · apply String.ext
      rw [hd, hc] at happ
      simp only [String.data_append]
      show s.data = s.data.takeWhile (fun c => c != '/') ++ ['/'] ++ rest
      rw [List.append_assoc]
      exact happ.symm
    · intro hm
      have := List.mem_takeWhile_imp hm
      simp at this

/-- The checks of the authentication method do not look at the secrets path and leave it,
and the cluster name, as they are. -/
theorem verifyConfigAuth_path (readFile : String → Except String Bytes) (vaultToken : String)
    (cfg cfg1 : Config) (p : String)
    (h : verifyConfigAuth readFile vaultToken cfg = Except.ok cfg1) :
    cfg1.vaultSecretsPath = cfg.vaultSecretsPath
      ∧ cfg1.k8sClusterName = cfg.k8sClusterName
      ∧ verifyConfigAuth readFile vaultToken { cfg with vaultSecretsPath := p }
          = Except.ok { cfg1 with vaultSecretsPath := p } := by
  unfold verifyConfigAuth at h ⊢
  simp only []
  split at h
  · cases h
  · split at h
    · split at h
      · cases h
      · cases h
        simp [*]
    · split at h
      · split at h
        · cases h
        · split at h
          · split at h
            · cases h
            · cases h
              simp [*]
          · split at h
            · cases h
            · rename_i data hrf
              cases h
              simp [*]
      · cases h

/-! ## The one mount that can match -/

/-- A key that ends with `/` and is a prefix of the path mount `<mount>/` is the path
mount: `<mount>` has no `/`. -/
theorem prefix_of_mount (path k : String) (hs : hasSuffix k "/" = true)
    (hp : hasPrefix (splitHead path ++ "/") k = true) : k = splitHead path ++ "/" := by
  unfold hasSuffix at hs
  unfold hasPrefix at hp
  rw [List.isSuffixOf_iff_suffix] at hs
  rw [List.isPrefixOf_iff_prefix] at hp
  obtain ⟨t, ht⟩ := hs
  obtain ⟨r, hr⟩ := hp
  have hd : (splitHead path ++ "/").data
      = path.data.takeWhile (fun c => c != '/') ++ ['/'] := by
    rw [String.data_append]
    rfl
  rw [hd] at hr
  have hk : ("/" : String).data = ['/'] := rfl
  rw [hk] at ht
  apply String.ext
  rw [hd]
  rcases List.eq_nil_or_concat r with h0 | ⟨r1, x, h1⟩
  · rw [h0, List.append_nil] at hr
    exact hr
  · exfalso
    rw [h1, List.concat_eq_append, ← List.append_assoc] at hr
    have h2 := (List.append_inj' hr rfl).1
    have hmem : '/' ∈ path.data.takeWhile (fun c => c != '/') := by
      rw [← h2, ← ht]
      simp
    have := List.mem_takeWhile_imp hmem
    simp at this

/-- The lookup in a map whose keys are distinct does not depend on the order of its
entries. -/
theorem GoMap.get_perm {K V : Type} [DecidableEq K] (a b : GoMap K V) (k : K)
    (hp : List.Perm a b) (hn : (GoMap.keys a).Nodup) : GoMap.get a k = GoMap.get b k := by
  have hnb : (GoMap.keys b).Nodup := (hp.map Prod.fst).nodup_iff.1 hn
  cases ha : GoMap.get a k with
  | some v =>
    have hm := GoMap.mem_of_get a k v ha
    exact (GoMap.get_of_mem b k v hnb (hp.mem_iff.1 hm)).symm
  | none =>
    cases hb : GoMap.get b k with
    | none => rfl
    | some v =>
      have hm := GoMap.mem_of_get b k v hb
      rw [GoMap.get_of_mem a k v hn (hp.mem_iff.2 hm)] at ha
      cases ha

/-- The loop of the mount check over a table with distinct keys in which only the key equal
to the path mount is a prefix of it: the outcome is decided by the entry of that key. -/
theorem verifyVaultMountLoop_get (vaultMount : String) (mounts : GoMap String MountOutput)
    (hn : (GoMap.keys mounts).Nodup)
    (hm : ∀ p ∈ mounts, hasPrefix vaultMount p.1 = true ↔ p.1 = vaultMount) :
    ∀ b, verifyVaultMountLoop vaultMount mounts b
      = match GoMap.get mounts vaultMount with
        | none => Except.ok b
        | some m =>
          if m.type_ ≠ "kv" then
            Except.error ("Matching mount '" ++ vaultMount ++ "' for path '" ++ vaultMount
              ++ "' is not of type kv")
          else if kvVersion m ≠ 2 then
            Except.error ("Vault mount '" ++ vaultMount ++ "' and defined path '"
              ++ vaultMount ++ "' matched but Vault mount version is not '2'")
          else Except.ok false := by
  induction mounts with
  | nil => intro b; simp [verifyVaultMountLoop, GoMap.get]
  | cons p rest ih =>
    intro b
    obtain ⟨k, m⟩ := p
    have hn2 : k ∉ GoMap.keys rest ∧ (GoMap.keys rest).Nodup := by
      simpa [GoMap.keys] using hn
    have hrest := ih hn2.2 (fun p hp => hm p (List.mem_cons_of_mem _ hp))
    have hk := hm (k, m) (List.mem_cons_self _ _)
    simp only at hk
    by_cases hkv : k = vaultMount
    · subst hkv
      have hpre : hasPrefix k k = true := hk.2 rfl
      have hget : GoMap.get rest k = none :=
        GoMap.get_eq_none_of_not_mem_keys rest k hn2.1
      simp only [verifyVaultMountLoop, hpre, GoMap.get, if_true, hrest false, hget]
      by_cases ht : m.type_ = "kv"
      · by_cases hv : kvVersion m = 2
        · simp [ht, hv]
        · simp [ht, hv]
      · simp [ht]
    · have hpre : hasPrefix vaultMount k = false := by
        cases h : hasPrefix vaultMount k with
        | false => rfl
        | true => exact absurd (hk.1 h) hkv
      simp only [verifyVaultMountLoop, hpre, GoMap.get, hkv, if_false, hrest b]
      simp

/-- The path mount `<mount>/` has exactly one `/`. -/
theorem count_slash_mount (path : String) :
    (splitHead path ++ "/").data.count '/' = 1 := by
  have hd : (splitHead path ++ "/").data
      = path.data.takeWhile (fun c => c != '/') ++ ['/'] := by
    rw [String.data_append]
    rfl
  rw [hd, List.count_append]
  have h0 : (path.data.takeWhile (fun c => c != '/')).count '/' = 0 := by
    rw [List.count_eq_zero]
    intro hmem
    have := List.mem_takeWhile_imp hmem
    simp at this
  rw [h0]
  rfl

/-- Every text is a prefix of itself. -/
theorem hasPrefix_self (s : String) : hasPrefix s s = true := by
  unfold hasPrefix
  rw [List.isPrefixOf_iff_prefix]

/-! ## The mount check on any table -/

/-- For every mount table, in every iteration order, and every configured path,
`verifyVaultMount` returns no error if and only if some mount key is a prefix of
`<mount>/` and every mount whose key is a prefix of `<mount>/` has type `kv` and a version
option that `strconv.Atoi` reads as 2. -/
theorem verifyVaultMount_iff (cfg : Config) (mounts : GoMap String MountOutput) :
    verifyVaultMount cfg (Except.ok mounts) = none
      ↔ (∃ p ∈ mounts, hasPrefix (splitHead cfg.vaultSecretsPath ++ "/") p.1 = true)
        ∧ ∀ p ∈ mounts, hasPrefix (splitHead cfg.vaultSecretsPath ++ "/") p.1 = true →
            p.2.type_ = "kv" ∧ kvVersion p.2 = 2 := by
  by_cases hall : ∀ p ∈ mounts, hasPrefix (splitHead cfg.vaultSecretsPath ++ "/") p.1 = true →
      p.2.type_ = "kv" ∧ kvVersion p.2 = 2
  · have hloop := verifyVaultMountLoop_ok (splitHead cfg.vaultSecretsPath ++ "/") mounts true
      hall
    by_cases hex : ∃ p ∈ mounts, hasPrefix (splitHead cfg.vaultSecretsPath ++ "/") p.1 = true
    · have hnot : mounts.all (fun p => !hasPrefix (splitHead cfg.vaultSecretsPath ++ "/") p.1)
          = false := by
        obtain ⟨p, hp, hpk⟩ := hex
        apply Bool.eq_false_iff.2
        intro hc
        have := List.all_eq_true.1 hc p hp
        simp [hpk] at this
      simp only [verifyVaultMount, hloop, hnot]
      simp only [Bool.and_false]
      exact ⟨fun _ => ⟨hex, hall⟩, fun _ => rfl⟩
    · have hyes : mounts.all (fun p => !hasPrefix (splitHead cfg.vaultSecretsPath ++ "/") p.1)
          = true := by
        apply List.all_eq_true.2
        intro p hp
        have : ¬ hasPrefix (splitHead cfg.vaultSecretsPath ++ "/") p.1 = true :=
          fun hpk => hex ⟨p, hp, hpk⟩
        simpa using this
      simp only [verifyVaultMount, hloop, hyes]
      simp only [Bool.and_true, if_true]
      constructor
      · intro h
        cases h
      · intro h
        exact absurd h.1 hex
  · have hbad : ∃ p ∈ mounts, hasPrefix (splitHead cfg.vaultSecretsPath ++ "/") p.1 = true
        ∧ ¬ (p.2.type_ = "kv" ∧ kvVersion p.2 = 2) := by
      by_contra hc
      apply hall
      intro p hp hpk
      by_contra hg
      exact hc ⟨p, hp, hpk, hg⟩
    obtain ⟨p, _, _, hmsg⟩ :=
      verifyVaultMountLoop_error (splitHead cfg.vaultSecretsPath ++ "/") mounts true hbad
    constructor
    · intro h
      rcases hmsg with ⟨_, hm⟩ | ⟨_, _, hm⟩
      · simp [verifyVaultMount, hm] at h
      · simp [verifyVaultMount, hm] at h
    · intro h
      exact absurd h.2 hall

/-- Tables that Vault does not return.  A KV mount `testMount/` whose version option is
the text `02` passes the check, since the version is compared after `strconv.Atoi`; and
with the KV version 2 mount `testMount/` in the table the check fails, in either iteration
order, when the table also has the key `test` (a prefix of `testMount/` that does not end
with `/`) of another type. -/
theorem verifyVaultMount_not_iff_exists :
    (verifyVaultMount testConfig
        (Except.ok [("testMount/", { type_ := "kv", options := [("version", "02")] })]) = none
      ∧ ¬ ∃ p ∈ [("testMount/",
            ({ type_ := "kv", options := [("version", "02")] } : MountOutput))],
          hasPrefix "testMount/" p.1 = true ∧ p.2.type_ = "kv"
            ∧ GoMap.get p.2.options "version" = some "2")
    ∧ ((∃ p ∈ [("testMount/",
            ({ type_ := "kv", options := [("version", "2")] } : MountOutput)),
            ("test", { type_ := "cubbyhole", options := [] })],
          hasPrefix "testMount/" p.1 = true ∧ p.2.type_ = "kv"
            ∧ GoMap.get p.2.options "version" = some "2")
      ∧ verifyVaultMount testConfig
          (Except.ok [("testMount/", { type_ := "kv", options := [("version", "2")] }),
            ("test", { type_ := "cubbyhole", options := [] })])
        = some "Matching mount 'test' for path 'testMount/' is not of type kv"
      ∧ verifyVaultMount testConfig
          (Except.ok [("test", { type_ := "cubbyhole", options := [] }),
            ("testMount/", { type_ := "kv", options := [("version", "2")] })])
        = some "Matching mount 'test' for path 'testMount/' is not of type kv") := by
  decide

/-! ## Claim C1: ownership -/

/-- C1 (ownership): for every job, a Secret (of any name, so in particular of a candidate
name) that exists in the cluster and lacks the annotation `annotationName`, or carries it
with a value other than the full Vault path `vaultSecretsPath/namespace/name` of the job,
is exactly what it was after the job has been processed, and no Create or Update request
was sent for it. -/
theorem updateSecretsInK8s_ownership (cfg : Config) (faults : Faults) (read : VaultRead)
    (ns suffix : String) (k8sSecrets : List String) (rev : Bool) (k8s : K8s)
    (job : secretForUpdate) (ns2 name : String) (sec : Secret)
    (hex : GoMap.get k8s.secrets (ns2, name) = some sec)
    (hforeign : GoMap.get sec.annotations cfg.annotationName
      ≠ some (cfg.vaultSecretsPath ++ "/" ++ ns ++ "/" ++ job.name)) :
    GoMap.get (processJob cfg faults read ns suffix k8sSecrets rev k8s job).1.secrets
        (ns2, name) = some sec
    ∧ ∃ evs, (processJob cfg faults read ns suffix k8sSecrets rev k8s job).1.log
        = k8s.log ++ evs
      ∧ ∀ e ∈ evs, e.call.isWrite = true → e.call.target ≠ (ns2, name) := by
  rcases processJob_cases cfg read ns job with
    ⟨e, hr⟩ | ⟨s, v, hr, hbad⟩ | ⟨s, v, hr, hs, hpan⟩ | ⟨s, v, data, hr, hs, hconv⟩
  · rw [processJob_readError cfg faults read ns suffix k8sSecrets rev k8s job e hr]
    exact ⟨hex, [], by simp, by simp⟩
  · rw [processJob_skipped cfg faults read ns suffix k8sSecrets rev k8s job s v hr hbad]
    exact ⟨hex, [], by simp, by simp⟩
  · rw [processJob_panicked cfg faults read ns suffix k8sSecrets rev k8s job s v hr hs hpan]
    exact ⟨hex, [], by simp, by simp⟩
  · rw [processJob_ok cfg faults read ns suffix k8sSecrets rev k8s job s v data hr hs hconv]
    exact syncSecrets_foreign cfg faults ns _ data _ _ (ns2, name) sec hex hforeign

/-- C1, at the flag-0 job `secret2.k8s-cluster` of the test and a cluster Secret `secret2`
that carries the annotation with another value. -/
theorem updateSecretsInK8s_ownership_witness :
    GoMap.get (testCluster [testK8sSecret "secret2" "vault-to-k8s/secret" "wrong-value"]).secrets
        ("k8s-ns1", "secret2")
      = some (testK8sSecret "secret2" "vault-to-k8s/secret" "wrong-value")
    ∧ GoMap.get (testK8sSecret "secret2" "vault-to-k8s/secret" "wrong-value").annotations
        testConfig.annotationName
      ≠ some (testConfig.vaultSecretsPath ++ "/" ++ "k8s-ns1" ++ "/" ++ "secret2.k8s-cluster")
    ∧ (GoMap.get (processJob testConfig noFaults testVaultRead "k8s-ns1" ".k8s-cluster"
          ["secret2"] false
          (testCluster [testK8sSecret "secret2" "vault-to-k8s/secret" "wrong-value"])
          { name := "secret2.k8s-cluster", versioning := 0 }).1.secrets ("k8s-ns1", "secret2")
        = some (testK8sSecret "secret2" "vault-to-k8s/secret" "wrong-value")
      ∧ ∃ evs, (processJob testConfig noFaults testVaultRead "k8s-ns1" ".k8s-cluster"
          ["secret2"] false
          (testCluster [testK8sSecret "secret2" "vault-to-k8s/secret" "wrong-value"])
          { name := "secret2.k8s-cluster", versioning := 0 }).1.log
          = (testCluster [testK8sSecret "secret2" "vault-to-k8s/secret" "wrong-value"]).log
            ++ evs
        ∧ ∀ e ∈ evs, e.call.isWrite = true → e.call.target ≠ ("k8s-ns1", "secret2")) :=
  ⟨by decide, by decide,
    updateSecretsInK8s_ownership testConfig noFaults testVaultRead "k8s-ns1" ".k8s-cluster"
      ["secret2"] false
      (testCluster [testK8sSecret "secret2" "vault-to-k8s/secret" "wrong-value"])
      { name := "secret2.k8s-cluster", versioning := 0 } "k8s-ns1" "secret2"
      (testK8sSecret "secret2" "vault-to-k8s/secret" "wrong-value") (by decide) (by decide)⟩

/-! ## Claim C2: a whole sync of a namespace -/

set_option maxRecDepth 100000 in
/-- C2 as stated fails.  First, the tick of `TestUpdateSecretsInK8sWithBadSecretName`
(three workers, the API server of the tests): the
entry `secret_bad2` is retained by `filterSecrets` and read from Vault with one string value
at version 1, the main goroutine leaves its loop with status 1, and the cluster holds no
Secret `secret_bad2-v1`, because the API refuses the Create of a name that is not a DNS-1123
subdomain and the worker counts the entry as skipped.  Second, the foreign annotation
scenario: the cluster holds `secret3.k8s-cluster-v1` with the annotation value
`wrong-value` and other data; the entry `secret3.k8s-cluster` is read with one string value
at version 1, the tick ends with status 1, and the Secret is what it was: its data are not
the entry data and its annotation is not the Vault path. -/
theorem read_entry_not_synced :
    (filterSecrets testData (secretsList ["secret_bad2"]) ("." ++ testConfig.k8sClusterName)
        "k8s-ns1" = [("secret_bad2", 1)]
      ∧ testVaultEntry "secret_bad2" "1"
          (testConfig.vaultSecretsPath ++ "/" ++ "k8s-ns1" ++ "/" ++ "secret_bad2")
        = Except.ok ([("testKey-secret_bad2", VaultValue.str "testValue-secret_bad2")], "1")
      ∧ (syncNamespace testConfig testData testK8sServerFaults
          (testVaultEntry "secret_bad2" "1") ["secret_bad2"] "k8s-ns1" id (fun _ => false) 3
          [Goroutine.dispatcher, Goroutine.worker 0, Goroutine.worker 0, Goroutine.main,
           Goroutine.main, Goroutine.dispatcher]
          (testCluster [])).map
          (fun st => (st.aggregator, st.updateResults,
            GoMap.get st.k8s.secrets ("k8s-ns1", "secret_bad2" ++ "-v" ++ "1")))
        = some (Aggregator.closed 1,
            { created := 0, updated := 0, skipped := 1, synced := 0, err := none }, none))
    ∧ (filterSecrets testData (secretsList ["secret3.k8s-cluster"])
        ("." ++ testConfig.k8sClusterName) "k8s-ns1" = [("secret3.k8s-cluster", 1)]
      ∧ testVaultEntry "secret3.k8s-cluster" "1"
          (testConfig.vaultSecretsPath ++ "/" ++ "k8s-ns1" ++ "/" ++ "secret3.k8s-cluster")
        = Except.ok ([("testKey-secret3.k8s-cluster",
            VaultValue.str "testValue-secret3.k8s-cluster")], "1")
      ∧ (syncNamespace testConfig testData testK8sServerFaults
          (testVaultEntry "secret3.k8s-cluster" "1") ["secret3.k8s-cluster"] "k8s-ns1" id
          (fun _ => false) 1
          [Goroutine.dispatcher, Goroutine.worker 0, Goroutine.worker 0, Goroutine.main,
           Goroutine.main, Goroutine.dispatcher]
          (testCluster [testK8sSecret "secret3.k8s-cluster-v1" "vault-to-k8s/secret"
            "wrong-value"])).map
          (fun st => (st.aggregator,
            GoMap.get st.k8s.secrets ("k8s-ns1", "secret3.k8s-cluster" ++ "-v" ++ "1")))
        = some (Aggregator.closed 1,
            some (testK8sSecret "secret3.k8s-cluster-v1" "vault-to-k8s/secret" "wrong-value"))
      ∧ (testK8sSecret "secret3.k8s-cluster-v1" "vault-to-k8s/secret" "wrong-value").data
        ≠ [("testKey-secret3.k8s-cluster", toBytes "testValue-secret3.k8s-cluster")]) := by
  refine ⟨⟨by decide, by rfl, by decide⟩, by decide, by rfl, by decide, by decide⟩

/-- C2, amended: for every entry that `filterSecrets` retains, so that the tick reads it,
and that is read from Vault with non-empty string-only data at version `v`: if before the
tick the namespace holds no Secret `entry-v<v>` (or holds it already with the entry data
and the annotation), no other retained entry has a candidate of that name, the API never
refuses the Get and the Create for it, and the tick ends with status 1 (no job has ended
with an error), then after the tick (list, `filterSecrets`, `k8sSecretsList`, any number of
workers that take the jobs under any schedule, the dispatcher ranging over the entries and
the workers over the candidates in any order) the cluster contains the Secret `entry-v<v>`
in that namespace, with data equal to the entry data and the single annotation
`annotationName = full Vault path`. -/
theorem syncNamespace_versioned (cfg : Config) (d : vtkData) (faults : Faults)
    (read : VaultRead) (keys : List String) (ns : String)
    (order : List (String × Int) → List (String × Int)) (rev : secretForUpdate → Bool)
    (numWorkers : Nat) (schedule : List Goroutine) (k8s : K8s) (st : SyncState)
    (entry : String) (s : GoMap String VaultValue) (v : String)
    (data : GoMap String Bytes)
    (horder : ∀ l, (order l).Perm l)
    (hkept : GoMap.get (filterSecrets d (secretsList keys) ("." ++ cfg.k8sClusterName) ns)
      entry ≠ none)
    (hread : read (cfg.vaultSecretsPath ++ "/" ++ ns ++ "/" ++ entry) = Except.ok (s, v))
    (hs : s ≠ []) (hconv : convertData s = Conversion.converted data)
    (hstart : GoMap.get k8s.secrets (ns, entry ++ "-v" ++ v) = none
      ∨ GoMap.get k8s.secrets (ns, entry ++ "-v" ++ v)
        = some { name := entry ++ "-v" ++ v, data := data,
                 annotations := [(cfg.annotationName,
                   cfg.vaultSecretsPath ++ "/" ++ ns ++ "/" ++ entry)] })
    (hother : ∀ e2 flag2,
      GoMap.get (filterSecrets d (secretsList keys) ("." ++ cfg.k8sClusterName) ns) e2
        = some flag2 →
      e2 ≠ entry → ∀ s2 v2,
      read (cfg.vaultSecretsPath ++ "/" ++ ns ++ "/" ++ e2) = Except.ok (s2, v2) →
      GoMap.get (k8sSecretsForUpdate { name := e2, versioning := flag2 } v2
        ("." ++ cfg.k8sClusterName)) (entry ++ "-v" ++ v) = none)
    (hg : ∀ n, faults n (ApiCall.get ns (entry ++ "-v" ++ v)) = none)
    (hcr : ∀ n, faults n (ApiCall.create ns
      { name := entry ++ "-v" ++ v, data := data,
        annotations := [(cfg.annotationName,
          cfg.vaultSecretsPath ++ "/" ++ ns ++ "/" ++ entry)] }) = none)
    (hrun : syncNamespace cfg d faults read keys ns order rev numWorkers schedule k8s
      = some st)
    (hclosed : st.aggregator = Aggregator.closed 1) :
    GoMap.get st.k8s.secrets (ns, entry ++ "-v" ++ v)
      = some { name := entry ++ "-v" ++ v, data := data,
               annotations := [(cfg.annotationName,
                 cfg.vaultSecretsPath ++ "/" ++ ns ++ "/" ++ entry)] } := by
  have hsf : secretFor cfg (cfg.vaultSecretsPath ++ "/" ++ ns ++ "/" ++ entry) data
      (entry ++ "-v" ++ v)
      = { name := entry ++ "-v" ++ v, data := data,
          annotations := [(cfg.annotationName,
            cfg.vaultSecretsPath ++ "/" ++ ns ++ "/" ++ entry)] } := by
    simp [secretFor, GoMap.set]
  rw [← hsf] at hstart hcr ⊢
  unfold syncNamespace at hrun
  simp only at hrun
  have hlen : (filterSecrets d (secretsList keys) ("." ++ cfg.k8sClusterName) ns).length
      = (jobsOf order
          (filterSecrets d (secretsList keys) ("." ++ cfg.k8sClusterName) ns)).length := by
    unfold jobsOf
    rw [List.length_map]
    exact ((horder _).length_eq).symm
  rw [hlen] at hrun
  obtain ⟨hk, hall⟩ := run_closed cfg faults read ns _ _ rev numWorkers _ k8s schedule st
    hrun hclosed
  rw [hk]
  rcases hstart with hnone | hT
  · apply worker_creates cfg faults read ns _ _ rev entry s v data hread hs hconv
      (not_mem_k8sSecretsList k8s ns _ hnone) hg hcr _ k8s hnone
    · intro j hj hjn s2 v2 hr2
      unfold jobsOf at hj
      obtain ⟨p, hp, hpj⟩ := List.mem_map.1 hj
      subst hpj
      have hp2 := (horder _).mem_iff.1 hp
      have hget := GoMap.get_of_mem _ p.1 p.2
        (filterSecrets_nodup d (secretsList keys) ("." ++ cfg.k8sClusterName) ns) hp2
      exact hother p.1 p.2 hget hjn s2 v2 hr2
    · intro r hr
      obtain ⟨job, k, hrk⟩ := processJobs_mem cfg faults read ns _ _ rev _ k8s r hr
      rw [hrk]
      apply (processJob_ended cfg faults read ns _ _ _ k job).1
      rw [← hrk]
      exact hall r hr
    · cases hk : GoMap.get (filterSecrets d (secretsList keys) ("." ++ cfg.k8sClusterName) ns)
          entry with
      | none => exact absurd hk hkept
      | some flag =>
        refine ⟨{ name := entry, versioning := flag }, ?_, rfl⟩
        unfold jobsOf
        refine List.mem_map.2 ⟨(entry, flag), ?_, rfl⟩
        exact (horder _).mem_iff.2 (GoMap.mem_of_get _ _ _ hk)
  · exact worker_keep cfg faults read ns _ _ rev _ s v data _ hread hconv _ k8s hT

set_option maxRecDepth 100000 in
/-- C2 amended, at the entry `secret1` (version 2) in the tick of the test with two
workers: both workers take a job before the dispatcher can send the third one, and the
main goroutine leaves its loop with status 1. -/
theorem syncNamespace_versioned_witness :
    GoMap.get (filterSecrets testData (secretsList testSecretsList)
        ("." ++ testConfig.k8sClusterName) "k8s-ns1") "secret1" ≠ none
    ∧ testVaultRead (testConfig.vaultSecretsPath ++ "/" ++ "k8s-ns1" ++ "/" ++ "secret1")
      = Except.ok ([("testKey-secret1", VaultValue.str "testValue-secret1")], "2")
    ∧ convertData [("testKey-secret1", VaultValue.str "testValue-secret1")]
      = Conversion.converted [("testKey-secret1", toBytes "testValue-secret1")]
    ∧ GoMap.get (testCluster []).secrets ("k8s-ns1", "secret1" ++ "-v" ++ "2") = none
    ∧ ∃ st, syncNamespace testConfig testData testK8sServerFaults testVaultRead
        testSecretsList "k8s-ns1" id (fun _ => false) 2
        [Goroutine.dispatcher, Goroutine.dispatcher, Goroutine.worker 0, Goroutine.worker 1,
         Goroutine.dispatcher, Goroutine.dispatcher, Goroutine.worker 0, Goroutine.worker 1,
         Goroutine.main, Goroutine.main, Goroutine.worker 0, Goroutine.worker 0,
         Goroutine.main, Goroutine.main]
        (testCluster []) = some st
      ∧ st.aggregator = Aggregator.closed 1
      ∧ GoMap.get st.k8s.secrets ("k8s-ns1", "secret1" ++ "-v" ++ "2")
        = some { name := "secret1" ++ "-v" ++ "2",
                 data := [("testKey-secret1", toBytes "testValue-secret1")],
                 annotations := [(testConfig.annotationName,
                   testConfig.vaultSecretsPath ++ "/" ++ "k8s-ns1" ++ "/" ++ "secret1")] } := by
  refine ⟨by decide, by rfl, by decide, by decide, ?_⟩
  have hagg : (syncNamespace testConfig testData testK8sServerFaults testVaultRead
      testSecretsList "k8s-ns1" id (fun _ => false) 2
      [Goroutine.dispatcher, Goroutine.dispatcher, Goroutine.worker 0, Goroutine.worker 1,
       Goroutine.dispatcher, Goroutine.dispatcher, Goroutine.worker 0, Goroutine.worker 1,
       Goroutine.main, Goroutine.main, Goroutine.worker 0, Goroutine.worker 0,
       Goroutine.main, Goroutine.main]
      (testCluster [])).map (fun st => st.aggregator) = some (Aggregator.closed 1) := by
    decide
  cases hst : syncNamespace testConfig testData testK8sServerFaults testVaultRead
      testSecretsList "k8s-ns1" id (fun _ => false) 2
      [Goroutine.dispatcher, Goroutine.dispatcher, Goroutine.worker 0, Goroutine.worker 1,
       Goroutine.dispatcher, Goroutine.dispatcher, Goroutine.worker 0, Goroutine.worker 1,
       Goroutine.main, Goroutine.main, Goroutine.worker 0, Goroutine.worker 0,
       Goroutine.main, Goroutine.main]
      (testCluster []) with
  | none =>
    rw [hst] at hagg
    cases hagg
  | some st =>
    rw [hst] at hagg
    have hclosed : st.aggregator = Aggregator.closed 1 := by simpa using hagg
    refine ⟨st, rfl, hclosed, ?_⟩
    exact syncNamespace_versioned testConfig testData testK8sServerFaults testVaultRead
      testSecretsList "k8s-ns1" id (fun _ => false) 2 _ (testCluster []) st "secret1"
      [("testKey-secret1", VaultValue.str "testValue-secret1")] "2"
      [("testKey-secret1", toBytes "testValue-secret1")]
      (fun l => List.Perm.refl l) (by decide) (by rfl) (by decide) (by decide)
      (Or.inl (by decide))
      (by
        intro e2 flag2 hget hne s2 v2 hr
        have hf : filterSecrets testData (secretsList testSecretsList)
            ("." ++ testConfig.k8sClusterName) "k8s-ns1"
            = [("secret1", 1), ("secret2.k8s-cluster", 1), ("secret6", 1)] := by decide
        rw [hf] at hget
        have hm := GoMap.mem_of_get _ _ _ hget
        simp only [List.mem_cons, Prod.mk.injEq, List.mem_singleton, List.not_mem_nil,
          or_false] at hm
        rcases hm with ⟨h1, _⟩ | ⟨h1, h2⟩ | ⟨h1, h2⟩
        · exact absurd h1 hne
        · subst h1 h2
          have h0 : testVaultRead (testConfig.vaultSecretsPath ++ "/" ++ "k8s-ns1" ++ "/"
              ++ "secret2.k8s-cluster")
              = Except.ok ([("testKey-secret2.k8s-cluster",
                  VaultValue.str "testValue-secret2.k8s-cluster")], "1") := rfl
          rw [h0] at hr
          cases hr
          decide
        · subst h1 h2
          have h0 : testVaultRead (testConfig.vaultSecretsPath ++ "/" ++ "k8s-ns1" ++ "/"
              ++ "secret6")
              = Except.ok ([("testKey-secret6", VaultValue.str "testValue-secret6")], "1") :=
            rfl
          rw [h0] at hr
          cases hr
          decide)
      (fun _ => rfl) (fun _ => rfl) hst hclosed

/-! ## Claim C3: creation -/

/-- C3: for a job whose Vault entry has non-empty, string-only data, every candidate name
for which the Get of the worker returned NotFound and whose Create the cluster accepts is
created: afterwards the cluster holds under that name exactly the Secret with the byte
encoding of the entry data and the single annotation `annotationName = full Vault path`,
`created` counts the accepted Creates and each of them is counted in `synced` too (one
iteration of the loop adds 1 to both); requests are only made for the names of the
candidate map, which has `name-v<v>` for the current version only, so the Secret
`name-v<w>` of any other version `w` is not created or touched.  In terms of the cluster
before the job: a candidate left after the pre-listing check that is absent, and whose Get
and Create are never refused, exists with that content when the result carries no error.
The data is, key by key, the bytes of the strings of the entry. -/
theorem updateSecretsInK8s_create (cfg : Config) (faults : Faults) (read : VaultRead)
    (ns suffix : String) (k8sSecrets : List String) (rev : Bool) (k8s : K8s)
    (job : secretForUpdate) (s : GoMap String VaultValue) (v : String)
    (data : GoMap String Bytes)
    (hread : read (cfg.vaultSecretsPath ++ "/" ++ ns ++ "/" ++ job.name) = Except.ok (s, v))
    (hs : s ≠ []) (hconv : convertData s = Conversion.converted data) :
    ∃ evs, (processJob cfg faults read ns suffix k8sSecrets rev k8s job).1.log = k8s.log ++ evs
      ∧ (∀ c, (⟨ApiCall.get ns c, some (K8s.notFoundError c)⟩ : ApiEvent) ∈ evs →
          (∀ n, faults n (ApiCall.create ns
            { name := c, data := data,
              annotations := [(cfg.annotationName,
                cfg.vaultSecretsPath ++ "/" ++ ns ++ "/" ++ job.name)] }) = none) →
          GoMap.get (k8sSecretsForUpdate job v suffix) c ≠ none
          ∧ GoMap.get (processJob cfg faults read ns suffix k8sSecrets rev k8s job).1.secrets
              (ns, c)
            = some { name := c, data := data,
                     annotations := [(cfg.annotationName,
                       cfg.vaultSecretsPath ++ "/" ++ ns ++ "/" ++ job.name)] }
          ∧ (⟨ApiCall.create ns
              { name := c, data := data,
                annotations := [(cfg.annotationName,
                  cfg.vaultSecretsPath ++ "/" ++ ns ++ "/" ++ job.name)] }, none⟩
              : ApiEvent) ∈ evs)
      ∧ (processJob cfg faults read ns suffix k8sSecrets rev k8s job).2.created
          = (evs.filter ApiEvent.isCreated).length
      ∧ (processJob cfg faults read ns suffix k8sSecrets rev k8s job).2.created
          ≤ (processJob cfg faults read ns suffix k8sSecrets rev k8s job).2.synced
      ∧ (∀ e ∈ evs, ∃ c, GoMap.get (k8sSecretsForUpdate job v suffix) c ≠ none
          ∧ e.call.target = (ns, c))
      ∧ (∀ w, w ≠ v →
          GoMap.get (k8sSecretsForUpdate job v suffix) (job.name ++ "-v" ++ w) = none
          ∧ GoMap.get (processJob cfg faults read ns suffix k8sSecrets rev k8s job).1.secrets
              (ns, job.name ++ "-v" ++ w) = GoMap.get k8s.secrets (ns, job.name ++ "-v" ++ w)
          ∧ ∀ e ∈ evs, e.call.target ≠ (ns, job.name ++ "-v" ++ w))
      ∧ (∀ (k : K8s) (res : updateSecretResults) (c : String),
          GoMap.get k.secrets (ns, c) = none →
          faults k.log.length (ApiCall.get ns c) = none →
          faults (k.log.length + 1) (ApiCall.create ns
            (secretFor cfg (cfg.vaultSecretsPath ++ "/" ++ ns ++ "/" ++ job.name) data c))
            = none →
          (syncSecret cfg faults ns (cfg.vaultSecretsPath ++ "/" ++ ns ++ "/" ++ job.name)
              data (k, res) c).1.2
            = { res with created := res.created + 1, synced := res.synced + 1 }
          ∧ (syncSecret cfg faults ns (cfg.vaultSecretsPath ++ "/" ++ ns ++ "/" ++ job.name)
              data (k, res) c).2 = false)
      ∧ (∀ c, (c = job.name ++ "-v" ++ v ∧ job.name ++ "-v" ++ v ∉ k8sSecrets)
            ∨ (c = trimSuffix job.name suffix ∧ job.versioning = 0) →
          GoMap.get k8s.secrets (ns, c) = none →
          (∀ n, faults n (ApiCall.get ns c) = none) →
          (∀ n, faults n (ApiCall.create ns
            (secretFor cfg (cfg.vaultSecretsPath ++ "/" ++ ns ++ "/" ++ job.name) data c))
            = none) →
          (processJob cfg faults read ns suffix k8sSecrets rev k8s job).2.err = none →
          GoMap.get (processJob cfg faults read ns suffix k8sSecrets rev k8s job).1.secrets
              (ns, c)
            = some { name := c, data := data,
                     annotations := [(cfg.annotationName,
                       cfg.vaultSecretsPath ++ "/" ++ ns ++ "/" ++ job.name)] })
      ∧ (∀ key, GoMap.get data key =
          match GoMap.get s key with
          | some (VaultValue.str x) => some (toBytes x)
          | _ => none) := by
  have hcand : ∀ n, n ∈ rangeOrder rev
      ((if job.name ++ "-v" ++ v ∈ k8sSecrets then [] else [job.name ++ "-v" ++ v])
        ++ (if job.versioning = 0 then [trimSuffix job.name suffix] else [])) →
      GoMap.get (k8sSecretsForUpdate job v suffix) n ≠ none :=
    fun n hn => mem_names_candidate job v suffix k8sSecrets rev n hn
  have hother : ∀ w, w ≠ v →
      GoMap.get (k8sSecretsForUpdate job v suffix) (job.name ++ "-v" ++ w) = none := by
    intro w hw
    rw [k8sSecretsForUpdate_list]
    have h1 : ¬ (job.name ++ "-v" ++ v = job.name ++ "-v" ++ w) := fun e =>
      hw (append_v_injective job.name v w e.symm)
    have h2 : ¬ (trimSuffix job.name suffix = job.name ++ "-v" ++ w) := fun e =>
      versioned_ne_trimSuffix job.name w suffix e.symm
    by_cases hf : job.versioning = 0 <;> simp [hf, GoMap.get, h1, h2]
  rw [processJob_ok cfg faults read ns suffix k8sSecrets rev k8s job s v data hread hs hconv]
  dsimp only
  obtain ⟨evs, hlog, htgt, hA, hB, hC, hD⟩ := syncSecrets_created cfg faults ns
    (cfg.vaultSecretsPath ++ "/" ++ ns ++ "/" ++ job.name) data
    (rangeOrder rev
      ((if job.name ++ "-v" ++ v ∈ k8sSecrets then [] else [job.name ++ "-v" ++ v])
        ++ (if job.versioning = 0 then [trimSuffix job.name suffix] else [])))
    (k8s, { created := 0, updated := 0, skipped := 0,
            synced := if job.name ++ "-v" ++ v ∈ k8sSecrets then 1 else 0, err := none })
  have hsf : ∀ c, secretFor cfg (cfg.vaultSecretsPath ++ "/" ++ ns ++ "/" ++ job.name) data c
      = { name := c, data := data,
          annotations := [(cfg.annotationName,
            cfg.vaultSecretsPath ++ "/" ++ ns ++ "/" ++ job.name)] } := by
    intro c
    simp [secretFor, GoMap.set]
  refine ⟨evs, hlog, ?_, ?_, ?_, ?_, ?_, ?_, ?_, convertData_get s data hconv⟩
  · intro c hget hacc
    rw [← hsf c] at hacc ⊢
    have hcr := hB c hget hacc
    obtain ⟨n, hn, hnt⟩ := htgt _ hget
    have hcn : c = n := by simpa [ApiCall.target] using hnt
    subst hcn
    exact ⟨hcand c hn, hA c hcr, hcr⟩
  · simpa using hC
  · simp only at hC hD
    omega
  · intro e he
    obtain ⟨n, hn, hnt⟩ := htgt e he
    exact ⟨n, hcand n hn, hnt⟩
  · intro w hw
    refine ⟨hother w hw, ?_, ?_⟩
    · apply syncSecrets_frame
      intro n hn e
      have hnw : n = job.name ++ "-v" ++ w := by simpa using e
      exact hcand n hn (hnw ▸ hother w hw)
    · intro e he e2
      obtain ⟨n, hn, hnt⟩ := htgt e he
      rw [e2] at hnt
      have hnw : job.name ++ "-v" ++ w = n := by simpa using hnt
      exact hcand n hn (hnw ▸ hother w hw)
  · intro k res c hnone hg hc
    rcases syncSecret_cases cfg faults ns
        (cfg.vaultSecretsPath ++ "/" ++ ns ++ "/" ++ job.name) data k res c with
      ⟨msg, h1, _⟩ | ⟨_, _, _, h⟩ | ⟨msg, _, _, h1, _⟩ | ⟨ex, _, h1, _⟩
      | ⟨ex, _, h1, _⟩ | ⟨ex, e1, _, h1, _⟩ | ⟨ex, e1, msg, secrets1, _, h1, _⟩
    · rw [hg] at h1; cases h1
    · rw [h]; exact ⟨rfl, rfl⟩
    · rw [hc] at h1; cases h1
    · rw [hnone] at h1; cases h1
    · rw [hnone] at h1; cases h1
    · rw [hnone] at h1; cases h1
    · rw [hnone] at h1; cases h1
  · intro c hc hnone hg hcr herr
    rw [← hsf c]
    apply syncSecrets_creates cfg faults ns _ data c hg hcr _ _ _ hnone herr
    unfold rangeOrder
    rcases hc with ⟨h1, h2⟩ | ⟨h1, h2⟩
    · cases rev <;> simp [h1, h2]
    · cases rev <;> simp [h1, h2]

/-- C3, at the job `secret1` of the test (version 2) on an empty cluster: `secret1-v2` is
created with the entry data and the annotation, and `secret1-v1` is not. -/
theorem updateSecretsInK8s_create_witness :
    testVaultRead (testConfig.vaultSecretsPath ++ "/" ++ "k8s-ns1" ++ "/" ++ "secret1")
      = Except.ok ([("testKey-secret1", VaultValue.str "testValue-secret1")], "2")
    ∧ [("testKey-secret1", VaultValue.str "testValue-secret1")] ≠ []
    ∧ convertData [("testKey-secret1", VaultValue.str "testValue-secret1")]
      = Conversion.converted [("testKey-secret1", toBytes "testValue-secret1")]
    ∧ (∃ evs, (processJob testConfig noFaults testVaultRead "k8s-ns1" ".k8s-cluster" [] false
          (testCluster []) { name := "secret1", versioning := 1 }).1.log
          = (testCluster []).log ++ evs
        ∧ (processJob testConfig noFaults testVaultRead "k8s-ns1" ".k8s-cluster" [] false
          (testCluster []) { name := "secret1", versioning := 1 }).2.created
          = (evs.filter ApiEvent.isCreated).length)
    ∧ (processJob testConfig noFaults testVaultRead "k8s-ns1" ".k8s-cluster" [] false
        (testCluster []) { name := "secret1", versioning := 1 }).2
      = { created := 1, updated := 0, skipped := 0, synced := 1, err := none }
    ∧ GoMap.get (processJob testConfig noFaults testVaultRead "k8s-ns1" ".k8s-cluster" [] false
        (testCluster []) { name := "secret1", versioning := 1 }).1.secrets
        ("k8s-ns1", "secret1-v2")
      = some { name := "secret1-v2",
               data := [("testKey-secret1", toBytes "testValue-secret1")],
               annotations := [("vault-to-k8s/secret", "testMount/k8s/dev/k8s-ns1/secret1")] }
    ∧ GoMap.get (processJob testConfig noFaults testVaultRead "k8s-ns1" ".k8s-cluster" [] false
        (testCluster []) { name := "secret1", versioning := 1 }).1.secrets
        ("k8s-ns1", "secret1-v1") = none :=
  ⟨by rfl, by decide, by decide,
    (updateSecretsInK8s_create testConfig noFaults testVaultRead "k8s-ns1" ".k8s-cluster" []
      false (testCluster []) { name := "secret1", versioning := 1 }
      [("testKey-secret1", VaultValue.str "testValue-secret1")] "2"
      [("testKey-secret1", toBytes "testValue-secret1")]
      (by rfl) (by decide) (by decide)).imp (fun _ h => ⟨h.1, h.2.2.1⟩),
    by decide, by decide, by decide⟩

/-! ## Claim C4: the filter in a versioning namespace -/

/-- C4: for a namespace that is not in `nonVersioningNamespacesList`, `filterSecrets` with
suffix `"." ++ clusterName` returns the map that sends to 1 every input name that contains
no `.` or ends with the suffix and contains exactly one `.`, and has no other key; on the
six names of the test and cluster name `k8s-cluster` it is exactly
`secret1 -> 1, secret2.k8s-cluster -> 1, secret6 -> 1`. -/
theorem filterSecrets_versioning (d : vtkData) (secrets : List String)
    (clusterName ns : String) (hns : ns ∉ d.nonVersioningNamespacesList) :
    (∀ k, GoMap.get (filterSecrets d secrets ("." ++ clusterName) ns) k =
      if k ∈ secrets ∧ (containsDot k = false
          ∨ (hasSuffix k ("." ++ clusterName) = true ∧ countDot k = 1))
      then some 1 else none)
    ∧ filterSecrets d testSecretsList ("." ++ "k8s-cluster") ns =
      [("secret1", 1), ("secret2.k8s-cluster", 1), ("secret6", 1)] := by
  have hnv : nonVersioningNamespace d ns = false := by
    cases h : nonVersioningNamespace d ns with
    | false => rfl
    | true => exact absurd ((nonVersioningNamespace_iff d ns).1 h) hns
  constructor
  · intro k
    rw [filterSecrets_get, hnv]
    by_cases hk : k ∈ secrets
    · simp only [hk, if_true, true_and, Bool.false_and, Bool.false_eq_true, if_false]
      have hcd := containsDot_iff_countDot k
      cases hc : containsDot k with
      | false => simp
      | true =>
        have hpos : 0 < countDot k := hcd.1 hc
        cases hs : hasSuffix k ("." ++ clusterName) with
        | false => simp
        | true =>
          by_cases h1 : countDot k > 1
          · have : countDot k ≠ 1 := by omega
            simp [h1, this]
          · have : countDot k = 1 := by omega
            simp [this]
    · simp [hk]
  · unfold filterSecrets
    rw [hnv]
    decide

/-- C4, at the namespace `k8s-ns-ver` of the test. -/
theorem filterSecrets_versioning_witness :
    "k8s-ns-ver" ∉ testData.nonVersioningNamespacesList
    ∧ ((∀ k, GoMap.get (filterSecrets testData testSecretsList ("." ++ "k8s-cluster")
          "k8s-ns-ver") k =
        if k ∈ testSecretsList ∧ (containsDot k = false
            ∨ (hasSuffix k ("." ++ "k8s-cluster") = true ∧ countDot k = 1))
        then some 1 else none)
      ∧ filterSecrets testData testSecretsList ("." ++ "k8s-cluster") "k8s-ns-ver" =
        [("secret1", 1), ("secret2.k8s-cluster", 1), ("secret6", 1)]) :=
  ⟨by decide,
    filterSecrets_versioning testData testSecretsList "k8s-cluster" "k8s-ns-ver" (by decide)⟩

/-! ## Claim C5: the filter on the test input, non-versioning namespace -/

/-- C5 as stated fails: in the non-versioning namespace of the test the name
`secret4.something.k8s-cluster` is a key of the result, so it is not true that
`secret1 -> 1`, `secret2.k8s-cluster -> 0`, `secret6 -> 1` and the name is dropped. -/
theorem filterSecrets_nonVersioning_test_not_dropped :
    ¬ (GoMap.get (filterSecrets testData testSecretsList ("." ++ "k8s-cluster")
          "k8s-ns-nonver") "secret1" = some 1
      ∧ GoMap.get (filterSecrets testData testSecretsList ("." ++ "k8s-cluster")
          "k8s-ns-nonver") "secret2.k8s-cluster" = some 0
      ∧ GoMap.get (filterSecrets testData testSecretsList ("." ++ "k8s-cluster")
          "k8s-ns-nonver") "secret6" = some 1
      ∧ GoMap.get (filterSecrets testData testSecretsList ("." ++ "k8s-cluster")
          "k8s-ns-nonver") "secret4.something.k8s-cluster" = none) := by
  decide

/-- C5, amended: on the six names of the test with cluster name `k8s-cluster`,
`filterSecrets` in the non-versioning namespace yields exactly `secret1 -> 1`,
`secret2.k8s-cluster -> 0`, `secret4.something.k8s-cluster -> 0` and `secret6 -> 1`; the
name `secret4.something.k8s-cluster` is a key of the result, with flag 0. -/
theorem filterSecrets_nonVersioning_test :
    filterSecrets testData testSecretsList ("." ++ "k8s-cluster") "k8s-ns-nonver" =
      [("secret1", 1), ("secret2.k8s-cluster", 0), ("secret4.something.k8s-cluster", 0),
       ("secret6", 1)]
    ∧ GoMap.get (filterSecrets testData testSecretsList ("." ++ "k8s-cluster")
        "k8s-ns-nonver") "secret4.something.k8s-cluster" = some 0 := by
  decide

/-! ## Claim C6: the filter in a non-versioning namespace -/

/-- C6: for a namespace in `nonVersioningNamespacesList`, every input name that ends with
the suffix `"." ++ clusterName` gets flag 0, however many `.` it has (so does
`secret4.something.k8s-cluster`, which has two); every other input name gets what it gets
in a versioning namespace: flag 1 if it contains no `.`, and no entry otherwise. -/
theorem filterSecrets_nonVersioning (d : vtkData) (secrets : List String)
    (clusterName ns : String) (hns : ns ∈ d.nonVersioningNamespacesList) :
    (∀ k ∈ secrets, hasSuffix k ("." ++ clusterName) = true →
      GoMap.get (filterSecrets d secrets ("." ++ clusterName) ns) k = some 0)
    ∧ (∀ k ∈ secrets, hasSuffix k ("." ++ clusterName) = false →
      GoMap.get (filterSecrets d secrets ("." ++ clusterName) ns) k =
        (if containsDot k then none else some 1)
      ∧ ∀ (d2 : vtkData) (ns2 : String), ns2 ∉ d2.nonVersioningNamespacesList →
        GoMap.get (filterSecrets d secrets ("." ++ clusterName) ns) k =
          GoMap.get (filterSecrets d2 secrets ("." ++ clusterName) ns2) k)
    ∧ (1 < countDot "secret4.something.k8s-cluster"
      ∧ GoMap.get (filterSecrets d testSecretsList ("." ++ "k8s-cluster") ns)
          "secret4.something.k8s-cluster" = some 0) := by
  have hnv : nonVersioningNamespace d ns = true := (nonVersioningNamespace_iff d ns).2 hns
  refine ⟨?_, ?_, ?_, ?_⟩
  · intro k hk hs
    rw [filterSecrets_get, hnv]
    simp [hk, hs]
  · intro k hk hs
    have h1 : GoMap.get (filterSecrets d secrets ("." ++ clusterName) ns) k =
        (if containsDot k then none else some 1) := by
      rw [filterSecrets_get, hnv]
      simp [hk, hs]
    refine ⟨h1, ?_⟩
    intro d2 ns2 hns2
    have hnv2 : nonVersioningNamespace d2 ns2 = false := by
      cases h : nonVersioningNamespace d2 ns2 with
      | false => rfl
      | true => exact absurd ((nonVersioningNamespace_iff d2 ns2).1 h) hns2
    rw [h1, filterSecrets_get, hnv2]
    simp [hk, hs]
  · decide
  · rw [filterSecrets_get, hnv]
    decide

/-- C6, at the non-versioning namespace `k8s-ns-nonver` of the test. -/
theorem filterSecrets_nonVersioning_witness :
    "k8s-ns-nonver" ∈ testData.nonVersioningNamespacesList
    ∧ ((∀ k ∈ testSecretsList, hasSuffix k ("." ++ "k8s-cluster") = true →
        GoMap.get (filterSecrets testData testSecretsList ("." ++ "k8s-cluster")
          "k8s-ns-nonver") k = some 0)
      ∧ (∀ k ∈ testSecretsList, hasSuffix k ("." ++ "k8s-cluster") = false →
        GoMap.get (filterSecrets testData testSecretsList ("." ++ "k8s-cluster")
          "k8s-ns-nonver") k = (if containsDot k then none else some 1)
        ∧ ∀ (d2 : vtkData) (ns2 : String), ns2 ∉ d2.nonVersioningNamespacesList →
          GoMap.get (filterSecrets testData testSecretsList ("." ++ "k8s-cluster")
            "k8s-ns-nonver") k =
            GoMap.get (filterSecrets d2 testSecretsList ("." ++ "k8s-cluster") ns2) k)
      ∧ (1 < countDot "secret4.something.k8s-cluster"
        ∧ GoMap.get (filterSecrets testData testSecretsList ("." ++ "k8s-cluster")
            "k8s-ns-nonver") "secret4.something.k8s-cluster" = some 0)) :=
  ⟨by decide,
    filterSecrets_nonVersioning testData testSecretsList "k8s-cluster" "k8s-ns-nonver"
      (by decide)⟩

/-! ## Claim C7: the candidate map -/

/-- C7: for a job `(name, flag)` whose Vault entry has version string `v`, the candidate
map built by `updateSecretsInK8s` is exactly `name-v<v> -> 1` together with
`TrimSuffix(name, suffix) -> 0` when the flag is 0, and exactly `name-v<v> -> 1` when the
flag is 1 (or anything but 0); the versioned name is built from the whole job name, cluster
suffix included, as for `secret2.k8s-cluster` at version 1. -/
theorem k8sSecretsForUpdate_eq (job : secretForUpdate) (v suffix : String) :
    k8sSecretsForUpdate job v suffix =
      (if job.versioning = 0 then
        [(job.name ++ "-v" ++ v, 1), (trimSuffix job.name suffix, 0)]
      else [(job.name ++ "-v" ++ v, 1)])
    ∧ (∀ k, GoMap.get (k8sSecretsForUpdate job v suffix) k =
        if k = job.name ++ "-v" ++ v then some 1
        else if job.versioning = 0 ∧ k = trimSuffix job.name suffix then some 0
        else none)
    ∧ k8sSecretsForUpdate { name := "secret2.k8s-cluster", versioning := 0 } "1"
        ("." ++ "k8s-cluster") = [("secret2.k8s-cluster-v1", 1), ("secret2", 0)]
    ∧ k8sSecretsForUpdate { name := "secret2.k8s-cluster", versioning := 1 } "1"
        ("." ++ "k8s-cluster") = [("secret2.k8s-cluster-v1", 1)] := by
  have hne := versioned_ne_trimSuffix job.name v suffix
  have h1 := k8sSecretsForUpdate_list job v suffix
  refine ⟨h1, ?_, by decide, by decide⟩
  intro k
  rw [h1]
  by_cases hf : job.versioning = 0
  · by_cases hk1 : k = job.name ++ "-v" ++ v
    · simp [hf, hk1, GoMap.get]
    · by_cases hk2 : k = trimSuffix job.name suffix
      · have : ¬ (job.name ++ "-v" ++ v = trimSuffix job.name suffix) := hne
        simp [hf, hk2, GoMap.get, this, Ne.symm hne]
      · simp [hf, hk1, hk2, GoMap.get, Ne.symm hk1, Ne.symm hk2]
  · by_cases hk1 : k = job.name ++ "-v" ++ v
    · simp [hf, hk1, GoMap.get]
    · simp [hf, hk1, GoMap.get, Ne.symm hk1]

/-! ## Claim C8: a versioned Secret with a foreign annotation -/

/-- C8 as stated fails: the cluster holds `secret3.k8s-cluster-v1` with the annotation set to
`wrong-value`, the list of cluster Secrets is taken, and the job for the Vault entry
`secret3.k8s-cluster` at version 1 is processed: `skipped` is not incremented, the
candidate is counted in `synced`. -/
theorem foreign_versioned_not_skipped :
    (processJob testConfig noFaults (testVaultEntry "secret3.k8s-cluster" "1") "k8s-ns1"
      ".k8s-cluster"
      (k8sSecretsList
        (testCluster [testK8sSecret "secret3.k8s-cluster-v1" "vault-to-k8s/secret" "wrong-value"])
        "k8s-ns1")
      false
      (testCluster [testK8sSecret "secret3.k8s-cluster-v1" "vault-to-k8s/secret" "wrong-value"])
      { name := "secret3.k8s-cluster", versioning := 1 }).2
      = { created := 0, updated := 0, skipped := 0, synced := 1, err := none }
    ∧ ¬ (0 < (processJob testConfig noFaults (testVaultEntry "secret3.k8s-cluster" "1")
      "k8s-ns1" ".k8s-cluster"
      (k8sSecretsList
        (testCluster [testK8sSecret "secret3.k8s-cluster-v1" "vault-to-k8s/secret" "wrong-value"])
        "k8s-ns1")
      false
      (testCluster [testK8sSecret "secret3.k8s-cluster-v1" "vault-to-k8s/secret" "wrong-value"])
      { name := "secret3.k8s-cluster", versioning := 1 }).2.skipped) := by
  decide

/-- C8, amended: when the cluster holds the Secret `name-v<v>` carrying the annotation with a
value other than the full Vault path, then after the job for the entry `name` at version
`v` (non-empty string-only data) the Secret, and so its annotation value, is unchanged.
The Secret is among the cluster Secrets listed by `k8sSecretsList`.  When its name is in
the pre-listed Secrets the candidate is ignored and counted in `synced`, no request is
sent for it, and a flag-1 job reports exactly `synced = 1`, `skipped = 0`.  When its name
is not in the pre-listed Secrets, the iteration of the loop for it, from any counters and
any cluster that holds the Secret, adds 1 to `skipped` when the Get for it is refused or
returns data that differ from the entry data, and adds 1 to `synced` (up to date) when
the Get returns data equal to the entry data; it changes no other counter and no Secret,
and a flag-1 job then reports exactly `skipped = 1`, respectively `synced = 1`. -/
theorem updateSecretsInK8s_foreign_versioned (cfg : Config) (faults : Faults)
    (read : VaultRead) (ns suffix : String) (k8sSecrets : List String) (rev : Bool) (k8s : K8s)
    (job : secretForUpdate) (s : GoMap String VaultValue) (v : String)
    (data : GoMap String Bytes) (sec : Secret) (a : String)
    (hread : read (cfg.vaultSecretsPath ++ "/" ++ ns ++ "/" ++ job.name) = Except.ok (s, v))
    (hs : s ≠ []) (hconv : convertData s = Conversion.converted data)
    (hex : GoMap.get k8s.secrets (ns, job.name ++ "-v" ++ v) = some sec)
    (hann : GoMap.get sec.annotations cfg.annotationName = some a)
    (hne : a ≠ cfg.vaultSecretsPath ++ "/" ++ ns ++ "/" ++ job.name) :
    GoMap.get (processJob cfg faults read ns suffix k8sSecrets rev k8s job).1.secrets
        (ns, job.name ++ "-v" ++ v) = some sec
    ∧ job.name ++ "-v" ++ v ∈ k8sSecretsList k8s ns
    ∧ (job.name ++ "-v" ++ v ∈ k8sSecrets →
        1 ≤ (processJob cfg faults read ns suffix k8sSecrets rev k8s job).2.synced
        ∧ (∃ evs, (processJob cfg faults read ns suffix k8sSecrets rev k8s job).1.log
            = k8s.log ++ evs
          ∧ ∀ e ∈ evs, e.call.target ≠ (ns, job.name ++ "-v" ++ v))
        ∧ (job.versioning ≠ 0 →
            processJob cfg faults read ns suffix k8sSecrets rev k8s job
              = { k8s := k8s,
                  updateResults := { created := 0, updated := 0, skipped := 0, synced := 1,
                                     err := none },
                  ended := Exit.continued }))
    ∧ (∀ (k : K8s) (res : updateSecretResults),
        GoMap.get k.secrets (ns, job.name ++ "-v" ++ v) = some sec →
        (∀ msg, faults k.log.length (ApiCall.get ns (job.name ++ "-v" ++ v)) = some msg →
          syncSecret cfg faults ns (cfg.vaultSecretsPath ++ "/" ++ ns ++ "/" ++ job.name) data
              (k, res) (job.name ++ "-v" ++ v)
            = (({ secrets := k.secrets,
                  log := k.log ++ [{ call := ApiCall.get ns (job.name ++ "-v" ++ v),
                                       err := some { notFound := false, msg := msg } }] },
                { res with skipped := res.skipped + 1 }), false))
        ∧ (faults k.log.length (ApiCall.get ns (job.name ++ "-v" ++ v)) = none →
          GoMap.deepEqual sec.data data = false →
          syncSecret cfg faults ns (cfg.vaultSecretsPath ++ "/" ++ ns ++ "/" ++ job.name) data
              (k, res) (job.name ++ "-v" ++ v)
            = (({ secrets := k.secrets,
                  log := k.log ++ [{ call := ApiCall.get ns (job.name ++ "-v" ++ v),
                                       err := none }] },
                { res with skipped := res.skipped + 1 }), false))
        ∧ (faults k.log.length (ApiCall.get ns (job.name ++ "-v" ++ v)) = none →
          GoMap.deepEqual sec.data data = true →
          syncSecret cfg faults ns (cfg.vaultSecretsPath ++ "/" ++ ns ++ "/" ++ job.name) data
              (k, res) (job.name ++ "-v" ++ v)
            = (({ secrets := k.secrets,
                  log := k.log ++ [{ call := ApiCall.get ns (job.name ++ "-v" ++ v),
                                       err := none }] },
                { res with synced := res.synced + 1 }), false)))
    ∧ (job.name ++ "-v" ++ v ∉ k8sSecrets → job.versioning ≠ 0 →
        (processJob cfg faults read ns suffix k8sSecrets rev k8s job).2
          = if faults k8s.log.length (ApiCall.get ns (job.name ++ "-v" ++ v)) = none
                ∧ GoMap.deepEqual sec.data data = true then
              { created := 0, updated := 0, skipped := 0, synced := 1, err := none }
            else { created := 0, updated := 0, skipped := 1, synced := 0, err := none }) := by
  have hf : GoMap.get sec.annotations cfg.annotationName
      ≠ some (cfg.vaultSecretsPath ++ "/" ++ ns ++ "/" ++ job.name) := by
    rw [hann]
    intro e
    exact hne (Option.some.inj e)
  have hspec := fun k res => syncSecret_spec cfg faults ns
    (cfg.vaultSecretsPath ++ "/" ++ ns ++ "/" ++ job.name) data k res (job.name ++ "-v" ++ v)
  rw [processJob_ok cfg faults read ns suffix k8sSecrets rev k8s job s v data hread hs hconv]
  dsimp only
  refine ⟨?_, mem_k8sSecretsList k8s ns _ sec hex, ?_, ?_, ?_⟩
  · exact (syncSecrets_foreign cfg faults ns _ data _ _ (ns, job.name ++ "-v" ++ v) sec
      hex hf).1
  · intro hl
    simp only [hl, if_true, List.nil_append]
    refine ⟨?_, ?_, ?_⟩
    · exact (syncSecrets_mono cfg faults ns
        (cfg.vaultSecretsPath ++ "/" ++ ns ++ "/" ++ job.name) data
        (rangeOrder rev (if job.versioning = 0 then [trimSuffix job.name suffix] else []))
        (k8s, { created := 0, updated := 0, skipped := 0, synced := 1, err := none })).2.2.2.1
    · obtain ⟨evs, hlog, htgt⟩ := syncSecrets_log cfg faults ns
        (cfg.vaultSecretsPath ++ "/" ++ ns ++ "/" ++ job.name) data
        (rangeOrder rev (if job.versioning = 0 then [trimSuffix job.name suffix] else []))
        (k8s, { created := 0, updated := 0, skipped := 0, synced := 1, err := none })
      refine ⟨evs, hlog, ?_⟩
      intro e he e2
      obtain ⟨n, hn, hnt⟩ := htgt e he
      rw [e2] at hnt
      have hnv : job.name ++ "-v" ++ v = n := by simpa using hnt
      have hn2 : n = trimSuffix job.name suffix := by
        unfold rangeOrder at hn
        by_cases hfl : job.versioning = 0 <;> cases rev <;> simp [hfl] at hn <;> exact hn
      exact versioned_ne_trimSuffix job.name v suffix (hnv.trans hn2)
    · intro hfl
      simp [hfl, rangeOrder, syncSecrets]
  · intro k res hk
    obtain ⟨h1, _, _, h4, h5, _, _⟩ := hspec k res
    exact ⟨h1, fun hg hd => h5 sec hg hk hd hf, fun hg hd => h4 sec hg hk hd⟩
  · intro hl hfl
    have hnames : rangeOrder rev ([job.name ++ "-v" ++ v]) = [job.name ++ "-v" ++ v] := by
      cases rev <;> simp [rangeOrder]
    simp only [hl, if_false, hfl, List.append_nil, hnames, syncSecrets_single]
    obtain ⟨h1, _, _, h4, h5, _, _⟩ :=
      hspec k8s { created := 0, updated := 0, skipped := 0, synced := 0, err := none }
    cases hg : faults k8s.log.length (ApiCall.get ns (job.name ++ "-v" ++ v)) with
    | some msg =>
      rw [h1 msg hg]
      simp
    | none =>
      cases hd : GoMap.deepEqual sec.data data with
      | true =>
        rw [h4 sec hg hex hd]
        simp
      | false =>
        rw [h5 sec hg hex hd hf]
        simp

/-- C8 amended, at the foreign `secret3.k8s-cluster-v1` of the scenario. -/
theorem updateSecretsInK8s_foreign_versioned_witness :
    testVaultEntry "secret3.k8s-cluster" "1"
        (testConfig.vaultSecretsPath ++ "/" ++ "k8s-ns1" ++ "/" ++ "secret3.k8s-cluster")
      = Except.ok ([("testKey-secret3.k8s-cluster",
          VaultValue.str "testValue-secret3.k8s-cluster")], "1")
    ∧ GoMap.get (testCluster [testK8sSecret "secret3.k8s-cluster-v1" "vault-to-k8s/secret"
        "wrong-value"]).secrets ("k8s-ns1", "secret3.k8s-cluster" ++ "-v" ++ "1")
      = some (testK8sSecret "secret3.k8s-cluster-v1" "vault-to-k8s/secret" "wrong-value")
    ∧ GoMap.get (testK8sSecret "secret3.k8s-cluster-v1" "vault-to-k8s/secret"
        "wrong-value").annotations testConfig.annotationName = some "wrong-value"
    ∧ "wrong-value"
      ≠ testConfig.vaultSecretsPath ++ "/" ++ "k8s-ns1" ++ "/" ++ "secret3.k8s-cluster"
    ∧ GoMap.get (processJob testConfig noFaults (testVaultEntry "secret3.k8s-cluster" "1")
        "k8s-ns1" ".k8s-cluster" ["secret3.k8s-cluster-v1"] false
        (testCluster [testK8sSecret "secret3.k8s-cluster-v1" "vault-to-k8s/secret"
          "wrong-value"])
        { name := "secret3.k8s-cluster", versioning := 1 }).1.secrets
        ("k8s-ns1", "secret3.k8s-cluster" ++ "-v" ++ "1")
      = some (testK8sSecret "secret3.k8s-cluster-v1" "vault-to-k8s/secret" "wrong-value") :=
  ⟨by rfl, by decide, by decide, by decide,
    (updateSecretsInK8s_foreign_versioned testConfig noFaults
      (testVaultEntry "secret3.k8s-cluster" "1") "k8s-ns1" ".k8s-cluster"
      ["secret3.k8s-cluster-v1"] false
      (testCluster [testK8sSecret "secret3.k8s-cluster-v1" "vault-to-k8s/secret"
        "wrong-value"])
      { name := "secret3.k8s-cluster", versioning := 1 }
      [("testKey-secret3.k8s-cluster", VaultValue.str "testValue-secret3.k8s-cluster")] "1"
      [("testKey-secret3.k8s-cluster", toBytes "testValue-secret3.k8s-cluster")]
      (testK8sSecret "secret3.k8s-cluster-v1" "vault-to-k8s/secret" "wrong-value")
      "wrong-value" (by rfl) (by decide) (by decide) (by decide) (by decide) (by decide)).1⟩

/-! ## Claim C9: update -/

/-- C9 as stated fails: in the setting of the non-versioning test (the Secret `secret2`
exists with the annotation of the entry `secret2.k8s-cluster` and other data) an API
server that refuses the Update leaves the data of `secret2` as it was; the job counts no
update and its result carries the error. -/
theorem update_refused_not_replaced :
    GoMap.get (processJob testConfig updateFaults testVaultRead "k8s-ns1" ".k8s-cluster"
        ["secret2"] false
        (testCluster [testK8sSecret "secret2" "vault-to-k8s/secret"
          "testMount/k8s/dev/k8s-ns1/secret2.k8s-cluster"])
        { name := "secret2.k8s-cluster", versioning := 0 }).1.secrets ("k8s-ns1", "secret2")
      = some (testK8sSecret "secret2" "vault-to-k8s/secret"
          "testMount/k8s/dev/k8s-ns1/secret2.k8s-cluster")
    ∧ (processJob testConfig updateFaults testVaultRead "k8s-ns1" ".k8s-cluster"
        ["secret2"] false
        (testCluster [testK8sSecret "secret2" "vault-to-k8s/secret"
          "testMount/k8s/dev/k8s-ns1/secret2.k8s-cluster"])
        { name := "secret2.k8s-cluster", versioning := 0 }).2
      = { created := 1, updated := 0, skipped := 0, synced := 1,
          err := some "Error during update k8s secret: the server rejected our request" } := by
  decide

/-- C9, amended: for every candidate that was not removed as an already-listed versioned
candidate and whose cluster Secret exists with the annotation equal to the full Vault path
and with data different from the entry data, if the Get for it is not refused and the
result of the job carries no error (no Update failed), then after the job the Secret is
the one built by the worker: its data is the entry data and its annotations are
`annotationName = full Vault path`; the job counts at least this update, every Create and
counted Update is counted in `synced`, and the loop iteration in which the second Update
succeeds adds exactly 1 to `updated` and 1 to `synced`.  In the non-versioning test the
pre-existing Secret `secret2` ends with `testKey-secret2.k8s-cluster` =
`testValue-secret2.k8s-cluster`. -/
theorem updateSecretsInK8s_update (cfg : Config) (faults : Faults) (read : VaultRead)
    (ns suffix : String) (k8sSecrets : List String) (rev : Bool) (k8s : K8s)
    (job : secretForUpdate) (s : GoMap String VaultValue) (v : String)
    (data : GoMap String Bytes) (c : String) (ex : Secret)
    (hread : read (cfg.vaultSecretsPath ++ "/" ++ ns ++ "/" ++ job.name) = Except.ok (s, v))
    (hs : s ≠ []) (hconv : convertData s = Conversion.converted data)
    (hc : (c = job.name ++ "-v" ++ v ∧ job.name ++ "-v" ++ v ∉ k8sSecrets)
      ∨ (c = trimSuffix job.name suffix ∧ job.versioning = 0))
    (hex : GoMap.get k8s.secrets (ns, c) = some ex)
    (hann : GoMap.get ex.annotations cfg.annotationName
      = some (cfg.vaultSecretsPath ++ "/" ++ ns ++ "/" ++ job.name))
    (hd : GoMap.deepEqual ex.data data = false)
    (hg : ∀ n, faults n (ApiCall.get ns c) = none)
    (herr : (processJob cfg faults read ns suffix k8sSecrets rev k8s job).2.err = none) :
    GoMap.get (processJob cfg faults read ns suffix k8sSecrets rev k8s job).1.secrets (ns, c)
      = some { name := c, data := data,
               annotations := [(cfg.annotationName,
                 cfg.vaultSecretsPath ++ "/" ++ ns ++ "/" ++ job.name)] }
    ∧ 1 ≤ (processJob cfg faults read ns suffix k8sSecrets rev k8s job).2.updated
    ∧ (processJob cfg faults read ns suffix k8sSecrets rev k8s job).2.created
        + (processJob cfg faults read ns suffix k8sSecrets rev k8s job).2.updated
      ≤ (processJob cfg faults read ns suffix k8sSecrets rev k8s job).2.synced
    ∧ (∀ (k : K8s) (res : updateSecretResults),
        GoMap.get k.secrets (ns, c) = some ex →
        faults k.log.length (ApiCall.get ns c) = none →
        faults (k.log.length + 2) (ApiCall.update ns
          (secretFor cfg (cfg.vaultSecretsPath ++ "/" ++ ns ++ "/" ++ job.name) data c))
          = none →
        (syncSecret cfg faults ns (cfg.vaultSecretsPath ++ "/" ++ ns ++ "/" ++ job.name)
            data (k, res) c).1.2
          = { res with updated := res.updated + 1, synced := res.synced + 1 }
        ∧ (syncSecret cfg faults ns (cfg.vaultSecretsPath ++ "/" ++ ns ++ "/" ++ job.name)
            data (k, res) c).2 = false
        ∧ GoMap.get (syncSecret cfg faults ns
            (cfg.vaultSecretsPath ++ "/" ++ ns ++ "/" ++ job.name) data (k, res) c).1.1.secrets
            (ns, c)
          = some (secretFor cfg (cfg.vaultSecretsPath ++ "/" ++ ns ++ "/" ++ job.name)
              data c))
    ∧ (GoMap.get (processJob testConfig noFaults testVaultRead "k8s-ns1" ".k8s-cluster"
          ["secret2"] rev
          (testCluster [testK8sSecret "secret2" "vault-to-k8s/secret"
            "testMount/k8s/dev/k8s-ns1/secret2.k8s-cluster"])
          { name := "secret2.k8s-cluster", versioning := 0 }).1.secrets
          ("k8s-ns1", "secret2")).map
        (fun sec => GoMap.get sec.data "testKey-secret2.k8s-cluster")
      = some (some (toBytes "testValue-secret2.k8s-cluster")) := by
  have hsf : secretFor cfg (cfg.vaultSecretsPath ++ "/" ++ ns ++ "/" ++ job.name) data c
      = { name := c, data := data,
          annotations := [(cfg.annotationName,
            cfg.vaultSecretsPath ++ "/" ++ ns ++ "/" ++ job.name)] } := by
    simp [secretFor, GoMap.set]
  have hmem : c ∈ rangeOrder rev
      ((if job.name ++ "-v" ++ v ∈ k8sSecrets then [] else [job.name ++ "-v" ++ v])
        ++ (if job.versioning = 0 then [trimSuffix job.name suffix] else [])) := by
    unfold rangeOrder
    rcases hc with ⟨h1, h2⟩ | ⟨h1, h2⟩
    · cases rev <;> simp [h1, h2]
    · cases rev <;> simp [h1, h2]
  rw [processJob_ok cfg faults read ns suffix k8sSecrets rev k8s job s v data hread hs hconv]
    at herr ⊢
  dsimp only at herr ⊢
  obtain ⟨u1, u2, _⟩ := syncSecrets_updated cfg faults ns
    (cfg.vaultSecretsPath ++ "/" ++ ns ++ "/" ++ job.name) data c ex hann hd hg _ _ hmem hex
    herr
  have hcount := syncSecrets_counts cfg faults ns
    (cfg.vaultSecretsPath ++ "/" ++ ns ++ "/" ++ job.name) data
    (rangeOrder rev
      ((if job.name ++ "-v" ++ v ∈ k8sSecrets then [] else [job.name ++ "-v" ++ v])
        ++ (if job.versioning = 0 then [trimSuffix job.name suffix] else [])))
    (k8s, { created := 0, updated := 0, skipped := 0,
            synced := if job.name ++ "-v" ++ v ∈ k8sSecrets then 1 else 0, err := none })
  refine ⟨?_, ?_, ?_, ?_, ?_⟩
  · rw [← hsf]
    exact u1
  · simpa using u2
  · simp only at hcount
    omega
  · intro k res hk hgk hu
    rcases syncSecret_cases cfg faults ns
        (cfg.vaultSecretsPath ++ "/" ++ ns ++ "/" ++ job.name) data k res c with
      ⟨msg, h1, _⟩ | ⟨_, h1, _, _⟩ | ⟨msg, _, h1, _, _⟩ | ⟨ex1, _, h1, h2, _⟩
      | ⟨ex1, _, h1, _, h2, _⟩ | ⟨ex1, e1, _, _, _, _, _, h⟩
      | ⟨ex1, e1, msg, secrets1, _, _, _, _, h1, _, _⟩
    · rw [hgk] at h1; cases h1
    · rw [hk] at h1; cases h1
    · rw [hk] at h1; cases h1
    · rw [hk] at h1; cases h1
      rw [hd] at h2; cases h2
    · rw [hk] at h1; cases h1
      exact absurd hann h2
    · rw [h]
      exact ⟨rfl, rfl, by simp [GoMap.get_set_self]⟩
    · rw [hu] at h1; cases h1
  · cases rev <;> decide

/-- C9 amended, at the pre-existing Secret `secret2` of the non-versioning test. -/
theorem updateSecretsInK8s_update_witness :
    GoMap.get (testCluster [testK8sSecret "secret2" "vault-to-k8s/secret"
        "testMount/k8s/dev/k8s-ns1/secret2.k8s-cluster"]).secrets ("k8s-ns1", "secret2")
      = some (testK8sSecret "secret2" "vault-to-k8s/secret"
          "testMount/k8s/dev/k8s-ns1/secret2.k8s-cluster")
    ∧ GoMap.get (testK8sSecret "secret2" "vault-to-k8s/secret"
        "testMount/k8s/dev/k8s-ns1/secret2.k8s-cluster").annotations testConfig.annotationName
      = some (testConfig.vaultSecretsPath ++ "/" ++ "k8s-ns1" ++ "/" ++ "secret2.k8s-cluster")
    ∧ GoMap.deepEqual (testK8sSecret "secret2" "vault-to-k8s/secret"
        "testMount/k8s/dev/k8s-ns1/secret2.k8s-cluster").data
        [("testKey-secret2.k8s-cluster", toBytes "testValue-secret2.k8s-cluster")] = false
    ∧ (processJob testConfig noFaults testVaultRead "k8s-ns1" ".k8s-cluster"
        ["secret2"] false
        (testCluster [testK8sSecret "secret2" "vault-to-k8s/secret"
          "testMount/k8s/dev/k8s-ns1/secret2.k8s-cluster"])
        { name := "secret2.k8s-cluster", versioning := 0 }).2.err = none
    ∧ GoMap.get (processJob testConfig noFaults testVaultRead "k8s-ns1" ".k8s-cluster"
        ["secret2"] false
        (testCluster [testK8sSecret "secret2" "vault-to-k8s/secret"
          "testMount/k8s/dev/k8s-ns1/secret2.k8s-cluster"])
        { name := "secret2.k8s-cluster", versioning := 0 }).1.secrets ("k8s-ns1", "secret2")
      = some { name := "secret2",
               data := [("testKey-secret2.k8s-cluster",
                 toBytes "testValue-secret2.k8s-cluster")],
               annotations := [(testConfig.annotationName,
                 testConfig.vaultSecretsPath ++ "/" ++ "k8s-ns1" ++ "/"
                   ++ "secret2.k8s-cluster")] }
    ∧ 1 ≤ (processJob testConfig noFaults testVaultRead "k8s-ns1" ".k8s-cluster"
        ["secret2"] false
        (testCluster [testK8sSecret "secret2" "vault-to-k8s/secret"
          "testMount/k8s/dev/k8s-ns1/secret2.k8s-cluster"])
        { name := "secret2.k8s-cluster", versioning := 0 }).2.updated :=
  have h := updateSecretsInK8s_update testConfig noFaults testVaultRead "k8s-ns1"
    ".k8s-cluster" ["secret2"] false
    (testCluster [testK8sSecret "secret2" "vault-to-k8s/secret"
      "testMount/k8s/dev/k8s-ns1/secret2.k8s-cluster"])
    { name := "secret2.k8s-cluster", versioning := 0 }
    [("testKey-secret2.k8s-cluster", VaultValue.str "testValue-secret2.k8s-cluster")] "1"
    [("testKey-secret2.k8s-cluster", toBytes "testValue-secret2.k8s-cluster")]
    "secret2"
    (testK8sSecret "secret2" "vault-to-k8s/secret"
      "testMount/k8s/dev/k8s-ns1/secret2.k8s-cluster")
    (by rfl) (by decide) (by decide) (Or.inr (by decide)) (by decide) (by decide)
    (by decide) (fun _ => rfl) (by decide)
  ⟨by decide, by decide, by decide, by decide, h.1, h.2.1⟩

/-! ## Claim C10: idempotence -/

/-- C10 as stated fails: for the flag-0 entry `secret_bad2.k8s-cluster` (string data, version
1) the API server of the tests refuses both Creates, because neither candidate name is a
DNS-1123 subdomain: after the job no Secret named `secret_bad2` exists. -/
theorem stripped_secret_not_created :
    hasSuffix "secret_bad2.k8s-cluster" ("." ++ "k8s-cluster") = true
    ∧ trimSuffix "secret_bad2.k8s-cluster" ("." ++ "k8s-cluster") = "secret_bad2"
    ∧ GoMap.get (processJob testConfig testK8sServerFaults
        (testVaultEntry "secret_bad2.k8s-cluster" "1") "k8s-ns1" ".k8s-cluster"
        (k8sSecretsList (testCluster []) "k8s-ns1") false (testCluster [])
        { name := "secret_bad2.k8s-cluster", versioning := 0 }).1.secrets
        ("k8s-ns1", "secret_bad2") = none
    ∧ (processJob testConfig testK8sServerFaults
        (testVaultEntry "secret_bad2.k8s-cluster" "1") "k8s-ns1" ".k8s-cluster"
        (k8sSecretsList (testCluster []) "k8s-ns1") false (testCluster [])
        { name := "secret_bad2.k8s-cluster", versioning := 0 }).2
      = { created := 0, updated := 0, skipped := 2, synced := 0, err := none } := by
  decide

/-- C10, amended (idempotence): for every flag-0 job whose run reports no error and no
skipped candidate (it ends with the send of such a result), started with pre-listed
Secrets that exist in the cluster, there is afterwards a Secret named
`TrimSuffix(name, suffix)`, with the entry data; and processing the same job again, with
the same Vault reads, against the cluster left by the first run and its Secrets listed
again, reports `created = 0`, `updated = 0` and no error, sends no Create and no Update,
and leaves the stored Secrets unchanged. -/
theorem updateSecretsInK8s_idempotent (cfg : Config) (faults : Faults) (read : VaultRead)
    (ns suffix : String) (k8sSecrets : List String) (rev1 rev2 : Bool) (k8s : K8s)
    (job : secretForUpdate) (hflag : job.versioning = 0)
    (hlist : ∀ n ∈ k8sSecrets, GoMap.get k8s.secrets (ns, n) ≠ none)
    (hend : (processJob cfg faults read ns suffix k8sSecrets rev1 k8s job).ended
      = Exit.continued)
    (herr : (processJob cfg faults read ns suffix k8sSecrets rev1 k8s job).2.err = none)
    (hskip : (processJob cfg faults read ns suffix k8sSecrets rev1 k8s job).2.skipped = 0) :
    (∃ ex, GoMap.get (processJob cfg faults read ns suffix k8sSecrets rev1 k8s job).1.secrets
        (ns, trimSuffix job.name suffix) = some ex
      ∧ ∀ s v data,
          read (cfg.vaultSecretsPath ++ "/" ++ ns ++ "/" ++ job.name) = Except.ok (s, v) →
          convertData s = Conversion.converted data → GoMap.deepEqual ex.data data = true)
    ∧ (processJob cfg faults read ns suffix
        (k8sSecretsList (processJob cfg faults read ns suffix k8sSecrets rev1 k8s job).1 ns)
        rev2 (processJob cfg faults read ns suffix k8sSecrets rev1 k8s job).1 job).2.created = 0
    ∧ (processJob cfg faults read ns suffix
        (k8sSecretsList (processJob cfg faults read ns suffix k8sSecrets rev1 k8s job).1 ns)
        rev2 (processJob cfg faults read ns suffix k8sSecrets rev1 k8s job).1 job).2.updated = 0
    ∧ (processJob cfg faults read ns suffix
        (k8sSecretsList (processJob cfg faults read ns suffix k8sSecrets rev1 k8s job).1 ns)
        rev2 (processJob cfg faults read ns suffix k8sSecrets rev1 k8s job).1 job).2.err = none
    ∧ (processJob cfg faults read ns suffix
        (k8sSecretsList (processJob cfg faults read ns suffix k8sSecrets rev1 k8s job).1 ns)
        rev2 (processJob cfg faults read ns suffix k8sSecrets rev1 k8s job).1 job).1.secrets
      = (processJob cfg faults read ns suffix k8sSecrets rev1 k8s job).1.secrets
    ∧ ∃ evs, (processJob cfg faults read ns suffix
        (k8sSecretsList (processJob cfg faults read ns suffix k8sSecrets rev1 k8s job).1 ns)
        rev2 (processJob cfg faults read ns suffix k8sSecrets rev1 k8s job).1 job).1.log
        = (processJob cfg faults read ns suffix k8sSecrets rev1 k8s job).1.log ++ evs
      ∧ ∀ e ∈ evs, e.call.isWrite = false := by
  rcases processJob_cases cfg read ns job with
    ⟨e, hr⟩ | ⟨s, v, hr, hbad⟩ | ⟨s, v, hr, hs, hpan⟩ | ⟨s, v, data, hr, hs, hconv⟩
  · rw [processJob_readError cfg faults read ns suffix k8sSecrets rev1 k8s job e hr] at herr
    simp at herr
  · rw [processJob_skipped cfg faults read ns suffix k8sSecrets rev1 k8s job s v hr hbad]
      at hskip
    simp at hskip
  · rw [processJob_panicked cfg faults read ns suffix k8sSecrets rev1 k8s job s v hr hs hpan]
      at hend
    simp at hend
  · have h1 := processJob_ok cfg faults read ns suffix k8sSecrets rev1 k8s job s v data
      hr hs hconv
    rw [h1] at herr hskip ⊢
    -- the first run
    have hrec := syncSecrets_reconciled cfg faults ns
      (cfg.vaultSecretsPath ++ "/" ++ ns ++ "/" ++ job.name) data _ _ herr hskip
    have hexi := syncSecrets_exists cfg faults ns
      (cfg.vaultSecretsPath ++ "/" ++ ns ++ "/" ++ job.name) data
      (rangeOrder rev1
        ((if job.name ++ "-v" ++ v ∈ k8sSecrets then [] else [job.name ++ "-v" ++ v])
          ++ (if job.versioning = 0 then [trimSuffix job.name suffix] else [])))
      (k8s, { created := 0, updated := 0, skipped := 0,
              synced := if job.name ++ "-v" ++ v ∈ k8sSecrets then 1 else 0, err := none })
      (ns, job.name ++ "-v" ++ v)
    generalize syncSecrets cfg faults ns
      (cfg.vaultSecretsPath ++ "/" ++ ns ++ "/" ++ job.name) data
      (rangeOrder rev1
        ((if job.name ++ "-v" ++ v ∈ k8sSecrets then [] else [job.name ++ "-v" ++ v])
          ++ (if job.versioning = 0 then [trimSuffix job.name suffix] else [])))
      (k8s, { created := 0, updated := 0, skipped := 0,
              synced := if job.name ++ "-v" ++ v ∈ k8sSecrets then 1 else 0, err := none })
      = X at *
    have hstrip : ∃ ex, GoMap.get X.1.secrets (ns, trimSuffix job.name suffix) = some ex
        ∧ GoMap.deepEqual ex.data data = true := by
      apply hrec
      unfold rangeOrder
      cases rev1 <;> simp [hflag]
    have hver : GoMap.get X.1.secrets (ns, job.name ++ "-v" ++ v) ≠ none := by
      by_cases hl : job.name ++ "-v" ++ v ∈ k8sSecrets
      · exact hexi (hlist _ hl)
      · obtain ⟨ex, hx, _⟩ := hrec (job.name ++ "-v" ++ v) (by
          unfold rangeOrder
          cases rev1 <;> simp [hl])
        rw [hx]
        simp
    have hverl : job.name ++ "-v" ++ v ∈ k8sSecretsList X.1 ns := by
      cases hx : GoMap.get X.1.secrets (ns, job.name ++ "-v" ++ v) with
      | none => exact absurd hx hver
      | some sec => exact mem_k8sSecretsList X.1 ns _ sec hx
    obtain ⟨ex, hx, hd⟩ := hstrip
    refine ⟨⟨ex, hx, ?_⟩, ?_⟩
    · intro s2 v2 data2 hr2 hc2
      rw [hr] at hr2
      cases hr2
      rw [hconv] at hc2
      cases hc2
      exact hd
    -- the second run
    · rw [processJob_ok cfg faults read ns suffix (k8sSecretsList X.1 ns) rev2 X.1 job s v data
        hr hs hconv]
      have hnames : rangeOrder rev2 [trimSuffix job.name suffix]
          = [trimSuffix job.name suffix] := by
        cases rev2 <;> simp [rangeOrder]
      simp only [hverl, if_true, hflag, List.nil_append, hnames, syncSecrets_single]
      rcases syncSecret_cases cfg faults ns
          (cfg.vaultSecretsPath ++ "/" ++ ns ++ "/" ++ job.name) data X.1
          { created := 0, updated := 0, skipped := 0, synced := 1, err := none }
          (trimSuffix job.name suffix) with
        ⟨msg, _, h⟩ | ⟨_, h1, _, _⟩ | ⟨msg, _, h1, _, _⟩ | ⟨ex1, _, _, _, h⟩
        | ⟨ex1, _, h1, h2, _⟩ | ⟨ex1, e1, _, h1, h2, _⟩
        | ⟨ex1, e1, msg, secrets1, _, h1, h2, _⟩
      · rw [h]
        exact ⟨rfl, rfl, rfl, rfl, _, rfl, by simp [ApiCall.isWrite]⟩
      · rw [hx] at h1; cases h1
      · rw [hx] at h1; cases h1
      · rw [h]
        exact ⟨rfl, rfl, rfl, rfl, _, rfl, by simp [ApiCall.isWrite]⟩
      · rw [hx] at h1; cases h1
        rw [hd] at h2; cases h2
      · rw [hx] at h1; cases h1
        rw [hd] at h2; cases h2
      · rw [hx] at h1; cases h1
        rw [hd] at h2; cases h2

/-- C10 amended, at the flag-0 job `secret2.k8s-cluster` of the test on an empty cluster:
the first run creates both Secrets, the second creates and updates nothing. -/
theorem updateSecretsInK8s_idempotent_witness :
    (processJob testConfig testK8sServerFaults testVaultRead "k8s-ns1" ".k8s-cluster" [] false
      (testCluster []) { name := "secret2.k8s-cluster", versioning := 0 }).2
      = { created := 2, updated := 0, skipped := 0, synced := 2, err := none }
    ∧ (processJob testConfig testK8sServerFaults testVaultRead "k8s-ns1" ".k8s-cluster"
        (k8sSecretsList (processJob testConfig testK8sServerFaults testVaultRead "k8s-ns1"
          ".k8s-cluster" [] false (testCluster [])
          { name := "secret2.k8s-cluster", versioning := 0 }).1 "k8s-ns1")
        true (processJob testConfig testK8sServerFaults testVaultRead "k8s-ns1"
          ".k8s-cluster" [] false (testCluster [])
          { name := "secret2.k8s-cluster", versioning := 0 }).1
        { name := "secret2.k8s-cluster", versioning := 0 }).2.created = 0
    ∧ (processJob testConfig testK8sServerFaults testVaultRead "k8s-ns1" ".k8s-cluster"
        (k8sSecretsList (processJob testConfig testK8sServerFaults testVaultRead "k8s-ns1"
          ".k8s-cluster" [] false (testCluster [])
          { name := "secret2.k8s-cluster", versioning := 0 }).1 "k8s-ns1")
        true (processJob testConfig testK8sServerFaults testVaultRead "k8s-ns1"
          ".k8s-cluster" [] false (testCluster [])
          { name := "secret2.k8s-cluster", versioning := 0 }).1
        { name := "secret2.k8s-cluster", versioning := 0 }).2.updated = 0 :=
  have h := updateSecretsInK8s_idempotent testConfig testK8sServerFaults testVaultRead
    "k8s-ns1" ".k8s-cluster" [] false true (testCluster [])
    { name := "secret2.k8s-cluster", versioning := 0 } (by decide)
    (by intro n hn; cases hn) (by decide) (by decide) (by decide)
  ⟨by decide, h.2.1, h.2.2.1⟩

/-! ## Claim C11: entries without data or with a value that is not a string -/

/-- C11, on the code.  A job whose Vault entry has no data, or whose conversion loop meets,
after strings only, a value of a kind other than `reflect.String` (a list, a Boolean, a
nested map), ends with the send of the result `skipped = 1`,
`created = updated = synced = 0` and no error, and leaves the cluster as it was: the stored
Secrets (so a Secret `name-v<n>` that was there too) and the request log, to which no Get,
Create or Update is added; the worker goes on with its next job.  A job whose conversion
loop meets, after strings only, a JSON number does not: a `json.Number` passes the kind
test of line 585 and the type assertion `v.(string)` of line 591 panics, so that the worker
sends no result, `skipped` is not incremented, and the program ends. -/
theorem updateSecretsInK8s_incorrect_data (cfg : Config) (faults : Faults) (read : VaultRead)
    (ns suffix : String) (k8sSecrets : List String) (rev : Bool) (k8s : K8s)
    (job : secretForUpdate) (s : GoMap String VaultValue) (v : String)
    (hread : read (cfg.vaultSecretsPath ++ "/" ++ ns ++ "/" ++ job.name) = Except.ok (s, v)) :
    ((s.length = 0
        ∨ ∃ pre k post, s = pre ++ (k, VaultValue.other) :: post
            ∧ ∀ p ∈ pre, ∃ x, p.2 = VaultValue.str x) →
      processJob cfg faults read ns suffix k8sSecrets rev k8s job
        = { k8s := k8s,
            updateResults := { created := 0, updated := 0, skipped := 1, synced := 0,
                               err := none },
            ended := Exit.continued })
    ∧ ((∃ pre k n post, s = pre ++ (k, VaultValue.number n) :: post
          ∧ ∀ p ∈ pre, ∃ x, p.2 = VaultValue.str x) →
      processJob cfg faults read ns suffix k8sSecrets rev k8s job
        = { k8s := k8s,
            updateResults := { created := 0, updated := 0, skipped := 0, synced := 0,
                               err := none },
            ended := Exit.panicked }) := by
  constructor
  · intro hbad
    apply processJob_skipped cfg faults read ns suffix k8sSecrets rev k8s job s v hread
    rcases hbad with h | ⟨pre, k, post, hs, hpre⟩
    · exact Or.inl (List.length_eq_zero.1 h)
    · right
      rw [hs]
      exact convertData_incorrect pre post k hpre
  · rintro ⟨pre, k, n, post, hs, hpre⟩
    apply processJob_panicked cfg faults read ns suffix k8sSecrets rev k8s job s v hread
    · rw [hs]
      simp
    · rw [hs]
      exact convertData_panicked pre post k n hpre

/-- C11, at the test and at the failing input.  The entry `secret-incorrect-data` of the
test holds a list under its key: on a cluster that already has `secret-incorrect-data-v1`
the job is skipped and the cluster is the same afterwards.  An entry that holds a JSON
number under its key is not skipped: the worker panics. -/
theorem updateSecretsInK8s_incorrect_data_witness :
    (testVaultEntryIncorrectData "secret-incorrect-data"
        (testConfig.vaultSecretsPath ++ "/" ++ "k8s-ns1" ++ "/" ++ "secret-incorrect-data")
      = Except.ok ([("testKey-secret-incorrect-data", VaultValue.other)], "1")
      ∧ processJob testConfig testK8sServerFaults
          (testVaultEntryIncorrectData "secret-incorrect-data")
          "k8s-ns1" ".k8s-cluster" [] false
          (testCluster [testK8sSecret "secret-incorrect-data-v1" "vault-to-k8s/secret"
            "testMount/k8s/dev/k8s-ns1/secret-incorrect-data"])
          { name := "secret-incorrect-data", versioning := 1 }
        = { k8s := testCluster [testK8sSecret "secret-incorrect-data-v1"
              "vault-to-k8s/secret" "testMount/k8s/dev/k8s-ns1/secret-incorrect-data"],
            updateResults := { created := 0, updated := 0, skipped := 1, synced := 0,
                               err := none },
            ended := Exit.continued })
    ∧ (testVaultEntryNumber "secret7"
        (testConfig.vaultSecretsPath ++ "/" ++ "k8s-ns1" ++ "/" ++ "secret7")
      = Except.ok ([("testKey-secret7", VaultValue.number "1")], "1")
      ∧ processJob testConfig testK8sServerFaults (testVaultEntryNumber "secret7")
          "k8s-ns1" ".k8s-cluster" [] false (testCluster [])
          { name := "secret7", versioning := 1 }
        = { k8s := testCluster [],
            updateResults := { created := 0, updated := 0, skipped := 0, synced := 0,
                               err := none },
            ended := Exit.panicked }) :=
  ⟨⟨by rfl,
    (updateSecretsInK8s_incorrect_data testConfig testK8sServerFaults
      (testVaultEntryIncorrectData "secret-incorrect-data") "k8s-ns1" ".k8s-cluster" [] false
      (testCluster [testK8sSecret "secret-incorrect-data-v1" "vault-to-k8s/secret"
        "testMount/k8s/dev/k8s-ns1/secret-incorrect-data"])
      { name := "secret-incorrect-data", versioning := 1 }
      [("testKey-secret-incorrect-data", VaultValue.other)] "1" (by rfl)).1
      (Or.inr ⟨[], "testKey-secret-incorrect-data", [], rfl, by simp⟩)⟩,
   ⟨by rfl,
    (updateSecretsInK8s_incorrect_data testConfig testK8sServerFaults
      (testVaultEntryNumber "secret7") "k8s-ns1" ".k8s-cluster" [] false (testCluster [])
      { name := "secret7", versioning := 1 }
      [("testKey-secret7", VaultValue.number "1")] "1" (by rfl)).2
      ⟨[], "testKey-secret7", "1", [], rfl, by simp⟩⟩⟩

/-! ## Claim C12: a Create that the cluster rejects -/

/-- C12 as stated fails: an API server refuses every Create and every Update (a service
account that may only read, say).  The cluster holds the Secret `secret2` of the entry
`secret2.k8s-cluster` with older data, and the flag-0 job of that entry ranges over
`secret2.k8s-cluster-v1` first: the Create of `secret2.k8s-cluster-v1` is rejected and
counted in `skipped`, the loop continues with `secret2`, whose Update is refused, and the
result of the job carries the error of that Update. -/
theorem create_rejected_update_refused :
    (processJob testConfig (fun _ call => if call.isWrite then some "forbidden" else none)
        testVaultRead "k8s-ns1" ".k8s-cluster" ["secret2"] false
        (testCluster [testK8sSecret "secret2" "vault-to-k8s/secret"
          "testMount/k8s/dev/k8s-ns1/secret2.k8s-cluster"])
        { name := "secret2.k8s-cluster", versioning := 0 }).2
      = { created := 0, updated := 0, skipped := 1, synced := 0,
          err := some "Error during update k8s secret: forbidden" }
    ∧ ((processJob testConfig (fun _ call => if call.isWrite then some "forbidden" else none)
        testVaultRead "k8s-ns1" ".k8s-cluster" ["secret2"] false
        (testCluster [testK8sSecret "secret2" "vault-to-k8s/secret"
          "testMount/k8s/dev/k8s-ns1/secret2.k8s-cluster"])
        { name := "secret2.k8s-cluster", versioning := 0 }).1.log.map
          (fun e => (e.call.target, e.call.isWrite, e.err.isSome)))
      = [(("k8s-ns1", "secret2.k8s-cluster-v1"), false, true),
         (("k8s-ns1", "secret2.k8s-cluster-v1"), true, true),
         (("k8s-ns1", "secret2"), false, false),
         (("k8s-ns1", "secret2"), true, true),
         (("k8s-ns1", "secret2"), true, true)] := by
  decide

/-- C12, amended: in the run of a job, every candidate whose Create the cluster rejects is
counted in `skipped` (one for each rejected Create), the Secret of that name does not exist
in the cluster when the job is done, and the rejection gives no error: the result carries
no error unless an Update for the other candidate name failed, and so no error at all for
a job with the one candidate `name-v<v>` (flag 1, as in the test).  In the loop, the
iteration of such a candidate adds 1 to `skipped`, changes nothing else in the result and
in the stored Secrets, and the loop continues with the remaining candidates. -/
theorem updateSecretsInK8s_create_rejected (cfg : Config) (faults : Faults) (read : VaultRead)
    (ns suffix : String) (k8sSecrets : List String) (rev : Bool) (k8s : K8s)
    (job : secretForUpdate) :
    ∃ evs, (processJob cfg faults read ns suffix k8sSecrets rev k8s job).1.log = k8s.log ++ evs
      ∧ (evs.filter ApiEvent.isRejectedCreate).length
          ≤ (processJob cfg faults read ns suffix k8sSecrets rev k8s job).2.skipped
      ∧ (∀ secret e, (⟨ApiCall.create ns secret, some e⟩ : ApiEvent) ∈ evs →
          GoMap.get (processJob cfg faults read ns suffix k8sSecrets rev k8s job).1.secrets
            (ns, secret.name) = none
          ∧ ((processJob cfg faults read ns suffix k8sSecrets rev k8s job).2.err = none
            ∨ ∃ sec2 e2, (⟨ApiCall.update ns sec2, some e2⟩ : ApiEvent) ∈ evs
                ∧ sec2.name ≠ secret.name))
      ∧ (job.versioning ≠ 0 →
          ∀ secret e, (⟨ApiCall.create ns secret, some e⟩ : ApiEvent) ∈ evs →
            (processJob cfg faults read ns suffix k8sSecrets rev k8s job).2.err = none)
      ∧ (∀ (path : String) (data : GoMap String Bytes) (k : K8s) (res : updateSecretResults)
          (c msg : String) (rest : List String),
          GoMap.get k.secrets (ns, c) = none →
          faults k.log.length (ApiCall.get ns c) = none →
          faults (k.log.length + 1) (ApiCall.create ns (secretFor cfg path data c))
            = some msg →
          syncSecrets cfg faults ns path data (c :: rest) (k, res)
            = syncSecrets cfg faults ns path data rest
                ({ secrets := k.secrets,
                   log := k.log ++ [{ call := ApiCall.get ns c,
                                      err := some (K8s.notFoundError c) },
                                    { call := ApiCall.create ns (secretFor cfg path data c),
                                      err := some { notFound := false, msg := msg } }] },
                 { res with skipped := res.skipped + 1 })) := by
  have hiter : ∀ (path : String) (data : GoMap String Bytes) (k : K8s)
      (res : updateSecretResults) (c msg : String) (rest : List String),
      GoMap.get k.secrets (ns, c) = none →
      faults k.log.length (ApiCall.get ns c) = none →
      faults (k.log.length + 1) (ApiCall.create ns (secretFor cfg path data c)) = some msg →
      syncSecrets cfg faults ns path data (c :: rest) (k, res)
        = syncSecrets cfg faults ns path data rest
            ({ secrets := k.secrets,
               log := k.log ++ [{ call := ApiCall.get ns c,
                                  err := some (K8s.notFoundError c) },
                                { call := ApiCall.create ns (secretFor cfg path data c),
                                  err := some { notFound := false, msg := msg } }] },
             { res with skipped := res.skipped + 1 }) := by
    intro path data k res c msg rest habs hg hc
    rw [syncSecrets_cons]
    rcases syncSecret_cases cfg faults ns path data k res c with
      ⟨m, hg1, _⟩ | ⟨_, _, hc1, _⟩ | ⟨m, _, _, hc1, h⟩ | ⟨ex, _, hs1, _, _⟩
      | ⟨ex, _, hs1, _, _, _⟩ | ⟨ex, e1, _, hs1, _, _, _, _⟩
      | ⟨ex, e1, m, secrets1, _, hs1, _, _, _, _, _⟩
    · rw [hg] at hg1
      cases hg1
    · rw [hc] at hc1
      cases hc1
    · rw [hc] at hc1
      have hm : msg = m := by simpa using hc1
      subst hm
      rw [h]
      simp
    · rw [habs] at hs1
      cases hs1
    · rw [habs] at hs1
      cases hs1
    · rw [habs] at hs1
      cases hs1
    · rw [habs] at hs1
      cases hs1
  rcases processJob_cases cfg read ns job with
    ⟨e, hr⟩ | ⟨s, v, hr, hbad⟩ | ⟨s, v, hr, hs, hpan⟩ | ⟨s, v, data, hr, hs, hconv⟩
  · rw [processJob_readError cfg faults read ns suffix k8sSecrets rev k8s job e hr]
    exact ⟨[], by simp, by simp, by simp, by simp, hiter⟩
  · rw [processJob_skipped cfg faults read ns suffix k8sSecrets rev k8s job s v hr hbad]
    exact ⟨[], by simp, by simp, by simp, by simp, hiter⟩
  · rw [processJob_panicked cfg faults read ns suffix k8sSecrets rev k8s job s v hr hs hpan]
    exact ⟨[], by simp, by simp, by simp, by simp, hiter⟩
  · rw [processJob_ok cfg faults read ns suffix k8sSecrets rev k8s job s v data hr hs hconv]
    obtain ⟨evs, hlog, htar, hcnt, herr, hrej⟩ :=
      syncSecrets_rejected cfg faults ns
        (cfg.vaultSecretsPath ++ "/" ++ ns ++ "/" ++ job.name) data _
        (nodup_names_candidate job v suffix k8sSecrets rev)
        (k8s, { created := 0, updated := 0, skipped := 0,
                synced := if job.name ++ "-v" ++ v ∈ k8sSecrets then 1 else 0,
                err := none })
    refine ⟨evs, hlog, by simpa using hcnt, ?_, ?_, hiter⟩
    · intro secret e he
      obtain ⟨habs, hupd⟩ := hrej secret e he
      refine ⟨habs, ?_⟩
      rcases herr with h | ⟨sec2, e2, h2⟩
      · exact Or.inl h
      · refine Or.inr ⟨sec2, e2, h2, ?_⟩
        intro heq
        exact hupd _ h2 rfl (by simp [ApiCall.target, heq])
    · intro hflag secret e he
      obtain ⟨_, hupd⟩ := hrej secret e he
      rcases herr with h | ⟨sec2, e2, h2⟩
      · exact h
      · exfalso
        have hone : ∀ n ∈ rangeOrder rev
            ((if job.name ++ "-v" ++ v ∈ k8sSecrets then [] else [job.name ++ "-v" ++ v])
              ++ (if job.versioning = 0 then [trimSuffix job.name suffix] else [])),
            n = job.name ++ "-v" ++ v := by
          intro n hn
          rw [if_neg hflag, List.append_nil] at hn
          cases rev <;> by_cases hl : job.name ++ "-v" ++ v ∈ k8sSecrets
            <;> simp [rangeOrder, hl] at hn <;> exact hn
        obtain ⟨n1, hn1, ht1⟩ := htar _ he
        obtain ⟨n2, hn2, ht2⟩ := htar _ h2
        apply hupd _ h2 rfl
        rw [ht2, hone n2 hn2]
        rw [hone n1 hn1] at ht1
        exact ht1.symm

/-- C12, at the test: the name `secret-Bad1-v1` is not a DNS-1123 subdomain, the test
server refuses its Create, the job reports `skipped = 1` and no error, and the Secret is
not in the cluster afterwards. -/
theorem updateSecretsInK8s_create_rejected_witness :
    (processJob testConfig testK8sServerFaults (testVaultEntry "secret-Bad1" "1") "k8s-ns1"
        ".k8s-cluster" [] false (testCluster []) { name := "secret-Bad1", versioning := 1 }).2
      = { created := 0, updated := 0, skipped := 1, synced := 0, err := none }
    ∧ GoMap.get (processJob testConfig testK8sServerFaults (testVaultEntry "secret-Bad1" "1")
        "k8s-ns1" ".k8s-cluster" [] false (testCluster [])
        { name := "secret-Bad1", versioning := 1 }).1.secrets ("k8s-ns1", "secret-Bad1-v1")
      = none
    ∧ (processJob testConfig testK8sServerFaults (testVaultEntry "secret_bad2" "1") "k8s-ns1"
        ".k8s-cluster" [] false (testCluster []) { name := "secret_bad2", versioning := 1 }).2
      = { created := 0, updated := 0, skipped := 1, synced := 0, err := none }
    ∧ ∃ evs, (processJob testConfig testK8sServerFaults (testVaultEntry "secret-Bad1" "1")
        "k8s-ns1" ".k8s-cluster" [] false (testCluster [])
        { name := "secret-Bad1", versioning := 1 }).1.log = (testCluster []).log ++ evs
      ∧ (evs.filter ApiEvent.isRejectedCreate).length
          ≤ (processJob testConfig testK8sServerFaults (testVaultEntry "secret-Bad1" "1")
              "k8s-ns1" ".k8s-cluster" [] false (testCluster [])
              { name := "secret-Bad1", versioning := 1 }).2.skipped :=
  ⟨by decide, by decide, by decide,
    (updateSecretsInK8s_create_rejected testConfig testK8sServerFaults
      (testVaultEntry "secret-Bad1" "1") "k8s-ns1" ".k8s-cluster" [] false (testCluster [])
      { name := "secret-Bad1", versioning := 1 }).imp (fun _ h => ⟨h.1, h.2.1⟩)⟩

/-! ## Claim C13: the bootstrap Secret of another owner -/

/-- C13: when the Secret `<appName>-system` exists in the namespace of the pod and has no
`createdBy` annotation, or one that differs from `appName`, `updateAppSystemSecret` (called
with a string SecretID, as its type assertion requires) returns an error, makes no request
but its Get, so no Create and no Update, and leaves the stored Secrets, the existing one
among them, as they were.  When the Get is answered, the error contains
`Can't update application k8s secret` for a missing annotation and
`but it wasn't created by this application` for a different one. -/
theorem updateAppSystemSecret_ownership (cfg : Config) (faults : Faults) (st : AuthState)
    (s : String) (ex : Secret)
    (hid : st.d.approleSecretID = some (VaultValue.str s))
    (hex : GoMap.get st.k8s.secrets (cfg.podNamespace, cfg.appName ++ "-system") = some ex)
    (hann : GoMap.get ex.annotations "createdBy" ≠ some cfg.appName) :
    ∃ st1 msg, updateAppSystemSecret cfg faults st = some (st1, some msg)
      ∧ st1.k8s.secrets = st.k8s.secrets
      ∧ GoMap.get st1.k8s.secrets (cfg.podNamespace, cfg.appName ++ "-system") = some ex
      ∧ (∃ e, st1.k8s.log = st.k8s.log
          ++ [⟨ApiCall.get cfg.podNamespace (cfg.appName ++ "-system"), e⟩])
      ∧ (∀ e ∈ st1.k8s.log, e ∉ st.k8s.log → e.call.isWrite = false)
      ∧ (faults st.k8s.log.length
            (ApiCall.get cfg.podNamespace (cfg.appName ++ "-system")) = none →
          (GoMap.get ex.annotations "createdBy" = none →
            contains msg "Can't update application k8s secret" = true)
          ∧ (GoMap.get ex.annotations "createdBy" ≠ none →
            contains msg "but it wasn't created by this application" = true)) := by
  obtain ⟨msg, hres, hmsg⟩ := updateAppSystemSecret_foreign cfg faults st s ex hid hex hann
  obtain ⟨hsec, e, hlog⟩ := get_state faults st.k8s cfg.podNamespace (cfg.appName ++ "-system")
  refine ⟨_, msg, hres, hsec, by rw [hsec]; exact hex, ⟨e, hlog⟩, ?_, ?_⟩
  · intro ev hev hnot
    simp only at hev
    rw [hlog] at hev
    rcases List.mem_append.1 hev with h | h
    · exact absurd h hnot
    · have : ev = ⟨ApiCall.get cfg.podNamespace (cfg.appName ++ "-system"), e⟩ := by
        simpa using h
      rw [this]
      rfl
  · intro hf
    obtain ⟨h1, h2⟩ := hmsg hf
    constructor
    · intro ha
      rw [h1 ha]
      repeat apply contains_append_left
      decide
    · intro ha
      rw [h2 ha]
      apply contains_append
      decide

/-- C13, at the two tests: the bootstrap Secret without annotation and the one with
`createdBy = incorrect-annotation`. -/
theorem updateAppSystemSecret_ownership_witness :
    (∃ st1 msg, updateAppSystemSecret testConfig testK8sServerFaults
        { testAuthState (testPodCluster [testSystemSecret "NoAnnotation"]) with
          d := { vaultTokenAccessor := "new_fake_token-accessor",
                 approleSecretID := some (VaultValue.str "new_fake_approle_secret-id"),
                 nonVersioningNamespacesList := [] } } = some (st1, some msg)
      ∧ st1.k8s.secrets = (testPodCluster [testSystemSecret "NoAnnotation"]).secrets)
    ∧ (updateAppSystemSecret testConfig testK8sServerFaults
        { testAuthState (testPodCluster [testSystemSecret "NoAnnotation"]) with
          d := { vaultTokenAccessor := "new_fake_token-accessor",
                 approleSecretID := some (VaultValue.str "new_fake_approle_secret-id"),
                 nonVersioningNamespacesList := [] } }).map (fun r => r.2)
      = some (some ("Can't update application k8s secret 'vault-to-k8s-system' in 'k8s-ns' "
          ++ "namespace as it not created by 'vault-to-k8s' application"))
    ∧ (updateAppSystemSecret testConfig testK8sServerFaults
        { testAuthState (testPodCluster [testSystemSecret "IncorrectAnnotation"]) with
          d := { vaultTokenAccessor := "new_fake_token-accessor",
                 approleSecretID := some (VaultValue.str "new_fake_approle_secret-id"),
                 nonVersioningNamespacesList := [] } }).map (fun r => r.2)
      = some (some ("Secret 'vault-to-k8s-system' already exists in 'k8s-ns' namespace but "
          ++ "it wasn't created by this application")) :=
  ⟨(updateAppSystemSecret_ownership testConfig testK8sServerFaults
      { testAuthState (testPodCluster [testSystemSecret "NoAnnotation"]) with
        d := { vaultTokenAccessor := "new_fake_token-accessor",
               approleSecretID := some (VaultValue.str "new_fake_approle_secret-id"),
               nonVersioningNamespacesList := [] } }
      "new_fake_approle_secret-id" (testSystemSecret "NoAnnotation") rfl (by decide)
      (by decide)).imp (fun _ h => h.imp (fun _ h2 => ⟨h2.1, h2.2.1⟩)),
    by decide, by decide⟩

/-! ## Claim C14: the round trip of the bootstrap Secret -/

/-- C14, as stated, fails when the cluster refuses the request: with the application name
`Vault_To_K8s` the Secret `Vault_To_K8s-system` is absent, its name is not a DNS-1123
subdomain, the API server of the tests refuses the Create, and `updateAppSystemSecret`
returns an error and leaves the Secret absent. -/
theorem updateAppSystemSecret_create_refused :
    GoMap.get (testPodCluster []).secrets ("k8s-ns", "Vault_To_K8s-system") = none
    ∧ (updateAppSystemSecret { testConfig with appName := "Vault_To_K8s" }
        testK8sServerFaults
        { testAuthState (testPodCluster []) with
          d := { vaultTokenAccessor := "new_fake_token-accessor",
                 approleSecretID := some (VaultValue.str "new_fake_approle_secret-id"),
                 nonVersioningNamespacesList := [] } }).map
          (fun r => r.2.map (fun msg =>
            contains msg "Error during create application k8s secret"))
      = some (some true)
    ∧ (updateAppSystemSecret { testConfig with appName := "Vault_To_K8s" }
        testK8sServerFaults
        { testAuthState (testPodCluster []) with
          d := { vaultTokenAccessor := "new_fake_token-accessor",
                 approleSecretID := some (VaultValue.str "new_fake_approle_secret-id"),
                 nonVersioningNamespacesList := [] } }).map
          (fun r => GoMap.get r.1.k8s.secrets ("k8s-ns", "Vault_To_K8s-system"))
      = some none := by
  decide

/-- C14, amended: for every token accessor and every string SecretID `s`, when the Secret
`<appName>-system` is absent or bears `createdBy = appName`, and the cluster refuses
neither the Get nor the request that follows it (the Create when the Secret is absent, the
Update when it is there), `updateAppSystemSecret` returns no error and afterwards the
Secret has exactly the data `token-accessor ↦ bytes(accessor)`,
`approle_secret-id ↦ bytes(s)` and the annotation `createdBy = appName`; a following
`approleReadAppSecret` whose Get is answered returns no error and sets `approleSecretID`
to `s`. -/
theorem updateAppSystemSecret_roundtrip (cfg : Config) (faults : Faults) (st : AuthState)
    (s : String)
    (hid : st.d.approleSecretID = some (VaultValue.str s))
    (hget : faults st.k8s.log.length
      (ApiCall.get cfg.podNamespace (cfg.appName ++ "-system")) = none)
    (hown : (GoMap.get st.k8s.secrets (cfg.podNamespace, cfg.appName ++ "-system") = none
        ∧ faults (st.k8s.log.length + 1) (ApiCall.create cfg.podNamespace
            { name := cfg.appName ++ "-system",
              data := [("token-accessor", toBytes st.d.vaultTokenAccessor),
                       ("approle_secret-id", toBytes s)],
              annotations := [("createdBy", cfg.appName)] }) = none)
      ∨ ∃ ex, GoMap.get st.k8s.secrets (cfg.podNamespace, cfg.appName ++ "-system") = some ex
          ∧ GoMap.get ex.annotations "createdBy" = some cfg.appName
          ∧ faults (st.k8s.log.length + 1) (ApiCall.update cfg.podNamespace
              { name := cfg.appName ++ "-system",
                data := [("token-accessor", toBytes st.d.vaultTokenAccessor),
                         ("approle_secret-id", toBytes s)],
                annotations := [("createdBy", cfg.appName)] }) = none) :
    ∃ st1, updateAppSystemSecret cfg faults st = some (st1, none)
      ∧ GoMap.get st1.k8s.secrets (cfg.podNamespace, cfg.appName ++ "-system")
        = some { name := cfg.appName ++ "-system",
                 data := [("token-accessor", toBytes st.d.vaultTokenAccessor),
                          ("approle_secret-id", toBytes s)],
                 annotations := [("createdBy", cfg.appName)] }
      ∧ ∀ faults2 : Faults,
          faults2 st1.k8s.log.length
            (ApiCall.get cfg.podNamespace (cfg.appName ++ "-system")) = none →
          (approleReadAppSecret cfg faults2 st1).2 = none
          ∧ (approleReadAppSecret cfg faults2 st1).1.d.approleSecretID
            = some (VaultValue.str s) := by
  have hdata : GoMap.set (GoMap.set ([] : GoMap String Bytes) "token-accessor"
      (toBytes st.d.vaultTokenAccessor)) "approle_secret-id" (toBytes s)
      = [("token-accessor", toBytes st.d.vaultTokenAccessor),
         ("approle_secret-id", toBytes s)] := by
    simp [GoMap.set]
  have hread : ∀ (st1 : AuthState),
      GoMap.get st1.k8s.secrets (cfg.podNamespace, cfg.appName ++ "-system")
        = some { name := cfg.appName ++ "-system",
                 data := [("token-accessor", toBytes st.d.vaultTokenAccessor),
                          ("approle_secret-id", toBytes s)],
                 annotations := [("createdBy", cfg.appName)] } →
      ∀ faults2 : Faults,
        faults2 st1.k8s.log.length
          (ApiCall.get cfg.podNamespace (cfg.appName ++ "-system")) = none →
        (approleReadAppSecret cfg faults2 st1).2 = none
        ∧ (approleReadAppSecret cfg faults2 st1).1.d.approleSecretID
          = some (VaultValue.str s) := by
    intro st1 hs1 faults2 hf2
    have hg := get_found faults2 st1.k8s cfg.podNamespace (cfg.appName ++ "-system") _ hf2 hs1
    simp [approleReadAppSecret, hg, GoMap.get, ofBytes_toBytes]
  rcases hown with ⟨habs, hcreate⟩ | ⟨ex, hex, hann, hupdate⟩
  · have hg := get_notFound faults st.k8s cfg.podNamespace (cfg.appName ++ "-system") hget habs
    have hc := create_ok faults
      { secrets := st.k8s.secrets,
        log := st.k8s.log ++ [{ call := ApiCall.get cfg.podNamespace (cfg.appName ++ "-system"),
                                err := some (K8s.notFoundError (cfg.appName ++ "-system")) }] }
      cfg.podNamespace
      { name := cfg.appName ++ "-system",
        data := [("token-accessor", toBytes st.d.vaultTokenAccessor),
                 ("approle_secret-id", toBytes s)],
        annotations := [("createdBy", cfg.appName)] }
      (by simpa using hcreate) habs
    have hres : updateAppSystemSecret cfg faults st
        = some ({ st with k8s :=
            { secrets := GoMap.set st.k8s.secrets (cfg.podNamespace, cfg.appName ++ "-system")
                { name := cfg.appName ++ "-system",
                  data := [("token-accessor", toBytes st.d.vaultTokenAccessor),
                           ("approle_secret-id", toBytes s)],
                  annotations := [("createdBy", cfg.appName)] },
              log := st.k8s.log
                ++ [{ call := ApiCall.get cfg.podNamespace (cfg.appName ++ "-system"),
                      err := some (K8s.notFoundError (cfg.appName ++ "-system")) }]
                ++ [{ call := ApiCall.create cfg.podNamespace
                        { name := cfg.appName ++ "-system",
                          data := [("token-accessor", toBytes st.d.vaultTokenAccessor),
                                   ("approle_secret-id", toBytes s)],
                          annotations := [("createdBy", cfg.appName)] },
                      err := none }] } }, none) := by
      simp only [updateAppSystemSecret, hid, hdata, hg, notFoundError_notFound, if_true]
      simp only [GoMap.set, hc]
    refine ⟨_, hres, ?_, ?_⟩
    · exact GoMap.get_set_self _ _ _
    · exact hread _ (GoMap.get_set_self _ _ _)
  · have hg := get_found faults st.k8s cfg.podNamespace (cfg.appName ++ "-system") ex hget hex
    have hu := update_ok faults
      { secrets := st.k8s.secrets,
        log := st.k8s.log ++ [{ call := ApiCall.get cfg.podNamespace (cfg.appName ++ "-system"),
                                err := none }] }
      cfg.podNamespace
      { name := cfg.appName ++ "-system",
        data := [("token-accessor", toBytes st.d.vaultTokenAccessor),
                 ("approle_secret-id", toBytes s)],
        annotations := [("createdBy", cfg.appName)] } ex
      (by simpa using hupdate) hex
    have hres : updateAppSystemSecret cfg faults st
        = some ({ st with k8s :=
            { secrets := GoMap.set st.k8s.secrets (cfg.podNamespace, cfg.appName ++ "-system")
                { name := cfg.appName ++ "-system",
                  data := [("token-accessor", toBytes st.d.vaultTokenAccessor),
                           ("approle_secret-id", toBytes s)],
                  annotations := [("createdBy", cfg.appName)] },
              log := st.k8s.log
                ++ [{ call := ApiCall.get cfg.podNamespace (cfg.appName ++ "-system"),
                      err := none }]
                ++ [{ call := ApiCall.update cfg.podNamespace
                        { name := cfg.appName ++ "-system",
                          data := [("token-accessor", toBytes st.d.vaultTokenAccessor),
                                   ("approle_secret-id", toBytes s)],
                          annotations := [("createdBy", cfg.appName)] },
                      err := none }] } }, none) := by
      simp only [updateAppSystemSecret, hid, hdata, hg, hann]
      simp only [GoMap.set, hu]
      simp
    refine ⟨_, hres, ?_, ?_⟩
    · exact GoMap.get_set_self _ _ _
    · exact hread _ (GoMap.get_set_self _ _ _)

/-- C14, at the tests `TestUpdateAppSystemSecretCreate` and `TestApproleReadAppSecret`:
on the empty cluster the Secret is created with the new accessor and SecretID, and reading
it back gives the SecretID. -/
theorem updateAppSystemSecret_roundtrip_witness :
    ∃ st1, updateAppSystemSecret testConfig testK8sServerFaults
        { testAuthState (testPodCluster []) with
          d := { vaultTokenAccessor := "new_fake_token-accessor",
                 approleSecretID := some (VaultValue.str "new_fake_approle_secret-id"),
                 nonVersioningNamespacesList := [] } } = some (st1, none)
      ∧ GoMap.get st1.k8s.secrets ("k8s-ns", "vault-to-k8s-system")
        = some { name := "vault-to-k8s-system",
                 data := [("token-accessor", toBytes "new_fake_token-accessor"),
                          ("approle_secret-id", toBytes "new_fake_approle_secret-id")],
                 annotations := [("createdBy", "vault-to-k8s")] }
      ∧ (approleReadAppSecret testConfig testK8sServerFaults st1).1.d.approleSecretID
        = some (VaultValue.str "new_fake_approle_secret-id") :=
  (updateAppSystemSecret_roundtrip testConfig testK8sServerFaults
    { testAuthState (testPodCluster []) with
      d := { vaultTokenAccessor := "new_fake_token-accessor",
             approleSecretID := some (VaultValue.str "new_fake_approle_secret-id"),
             nonVersioningNamespacesList := [] } }
    "new_fake_approle_secret-id" rfl (by decide) (Or.inl ⟨by decide, by decide⟩)).imp
    (fun _ h => ⟨h.1, h.2.1, (h.2.2 testK8sServerFaults rfl).2⟩)

/-! ## Claim C15: authentication against a bootstrap Secret without annotation -/

/-- C15: when the Secret `<appName>-system` exists without a `createdBy` annotation,
the wrapped token unwraps to a string SecretID and the login with it succeeds,
`approleAuthenticate` returns the ownership error `Can't update application k8s secret ...`
(the Get of `updateAppSystemSecret`, the third request to the cluster, being answered), and
the stored Secrets, the pre-existing one and its data among them, are unchanged: the run
sends no Create and no Update, so the new accessor and SecretID are not persisted. -/
theorem approleAuthenticate_unowned (cfg : Config) (faults : Faults)
    (server : VaultServer) (now1 now2 : Int) (st : AuthState) (s : String)
    (secretID values : VaultSecret) (auth : SecretAuth) (ex : Secret)
    (hfresh : st.d.approleSecretID = none)
    (hunwrap : server st.vault (VaultCall.unwrap cfg.approleSecretIDWrappedToken)
      = Except.ok (some secretID))
    (hsid : GoMap.get secretID.data "secret_id" = some (VaultValue.str s))
    (hlogin : server (st.vault ++ [VaultCall.unwrap cfg.approleSecretIDWrappedToken])
        (VaultCall.write ("auth/" ++ cfg.authMethod ++ "/login")
          [("role_id", some (VaultValue.str cfg.approleRoleID)),
           ("secret_id", some (VaultValue.str s))])
      = Except.ok (some values))
    (hauth : values.auth = some auth)
    (hex : GoMap.get st.k8s.secrets (cfg.podNamespace, cfg.appName ++ "-system") = some ex)
    (hann : GoMap.get ex.annotations "createdBy" = none)
    (hget : faults (st.k8s.log.length + 2)
      (ApiCall.get cfg.podNamespace (cfg.appName ++ "-system")) = none) :
    ∃ st1, approleAuthenticate cfg faults server now1 now2 st
        = some (st1, some ("Can't update application k8s secret '" ++ (cfg.appName ++ "-system")
            ++ "' in '" ++ cfg.podNamespace ++ "' namespace as it not created by '"
            ++ cfg.appName ++ "' application"))
      ∧ contains ("Can't update application k8s secret '" ++ (cfg.appName ++ "-system")
            ++ "' in '" ++ cfg.podNamespace ++ "' namespace as it not created by '"
            ++ cfg.appName ++ "' application") "Can't update application k8s secret" = true
      ∧ st1.k8s.secrets = st.k8s.secrets
      ∧ GoMap.get st1.k8s.secrets (cfg.podNamespace, cfg.appName ++ "-system") = some ex
      ∧ ∃ evs, st1.k8s.log = st.k8s.log ++ evs ∧ ∀ e ∈ evs, e.call.isWrite = false := by
  obtain ⟨st0, h0, hk0, hid0, _⟩ := approleGetToken_unwrap_login cfg server now1 st s secretID
    values auth hfresh hunwrap hsid hlogin hauth
  -- the two revocations
  obtain ⟨hr1k, hr1d⟩ := revokeOldToken_state cfg faults server st0
  obtain ⟨hr2k, hr2d⟩ := approleRevokeOldSecretID_state cfg faults server
    (revokeOldToken cfg faults server st0).1
  obtain ⟨hs1, e1, hl1⟩ := get_state faults st.k8s cfg.podNamespace (cfg.appName ++ "-system")
  obtain ⟨hs2, e2, hl2⟩ := get_state faults
    (K8s.get faults st.k8s cfg.podNamespace (cfg.appName ++ "-system")).1
    cfg.podNamespace (cfg.appName ++ "-system")
  rw [hk0] at hr1k
  rw [hr1k] at hr2k
  generalize hst2 : (approleRevokeOldSecretID cfg faults server
    (revokeOldToken cfg faults server st0).1).1 = st2 at hr2k hr2d
  have hsec2 : st2.k8s.secrets = st.k8s.secrets := by rw [hr2k, hs2, hs1]
  have hlog2 : st2.k8s.log = st.k8s.log ++ [⟨ApiCall.get cfg.podNamespace
      (cfg.appName ++ "-system"), e1⟩, ⟨ApiCall.get cfg.podNamespace
      (cfg.appName ++ "-system"), e2⟩] := by
    rw [hr2k, hl2, hl1, List.append_assoc]
    rfl
  have hid2 : st2.d.approleSecretID = some (VaultValue.str s) := by
    rw [hr2d, hr1d, hid0]
  obtain ⟨msg, hres, hmsg⟩ := updateAppSystemSecret_foreign cfg faults st2 s ex hid2
    (by rw [hsec2]; exact hex) (by rw [hann]; simp)
  have hgetn : faults st2.k8s.log.length
      (ApiCall.get cfg.podNamespace (cfg.appName ++ "-system")) = none := by
    rw [hlog2]
    simpa using hget
  have hm := (hmsg hgetn).1 hann
  obtain ⟨hs3, e3, hl3⟩ := get_state faults st2.k8s cfg.podNamespace (cfg.appName ++ "-system")
  refine ⟨{ st2 with k8s := (K8s.get faults st2.k8s cfg.podNamespace
    (cfg.appName ++ "-system")).1 }, ?_, ?_, ?_, ?_, ?_⟩
  · simp only [approleAuthenticate, h0, approleAuthenticateFinish, if_true, hst2, hres, hm]
  · repeat apply contains_append_left
    decide
  · show (K8s.get faults st2.k8s cfg.podNamespace (cfg.appName ++ "-system")).1.secrets = _
    rw [hs3, hsec2]
  · show GoMap.get (K8s.get faults st2.k8s cfg.podNamespace
      (cfg.appName ++ "-system")).1.secrets _ = _
    rw [hs3, hsec2, hex]
  · refine ⟨[⟨ApiCall.get cfg.podNamespace (cfg.appName ++ "-system"), e1⟩,
      ⟨ApiCall.get cfg.podNamespace (cfg.appName ++ "-system"), e2⟩,
      ⟨ApiCall.get cfg.podNamespace (cfg.appName ++ "-system"), e3⟩], ?_, ?_⟩
    · show (K8s.get faults st2.k8s cfg.podNamespace (cfg.appName ++ "-system")).1.log = _
      rw [hl3, hlog2, List.append_assoc]
      rfl
    · intro e he
      simp at he
      rcases he with rfl | rfl | rfl <;> rfl

/-- C15, at the test `TestApproleAuthenticateNoAnnotation`. -/
theorem approleAuthenticate_unowned_witness :
    ∃ st1, approleAuthenticate
        { testConfig with approleSecretIDWrappedToken := "test-wrapped-token" }
        testK8sServerFaults (testVaultServerAuth 3600) 0 0
        (testAuthState (testPodCluster [testSystemSecret "NoAnnotation"]))
      = some (st1, some ("Can't update application k8s secret 'vault-to-k8s-system' in "
          ++ "'k8s-ns' namespace as it not created by 'vault-to-k8s' application"))
      ∧ st1.k8s.secrets = (testPodCluster [testSystemSecret "NoAnnotation"]).secrets :=
  (approleAuthenticate_unowned
    { testConfig with approleSecretIDWrappedToken := "test-wrapped-token" }
    testK8sServerFaults (testVaultServerAuth 3600) 0 0
    (testAuthState (testPodCluster [testSystemSecret "NoAnnotation"])) "test-secret-id"
    { data := [("secret_id", VaultValue.str "test-secret-id")], auth := none }
    { data := [], auth := some { clientToken := "test-token", accessor := "test-token-accessor",
                                 metadata := [("role_name", "vault-to-k8s")],
                                 leaseDuration := 3600 } }
    { clientToken := "test-token", accessor := "test-token-accessor",
      metadata := [("role_name", "vault-to-k8s")], leaseDuration := 3600 }
    (testSystemSecret "NoAnnotation") rfl (by rfl) (by decide) (by rfl) rfl (by decide)
    (by decide) (by decide)).imp (fun _ h => ⟨h.1, h.2.2.1⟩)

/-! ## Claim C16: the fallback of the authentication -/

/-- C16: when the first `approleGetToken` fails, `approleAuthenticate` reads the bootstrap
Secret.  If the Secret is absent (and the Get is answered) it returns the read error
`secrets "<appName>-system" not found` without a second login.  If the Secret is there it
logs in with the SecretID stored in it: that login is the next request to Vault, and when
it fails `approleAuthenticate` returns the error of the login.  In both failure cases the
stored Secrets are unchanged, the only request to the cluster is the Get, and the requests
to Vault are the Unwrap and logins, none of them a revocation. -/
theorem approleAuthenticate_fallback (cfg : Config) (faults : Faults) (server : VaultServer)
    (now1 now2 : Int) (st st1 : AuthState) (e1 : String)
    (hfirst : approleGetToken cfg server now1 st = some (st1, some e1))
    (hget : faults st.k8s.log.length
      (ApiCall.get cfg.podNamespace (cfg.appName ++ "-system")) = none) :
    (GoMap.get st.k8s.secrets (cfg.podNamespace, cfg.appName ++ "-system") = none →
      ∃ st2, approleAuthenticate cfg faults server now1 now2 st
          = some (st2, some ("secrets \"" ++ (cfg.appName ++ "-system") ++ "\" not found"))
        ∧ contains ("secrets \"" ++ (cfg.appName ++ "-system") ++ "\" not found")
            "-system\" not found" = true
        ∧ st2.vault = st1.vault
        ∧ st2.k8s.secrets = st.k8s.secrets
        ∧ st2.k8s.log = st.k8s.log
            ++ [⟨ApiCall.get cfg.podNamespace (cfg.appName ++ "-system"),
                 some (K8s.notFoundError (cfg.appName ++ "-system"))⟩])
    ∧ (∀ ex, GoMap.get st.k8s.secrets (cfg.podNamespace, cfg.appName ++ "-system")
          = some ex →
        (∀ r, approleAuthenticate cfg faults server now1 now2 st = some r →
          ∃ more, r.1.vault = st1.vault
            ++ VaultCall.write ("auth/" ++ cfg.authMethod ++ "/login")
                [("role_id", some (VaultValue.str cfg.approleRoleID)),
                 ("secret_id", some (VaultValue.str
                   (ofBytes ((GoMap.get ex.data "approle_secret-id").getD []))))] :: more)
        ∧ ∀ e2, server st1.vault
            (VaultCall.write ("auth/" ++ cfg.authMethod ++ "/login")
              [("role_id", some (VaultValue.str cfg.approleRoleID)),
               ("secret_id", some (VaultValue.str
                 (ofBytes ((GoMap.get ex.data "approle_secret-id").getD []))))])
            = Except.error e2 →
          ∃ st2, approleAuthenticate cfg faults server now1 now2 st = some (st2, some e2)
            ∧ st2.vault = st1.vault
                ++ [VaultCall.write ("auth/" ++ cfg.authMethod ++ "/login")
                  [("role_id", some (VaultValue.str cfg.approleRoleID)),
                   ("secret_id", some (VaultValue.str
                     (ofBytes ((GoMap.get ex.data "approle_secret-id").getD []))))]]
            ∧ st2.k8s.secrets = st.k8s.secrets
            ∧ st2.k8s.log = st.k8s.log
                ++ [⟨ApiCall.get cfg.podNamespace (cfg.appName ++ "-system"), none⟩])
    ∧ (∃ calls, st1.vault = st.vault ++ calls
        ∧ ∀ c ∈ calls, ∀ approleName, c.isRevoke cfg approleName = false)
    ∧ ∀ approleName options,
        (VaultCall.write ("auth/" ++ cfg.authMethod ++ "/login") options).isRevoke cfg
          approleName = false := by
  obtain ⟨hk1, _, calls, hv1, hcalls⟩ := approleGetToken_error cfg server now1 st st1 e1 hfirst
  refine ⟨?_, ?_, ⟨calls, hv1, ?_⟩, fun n o => login_not_revoke cfg n o⟩
  · intro habs
    have hg := get_notFound faults st.k8s cfg.podNamespace (cfg.appName ++ "-system") hget habs
    refine ⟨{ st1 with k8s := (K8s.get faults st.k8s cfg.podNamespace
      (cfg.appName ++ "-system")).1 }, ?_, ?_, rfl, ?_, ?_⟩
    · simp only [approleAuthenticate, hfirst, approleReadAppSecret, hk1, hg]
      rfl
    · have hm : "secrets \"" ++ (cfg.appName ++ "-system") ++ "\" not found"
          = ("secrets \"" ++ cfg.appName) ++ "-system\" not found" := by
        apply String.ext
        simp [String.data_append]
      rw [hm]
      apply contains_append
      decide
    · show (K8s.get faults st.k8s cfg.podNamespace (cfg.appName ++ "-system")).1.secrets = _
      rw [hg]
    · show (K8s.get faults st.k8s cfg.podNamespace (cfg.appName ++ "-system")).1.log = _
      rw [hg]
  · intro ex hex
    have hg := get_found faults st.k8s cfg.podNamespace (cfg.appName ++ "-system") ex hget hex
    constructor
    · intro r hr
      simp only [approleAuthenticate, hfirst, approleReadAppSecret, hk1, hg] at hr
      split at hr
      · cases hr
      · rename_i st2 e hgt
        cases hr
        have hl := approleGetToken_login cfg server now2 _ _ _ hgt rfl
        exact hl
      · rename_i st2 hgt
        obtain ⟨m1, h1⟩ : ∃ more, st2.vault = st1.vault
            ++ VaultCall.write ("auth/" ++ cfg.authMethod ++ "/login")
                [("role_id", some (VaultValue.str cfg.approleRoleID)),
                 ("secret_id", some (VaultValue.str
                   (ofBytes ((GoMap.get ex.data "approle_secret-id").getD []))))] :: more := by
          have hl := approleGetToken_login cfg server now2 _ _ _ hgt rfl
          exact hl
        obtain ⟨m2, h2⟩ := approleAuthenticateFinish_vault cfg faults server false st2 r hr
        refine ⟨m1 ++ m2, ?_⟩
        rw [h2, h1]
        simp
    · intro e2 he2
      refine ⟨{ st1 with
          k8s := (K8s.get faults st.k8s cfg.podNamespace (cfg.appName ++ "-system")).1,
          d := { st1.d with approleSecretID := some (VaultValue.str
            (ofBytes ((GoMap.get ex.data "approle_secret-id").getD []))) },
          vault := st1.vault ++ [VaultCall.write ("auth/" ++ cfg.authMethod ++ "/login")
            [("role_id", some (VaultValue.str cfg.approleRoleID)),
             ("secret_id", some (VaultValue.str
               (ofBytes ((GoMap.get ex.data "approle_secret-id").getD []))))]] },
        ?_, rfl, ?_, ?_⟩
      · simp only [approleAuthenticate, hfirst, approleReadAppSecret, hk1, hg]
        simp only [approleGetToken, he2]
      · show (K8s.get faults st.k8s cfg.podNamespace (cfg.appName ++ "-system")).1.secrets = _
        rw [hg]
      · show (K8s.get faults st.k8s cfg.podNamespace (cfg.appName ++ "-system")).1.log = _
        rw [hg]
  · intro c hc n
    rcases hcalls c hc with h | ⟨o, h⟩
    · rw [h]
      rfl
    · rw [h]
      exact login_not_revoke cfg n o

/-- C16, at the tests `TestApproleAuthenticateErrorK8sReadSecret` (no wrapped token, no
bootstrap Secret) and `TestApproleAuthenticateInvalidSecretID` (no wrapped token, the
bootstrap Secret holds a SecretID that Vault does not know). -/
theorem approleAuthenticate_fallback_witness :
    (∃ st2, approleAuthenticate testConfig testK8sServerFaults (testVaultServerAuth 3600) 0 0
          (testAuthState (testPodCluster []))
        = some (st2, some "secrets \"vault-to-k8s-system\" not found")
      ∧ st2.k8s.secrets = (testPodCluster []).secrets)
    ∧ (approleAuthenticate testConfig testK8sServerFaults (testVaultServerAuth 3600) 0 0
          (testAuthState (testPodCluster [testSystemSecret "none"]))).map (fun r => r.2)
        = some (some "invalid secret id") :=
  ⟨((approleAuthenticate_fallback testConfig testK8sServerFaults (testVaultServerAuth 3600)
      0 0 (testAuthState (testPodCluster []))
      { testAuthState (testPodCluster []) with vault := [VaultCall.unwrap ""] }
      ("There is no valid 'wrapped token' in "
        ++ "'APPROLE_SECRET_ID_WRAPPED_TOKEN' or 'APPROLE_SECRET_ID_WRAPPED_TOKEN_FILE'")
      (by decide) (by decide)).1 (by decide)).imp (fun _ h => ⟨h.1, h.2.2.2.1⟩),
    by decide⟩

/-! ## Claim C17: the value of the normalised rotation interval -/

/-- C17, as stated, fails for the `float64` arithmetic of the code: for a token TTL of 90
seconds and the default interval -1, `approleGetToken` succeeds and leaves
`tokenRotationInterval = 62`, while the floor of `0.7 * 90` is 63; for a TTL of one day,
86400 seconds, it leaves 60479 and not 60480.  The same happens to the SecretID interval
for a `secret_id_ttl` of 90. -/
theorem rotationInterval_not_floor :
    (approleGetToken { testConfig with approleSecretIDWrappedToken := "test-wrapped-token" }
        (testVaultServerAuth 90) 0 (testAuthState (testPodCluster []))).map
        (fun r => (r.2, GoMap.get r.1.d.vaultTokenTTL "ttl", r.1.tokenRotationInterval))
      = some (none, some 90, 62)
    ∧ (7 * 90 / 10 : Int) = 63
    ∧ (approleGetToken { testConfig with approleSecretIDWrappedToken := "test-wrapped-token" }
        (testVaultServerAuth 86400) 0 (testAuthState (testPodCluster []))).map
        (fun r => (r.2, GoMap.get r.1.d.vaultTokenTTL "ttl", r.1.tokenRotationInterval))
      = some (none, some 86400, 60479)
    ∧ (7 * 86400 / 10 : Int) = 60480
    ∧ (approleSecretIDRotationNormalize
        { testAuthState (testPodCluster []) with
          d := { approleSecretIDTTL := [("secret_id_ttl", 90)],
                 nonVersioningNamespacesList := [] } }).approleSecretIDRotationInterval
      = 62 := by
  decide

/-- C17, amended: after a successful `approleGetToken`, for the TTL that the login
returned and a configured `tokenRotationInterval` that is -1 or at least the TTL, the
interval is `int(float64(TTL) * 0.7)`, the `float64` product with the fraction dropped.
For `0 ≤ TTL ≤ 2^51` this is the floor of `0.7 * TTL` or one less, and for `TTL = 3600` it
is 2520.  The same holds for `approleSecretIDRotationInterval` and `secret_id_ttl` after
the normalisation that follows a successful lookup. -/
theorem rotationInterval_value (cfg : Config) (server : VaultServer) (now : Int)
    (st st1 : AuthState) (h : approleGetToken cfg server now st = some (st1, none)) :
    (∃ ttl, GoMap.get st1.d.vaultTokenTTL "ttl" = some ttl
      ∧ ((st.tokenRotationInterval = -1 ∨ st.tokenRotationInterval ≥ ttl) →
          st1.tokenRotationInterval = scale07 ttl
          ∧ (0 ≤ ttl → ttl ≤ 2 ^ 51 →
              7 * ttl / 10 - 1 ≤ st1.tokenRotationInterval
              ∧ st1.tokenRotationInterval ≤ 7 * ttl / 10)
          ∧ (ttl = 3600 → st1.tokenRotationInterval = 2520)))
    ∧ ∀ (st2 : AuthState) (ttl : Int),
        GoMap.get st2.d.approleSecretIDTTL "secret_id_ttl" = some ttl →
        (st2.approleSecretIDRotationInterval = -1
          ∨ st2.approleSecretIDRotationInterval ≥ ttl) →
        (approleSecretIDRotationNormalize st2).approleSecretIDRotationInterval = scale07 ttl
        ∧ (0 ≤ ttl → ttl ≤ 2 ^ 51 →
            7 * ttl / 10 - 1
                ≤ (approleSecretIDRotationNormalize st2).approleSecretIDRotationInterval
            ∧ (approleSecretIDRotationNormalize st2).approleSecretIDRotationInterval
                ≤ 7 * ttl / 10)
        ∧ (ttl = 7200 →
            (approleSecretIDRotationNormalize st2).approleSecretIDRotationInterval = 5040) := by
  have hnorm : ∀ interval ttl : Int, (interval = -1 ∨ interval ≥ ttl) →
      rotationInterval interval ttl = scale07 ttl := by
    intro interval ttl hc
    unfold rotationInterval
    rcases hc with hc | hc
    · rw [if_pos hc]
    · by_cases h1 : interval = -1
      · rw [if_pos h1]
      · rw [if_neg h1, if_pos hc]
  constructor
  · obtain ⟨_, _, _, auth, _, _, httl, hint, _, _⟩ :=
      approleGetToken_success cfg server now st st1 h
    refine ⟨auth.leaseDuration, httl, ?_⟩
    intro hc
    have hv : st1.tokenRotationInterval = scale07 auth.leaseDuration := by
      rw [hint, hnorm _ _ hc]
    refine ⟨hv, ?_, ?_⟩
    · intro h0 h1
      rw [hv]
      exact scale07_floor _ h0 h1
    · intro h3600
      rw [hv, h3600]
      decide
  · intro st2 ttl httl hc
    have hv : (approleSecretIDRotationNormalize st2).approleSecretIDRotationInterval
        = scale07 ttl := by
      simp only [approleSecretIDRotationNormalize, httl, Option.getD_some]
      exact hnorm _ _ hc
    refine ⟨hv, ?_, ?_⟩
    · intro h0 h1
      rw [hv]
      exact scale07_floor _ h0 h1
    · intro h7200
      rw [hv, h7200]
      decide

/-- C17, at the tests `TestApproleGetToken` and
`TestApproleGetTokenBigTokenRotationInterval`: for the TTL 3600 of the test role and the
intervals -1 and 3601 the interval becomes 2520. -/
theorem rotationInterval_value_witness :
    (∃ st1, approleGetToken
          { testConfig with approleSecretIDWrappedToken := "test-wrapped-token" }
          (testVaultServerAuth 3600) 0 (testAuthState (testPodCluster [])) = some (st1, none)
        ∧ ∃ ttl, GoMap.get st1.d.vaultTokenTTL "ttl" = some ttl)
    ∧ (approleGetToken { testConfig with approleSecretIDWrappedToken := "test-wrapped-token" }
        (testVaultServerAuth 3600) 0 (testAuthState (testPodCluster []))).map
        (fun r => (r.1.d.approleName, GoMap.get r.1.d.vaultTokenTTL "ttl",
          r.1.tokenRotationInterval))
      = some ("vault-to-k8s", some 3600, 2520)
    ∧ (approleGetToken { testConfig with approleSecretIDWrappedToken := "test-wrapped-token" }
        (testVaultServerAuth 3600) 0
        { testAuthState (testPodCluster []) with tokenRotationInterval := 3601 }).map
        (fun r => r.1.tokenRotationInterval)
      = some 2520 :=
  ⟨⟨_, by rfl,
      (rotationInterval_value
        { testConfig with approleSecretIDWrappedToken := "test-wrapped-token" }
        (testVaultServerAuth 3600) 0 (testAuthState (testPodCluster [])) _ (by rfl)).1.imp
        (fun _ h => h.1)⟩,
    by decide, by decide⟩

/-! ## Claim C18: the normalised rotation interval is below the TTL -/

/-- C18, as stated, fails for a TTL of 0, the TTL of a token or SecretID that does not
expire: with the default interval -1, `approleGetToken` leaves `tokenRotationInterval = 0`
for a token TTL of 0, and the normalisation of the SecretID interval gives 0 for a
`secret_id_ttl` of 0; 0 is not below 0. -/
theorem rotationInterval_not_lt :
    (approleGetToken { testConfig with approleSecretIDWrappedToken := "test-wrapped-token" }
        (testVaultServerAuth 0) 0 (testAuthState (testPodCluster []))).map
        (fun r => (r.2, GoMap.get r.1.d.vaultTokenTTL "ttl", r.1.tokenRotationInterval))
      = some (none, some 0, 0)
    ∧ (approleSecretIDRotationNormalize
        { testAuthState (testPodCluster []) with
          d := { approleSecretIDTTL := [("secret_id_ttl", 0)],
                 nonVersioningNamespacesList := [] } }).approleSecretIDRotationInterval = 0
    ∧ ¬ ((0 : Int) < 0) := by
  decide

/-- C18, amended: for every positive TTL (a 64-bit number) and every configured rotation
interval, after the normalisation in a successful `approleGetToken` the
`tokenRotationInterval` is strictly less than the TTL of the token, and after the
normalisation in `approleSecretIDRotation` the `approleSecretIDRotationInterval` is
strictly less than `secret_id_ttl`. -/
theorem rotationInterval_lt (cfg : Config) (server : VaultServer) (now : Int)
    (st st1 : AuthState) (h : approleGetToken cfg server now st = some (st1, none)) :
    (∃ ttl, GoMap.get st1.d.vaultTokenTTL "ttl" = some ttl
      ∧ (0 < ttl → ttl < 2 ^ 63 → st1.tokenRotationInterval < ttl))
    ∧ ∀ (st2 : AuthState) (ttl : Int),
        GoMap.get st2.d.approleSecretIDTTL "secret_id_ttl" = some ttl →
        0 < ttl → ttl < 2 ^ 63 →
        (approleSecretIDRotationNormalize st2).approleSecretIDRotationInterval < ttl := by
  have hnorm : ∀ interval ttl : Int, 0 < ttl → ttl < 2 ^ 63 →
      rotationInterval interval ttl < ttl := by
    intro interval ttl h0 h1
    have hs := scale07_lt ttl h0 h1
    unfold rotationInterval
    by_cases c1 : interval = -1
    · rw [if_pos c1]
      exact hs
    · rw [if_neg c1]
      by_cases c2 : interval ≥ ttl
      · rw [if_pos c2]
        exact hs
      · rw [if_neg c2]
        omega
  constructor
  · obtain ⟨_, _, _, auth, _, _, httl, hint, _, _⟩ :=
      approleGetToken_success cfg server now st st1 h
    refine ⟨auth.leaseDuration, httl, ?_⟩
    intro h0 h1
    rw [hint]
    exact hnorm _ _ h0 h1
  · intro st2 ttl httl h0 h1
    simp only [approleSecretIDRotationNormalize, httl, Option.getD_some]
    exact hnorm _ _ h0 h1

/-- C18, at the test role: the token TTL is 3600, and both the default interval -1 and
the interval 3601 are normalised to 2520, which is below 3600. -/
theorem rotationInterval_lt_witness :
    ∃ st1, approleGetToken
        { testConfig with approleSecretIDWrappedToken := "test-wrapped-token" }
        (testVaultServerAuth 3600) 0
        { testAuthState (testPodCluster []) with tokenRotationInterval := 3601 }
        = some (st1, none)
      ∧ GoMap.get st1.d.vaultTokenTTL "ttl" = some 3600
      ∧ st1.tokenRotationInterval = 2520
      ∧ ∃ ttl, GoMap.get st1.d.vaultTokenTTL "ttl" = some ttl
          ∧ (0 < ttl → ttl < 2 ^ 63 → st1.tokenRotationInterval < ttl) :=
  ⟨_, by rfl, by decide, by decide,
    (rotationInterval_lt { testConfig with approleSecretIDWrappedToken := "test-wrapped-token" }
      (testVaultServerAuth 3600) 0
      { testAuthState (testPodCluster []) with tokenRotationInterval := 3601 } _ (by rfl)).1⟩

/-! ## Claim C19: when the mount check passes -/

/-- C19: for every mount table that Vault returns (its keys are mount paths, which end with
`/` and are distinct, and the version option of a mount of type `kv` is absent, `1` or
`2`) and every configured path, `verifyVaultMount` returns no error if and only if there
is a mount key that is a prefix of `<mount>/`, whose type is `kv` and whose version option
is the string `2`. -/
theorem verifyVaultMount_iff_exists (cfg : Config) (mounts : GoMap String MountOutput)
    (hkeys : ∀ p ∈ mounts, hasSuffix p.1 "/" = true)
    (hn : (GoMap.keys mounts).Nodup)
    (hver : ∀ p ∈ mounts, p.2.type_ = "kv" →
      ∀ t, GoMap.get p.2.options "version" = some t → t = "1" ∨ t = "2") :
    verifyVaultMount cfg (Except.ok mounts) = none
      ↔ ∃ p ∈ mounts, hasPrefix (splitHead cfg.vaultSecretsPath ++ "/") p.1 = true
          ∧ p.2.type_ = "kv" ∧ GoMap.get p.2.options "version" = some "2" := by
  rw [verifyVaultMount_iff]
  constructor
  · rintro ⟨⟨p, hp, hpre⟩, hall⟩
    obtain ⟨hkv, hv⟩ := hall p hp hpre
    refine ⟨p, hp, hpre, hkv, ?_⟩
    cases ho : GoMap.get p.2.options "version" with
    | none =>
      unfold kvVersion at hv
      rw [ho] at hv
      revert hv
      decide
    | some t =>
      rcases hver p hp hkv t ho with h | h
      · subst h
        unfold kvVersion at hv
        rw [ho] at hv
        revert hv
        decide
      · rw [h]
  · rintro ⟨p, hp, hpre, hkv, hv⟩
    refine ⟨⟨p, hp, hpre⟩, ?_⟩
    intro q hq hqpre
    have h1 := prefix_of_mount cfg.vaultSecretsPath p.1 (hkeys p hp) hpre
    have h2 := prefix_of_mount cfg.vaultSecretsPath q.1 (hkeys q hq) hqpre
    have hg1 := GoMap.get_of_mem mounts p.1 p.2 hn hp
    have hg2 := GoMap.get_of_mem mounts q.1 q.2 hn hq
    rw [h1] at hg1
    rw [h2, hg1] at hg2
    have hpq : p.2 = q.2 := Option.some.inj hg2
    rw [← hpq]
    refine ⟨hkv, ?_⟩
    unfold kvVersion
    rw [hv]
    decide

/-- C19, at the tests of the mount check: the mount table of the test server passes the
check for the path `testMount/k8s/dev`, by its mount `testMount/` of type `kv` and version
`2`, and fails it for the path `secret/k8s/dev`, whose mount `secret/` has version `1`. -/
theorem verifyVaultMount_iff_exists_witness :
    (∀ p ∈ testMounts, hasSuffix p.1 "/" = true)
    ∧ (GoMap.keys testMounts).Nodup
    ∧ (∀ p ∈ testMounts, p.2.type_ = "kv" →
        ∀ t, GoMap.get p.2.options "version" = some t → t = "1" ∨ t = "2")
    ∧ verifyVaultMount testConfig (Except.ok testMounts) = none
    ∧ verifyVaultMount { testConfig with vaultSecretsPath := "secret/k8s/dev" }
        (Except.ok testMounts) ≠ none :=
  have hkeys : ∀ p ∈ testMounts, hasSuffix p.1 "/" = true := by decide
  have hn : (GoMap.keys testMounts).Nodup := by decide
  have hver : ∀ p ∈ testMounts, p.2.type_ = "kv" →
      ∀ t, GoMap.get p.2.options "version" = some t → t = "1" ∨ t = "2" := by
    intro p hp hkv t ht
    simp only [testMounts, List.mem_cons, List.mem_singleton, List.not_mem_nil, or_false]
      at hp
    rcases hp with h | h | h | h | h <;> subst h <;> simp [GoMap.get] at ht hkv ⊢
      <;> simp [← ht]
  ⟨hkeys, hn, hver,
    (verifyVaultMount_iff_exists testConfig testMounts hkeys hn hver).2
      ⟨("testMount/", { type_ := "kv", options := [("version", "2")] }), by decide,
        by decide, rfl, by decide⟩,
    fun h => by
      obtain ⟨p, hp, hpre, hkv, hv⟩ :=
        (verifyVaultMount_iff_exists { testConfig with vaultSecretsPath := "secret/k8s/dev" }
          testMounts hkeys hn hver).1 h
      simp only [testMounts, List.mem_cons, List.mem_singleton, List.not_mem_nil, or_false]
        at hp
      rcases hp with h | h | h | h | h <;> subst h <;> revert hpre hkv hv <;> decide⟩

/-! ## Claim C20: the messages of the mount check -/

/-- C20: each failure of the mount check has its own message.  When no mount key is a
prefix of `<mount>/` the error contains `doesn't exists in Vault`; when the only mount
whose key is a prefix of `<mount>/` has a type other than `kv` the error contains
`is not of type kv`, whatever its version; when it has type `kv` and a version that does
not read as 2 the error contains `Vault mount version is not '2'`. -/
theorem verifyVaultMount_messages (cfg : Config) (mounts : GoMap String MountOutput) :
    ((∀ p ∈ mounts, hasPrefix (splitHead cfg.vaultSecretsPath ++ "/") p.1 = false) →
      ∃ msg, verifyVaultMount cfg (Except.ok mounts) = some msg
        ∧ contains msg "doesn't exists in Vault" = true)
    ∧ (∀ k m, (k, m) ∈ mounts →
        hasPrefix (splitHead cfg.vaultSecretsPath ++ "/") k = true →
        (∀ p ∈ mounts, hasPrefix (splitHead cfg.vaultSecretsPath ++ "/") p.1 = true →
          p = (k, m)) →
        (m.type_ ≠ "kv" →
          ∃ msg, verifyVaultMount cfg (Except.ok mounts) = some msg
            ∧ contains msg "is not of type kv" = true)
        ∧ (m.type_ = "kv" → kvVersion m ≠ 2 →
          ∃ msg, verifyVaultMount cfg (Except.ok mounts) = some msg
            ∧ contains msg "Vault mount version is not '2'" = true)) := by
  constructor
  · intro hno
    have hall : ∀ p ∈ mounts, hasPrefix (splitHead cfg.vaultSecretsPath ++ "/") p.1 = true →
        p.2.type_ = "kv" ∧ kvVersion p.2 = 2 := by
      intro p hp hpk
      rw [hno p hp] at hpk
      cases hpk
    have hloop := verifyVaultMountLoop_ok (splitHead cfg.vaultSecretsPath ++ "/") mounts true
      hall
    have hyes : mounts.all (fun p => !hasPrefix (splitHead cfg.vaultSecretsPath ++ "/") p.1)
        = true := by
      apply List.all_eq_true.2
      intro p hp
      simp [hno p hp]
    refine ⟨_, by simp only [verifyVaultMount, hloop, hyes]; rfl, ?_⟩
    exact contains_append _ _ _ (by decide)
  · intro k m hmem hk honly
    have hmsg : ¬ (m.type_ = "kv" ∧ kvVersion m = 2) →
        (m.type_ ≠ "kv"
          ∧ verifyVaultMount cfg (Except.ok mounts) = some
              ("Matching mount '" ++ k ++ "' for path '"
                ++ (splitHead cfg.vaultSecretsPath ++ "/") ++ "' is not of type kv"))
        ∨ (m.type_ = "kv" ∧ kvVersion m ≠ 2
          ∧ verifyVaultMount cfg (Except.ok mounts) = some
              ("Vault mount '" ++ k ++ "' and defined path '"
                ++ (splitHead cfg.vaultSecretsPath ++ "/")
                ++ "' matched but Vault mount version is not '2'")) := by
      intro hbad
      obtain ⟨p, hp, hpk, h⟩ :=
        verifyVaultMountLoop_error (splitHead cfg.vaultSecretsPath ++ "/") mounts true
          ⟨(k, m), hmem, hk, hbad⟩
      have hpe := honly p hp hpk
      subst hpe
      rcases h with ⟨ht, hm⟩ | ⟨ht, hv, hm⟩
      · exact Or.inl ⟨ht, by simp only [verifyVaultMount, hm]⟩
      · exact Or.inr ⟨ht, hv, by simp only [verifyVaultMount, hm]⟩
    constructor
    · intro ht
      rcases hmsg (fun h => ht h.1) with ⟨_, hm⟩ | ⟨ht2, _, _⟩
      · exact ⟨_, hm, contains_append _ _ _ (by decide)⟩
      · exact absurd ht2 ht
    · intro ht hv
      rcases hmsg (fun h => hv h.2) with ⟨ht2, _⟩ | ⟨_, _, hm⟩
      · exact absurd ht ht2
      · exact ⟨_, hm, contains_append _ _ _ (by decide)⟩

/-- C20, at the three tests: the paths `testMount2/k8s/dev`, `cubbyhole/k8s/dev` and
`secret/k8s/dev` against the mount table of the test server. -/
theorem verifyVaultMount_messages_witness :
    (∃ msg, verifyVaultMount { testConfig with vaultSecretsPath := "testMount2/k8s/dev" }
        (Except.ok testMounts) = some msg
      ∧ contains msg "doesn't exists in Vault" = true)
    ∧ verifyVaultMount { testConfig with vaultSecretsPath := "cubbyhole/k8s/dev" }
        (Except.ok testMounts)
      = some "Matching mount 'cubbyhole/' for path 'cubbyhole/' is not of type kv"
    ∧ verifyVaultMount { testConfig with vaultSecretsPath := "secret/k8s/dev" }
        (Except.ok testMounts)
      = some ("Vault mount 'secret/' and defined path 'secret/' matched but Vault mount "
          ++ "version is not '2'") :=
  ⟨(verifyVaultMount_messages { testConfig with vaultSecretsPath := "testMount2/k8s/dev" }
      testMounts).1 (by decide), by decide, by decide⟩

/-! ## Claim C21: which failures are fatal for a job -/

/-- C21 as stated fails: in the setting of the non-versioning test (the Secret `secret2`
exists with the annotation of the entry `secret2.k8s-cluster` and other data) an API
server refuses the first of the two Updates that the worker sends for `secret2` (request
number 3 of the job) and accepts the second.  An Update of an eligible candidate has
failed, and the result of the job carries no error: it counts the update. -/
theorem first_update_refused_no_error :
    (processJob testConfig (fun n _ => if n = 3 then some "the server rejected our request"
          else none) testVaultRead "k8s-ns1" ".k8s-cluster" ["secret2"] false
        (testCluster [testK8sSecret "secret2" "vault-to-k8s/secret"
          "testMount/k8s/dev/k8s-ns1/secret2.k8s-cluster"])
        { name := "secret2.k8s-cluster", versioning := 0 }).2
      = { created := 1, updated := 1, skipped := 0, synced := 2, err := none }
    ∧ ((processJob testConfig (fun n _ => if n = 3 then some "the server rejected our request"
          else none) testVaultRead "k8s-ns1" ".k8s-cluster" ["secret2"] false
        (testCluster [testK8sSecret "secret2" "vault-to-k8s/secret"
          "testMount/k8s/dev/k8s-ns1/secret2.k8s-cluster"])
        { name := "secret2.k8s-cluster", versioning := 0 }).1.log.filter
          ApiEvent.isRefusedUpdate).length = 1 := by
  decide

/-- C21, amended: the result of a job carries an error exactly when the Vault read of the
entry failed or the last request of the job is an Update that the API refused.  Such an
Update is the second of the two identical Updates that the worker sends for an eligible
candidate, the one whose outcome it checks.  A Get that the API refuses and a Create that
the API refuses produce no error: the iteration of such a candidate adds 1 to `skipped`,
changes nothing else in the result and in the stored Secrets, and the loop continues with
the remaining candidates. -/
theorem updateSecretsInK8s_fatal_iff (cfg : Config) (faults : Faults) (read : VaultRead)
    (ns suffix : String) (k8sSecrets : List String) (rev : Bool) (k8s : K8s)
    (job : secretForUpdate) :
    ((processJob cfg faults read ns suffix k8sSecrets rev k8s job).2.err ≠ none ↔
        (∃ e, read (cfg.vaultSecretsPath ++ "/" ++ ns ++ "/" ++ job.name) = Except.error e)
        ∨ ∃ evs ev,
            (processJob cfg faults read ns suffix k8sSecrets rev k8s job).1.log
              = k8s.log ++ evs ++ [ev]
            ∧ ev.isRefusedUpdate = true)
    ∧ (∀ evs ev,
        (processJob cfg faults read ns suffix k8sSecrets rev k8s job).1.log
          = k8s.log ++ evs ++ [ev] →
        ev.isRefusedUpdate = true → ∃ evs1 e1, evs = evs1 ++ [⟨ev.call, e1⟩])
    ∧ (∀ (path : String) (data : GoMap String Bytes) (k : K8s) (res : updateSecretResults)
        (c msg : String) (rest : List String),
        faults k.log.length (ApiCall.get ns c) = some msg →
        syncSecrets cfg faults ns path data (c :: rest) (k, res)
          = syncSecrets cfg faults ns path data rest
              ({ secrets := k.secrets,
                 log := k.log ++ [{ call := ApiCall.get ns c,
                                    err := some { notFound := false, msg := msg } }] },
               { res with skipped := res.skipped + 1 }))
    ∧ (∀ (path : String) (data : GoMap String Bytes) (k : K8s) (res : updateSecretResults)
        (c msg : String) (rest : List String),
        GoMap.get k.secrets (ns, c) = none →
        faults k.log.length (ApiCall.get ns c) = none →
        faults (k.log.length + 1) (ApiCall.create ns (secretFor cfg path data c))
          = some msg →
        syncSecrets cfg faults ns path data (c :: rest) (k, res)
          = syncSecrets cfg faults ns path data rest
              ({ secrets := k.secrets,
                 log := k.log ++ [{ call := ApiCall.get ns c,
                                    err := some (K8s.notFoundError c) },
                                  { call := ApiCall.create ns (secretFor cfg path data c),
                                    err := some { notFound := false, msg := msg } }] },
               { res with skipped := res.skipped + 1 })) := by
  have hlen : ∀ (evs : List ApiEvent) (ev : ApiEvent), k8s.log ≠ k8s.log ++ evs ++ [ev] := by
    intro evs ev h
    have := congrArg List.length h
    simp at this
  have hget : ∀ (path : String) (data : GoMap String Bytes) (k : K8s)
      (res : updateSecretResults) (c msg : String) (rest : List String),
      faults k.log.length (ApiCall.get ns c) = some msg →
      syncSecrets cfg faults ns path data (c :: rest) (k, res)
        = syncSecrets cfg faults ns path data rest
            ({ secrets := k.secrets,
               log := k.log ++ [{ call := ApiCall.get ns c,
                                  err := some { notFound := false, msg := msg } }] },
             { res with skipped := res.skipped + 1 }) := by
    intro path data k res c msg rest hg
    rw [syncSecrets_cons]
    rcases syncSecret_cases cfg faults ns path data k res c with
      ⟨m, hg1, h⟩ | ⟨hg1, _⟩ | ⟨m, hg1, _⟩ | ⟨ex, hg1, _⟩
      | ⟨ex, hg1, _⟩ | ⟨ex, e1, hg1, _⟩ | ⟨ex, e1, m, secrets1, hg1, _⟩
    · rw [hg] at hg1
      have hm : msg = m := by simpa using hg1
      subst hm
      rw [h]
      simp
    all_goals (rw [hg] at hg1; cases hg1)
  have hcreate : ∀ (path : String) (data : GoMap String Bytes) (k : K8s)
      (res : updateSecretResults) (c msg : String) (rest : List String),
      GoMap.get k.secrets (ns, c) = none →
      faults k.log.length (ApiCall.get ns c) = none →
      faults (k.log.length + 1) (ApiCall.create ns (secretFor cfg path data c)) = some msg →
      syncSecrets cfg faults ns path data (c :: rest) (k, res)
        = syncSecrets cfg faults ns path data rest
            ({ secrets := k.secrets,
               log := k.log ++ [{ call := ApiCall.get ns c,
                                  err := some (K8s.notFoundError c) },
                                { call := ApiCall.create ns (secretFor cfg path data c),
                                  err := some { notFound := false, msg := msg } }] },
             { res with skipped := res.skipped + 1 }) := by
    intro path data k res c msg rest habs hg hc
    rw [syncSecrets_cons]
    rcases syncSecret_cases cfg faults ns path data k res c with
      ⟨m, hg1, _⟩ | ⟨_, _, hc1, _⟩ | ⟨m, _, _, hc1, h⟩ | ⟨ex, _, hs1, _, _⟩
      | ⟨ex, _, hs1, _, _, _⟩ | ⟨ex, e1, _, hs1, _, _, _, _⟩
      | ⟨ex, e1, m, secrets1, _, hs1, _, _, _, _, _⟩
    · rw [hg] at hg1
      cases hg1
    · rw [hc] at hc1
      cases hc1
    · rw [hc] at hc1
      have hm : msg = m := by simpa using hc1
      subst hm
      rw [h]
      simp
    all_goals (rw [habs] at hs1; cases hs1)
  refine ⟨?_, ?_, hget, hcreate⟩
  · rcases processJob_cases cfg read ns job with
      ⟨e, hr⟩ | ⟨s, v, hr, hbad⟩ | ⟨s, v, hr, hs, hpan⟩ | ⟨s, v, data, hr, hs, hconv⟩
    · rw [processJob_readError cfg faults read ns suffix k8sSecrets rev k8s job e hr]
      simp [hr]
    · rw [processJob_skipped cfg faults read ns suffix k8sSecrets rev k8s job s v hr hbad]
      constructor
      · intro h
        exact absurd rfl h
      · rintro (⟨e, he⟩ | ⟨evs, ev, hl, _⟩)
        · rw [hr] at he
          cases he
        · exact absurd hl (hlen evs ev)
    · rw [processJob_panicked cfg faults read ns suffix k8sSecrets rev k8s job s v hr hs hpan]
      constructor
      · intro h
        exact absurd rfl h
      · rintro (⟨e, he⟩ | ⟨evs, ev, hl, _⟩)
        · rw [hr] at he
          cases he
        · exact absurd hl (hlen evs ev)
    · rw [processJob_ok cfg faults read ns suffix k8sSecrets rev k8s job s v data hr hs hconv]
      by_cases hn : rangeOrder rev
          ((if job.name ++ "-v" ++ v ∈ k8sSecrets then [] else [job.name ++ "-v" ++ v])
            ++ (if job.versioning = 0 then [trimSuffix job.name suffix] else [])) = []
      · rw [hn]
        constructor
        · intro h
          exact absurd rfl h
        · rintro (⟨e, he⟩ | ⟨evs, ev, hl, _⟩)
          · rw [hr] at he
            cases he
          · exact absurd hl (hlen evs ev)
      · obtain ⟨evs, ev, hlog, hiff, _⟩ :=
          syncSecrets_last cfg faults ns
            (cfg.vaultSecretsPath ++ "/" ++ ns ++ "/" ++ job.name) data _
            (k8s, { created := 0, updated := 0, skipped := 0,
                    synced := if job.name ++ "-v" ++ v ∈ k8sSecrets then 1 else 0,
                    err := none }) rfl hn
        rw [hiff]
        constructor
        · intro h
          exact Or.inr ⟨evs, ev, hlog, h⟩
        · rintro (⟨e, he⟩ | ⟨evs2, ev2, hl, h2⟩)
          · rw [hr] at he
            cases he
          · rw [hlog] at hl
            have hl2 : evs ++ [ev] = evs2 ++ [ev2] := by
              simpa [List.append_assoc] using hl
            have := List.append_inj' hl2 rfl
            have hev : ev = ev2 := by simpa using this.2
            rw [hev]
            exact h2
  · intro evs ev hl hre
    rcases processJob_cases cfg read ns job with
      ⟨e, hr⟩ | ⟨s, v, hr, hbad⟩ | ⟨s, v, hr, hs, hpan⟩ | ⟨s, v, data, hr, hs, hconv⟩
    · rw [processJob_readError cfg faults read ns suffix k8sSecrets rev k8s job e hr] at hl
      exact absurd hl (hlen evs ev)
    · rw [processJob_skipped cfg faults read ns suffix k8sSecrets rev k8s job s v hr hbad] at hl
      exact absurd hl (hlen evs ev)
    · rw [processJob_panicked cfg faults read ns suffix k8sSecrets rev k8s job s v hr hs hpan]
        at hl
      exact absurd hl (hlen evs ev)
    · rw [processJob_ok cfg faults read ns suffix k8sSecrets rev k8s job s v data hr hs hconv]
        at hl
      by_cases hn : rangeOrder rev
          ((if job.name ++ "-v" ++ v ∈ k8sSecrets then [] else [job.name ++ "-v" ++ v])
            ++ (if job.versioning = 0 then [trimSuffix job.name suffix] else [])) = []
      · rw [hn] at hl
        exact absurd hl (hlen evs ev)
      · obtain ⟨evs2, ev2, hlog, _, hprev⟩ :=
          syncSecrets_last cfg faults ns
            (cfg.vaultSecretsPath ++ "/" ++ ns ++ "/" ++ job.name) data _
            (k8s, { created := 0, updated := 0, skipped := 0,
                    synced := if job.name ++ "-v" ++ v ∈ k8sSecrets then 1 else 0,
                    err := none }) rfl hn
        rw [hlog] at hl
        have hl2 : evs2 ++ [ev2] = evs ++ [ev] := by
          simpa [List.append_assoc] using hl
        have := List.append_inj' hl2 rfl
        have hev : ev2 = ev := by simpa using this.2
        have hevs : evs2 = evs := this.1
        subst hev
        subst hevs
        exact hprev hre

/-- C21, at the test of the non-versioning namespace with an API server that refuses every
Update: the result of the job for `secret2.k8s-cluster` carries an error, the Vault read
having succeeded, so the last request of the job is a refused Update. -/
theorem updateSecretsInK8s_fatal_iff_witness :
    (∃ e, testVaultRead (testConfig.vaultSecretsPath ++ "/" ++ "k8s-ns1" ++ "/"
        ++ "secret2.k8s-cluster") = Except.error e)
    ∨ ∃ evs ev,
        (processJob testConfig updateFaults testVaultRead "k8s-ns1" ".k8s-cluster"
          ["secret2"] false
          (testCluster [testK8sSecret "secret2" "vault-to-k8s/secret"
            "testMount/k8s/dev/k8s-ns1/secret2.k8s-cluster"])
          { name := "secret2.k8s-cluster", versioning := 0 }).1.log
          = (testCluster [testK8sSecret "secret2" "vault-to-k8s/secret"
              "testMount/k8s/dev/k8s-ns1/secret2.k8s-cluster"]).log ++ evs ++ [ev]
        ∧ ev.isRefusedUpdate = true :=
  (updateSecretsInK8s_fatal_iff testConfig updateFaults testVaultRead "k8s-ns1"
    ".k8s-cluster" ["secret2"] false
    (testCluster [testK8sSecret "secret2" "vault-to-k8s/secret"
      "testMount/k8s/dev/k8s-ns1/secret2.k8s-cluster"])
    { name := "secret2.k8s-cluster", versioning := 0 }).1.1 (by decide)

/-! ## Claim C22: the accounting of the counters -/

/-- C22: for a job whose Vault entry is read with data that is not empty and holds strings
only, and whose result carries no error, `skipped + synced` is the number of candidates,
which is 2 for flag 0 and 1 otherwise, and `created + updated ≤ synced`.  Each candidate
is counted once, by what is found for it.  A versioned candidate found in the pre-listed
cluster Secrets is removed from the candidates and counted in `synced`.  In an iteration
of the create/update loop, a candidate whose Get is refused is counted in `skipped`; an
absent one is created and counted in `created` and `synced`, or in `skipped` when the
Create is refused; one found with the data of the entry is counted in `synced` (up to
date), whatever its annotations; one found with other data is counted in `skipped` when
it lacks the annotation or carries another value of it, and is updated and counted in
`updated` and `synced` otherwise, unless the second Update is refused, which puts the
error into the result.  Every count is an increment by 1 and leaves the other counters as
they were, so that a skipped candidate never increments `synced`. -/
theorem updateSecretsInK8s_accounting (cfg : Config) (faults : Faults) (read : VaultRead)
    (ns suffix : String) (k8sSecrets : List String) (rev : Bool) (k8s : K8s)
    (job : secretForUpdate) (s : GoMap String VaultValue) (v : String)
    (hread : read (cfg.vaultSecretsPath ++ "/" ++ ns ++ "/" ++ job.name) = Except.ok (s, v))
    (hs : s.length ≠ 0) (hstr : ∀ p ∈ s, ∃ x, p.2 = VaultValue.str x)
    (herr : (processJob cfg faults read ns suffix k8sSecrets rev k8s job).2.err = none) :
    (processJob cfg faults read ns suffix k8sSecrets rev k8s job).2.skipped
        + (processJob cfg faults read ns suffix k8sSecrets rev k8s job).2.synced
      = (k8sSecretsForUpdate job v suffix).length
    ∧ (k8sSecretsForUpdate job v suffix).length = (if job.versioning = 0 then 2 else 1)
    ∧ (processJob cfg faults read ns suffix k8sSecrets rev k8s job).2.created
        + (processJob cfg faults read ns suffix k8sSecrets rev k8s job).2.updated
      ≤ (processJob cfg faults read ns suffix k8sSecrets rev k8s job).2.synced
    ∧ (∀ res : updateSecretResults, job.name ++ "-v" ++ v ∈ k8sSecrets →
        (verifyVersioning k8sSecrets (k8sSecretsForUpdate job v suffix) res).2
          = { res with synced := res.synced + 1 }
        ∧ GoMap.get (verifyVersioning k8sSecrets (k8sSecretsForUpdate job v suffix) res).1
            (job.name ++ "-v" ++ v) = none)
    ∧ (∀ (path : String) (data : GoMap String Bytes) (k : K8s) (res : updateSecretResults)
        (c : String),
        (∀ msg, faults k.log.length (ApiCall.get ns c) = some msg →
          syncSecret cfg faults ns path data (k, res) c =
            (({ secrets := k.secrets,
                log := k.log ++ [{ call := ApiCall.get ns c,
                                   err := some { notFound := false, msg := msg } }] },
              { res with skipped := res.skipped + 1 }), false))
        ∧ (faults k.log.length (ApiCall.get ns c) = none →
          GoMap.get k.secrets (ns, c) = none →
          faults (k.log.length + 1) (ApiCall.create ns (secretFor cfg path data c)) = none →
          syncSecret cfg faults ns path data (k, res) c =
            (({ secrets := GoMap.set k.secrets (ns, c) (secretFor cfg path data c),
                log := k.log ++ [{ call := ApiCall.get ns c,
                                   err := some (K8s.notFoundError c) },
                                 { call := ApiCall.create ns (secretFor cfg path data c),
                                   err := none }] },
              { res with created := res.created + 1, synced := res.synced + 1 }), false))
        ∧ (∀ msg, faults k.log.length (ApiCall.get ns c) = none →
          GoMap.get k.secrets (ns, c) = none →
          faults (k.log.length + 1) (ApiCall.create ns (secretFor cfg path data c))
            = some msg →
          syncSecret cfg faults ns path data (k, res) c =
            (({ secrets := k.secrets,
                log := k.log ++ [{ call := ApiCall.get ns c,
                                   err := some (K8s.notFoundError c) },
                                 { call := ApiCall.create ns (secretFor cfg path data c),
                                   err := some { notFound := false, msg := msg } }] },
              { res with skipped := res.skipped + 1 }), false))
        ∧ (∀ ex, faults k.log.length (ApiCall.get ns c) = none →
          GoMap.get k.secrets (ns, c) = some ex →
          GoMap.deepEqual ex.data data = true →
          syncSecret cfg faults ns path data (k, res) c =
            (({ secrets := k.secrets,
                log := k.log ++ [{ call := ApiCall.get ns c, err := none }] },
              { res with synced := res.synced + 1 }), false))
        ∧ (∀ ex, faults k.log.length (ApiCall.get ns c) = none →
          GoMap.get k.secrets (ns, c) = some ex →
          GoMap.deepEqual ex.data data = false →
          GoMap.get ex.annotations cfg.annotationName ≠ some path →
          syncSecret cfg faults ns path data (k, res) c =
            (({ secrets := k.secrets,
                log := k.log ++ [{ call := ApiCall.get ns c, err := none }] },
              { res with skipped := res.skipped + 1 }), false))
        ∧ (∀ ex, faults k.log.length (ApiCall.get ns c) = none →
          GoMap.get k.secrets (ns, c) = some ex →
          GoMap.deepEqual ex.data data = false →
          GoMap.get ex.annotations cfg.annotationName = some path →
          faults (k.log.length + 2) (ApiCall.update ns (secretFor cfg path data c)) = none →
          ∃ e1, syncSecret cfg faults ns path data (k, res) c =
            (({ secrets := GoMap.set k.secrets (ns, c) (secretFor cfg path data c),
                log := k.log ++ [{ call := ApiCall.get ns c, err := none },
                                 { call := ApiCall.update ns (secretFor cfg path data c),
                                   err := e1 },
                                 { call := ApiCall.update ns (secretFor cfg path data c),
                                   err := none }] },
              { res with updated := res.updated + 1, synced := res.synced + 1 }), false))
        ∧ (∀ ex msg, faults k.log.length (ApiCall.get ns c) = none →
          GoMap.get k.secrets (ns, c) = some ex →
          GoMap.deepEqual ex.data data = false →
          GoMap.get ex.annotations cfg.annotationName = some path →
          faults (k.log.length + 2) (ApiCall.update ns (secretFor cfg path data c))
            = some msg →
          ∃ e1 secrets1, syncSecret cfg faults ns path data (k, res) c =
            (({ secrets := secrets1,
                log := k.log ++ [{ call := ApiCall.get ns c, err := none },
                                 { call := ApiCall.update ns (secretFor cfg path data c),
                                   err := e1 },
                                 { call := ApiCall.update ns (secretFor cfg path data c),
                                   err := some { notFound := false, msg := msg } }] },
              { res with err := some ("Error during update k8s secret: " ++ msg) }), true))) := by
  have hne : s ≠ [] := fun h => hs (by rw [h]; rfl)
  have hconv : ∃ data, convertData s = Conversion.converted data := by
    exact (convertData_converted s).2 hstr
  obtain ⟨data, hconv⟩ := hconv
  have hlen : (k8sSecretsForUpdate job v suffix).length
      = (if job.versioning = 0 then 2 else 1) := by
    rw [k8sSecretsForUpdate_list]
    split <;> rfl
  rw [processJob_ok cfg faults read ns suffix k8sSecrets rev k8s job s v data hread hne hconv]
    at herr ⊢
  dsimp only at herr ⊢
  refine ⟨?_, hlen, ?_, ?_, ?_⟩
  · rw [syncSecrets_total cfg faults ns _ data _ _ herr, hlen]
    by_cases hl : job.name ++ "-v" ++ v ∈ k8sSecrets <;> by_cases hv : job.versioning = 0
      <;> cases rev <;> simp [rangeOrder, hl, hv]
  · have := syncSecrets_counts cfg faults ns
      (cfg.vaultSecretsPath ++ "/" ++ ns ++ "/" ++ job.name) data
      (rangeOrder rev
        ((if job.name ++ "-v" ++ v ∈ k8sSecrets then [] else [job.name ++ "-v" ++ v])
          ++ (if job.versioning = 0 then [trimSuffix job.name suffix] else [])))
      (k8s, { created := 0, updated := 0, skipped := 0,
              synced := if job.name ++ "-v" ++ v ∈ k8sSecrets then 1 else 0,
              err := none })
    have hmono := syncSecrets_mono cfg faults ns
      (cfg.vaultSecretsPath ++ "/" ++ ns ++ "/" ++ job.name) data
      (rangeOrder rev
        ((if job.name ++ "-v" ++ v ∈ k8sSecrets then [] else [job.name ++ "-v" ++ v])
          ++ (if job.versioning = 0 then [trimSuffix job.name suffix] else [])))
      (k8s, { created := 0, updated := 0, skipped := 0,
              synced := if job.name ++ "-v" ++ v ∈ k8sSecrets then 1 else 0,
              err := none })
    simp only at this hmono
    omega
  · intro res hl
    rw [verifyVersioning_eq]
    constructor
    · simp [hl]
    · by_cases hv : job.versioning = 0
      · simp [hl, hv, GoMap.get, (versioned_ne_trimSuffix job.name v suffix).symm]
      · simp [hl, hv, GoMap.get]
  · intro path data k res c
    exact syncSecret_spec cfg faults ns path data k res c

/-- C22, at the test of the non-versioning namespace: the job of `secret2.k8s-cluster`
(flag 0) on a cluster that holds the Secret `secret2` of the entry with older data creates
`secret2.k8s-cluster-v1` and updates `secret2`; `skipped + synced` is 2, the number of its
candidates. -/
theorem updateSecretsInK8s_accounting_witness :
    (processJob testConfig testK8sServerFaults testVaultRead "k8s-ns1" ".k8s-cluster"
        ["secret2"] false
        (testCluster [testK8sSecret "secret2" "vault-to-k8s/secret"
          "testMount/k8s/dev/k8s-ns1/secret2.k8s-cluster"])
        { name := "secret2.k8s-cluster", versioning := 0 }).2
      = { created := 1, updated := 1, skipped := 0, synced := 2, err := none }
    ∧ (processJob testConfig testK8sServerFaults testVaultRead "k8s-ns1" ".k8s-cluster"
        ["secret2"] false
        (testCluster [testK8sSecret "secret2" "vault-to-k8s/secret"
          "testMount/k8s/dev/k8s-ns1/secret2.k8s-cluster"])
        { name := "secret2.k8s-cluster", versioning := 0 }).2.skipped
      + (processJob testConfig testK8sServerFaults testVaultRead "k8s-ns1" ".k8s-cluster"
        ["secret2"] false
        (testCluster [testK8sSecret "secret2" "vault-to-k8s/secret"
          "testMount/k8s/dev/k8s-ns1/secret2.k8s-cluster"])
        { name := "secret2.k8s-cluster", versioning := 0 }).2.synced
      = (k8sSecretsForUpdate { name := "secret2.k8s-cluster", versioning := 0 } "1"
          ".k8s-cluster").length :=
  ⟨by decide,
    (updateSecretsInK8s_accounting testConfig testK8sServerFaults testVaultRead "k8s-ns1"
      ".k8s-cluster" ["secret2"] false
      (testCluster [testK8sSecret "secret2" "vault-to-k8s/secret"
        "testMount/k8s/dev/k8s-ns1/secret2.k8s-cluster"])
      { name := "secret2.k8s-cluster", versioning := 0 }
      [("testKey-secret2.k8s-cluster", VaultValue.str "testValue-secret2.k8s-cluster")] "1"
      (by rfl) (by decide) (by simp) (by decide)).1⟩

/-! ## Claim C23: the namespaces to synchronise -/

/-- C23: `namespacesForSync` returns the elements of `vaultNamespaces` that occur in
`k8sNamespaces`, in the order and with the multiplicity they have in `vaultNamespaces`;
every returned name is in both lists; and the calls it makes on `syncStatus` are one
`Set(0)` for each Vault namespace that does not occur in `k8sNamespaces`, in their order, so
that a label is set to 0 exactly when it is a Vault namespace that is not returned. -/
theorem namespacesForSync_spec (vaultNamespaces k8sNamespaces : List String)
    (syncStatus : GaugeVec) :
    (namespacesForSync vaultNamespaces k8sNamespaces syncStatus).1
      = vaultNamespaces.filter (fun x => decide (x ∈ k8sNamespaces))
    ∧ (∀ x ∈ (namespacesForSync vaultNamespaces k8sNamespaces syncStatus).1,
        x ∈ vaultNamespaces ∧ x ∈ k8sNamespaces)
    ∧ (∀ x, x ∈ k8sNamespaces →
        (namespacesForSync vaultNamespaces k8sNamespaces syncStatus).1.count x
          = vaultNamespaces.count x)
    ∧ (namespacesForSync vaultNamespaces k8sNamespaces syncStatus).1.Sublist vaultNamespaces
    ∧ (∃ sets, (namespacesForSync vaultNamespaces k8sNamespaces syncStatus).2
          = syncStatus ++ sets
        ∧ sets = (vaultNamespaces.filter (fun x => decide (x ∉
            (namespacesForSync vaultNamespaces k8sNamespaces syncStatus).1))).map
              (fun x => (x, (0 : Int)))
        ∧ ∀ x v, (x, v) ∈ sets ↔
            v = 0 ∧ x ∈ vaultNamespaces
              ∧ x ∉ (namespacesForSync vaultNamespaces k8sNamespaces syncStatus).1) := by
  rw [namespacesForSync_eq]
  refine ⟨rfl, ?_, ?_, List.filter_sublist _, ?_⟩
  · intro x hx
    simpa using hx
  · intro x hx
    rw [List.count_filter]
    simpa using hx
  · have hfil : vaultNamespaces.filter (fun x => decide (x ∉
        vaultNamespaces.filter (fun x => decide (x ∈ k8sNamespaces))))
        = vaultNamespaces.filter (fun x => !decide (x ∈ k8sNamespaces)) := by
      apply List.filter_congr
      intro x hx
      simp [hx]
    refine ⟨_, rfl, ?_, ?_⟩
    · simp only []
      rw [hfil]
    · intro x v
      simp only [List.mem_map, List.mem_filter, Prod.mk.injEq]
      constructor
      · rintro ⟨a, ⟨ha, hk⟩, rfl, rfl⟩
        refine ⟨rfl, ha, ?_⟩
        simp at hk
        simp [hk]
      · rintro ⟨rfl, hx, hk⟩
        refine ⟨x, ⟨hx, ?_⟩, rfl, rfl⟩
        simp [hx] at hk
        simp [hk]

/-- C23, at three Vault namespaces of which two are namespaces of the cluster: these two
are returned, in their order, and `syncStatus` is set to 0 for the third. -/
theorem namespacesForSync_spec_witness :
    (namespacesForSync ["k8s-ns1", "vault-only", "k8s-ns2"] ["default", "k8s-ns2", "k8s-ns1"]
        []).1
      = ["k8s-ns1", "vault-only", "k8s-ns2"].filter
          (fun x => decide (x ∈ ["default", "k8s-ns2", "k8s-ns1"]))
    ∧ namespacesForSync ["k8s-ns1", "vault-only", "k8s-ns2"] ["default", "k8s-ns2", "k8s-ns1"]
        [] = (["k8s-ns1", "k8s-ns2"], [("vault-only", 0)]) :=
  ⟨(namespacesForSync_spec ["k8s-ns1", "vault-only", "k8s-ns2"]
      ["default", "k8s-ns2", "k8s-ns1"] []).1, by decide⟩

/-! ## Claim C24: the revocations are best effort -/

/-- C24: once a token is there, `approleAuthenticate` returns what `updateAppSystemSecret`
returns in the state left by the revocations, whose own errors are dropped: after a first
`approleGetToken` that succeeded, the state left by `revokeOldToken` and
`approleRevokeOldSecretID`; after a first one that failed, a successful
`approleReadAppSecret` and a successful second `approleGetToken`, the state left by
`revokeOldToken` alone.  So it returns nil exactly when the first `approleGetToken`
succeeds, or `approleReadAppSecret` and the second `approleGetToken` both succeed, and
`updateAppSystemSecret` succeeds.  What the revocations meet does not reach the result: for
any other Vault server and any other behaviour of the API during the Gets of the
revocations, the end of `approleAuthenticate` returns the same error and leaves the same
Secrets and program data.  And when the first `approleGetToken` failed, no request of
`approleRevokeOldSecretID` (a Write to a `secret-id/lookup` or `secret-id-accessor/destroy`
path) is among the requests made to Vault. -/
theorem approleAuthenticate_best_effort (cfg : Config) (faults : Faults)
    (server : VaultServer) (now1 now2 : Int) (st : AuthState) :
    (∀ st1, approleGetToken cfg server now1 st = some (st1, none) →
      approleAuthenticate cfg faults server now1 now2 st
        = updateAppSystemSecret cfg faults
            (approleRevokeOldSecretID cfg faults server
              (revokeOldToken cfg faults server st1).1).1)
    ∧ (∀ st1 e1 st2, approleGetToken cfg server now1 st = some (st1, some e1) →
        (approleReadAppSecret cfg faults st1).2 = none →
        approleGetToken cfg server now2 (approleReadAppSecret cfg faults st1).1
          = some (st2, none) →
        approleAuthenticate cfg faults server now1 now2 st
          = updateAppSystemSecret cfg faults (revokeOldToken cfg faults server st2).1)
    ∧ (∀ st3, approleAuthenticate cfg faults server now1 now2 st = some (st3, none) ↔
        (∃ st1, approleGetToken cfg server now1 st = some (st1, none)
          ∧ updateAppSystemSecret cfg faults
              (approleRevokeOldSecretID cfg faults server
                (revokeOldToken cfg faults server st1).1).1 = some (st3, none))
        ∨ (∃ st1 e1 st2, approleGetToken cfg server now1 st = some (st1, some e1)
          ∧ (approleReadAppSecret cfg faults st1).2 = none
          ∧ approleGetToken cfg server now2 (approleReadAppSecret cfg faults st1).1
              = some (st2, none)
          ∧ updateAppSystemSecret cfg faults (revokeOldToken cfg faults server st2).1
              = some (st3, none)))
    ∧ (∀ (faults2 : Faults) (server2 : VaultServer) (authByEnv : Bool) (stT : AuthState),
        (∀ n call, stT.k8s.log.length + (if authByEnv then 2 else 1) ≤ n →
          faults2 n call = faults n call) →
        (approleAuthenticateFinish cfg faults2 server2 authByEnv stT).map
            (fun r => (r.2, r.1.k8s.secrets, r.1.d))
          = (approleAuthenticateFinish cfg faults server authByEnv stT).map
            (fun r => (r.2, r.1.k8s.secrets, r.1.d)))
    ∧ (∀ st1 e1, approleGetToken cfg server now1 st = some (st1, some e1) →
        ∀ r, approleAuthenticate cfg faults server now1 now2 st = some r →
          ∃ calls, r.1.vault = st.vault ++ calls
            ∧ ∀ c ∈ calls, c.isSecretIDRevocation = false) := by
  have hA : ∀ st1, approleGetToken cfg server now1 st = some (st1, none) →
      approleAuthenticate cfg faults server now1 now2 st
        = updateAppSystemSecret cfg faults
            (approleRevokeOldSecretID cfg faults server
              (revokeOldToken cfg faults server st1).1).1 := by
    intro st1 h1
    simp [approleAuthenticate, h1, approleAuthenticateFinish]
  have hB : ∀ st1 e1 st2, approleGetToken cfg server now1 st = some (st1, some e1) →
      (approleReadAppSecret cfg faults st1).2 = none →
      approleGetToken cfg server now2 (approleReadAppSecret cfg faults st1).1
        = some (st2, none) →
      approleAuthenticate cfg faults server now1 now2 st
        = updateAppSystemSecret cfg faults (revokeOldToken cfg faults server st2).1 := by
    intro st1 e1 st2 h1 h2 h3
    simp [approleAuthenticate, h1, h2, h3, approleAuthenticateFinish]
  refine ⟨hA, hB, ?_, ?_, ?_⟩
  · intro st3
    constructor
    · intro h
      cases h1 : approleGetToken cfg server now1 st with
      | none => simp [approleAuthenticate, h1] at h
      | some r1 =>
        obtain ⟨st1, e1⟩ := r1
        cases e1 with
        | none =>
          rw [hA st1 h1] at h
          exact Or.inl ⟨st1, rfl, h⟩
        | some e1 =>
          cases h2 : (approleReadAppSecret cfg faults st1).2 with
          | some e2 => simp [approleAuthenticate, h1, h2] at h
          | none =>
            cases h3 : approleGetToken cfg server now2 (approleReadAppSecret cfg faults st1).1
              with
            | none => simp [approleAuthenticate, h1, h2, h3] at h
            | some r2 =>
              obtain ⟨st2, e3⟩ := r2
              cases e3 with
              | some e3 => simp [approleAuthenticate, h1, h2, h3] at h
              | none =>
                rw [hB st1 e1 st2 h1 h2 h3] at h
                exact Or.inr ⟨st1, e1, st2, rfl, h2, h3, h⟩
    · rintro (⟨st1, h1, h⟩ | ⟨st1, e1, st2, h1, h2, h3, h⟩)
      · rw [hA st1 h1]
        exact h
      · rw [hB st1 e1 st2 h1 h2 h3]
        exact h
  · intro faults2 server2 authByEnv stT hf
    exact approleAuthenticateFinish_congr cfg faults2 faults server2 server authByEnv stT hf
  · intro st1 e1 h1 r h
    obtain ⟨calls1, hv1, hc1⟩ := approleGetToken_calls cfg server now1 st _ h1
    simp only at hv1
    have hread := approleReadAppSecret_vault cfg faults st1
    cases h2 : (approleReadAppSecret cfg faults st1).2 with
    | some e2 =>
      simp only [approleAuthenticate, h1, h2] at h
      cases h
      exact ⟨calls1, by rw [hread, hv1], hc1⟩
    | none =>
      cases h3 : approleGetToken cfg server now2 (approleReadAppSecret cfg faults st1).1 with
      | none => simp [approleAuthenticate, h1, h2, h3] at h
      | some r2 =>
        obtain ⟨calls2, hv2, hc2⟩ := approleGetToken_calls cfg server now2 _ _ h3
        obtain ⟨st2, e3⟩ := r2
        simp only at hv2
        cases e3 with
        | some e3 =>
          simp only [approleAuthenticate, h1, h2, h3] at h
          cases h
          refine ⟨calls1 ++ calls2, by rw [hv2, hread, hv1, List.append_assoc], ?_⟩
          intro c hc
          rcases List.mem_append.1 hc with h4 | h4
          · exact hc1 c h4
          · exact hc2 c h4
        | none =>
          rw [hB st1 e1 st2 h1 h2 h3] at h
          obtain ⟨calls3, hv3, hc3⟩ := revokeOldToken_calls cfg faults server st2
          have hv4 := updateAppSystemSecret_vault cfg faults _ r h
          refine ⟨calls1 ++ calls2 ++ calls3, ?_, ?_⟩
          · rw [hv4, hv3, hv2, hread, hv1]
            simp
          · intro c hc
            rcases List.mem_append.1 hc with h4 | h4
            · rcases List.mem_append.1 h4 with h5 | h5
              · exact hc1 c h5
              · exact hc2 c h5
            · exact hc3 c h4

/-- C24, at the test `TestApproleAuthenticate` (a valid wrapped token, the bootstrap Secret
of the application in the cluster): the authentication returns nil; and with a Vault that
answers every revocation request with an error, the end of the authentication returns nil
and leaves the same Secrets all the same. -/
theorem approleAuthenticate_best_effort_witness :
    (approleAuthenticate { testConfig with approleSecretIDWrappedToken := "test-wrapped-token" }
        testK8sServerFaults (testVaultServerAuth 3600) 0 0
        (testAuthState (testPodCluster [testSystemSecret "none"]))).map (fun r => r.2)
      = some none
    ∧ (approleAuthenticateFinish
        { testConfig with approleSecretIDWrappedToken := "test-wrapped-token" }
        testK8sServerFaults (fun _ _ => Except.error "Vault is sealed") true
        { testAuthState (testPodCluster [testSystemSecret "none"]) with
          d := { approleSecretID := some (VaultValue.str "test-secret-id"),
                 vaultTokenAccessor := "test-token-accessor",
                 nonVersioningNamespacesList := [] } }).map
          (fun r => (r.2, r.1.k8s.secrets, r.1.d))
      = (approleAuthenticateFinish
        { testConfig with approleSecretIDWrappedToken := "test-wrapped-token" }
        testK8sServerFaults (testVaultServerAuth 3600) true
        { testAuthState (testPodCluster [testSystemSecret "none"]) with
          d := { approleSecretID := some (VaultValue.str "test-secret-id"),
                 vaultTokenAccessor := "test-token-accessor",
                 nonVersioningNamespacesList := [] } }).map
          (fun r => (r.2, r.1.k8s.secrets, r.1.d)) :=
  ⟨by decide,
    (approleAuthenticate_best_effort
      { testConfig with approleSecretIDWrappedToken := "test-wrapped-token" }
      testK8sServerFaults (testVaultServerAuth 3600) 0 0
      (testAuthState (testPodCluster [testSystemSecret "none"]))).2.2.2.1
      testK8sServerFaults (fun _ _ => Except.error "Vault is sealed") true
      { testAuthState (testPodCluster [testSystemSecret "none"]) with
        d := { approleSecretID := some (VaultValue.str "test-secret-id"),
               vaultTokenAccessor := "test-token-accessor",
               nonVersioningNamespacesList := [] } }
      (fun _ _ _ => rfl)⟩

/-! ## Claim C25: the backoff of the SecretID lookup -/

set_option maxRecDepth 100000 in
/-- The doubling of the lookup backoff has no cap.  After 28 consecutive failed lookups the
sleeps have taken `60 * (2^28 - 1)` seconds, more than 500 years, and at a 29th failure
the variable would hold `60 * 2^28` seconds, whose product with `time.Second` does not fit
the `int64` of `time.Duration`. -/
theorem lookup_backoff_overflows :
    (approleSecretIDRotation (List.replicate 29 true)).2.getLast?
      = some (-2340616713709551616)
    ∧ 60 * 2 ^ 28 * second = 16106127360000000000
    ∧ ((approleSecretIDRotation (List.replicate 28 true)).2.map (fun d => max d 0)).sum
      = 60 * (2 ^ 28 - 1) * second := by
  decide

/-- C25: in `approleSecretIDRotation` the duration passed to `time.Sleep` after the k-th
consecutive failed lookup is `60 * 2^(k-1)` seconds (60, 120, 240, ... seconds), counted
from the start of the function and from every successful lookup alike: a successful lookup
makes no such wait and sets the variable back to 60, whatever happened before it.  This
holds at every failure the running program can come to, that is, whenever the sleeps made
for the earlier failures of the run have taken less than `2^63` nanoseconds in total (about
292 years, the range of `time.Duration`; `time.Sleep` returns at once for a duration that
is not positive).  Here `k + 1` is the number of the failure and the hypothesis is about
the `k` sleeps before it. -/
theorem approleSecretIDRotation_backoff (pre : List Bool) (k : Nat)
    (htime : ((approleSecretIDRotation (List.replicate k true)).2.map
      (fun d => max d 0)).sum < 2 ^ 63) :
    (approleSecretIDRotation (List.replicate (k + 1) true)).2
      = (List.range (k + 1)).map (fun i => 60 * 2 ^ i * second)
    ∧ (approleSecretIDRotation (List.replicate (k + 1) true)).2[k]?
      = some (60 * 2 ^ k * second)
    ∧ (approleSecretIDRotation (pre ++ [false])).1 = 60
    ∧ (approleSecretIDRotation (pre ++ [false] ++ List.replicate (k + 1) true)).2
      = (approleSecretIDRotation (pre ++ [false])).2
        ++ (List.range (k + 1)).map (fun i => 60 * 2 ^ i * second)
    ∧ (approleSecretIDRotation (pre ++ [false] ++ List.replicate (k + 1) true)).2[
        (approleSecretIDRotation (pre ++ [false])).2.length + k]?
      = some (60 * 2 ^ k * second)
    ∧ ∀ r, approleSecretIDRotationStep false r = (60, none) := by
  have hk : k + 1 ≤ 28 := by
    by_contra hlt
    have h28 := approleSecretIDRotationLoop_time k (by omega)
    unfold approleSecretIDRotation at htime
    omega
  have hpow : (2 : Int) ^ (k + 1) ≤ 2 ^ 28 := pow_le_pow_right₀ (by norm_num) hk
  have hs : second = 1000000000 := rfl
  have hfit : (60 : Int) * 2 ^ (k + 1) * second < 2 ^ 64 := by
    rw [hs]
    generalize (2 : Int) ^ (k + 1) = x at hpow
    omega
  have hloop := approleSecretIDRotationLoop_failures (k + 1) 60 (by norm_num) hfit
  have hreset : (approleSecretIDRotation (pre ++ [false])).1 = 60 := by
    unfold approleSecretIDRotation
    rw [approleSecretIDRotationLoop_append]
    simp [approleSecretIDRotationLoop, approleSecretIDRotationStep]
  have hafter : (approleSecretIDRotation (pre ++ [false] ++ List.replicate (k + 1) true)).2
      = (approleSecretIDRotation (pre ++ [false])).2
        ++ (List.range (k + 1)).map (fun i => 60 * 2 ^ i * second) := by
    unfold approleSecretIDRotation at hreset ⊢
    rw [approleSecretIDRotationLoop_append, hreset, hloop]
  refine ⟨?_, ?_, hreset, hafter, ?_, fun r => rfl⟩
  · unfold approleSecretIDRotation
    rw [hloop]
  · unfold approleSecretIDRotation
    rw [hloop]
    simp
  · rw [hafter, List.getElem?_append_right (by omega)]
    simp

/-- C25, at three failed lookups in a row, from the start and after two failures and a
success: the two earlier sleeps took 180 seconds, and the waits are 60, 120 and 240
seconds. -/
theorem approleSecretIDRotation_backoff_witness :
    ((approleSecretIDRotation (List.replicate 2 true)).2.map (fun d => max d 0)).sum
      = 180 * second
    ∧ (approleSecretIDRotation (List.replicate 3 true)).2
      = (List.range 3).map (fun i => 60 * 2 ^ i * second)
    ∧ (approleSecretIDRotation ([true, true] ++ [false] ++ List.replicate 3 true)).2
      = (approleSecretIDRotation ([true, true] ++ [false])).2
        ++ (List.range 3).map (fun i => 60 * 2 ^ i * second)
    ∧ (List.range 3).map (fun i => 60 * 2 ^ i * second)
      = [60 * second, 120 * second, 240 * second] :=
  ⟨by decide, (approleSecretIDRotation_backoff [true, true] 2 (by decide)).1,
    (approleSecretIDRotation_backoff [true, true] 2 (by decide)).2.2.2.1, by decide⟩

/-! ## Claim C26: cancellation -/

set_option maxRecDepth 100000 in
/-- C26, evaluated on the code with `NUM_WORKERS = 2`, the jobs `secret1`,
`secret2.k8s-cluster`, `secret6` of a namespace and a Vault whose read of `secret1` fails.
In the first execution worker 0 takes `secret1`, sends the result with the error and
calls `cancel()`; at that point `secret6` is still with the dispatcher and the cluster is
empty.  The dispatcher then sends `secret6` all the same, worker 1 processes both remaining
jobs, and when the main goroutine has waited for the workers and set the status to 0 the
Secrets `secret2.k8s-cluster-v1` and `secret6-v1` have been created.  In the second
execution, with one more job, the main goroutine is in `wg.Wait()` while worker 1 has
filled `usrc` and is blocked on its next send: no goroutine can move any more.  In
general, a step of the dispatcher is the same whether `cancel()` has been called or not. -/
theorem syncVaultToK8s_cancel_not_observed :
    (∀ (cfg : Config) (faults : Faults) (read : VaultRead) (ns suffix : String)
        (k8sSecrets : List String) (rev : secretForUpdate → Bool) (numWorkers n : Nat)
        (s : SyncState) (b : Bool),
        (step cfg faults read ns suffix k8sSecrets rev numWorkers n Goroutine.dispatcher
            { s with cancelled := b }).map (fun t => (t.toSend, t.usjc, t.usjcClosed))
          = (step cfg faults read ns suffix k8sSecrets rev numWorkers n Goroutine.dispatcher
            s).map (fun t => (t.toSend, t.usjc, t.usjcClosed)))
    ∧ (run testConfig testK8sServerFaults testVaultReadDenied "k8s-ns1" ".k8s-cluster" []
      (fun _ => false) 2 3
      [Goroutine.dispatcher, Goroutine.dispatcher, Goroutine.worker 0, Goroutine.worker 0,
       Goroutine.worker 0]
      (SyncState.start 2 (testCluster [])
        [⟨"secret1", 1⟩, ⟨"secret2.k8s-cluster", 1⟩, ⟨"secret6", 1⟩])).map
      (fun s => (s.cancelled, s.toSend, k8sSecretsList s.k8s "k8s-ns1"))
      = some (true, [⟨"secret6", 1⟩], [])
    ∧ (run testConfig testK8sServerFaults testVaultReadDenied "k8s-ns1" ".k8s-cluster" []
      (fun _ => false) 2 3
      [Goroutine.dispatcher, Goroutine.dispatcher, Goroutine.worker 0, Goroutine.worker 0,
       Goroutine.worker 0, Goroutine.dispatcher]
      (SyncState.start 2 (testCluster [])
        [⟨"secret1", 1⟩, ⟨"secret2.k8s-cluster", 1⟩, ⟨"secret6", 1⟩])).map
      (fun s => (s.cancelled, s.toSend, s.usjc))
      = some (true, [], [⟨"secret2.k8s-cluster", 1⟩, ⟨"secret6", 1⟩])
    ∧ (run testConfig testK8sServerFaults testVaultReadDenied "k8s-ns1" ".k8s-cluster" []
      (fun _ => false) 2 3
      [Goroutine.dispatcher, Goroutine.dispatcher, Goroutine.worker 0, Goroutine.worker 0,
       Goroutine.worker 0, Goroutine.dispatcher, Goroutine.dispatcher, Goroutine.worker 1,
       Goroutine.worker 1, Goroutine.main, Goroutine.worker 1, Goroutine.worker 1,
       Goroutine.worker 1, Goroutine.main]
      (SyncState.start 2 (testCluster [])
        [⟨"secret1", 1⟩, ⟨"secret2.k8s-cluster", 1⟩, ⟨"secret6", 1⟩])).map
      (fun s => (s.aggregator, s.workers, k8sSecretsList s.k8s "k8s-ns1"))
      = some (Aggregator.closed 0, [Worker.returned, Worker.returned],
          ["secret2.k8s-cluster-v1", "secret6-v1"])
    ∧ (run testConfig testK8sServerFaults testVaultReadDenied "k8s-ns1" ".k8s-cluster" []
      (fun _ => false) 2 4
      [Goroutine.dispatcher, Goroutine.dispatcher, Goroutine.worker 0, Goroutine.worker 1,
       Goroutine.worker 0, Goroutine.main, Goroutine.worker 0, Goroutine.dispatcher,
       Goroutine.dispatcher, Goroutine.dispatcher, Goroutine.worker 1, Goroutine.worker 1,
       Goroutine.worker 1, Goroutine.worker 1]
      (SyncState.start 2 (testCluster [])
        [⟨"secret1", 1⟩, ⟨"secret2.k8s-cluster", 1⟩, ⟨"secret6", 1⟩,
         ⟨"secret7", 1⟩])).map
      (fun s => (s.aggregator, s.workers,
        [Goroutine.dispatcher, Goroutine.worker 0, Goroutine.worker 1, Goroutine.main].all
          (fun g => (step testConfig testK8sServerFaults testVaultReadDenied "k8s-ns1"
            ".k8s-cluster" [] (fun _ => false) 2 4 g s).isNone)))
      = some (Aggregator.waiting,
          [Worker.returned,
           Worker.sending { created := 1, updated := 0, skipped := 0, synced := 1,
                            err := none }],
          true) := by
  refine ⟨?_, by decide, by decide, by decide, by decide⟩
  intro cfg faults read ns suffix k8sSecrets rev numWorkers n s b
  unfold step
  simp only []
  cases s.panicked with
  | true => rfl
  | false =>
    simp only [Bool.false_eq_true, if_false]
    cases s.toSend with
    | nil => cases s.usjcClosed <;> rfl
    | cons job rest =>
      simp only []
      split <;> rfl

/-! ## Claim C27: one result for each job -/

set_option maxRecDepth 100000 in
/-- C27, on the code.  The body of the worker loop ends at the send of its result on every
path but one: it is left by the panic of line 591, before any send, exactly when the entry
is read with data whose conversion ends at a `json.Number`; on the other paths it is left
by the send followed by `continue` (empty data, a value of a kind other than
`reflect.String`, all candidates already listed, normal completion) or by `return` (read
error, update error), the latter exactly when the result carries an error.  So a worker
sends one result for each job it takes, except for a job whose body panics: it never sends
more results than it has jobs, only its last result can carry an error, and without panic
and without error the number of its results is the number of its jobs.  With any number of
workers under any schedule, while the main goroutine is in its loop after `i` results, the
jobs not yet sent, the jobs in `usjc`, the results held by workers, the results in `usrc`,
`i` and a job whose body has panicked add up to `len(filteredSecrets)`; and when the main
goroutine has left the loop with status 1, no worker has panicked, nothing is left on the
way, and every job has been processed, each body having been left by its send and
`continue`.  At the failing input, a namespace whose one filtered entry holds a JSON
number, the one worker takes the job and panics: no result is sent, the main goroutine is
at its first receive, and no goroutine moves any more. -/
theorem updateSecretsInK8s_one_result (cfg : Config) (faults : Faults) (read : VaultRead)
    (rev : secretForUpdate → Bool) :
    (∀ (ns suffix : String) (k8sSecrets : List String) (k8s : K8s) (job : secretForUpdate)
        (b : Bool),
        ((processJob cfg faults read ns suffix k8sSecrets b k8s job).ended = Exit.panicked ↔
          ∃ s v, read (cfg.vaultSecretsPath ++ "/" ++ ns ++ "/" ++ job.name)
              = Except.ok (s, v)
            ∧ s ≠ [] ∧ convertData s = Conversion.panicked)
        ∧ ((processJob cfg faults read ns suffix k8sSecrets b k8s job).ended = Exit.returned ↔
          (processJob cfg faults read ns suffix k8sSecrets b k8s job).updateResults.err
            ≠ none))
    ∧ (∀ (ns suffix : String) (k8sSecrets : List String) (k8s : K8s)
        (jobs : List secretForUpdate),
        (updateSecretsInK8s cfg faults read ns suffix k8sSecrets rev k8s jobs).usrc.length
            ≤ jobs.length
        ∧ (∀ r ∈ (updateSecretsInK8s cfg faults read ns suffix k8sSecrets rev k8s
              jobs).usrc.dropLast, r.err = none)
        ∧ ((updateSecretsInK8s cfg faults read ns suffix k8sSecrets rev k8s jobs).usrc.length
              < jobs.length →
            (updateSecretsInK8s cfg faults read ns suffix k8sSecrets rev k8s jobs).panicked
              = true
            ∨ ∃ r, (updateSecretsInK8s cfg faults read ns suffix k8sSecrets rev k8s
              jobs).usrc.getLast? = some r ∧ r.err ≠ none)
        ∧ ((updateSecretsInK8s cfg faults read ns suffix k8sSecrets rev k8s jobs).panicked
              = false →
            (∀ r ∈ (updateSecretsInK8s cfg faults read ns suffix k8sSecrets rev k8s
              jobs).usrc, r.err = none) →
            (updateSecretsInK8s cfg faults read ns suffix k8sSecrets rev k8s
              jobs).usrc.length = jobs.length))
    ∧ (∀ (ns suffix : String) (k8sSecrets : List String) (numWorkers : Nat)
        (schedule : List Goroutine) (jobs : List secretForUpdate) (k8s : K8s)
        (s : SyncState),
        run cfg faults read ns suffix k8sSecrets rev numWorkers jobs.length schedule
          (SyncState.start numWorkers k8s jobs) = some s →
        s.accounted jobs.length
        ∧ (s.aggregator = Aggregator.closed 1 →
            s.k8s = (processJobs cfg faults read ns suffix k8sSecrets rev k8s jobs).1
            ∧ ∀ r ∈ (processJobs cfg faults read ns suffix k8sSecrets rev k8s jobs).2,
                r.ended = Exit.continued))
    ∧ (run testConfig testK8sServerFaults (testVaultEntryNumber "secret7") "k8s-ns1"
          ".k8s-cluster" [] (fun _ => false) 1 1 [Goroutine.dispatcher, Goroutine.worker 0]
          (SyncState.start 1 (testCluster []) [⟨"secret7", 1⟩])).map
        (fun s => (s.panicked, s.usrc, s.workers, s.aggregator,
          [Goroutine.dispatcher, Goroutine.worker 0, Goroutine.main].all
            (fun g => (step testConfig testK8sServerFaults (testVaultEntryNumber "secret7")
              "k8s-ns1" ".k8s-cluster" [] (fun _ => false) 1 1 g s).isNone)))
      = some (true, [], [Worker.receiving], Aggregator.receiving 0, true) := by
  refine ⟨?_, ?_, ?_, by decide⟩
  · intro ns suffix k8sSecrets k8s job b
    exact processJob_ended_iff cfg faults read ns suffix k8sSecrets b k8s job
  · intro ns suffix k8sSecrets k8s jobs
    exact updateSecretsInK8s_results cfg faults read ns suffix k8sSecrets rev jobs k8s
  · intro ns suffix k8sSecrets numWorkers schedule jobs k8s s hrun
    refine ⟨?_, fun hclosed =>
      run_closed cfg faults read ns suffix k8sSecrets rev numWorkers jobs k8s schedule s hrun
        hclosed⟩
    exact (run_processed cfg faults read ns suffix k8sSecrets rev numWorkers jobs.length jobs
      k8s schedule _ s hrun (start_accounted numWorkers k8s jobs)
      ⟨[], by simp [SyncState.start], by simp [SyncState.start, processJobs],
        Or.inr (by simp [processJobs])⟩).1

/-! ## Claim C28: the secrets path that verifyConfig accepts -/

/-- C28 as stated fails: with the other variables as in `TestVerifyConfig`, `verifyConfig`
accepts the secrets path `secret`, and `secret/`, which it trims to `secret`.  The accepted
path has no `/`, the split has one element, and the index 1 that `vaultNamespacesList` and
`secretsList` take is out of range. -/
theorem verifyConfig_accepts_no_slash :
    (verifyConfig (fun _ => Except.error "no such file") ""
        { testVerifyConfig with vaultSecretsPath := "secret" }).toOption.map
        (fun c => c.vaultSecretsPath) = some "secret"
    ∧ (verifyConfig (fun _ => Except.error "no such file") ""
        { testVerifyConfig with vaultSecretsPath := "secret/" }).toOption.map
        (fun c => c.vaultSecretsPath) = some "secret"
    ∧ '/' ∉ ("secret" : String).data
    ∧ splitN "secret" = ["secret"]
    ∧ vaultNamespacesListMountPath { testVerifyConfig with vaultSecretsPath := "secret" } = none
    ∧ secretsListMountPath { testVerifyConfig with vaultSecretsPath := "secret" } "k8s-ns1"
        = none := by
  decide

/-- C28, amended: `verifyConfig` accepts a secrets path exactly when it is not empty after
one trailing `/` is removed (the other variables being accepted), and leaves the path
without that `/`.  For an accepted path the split `strings.SplitN(vaultSecretsPath, "/",
2)[1]` used by `vaultNamespacesList` and `secretsList` is defined exactly when the path
contains a `/`; the path is then `<mount>/<subpath>` with no `/` in the mount, and the
two functions list `<mount>/metadata/<subpath>` and `<mount>/metadata/<subpath>/<ns>`. -/
theorem verifyConfig_split (readFile : String → Except String Bytes) (vaultToken : String)
    (cfg cfg1 : Config) (h : verifyConfig readFile vaultToken cfg = Except.ok cfg1) :
    cfg1.vaultSecretsPath = trimSuffix cfg.vaultSecretsPath "/"
    ∧ cfg1.vaultSecretsPath ≠ ""
    ∧ (∀ p, (∃ c, verifyConfig readFile vaultToken { cfg with vaultSecretsPath := p }
          = Except.ok c) ↔ trimSuffix p "/" ≠ "")
    ∧ ('/' ∈ cfg1.vaultSecretsPath.data ↔ (vaultNamespacesListMountPath cfg1).isSome = true)
    ∧ (∀ ns, '/' ∈ cfg1.vaultSecretsPath.data
        ↔ (secretsListMountPath cfg1 ns).isSome = true)
    ∧ ('/' ∈ cfg1.vaultSecretsPath.data →
        ∃ mount sub, cfg1.vaultSecretsPath = mount ++ "/" ++ sub ∧ '/' ∉ mount.data
          ∧ vaultNamespacesListMountPath cfg1 = some (mount ++ "/metadata/" ++ sub)
          ∧ ∀ ns, secretsListMountPath cfg1 ns
              = some (mount ++ "/metadata/" ++ sub ++ "/" ++ ns)) := by
  have hsplit : '/' ∈ cfg1.vaultSecretsPath.data →
      ∃ mount sub, cfg1.vaultSecretsPath = mount ++ "/" ++ sub ∧ '/' ∉ mount.data
        ∧ vaultNamespacesListMountPath cfg1 = some (mount ++ "/metadata/" ++ sub)
        ∧ ∀ ns, secretsListMountPath cfg1 ns
            = some (mount ++ "/metadata/" ++ sub ++ "/" ++ ns) := by
    intro hs
    obtain ⟨mount, sub, h1, h2, h3⟩ := splitN_slash cfg1.vaultSecretsPath hs
    refine ⟨mount, sub, h2, h3, ?_, ?_⟩
    · simp [vaultNamespacesListMountPath, h1]
    · intro ns
      simp [secretsListMountPath, h1]
  have hnone : '/' ∉ cfg1.vaultSecretsPath.data →
      vaultNamespacesListMountPath cfg1 = none
        ∧ ∀ ns, secretsListMountPath cfg1 ns = none := by
    intro hs
    have h1 := splitN_no_slash cfg1.vaultSecretsPath hs
    constructor
    · simp [vaultNamespacesListMountPath, h1]
    · intro ns
      simp [secretsListMountPath, h1]
  unfold verifyConfig at h
  split at h
  · cases h
  · rename_i haddr
    split at h
    · cases h
    · rename_i hns
      split at h
      · cases h
      · rename_i cfg2 hauth
        obtain ⟨hp, hk, hcong⟩ := verifyConfigAuth_path readFile vaultToken cfg cfg2
          cfg.vaultSecretsPath hauth
        split at h
        · cases h
        · rename_i hcl
          split at h
          · cases h
          · rename_i htrim
            cases h
            simp only []
            refine ⟨by rw [hp], htrim, ?_, ?_, ?_, hsplit⟩
            · intro p
              have hc := (verifyConfigAuth_path readFile vaultToken cfg cfg2 p hauth).2.2
              unfold verifyConfig
              simp only [haddr, hns, if_false, hc, hcl]
              by_cases ht : trimSuffix p "/" = ""
              · simp [ht]
              · simp [ht]
            · constructor
              · intro hs
                obtain ⟨_, _, _, _, h5, _⟩ := hsplit hs
                rw [h5]
                rfl
              · intro hs
                by_contra hno
                rw [(hnone hno).1] at hs
                cases hs
            · intro ns
              constructor
              · intro hs
                obtain ⟨_, _, _, _, _, h6⟩ := hsplit hs
                rw [h6 ns]
                rfl
              · intro hs
                by_contra hno
                rw [(hnone hno).2 ns] at hs
                cases hs

/-- C28, at `TestVerifyConfig`: the path `testMount/k8s/dev` is accepted as it is, and the
two functions list `testMount/metadata/k8s/dev` and `testMount/metadata/k8s/dev/k8s-ns1`. -/
theorem verifyConfig_split_witness :
    testVerifyConfig.vaultSecretsPath = trimSuffix testVerifyConfig.vaultSecretsPath "/"
    ∧ ('/' ∈ testVerifyConfig.vaultSecretsPath.data
        ↔ (vaultNamespacesListMountPath testVerifyConfig).isSome = true)
    ∧ vaultNamespacesListMountPath testVerifyConfig = some "testMount/metadata/k8s/dev"
    ∧ secretsListMountPath testVerifyConfig "k8s-ns1"
        = some "testMount/metadata/k8s/dev/k8s-ns1" :=
  have h := verifyConfig_split (fun _ => Except.error "no such file") "" testVerifyConfig
    testVerifyConfig (by rfl)
  ⟨h.1, h.2.2.2.1, by decide, by decide⟩

/-! ## Claim C29: only the mount of the path can match -/

/-- C29: for a mount table whose keys are all non-empty and end with `/` (and are distinct,
as the keys of a map are) and any `vaultSecretsPath`, a key is a prefix of `<mount>/`, the
text before the first `/` of the path followed by `/`, exactly when it is `<mount>/`
itself.  So the result of `verifyVaultMount` is decided by the entry of that key alone: it
is the missing-mount error when the table has no such key, the type or version error of
that entry, or nil; it is the same for every order of iteration over the table and for
every other such table with the same entry under that key; and a key with more than one
`/`, such as `team/kv/`, is never matched. -/
theorem verifyVaultMount_single_entry (cfg : Config) (mounts : GoMap String MountOutput)
    (hkeys : ∀ p ∈ mounts, p.1 ≠ "" ∧ hasSuffix p.1 "/" = true)
    (hn : (GoMap.keys mounts).Nodup) :
    (∀ p ∈ mounts, hasPrefix (splitHead cfg.vaultSecretsPath ++ "/") p.1 = true
      ↔ p.1 = splitHead cfg.vaultSecretsPath ++ "/")
    ∧ verifyVaultMount cfg (Except.ok mounts)
      = (match GoMap.get mounts (splitHead cfg.vaultSecretsPath ++ "/") with
        | none =>
          some ("Mount path: '" ++ (splitHead cfg.vaultSecretsPath ++ "/")
            ++ "' doesn't exists in Vault")
        | some m =>
          if m.type_ ≠ "kv" then
            some ("Matching mount '" ++ (splitHead cfg.vaultSecretsPath ++ "/")
              ++ "' for path '" ++ (splitHead cfg.vaultSecretsPath ++ "/")
              ++ "' is not of type kv")
          else if kvVersion m ≠ 2 then
            some ("Vault mount '" ++ (splitHead cfg.vaultSecretsPath ++ "/")
              ++ "' and defined path '" ++ (splitHead cfg.vaultSecretsPath ++ "/")
              ++ "' matched but Vault mount version is not '2'")
          else none)
    ∧ (∀ mounts2 : GoMap String MountOutput, List.Perm mounts2 mounts →
        verifyVaultMount cfg (Except.ok mounts2) = verifyVaultMount cfg (Except.ok mounts))
    ∧ (∀ mounts2 : GoMap String MountOutput,
        (∀ p ∈ mounts2, p.1 ≠ "" ∧ hasSuffix p.1 "/" = true) →
        (GoMap.keys mounts2).Nodup →
        GoMap.get mounts2 (splitHead cfg.vaultSecretsPath ++ "/")
          = GoMap.get mounts (splitHead cfg.vaultSecretsPath ++ "/") →
        verifyVaultMount cfg (Except.ok mounts2) = verifyVaultMount cfg (Except.ok mounts))
    ∧ (∀ p ∈ mounts, 1 < p.1.data.count '/' →
        hasPrefix (splitHead cfg.vaultSecretsPath ++ "/") p.1 = false) := by
  have hmatch : ∀ (t : GoMap String MountOutput),
      (∀ p ∈ t, p.1 ≠ "" ∧ hasSuffix p.1 "/" = true) →
      ∀ p ∈ t, hasPrefix (splitHead cfg.vaultSecretsPath ++ "/") p.1 = true
        ↔ p.1 = splitHead cfg.vaultSecretsPath ++ "/" := by
    intro t ht p hp
    constructor
    · intro h
      exact prefix_of_mount cfg.vaultSecretsPath p.1 (ht p hp).2 h
    · intro h
      rw [h]
      exact hasPrefix_self _
  have hform : ∀ (t : GoMap String MountOutput),
      (∀ p ∈ t, p.1 ≠ "" ∧ hasSuffix p.1 "/" = true) → (GoMap.keys t).Nodup →
      verifyVaultMount cfg (Except.ok t)
        = (match GoMap.get t (splitHead cfg.vaultSecretsPath ++ "/") with
          | none =>
            some ("Mount path: '" ++ (splitHead cfg.vaultSecretsPath ++ "/")
              ++ "' doesn't exists in Vault")
          | some m =>
            if m.type_ ≠ "kv" then
              some ("Matching mount '" ++ (splitHead cfg.vaultSecretsPath ++ "/")
                ++ "' for path '" ++ (splitHead cfg.vaultSecretsPath ++ "/")
                ++ "' is not of type kv")
            else if kvVersion m ≠ 2 then
              some ("Vault mount '" ++ (splitHead cfg.vaultSecretsPath ++ "/")
                ++ "' and defined path '" ++ (splitHead cfg.vaultSecretsPath ++ "/")
                ++ "' matched but Vault mount version is not '2'")
            else none) := by
    intro t ht hnt
    unfold verifyVaultMount
    simp only []
    rw [verifyVaultMountLoop_get _ t hnt (hmatch t ht) true]
    cases GoMap.get t (splitHead cfg.vaultSecretsPath ++ "/") with
    | none => simp
    | some m =>
      by_cases htype : m.type_ = "kv"
      · by_cases hv : kvVersion m = 2
        · simp [htype, hv]
        · simp [htype, hv]
      · simp [htype]
  refine ⟨hmatch mounts hkeys, hform mounts hkeys hn, ?_, ?_, ?_⟩
  · intro mounts2 hperm
    have hk2 : ∀ p ∈ mounts2, p.1 ≠ "" ∧ hasSuffix p.1 "/" = true :=
      fun p hp => hkeys p (hperm.mem_iff.1 hp)
    have hn2 : (GoMap.keys mounts2).Nodup := (hperm.map Prod.fst).nodup_iff.2 hn
    rw [hform mounts2 hk2 hn2, hform mounts hkeys hn,
      GoMap.get_perm mounts2 mounts _ hperm hn2]
  · intro mounts2 hk2 hn2 hget
    rw [hform mounts2 hk2 hn2, hform mounts hkeys hn, hget]
  · intro p hp hcount
    cases h : hasPrefix (splitHead cfg.vaultSecretsPath ++ "/") p.1 with
    | false => rfl
    | true =>
      have he := (hmatch mounts hkeys p hp).1 h
      rw [he, count_slash_mount] at hcount
      omega

/-- C29, at the mount table of the test server and the path `testMount/k8s/dev`: the check
passes for the table in its order and in the reverse order; and in a table whose KV mount
is `team/kv/` the path `team/kv/app` finds no mount. -/
theorem verifyVaultMount_single_entry_witness :
    (∀ p ∈ testMounts, p.1 ≠ "" ∧ hasSuffix p.1 "/" = true)
    ∧ (GoMap.keys testMounts).Nodup
    ∧ verifyVaultMount testConfig (Except.ok testMounts.reverse)
        = verifyVaultMount testConfig (Except.ok testMounts)
    ∧ verifyVaultMount testConfig (Except.ok testMounts) = none
    ∧ verifyVaultMount { testConfig with vaultSecretsPath := "team/kv/app" }
        (Except.ok [("team/kv/", { type_ := "kv", options := [("version", "2")] })])
        = some "Mount path: 'team/' doesn't exists in Vault" :=
  ⟨by decide, by decide,
    (verifyVaultMount_single_entry testConfig testMounts (by decide) (by decide)).2.2.1
      testMounts.reverse (List.reverse_perm _),
    by decide, by decide⟩

/-! ## Claim C30: the filter depends on the set of names only -/

/-- C30: for every suffix, every namespace and every two lists of names with the same
elements, in any order and with any repetitions, `filterSecrets` returns the same map: the
same value, or none, under every key, and so the same entries up to their order, every key
occurring once.  Every key of the result is an input name, every value is 0 or 1, and every
key returned for a versioning namespace is returned for any other namespace, a
non-versioning one in particular, on the same input. -/
theorem filterSecrets_set (d : vtkData) (suffix ns : String) (l1 l2 : List String)
    (hset : ∀ x, x ∈ l1 ↔ x ∈ l2) :
    (∀ k, GoMap.get (filterSecrets d l1 suffix ns) k
        = GoMap.get (filterSecrets d l2 suffix ns) k)
    ∧ List.Perm (filterSecrets d l1 suffix ns) (filterSecrets d l2 suffix ns)
    ∧ (GoMap.keys (filterSecrets d l1 suffix ns)).Nodup
    ∧ (∀ k v, (k, v) ∈ filterSecrets d l1 suffix ns → k ∈ l1 ∧ (v = 0 ∨ v = 1))
    ∧ (∀ ns2 k, nonVersioningNamespace d ns = false →
        k ∈ GoMap.keys (filterSecrets d l1 suffix ns) →
        k ∈ GoMap.keys (filterSecrets d l1 suffix ns2)) := by
  have hget : ∀ k, GoMap.get (filterSecrets d l1 suffix ns) k
      = GoMap.get (filterSecrets d l2 suffix ns) k := by
    intro k
    rw [filterSecrets_get, filterSecrets_get]
    by_cases hk : k ∈ l1
    · rw [if_pos hk, if_pos ((hset k).1 hk)]
    · rw [if_neg hk, if_neg (fun h => hk ((hset k).2 h))]
  have hn1 := filterSecrets_nodup d l1 suffix ns
  have hn2 := filterSecrets_nodup d l2 suffix ns
  refine ⟨hget, ?_, hn1, ?_, ?_⟩
  · rw [List.perm_ext_iff_of_nodup (List.Nodup.of_map _ hn1) (List.Nodup.of_map _ hn2)]
    intro p
    obtain ⟨k, v⟩ := p
    constructor
    · intro h
      have := GoMap.get_of_mem _ k v hn1 h
      rw [hget] at this
      exact GoMap.mem_of_get _ k v this
    · intro h
      have := GoMap.get_of_mem _ k v hn2 h
      rw [← hget] at this
      exact GoMap.mem_of_get _ k v this
  · intro k v hm
    have hg := GoMap.get_of_mem _ k v hn1 hm
    rw [filterSecrets_get] at hg
    by_cases hk : k ∈ l1
    · refine ⟨hk, ?_⟩
      rw [if_pos hk] at hg
      split at hg
      · left; simpa using hg.symm
      · split at hg
        · cases hg
        · right; simpa using hg.symm
    · rw [if_neg hk] at hg
      cases hg
  · intro ns2 k hv hk
    have h1 : GoMap.get (filterSecrets d l1 suffix ns) k ≠ none :=
      GoMap.get_ne_none_of_mem_keys _ k hk
    rw [filterSecrets_get] at h1
    have h2 : GoMap.get (filterSecrets d l1 suffix ns2) k ≠ none := by
      rw [filterSecrets_get]
      by_cases hkl : k ∈ l1
      · rw [if_pos hkl] at h1 ⊢
        rw [hv] at h1
        simp only [Bool.false_and, Bool.false_eq_true, if_false] at h1
        split
        · simp
        · exact h1
      · rw [if_neg hkl] at h1
        exact absurd rfl h1
    by_contra hno
    exact h2 (GoMap.get_eq_none_of_not_mem_keys _ k hno)

/-- C30, at the list of the test server: the list reversed and with a name repeated gives
the same map in the non-versioning namespace of the tests, and the keys found in the
versioning namespace `k8s-ns1` are among those found in `k8s-ns-nonver`. -/
theorem filterSecrets_set_witness :
    (∀ x, x ∈ testSecretsList ↔ x ∈ "secret1" :: testSecretsList.reverse)
    ∧ (∀ k, GoMap.get (filterSecrets testData testSecretsList ".k8s-cluster" "k8s-ns-nonver") k
        = GoMap.get (filterSecrets testData ("secret1" :: testSecretsList.reverse)
            ".k8s-cluster" "k8s-ns-nonver") k)
    ∧ GoMap.keys (filterSecrets testData testSecretsList ".k8s-cluster" "k8s-ns1")
        = ["secret1", "secret2.k8s-cluster", "secret6"]
    ∧ GoMap.keys (filterSecrets testData testSecretsList ".k8s-cluster" "k8s-ns-nonver")
        = ["secret1", "secret2.k8s-cluster", "secret4.something.k8s-cluster", "secret6"] :=
  have hset : ∀ x, x ∈ testSecretsList ↔ x ∈ "secret1" :: testSecretsList.reverse := by
    intro x
    simp [testSecretsList]
    tauto
  ⟨hset,
    (filterSecrets_set testData ".k8s-cluster" "k8s-ns-nonver" testSecretsList
      ("secret1" :: testSecretsList.reverse) hset).1,
    by decide, by decide⟩

end VaultToK8s
